import Mathlib

/-!
# Microvessel: vessel topology and the Betteridge haematocrit solver

A shallow embedding of `Vessel.cpp` and `BetteridgeHaematocritSolver.cpp`.

Conventions of the embedding.

* Objects handled through `boost::shared_ptr` (nodes, segments, vessels) are compared by
  address in the source.  Here every object carries a natural number as its identity and
  `==` on pointers becomes equality of identities.
* A member function that can leave through `EXCEPTION(...)` returns an `Outcome`: the
  result (`ok`, `exception msg`, or `undefined` for an out-of-range read of a `std::vector`)
  together with the state of the vessel and of the object store at the moment control left
  the function, so that partial mutation before a throw stays visible.
* `double` and `units::quantity` values are rational numbers with exact arithmetic.
-/

namespace Microvessel

/-! ## Objects -/

/-- A `VesselNode` object: location, reference length scale and the flow-property flags. -/
structure VesselNode where
  location : List ℚ
  referenceLengthScale : ℚ
  isInputNode : Bool
  isOutputNode : Bool
  pressure : ℚ
deriving DecidableEq

/-- A `VesselSegment` object: `id` is its identity, `node0` and `node1` are the identities
of its two nodes (`GetNode(0)`, `GetNode(1)`), `radius` is its physical data. -/
structure VesselSegment where
  id : Nat
  node0 : Nat
  node1 : Nat
  radius : ℚ
deriving DecidableEq

/-- Modelled from the spec: `VesselSegment::HasNode` is not part of the excerpt; a segment
has a node when that node object is its node 0 or its node 1. -/
def VesselSegment.HasNode (s : VesselSegment) (n : Nat) : Bool :=
  n == s.node0 || n == s.node1

/-- Modelled from the spec: `VesselSegment::IsConnectedTo` is not part of the excerpt;
"`IsConnectedTo(other)` holds iff the two segments share a node object". -/
def VesselSegment.IsConnectedTo (s other : VesselSegment) : Bool :=
  s.node0 == other.node0 || s.node0 == other.node1 ||
    s.node1 == other.node0 || s.node1 == other.node1

/-- The objects a vessel points to but does not own: node objects by identity, the list of
incident segments each node keeps, the owning-vessel back-reference of each segment, and
the supply of fresh identities used by the `Create` factories. -/
structure Store where
  node : Nat → VesselNode
  nodeSegments : Nat → List Nat
  segVessel : Nat → Option Nat
  next : Nat

/-- Modelled from the spec: `VesselSegment::AddVessel` (not in the excerpt) sets the single
owning-vessel back-reference of the segment. -/
def Store.AddVessel (st : Store) (seg vessel : Nat) : Store :=
  { st with segVessel := Function.update st.segVessel seg (some vessel) }

/-- Modelled from the spec: `VesselSegment::RemoveVessel` (not in the excerpt) clears the
owning-vessel back-reference of the segment. -/
def Store.RemoveVessel (st : Store) (seg : Nat) : Store :=
  { st with segVessel := Function.update st.segVessel seg none }

/-- The `Vessel` object: `self` is its identity (`Shared()`), `mSegments` the ordered
segments, `mNodes` the cached node sequence, `mNodesUpToDate` the freshness flag and
`mpFlowProperties` the segment list last handed to `VesselFlowProperties::UpdateSegments`. -/
structure Vessel where
  self : Nat
  mSegments : List VesselSegment
  mNodes : List Nat
  mNodesUpToDate : Bool
  mpFlowProperties : List VesselSegment

/-- How a member function was left. -/
inductive Result (α : Type) where
  | ok : α → Result α
  | exception : String → Result α
  | undefined : Result α
deriving DecidableEq

/-- Result of a member function together with the state it leaves behind. -/
structure Outcome (α : Type) where
  result : Result α
  vessel : Vessel
  store : Store

/-! ## Connectivity checks shared by the constructor, `AddSegments` and `DivideSegment` -/

/-- The loop `for i = 1 .. size-1: if (!mSegments[i]->IsConnectedTo(mSegments[i-1])) throw`:
true when some segment is not connected to its predecessor. -/
def orderBroken : List VesselSegment → Bool
  | [] => false
  | [_] => false
  | a :: b :: rest => !(b.IsConnectedTo a) || orderBroken (b :: rest)

/-- The double loop over `i`, `j` with guard `i != j && i != j - 1 && i != j + 1`: true when
some pair of segments selected by the guard is connected.  In the source `j - 1` is unsigned
and wraps to `2^32 - 1` at `j = 0`, which no index `i < size` equals; truncated subtraction
gives `0 = j` there, a value already excluded by `i != j`, so the guard selects the same
pairs. -/
def nonAdjacentConnected (segs : List VesselSegment) : Bool :=
  (List.range segs.length).any fun i =>
    (List.range segs.length).any fun j =>
      (i != j && i != j - 1 && i != j + 1) &&
        match segs[i]?, segs[j]? with
        | some a, some b => a.IsConnectedTo b
        | _, _ => false

/-! ## `Vessel::AddSegment` and `Vessel::AddSegments` -/

/-- The common tail `mNodesUpToDate = false; mpFlowProperties->UpdateSegments(mSegments);`. -/
def Vessel.invalidate (v : Vessel) : Vessel :=
  { v with mNodesUpToDate := false, mpFlowProperties := v.mSegments }

/-- Embedding of `Vessel::AddSegment` (lines 180 to 230): the single-segment branch compares
end nodes, the other branch tests connection to the last and then to the first segment;
`back()` and `front()` of an empty vector are `undefined`. -/
def Vessel.AddSegment (v : Vessel) (st : Store) (pSegment : VesselSegment) : Outcome Unit :=
  match v.mSegments with
  | [s0] =>
    let st1 := st.AddVessel pSegment.id v.self
    if pSegment.node0 = s0.node0 then
      ⟨.ok (), ({ v with mSegments := pSegment :: v.mSegments }).invalidate, st1⟩
    else if pSegment.node1 = s0.node0 then
      ⟨.ok (), ({ v with mSegments := pSegment :: v.mSegments }).invalidate, st1⟩
    else if pSegment.node0 = s0.node1 then
      ⟨.ok (), ({ v with mSegments := v.mSegments ++ [pSegment] }).invalidate, st1⟩
    else if pSegment.node1 = s0.node1 then
      ⟨.ok (), ({ v with mSegments := v.mSegments ++ [pSegment] }).invalidate, st1⟩
    else
      ⟨.exception "Input vessel segment does not coincide with any end of the vessel.", v, st1⟩
  | segs =>
    match segs.getLast?, segs.head? with
    | some back, some front =>
      if pSegment.IsConnectedTo back then
        ⟨.ok (), ({ v with mSegments := v.mSegments ++ [pSegment] }).invalidate,
          st.AddVessel pSegment.id v.self⟩
      else if pSegment.IsConnectedTo front then
        ⟨.ok (), ({ v with mSegments := pSegment :: v.mSegments }).invalidate,
          st.AddVessel pSegment.id v.self⟩
      else
        ⟨.exception
          "Input vessel segment does not coincide with any end of the multi-segment vessel.",
          v, st⟩
    | _, _ => ⟨.undefined, v, st⟩

/-- The loop `for i: segments[i]->AddVessel(Shared())`. -/
def Store.AddVesselAll (st : Store) (segs : List VesselSegment) (vessel : Nat) : Store :=
  segs.foldl (fun acc s => acc.AddVessel s.id vessel) st

/-- The part of `Vessel::AddSegments` after the splice: order check, non-adjacent
connectivity check, back-references, invalidation.  `segments` is the local vector as it
stands after the splice (in two of the four branches it also holds the old segments). -/
def Vessel.AddSegmentsCheck (v : Vessel) (st : Store) (segments : List VesselSegment) :
    Outcome Unit :=
  if orderBroken v.mSegments then
    ⟨.exception "Input vessel segments are not attached in the correct order.", v, st⟩
  else if nonAdjacentConnected v.mSegments then
    ⟨.exception "Input vessel segments are not correctly connected.", v, st⟩
  else
    ⟨.ok (), v.invalidate, st.AddVesselAll segments v.self⟩

/-- Embedding of `Vessel::AddSegments` (lines 232 to 291): the four orientation tests in
the order of the source, the splice, then the checks; `front()` and `back()` of an empty
vector are `undefined`. -/
def Vessel.AddSegments (v : Vessel) (st : Store) (segments : List VesselSegment) :
    Outcome Unit :=
  match segments.head?, segments.getLast?, v.mSegments.head?, v.mSegments.getLast? with
  | some sFront, some sBack, some mFront, some mBack =>
    if sFront.IsConnectedTo mBack then
      ({ v with mSegments := v.mSegments ++ segments }).AddSegmentsCheck st segments
    else if sBack.IsConnectedTo mFront then
      ({ v with mSegments := segments ++ v.mSegments }).AddSegmentsCheck st
        (segments ++ v.mSegments)
    else if sFront.IsConnectedTo mFront then
      ({ v with mSegments := segments.reverse ++ v.mSegments }).AddSegmentsCheck st
        (segments.reverse ++ v.mSegments)
    else if sBack.IsConnectedTo mBack then
      ({ v with mSegments := v.mSegments ++ segments.reverse }).AddSegmentsCheck st
        segments.reverse
    else
      ⟨.exception "Input vessel segments do not coincide with any end of the vessel.", v, st⟩
  | _, _, _, _ => ⟨.undefined, v, st⟩

/-! ## `Vessel::UpdateNodes` and the read accessors -/

/-- The loop of `UpdateNodes` from index `idx` on: reads `mNodes[idx]` (no result when the
index is out of range) and pushes the other node of `mSegments[idx]`. -/
def updateNodesLoop : List VesselSegment → Nat → List Nat → Option (List Nat)
  | [], _, mNodes => some mNodes
  | s :: rest, idx, mNodes =>
    match mNodes[idx]? with
    | none => none
    | some n =>
      updateNodesLoop rest (idx + 1) (mNodes ++ [if n = s.node0 then s.node1 else s.node0])

/-- The node sequence `UpdateNodes` rebuilds from a segment list; `none` when the source
reads a vector out of range.  Both tests on the first two segments are the source's:
the second repeats the first. -/
def rebuildNodes : List VesselSegment → Option (List Nat)
  | [] => none
  | [s] => some [s.node0, s.node1]
  | s0 :: s1 :: rest =>
    let start : List Nat :=
      if s1.HasNode s0.node1 then [s0.node0, s0.node1]
      else if s1.HasNode s0.node1 then [s0.node1, s0.node0]
      else []
    updateNodesLoop (s1 :: rest) 1 start

/-- Embedding of `Vessel::UpdateNodes`. -/
def Vessel.UpdateNodes (v : Vessel) (st : Store) : Outcome Unit :=
  match rebuildNodes v.mSegments with
  | some nodes => ⟨.ok (), { v with mNodes := nodes, mNodesUpToDate := true }, st⟩
  | none => ⟨.undefined, { v with mNodes := [] }, st⟩

/-- The prologue `if (!mNodesUpToDate) UpdateNodes();` of every read accessor. -/
def Vessel.refresh (v : Vessel) (st : Store) : Outcome Unit :=
  if v.mNodesUpToDate then ⟨.ok (), v, st⟩ else v.UpdateNodes st

/-- Embedding of `Vessel::GetNodes`. -/
def Vessel.GetNodes (v : Vessel) (st : Store) : Outcome (List Nat) :=
  match v.refresh st with
  | ⟨.ok _, w, st1⟩ => ⟨.ok w.mNodes, w, st1⟩
  | ⟨.exception m, w, st1⟩ => ⟨.exception m, w, st1⟩
  | ⟨.undefined, w, st1⟩ => ⟨.undefined, w, st1⟩

/-- Embedding of `Vessel::GetNumberOfSegments`. -/
def Vessel.GetNumberOfSegments (v : Vessel) : Nat := v.mSegments.length

/-- Embedding of `Vessel::GetNumberOfNodes`: the refresh, then `GetNumberOfSegments() + 1`. -/
def Vessel.GetNumberOfNodes (v : Vessel) (st : Store) : Outcome Nat :=
  match v.refresh st with
  | ⟨.ok _, w, st1⟩ => ⟨.ok (w.GetNumberOfSegments + 1), w, st1⟩
  | ⟨.exception m, w, st1⟩ => ⟨.exception m, w, st1⟩
  | ⟨.undefined, w, st1⟩ => ⟨.undefined, w, st1⟩

/-- Embedding of `Vessel::GetStartNode`: the refresh, then `mNodes.front()`. -/
def Vessel.GetStartNode (v : Vessel) (st : Store) : Outcome Nat :=
  match v.refresh st with
  | ⟨.ok _, w, st1⟩ =>
    match w.mNodes.head? with
    | some n => ⟨.ok n, w, st1⟩
    | none => ⟨.undefined, w, st1⟩
  | ⟨.exception m, w, st1⟩ => ⟨.exception m, w, st1⟩
  | ⟨.undefined, w, st1⟩ => ⟨.undefined, w, st1⟩

/-- Embedding of `Vessel::GetEndNode`: the refresh, then `mNodes.back()`. -/
def Vessel.GetEndNode (v : Vessel) (st : Store) : Outcome Nat :=
  match v.refresh st with
  | ⟨.ok _, w, st1⟩ =>
    match w.mNodes.getLast? with
    | some n => ⟨.ok n, w, st1⟩
    | none => ⟨.undefined, w, st1⟩
  | ⟨.exception m, w, st1⟩ => ⟨.exception m, w, st1⟩
  | ⟨.undefined, w, st1⟩ => ⟨.undefined, w, st1⟩

/-! ## Path invariants of a segment sequence -/

/-- Every two adjacent segments share a node. -/
def AdjacentConnected (segs : List VesselSegment) : Prop :=
  ∀ i (h : i + 1 < segs.length), (segs[i + 1].IsConnectedTo segs[i]) = true

/-- No two segments at index distance two or more share a node. -/
def NonAdjacentDisconnected (segs : List VesselSegment) : Prop :=
  ∀ i j (hi : i < segs.length) (hj : j < segs.length),
    i + 2 ≤ j ∨ j + 2 ≤ i → (segs[i].IsConnectedTo segs[j]) = false


/-! ## `Vessel::DivideSegment` -/

/-- Geometry provided by `VesselSegment`, `VesselNode` and `DimensionalChastePoint`, none of
which is part of the excerpt; taken as parameters.  `segmentDistance a b p` stands for
`VesselSegment::GetDistance(p)` of a segment whose node objects are `a` and `b`,
`nodeDistance a p` for `VesselNode::GetDistance(p)` and `isCoincident a p` for
`VesselNode::IsCoincident(p)`. -/
structure Geometry where
  segmentDistance : VesselNode → VesselNode → List ℚ → ℚ
  nodeDistance : VesselNode → List ℚ → ℚ
  isCoincident : VesselNode → List ℚ → Bool

/-- The test `mSegments[i]->GetDistance(location) / mSegments[i]->GetNode(0)->
GetReferenceLengthScale() <= distanceTolerance`.  The quotient is the rational quotient; it
is the quotient of the source where the reference length scale is not zero. -/
def withinTolerance (geo : Geometry) (st : Store) (location : List ℚ) (distanceTolerance : ℚ)
    (s : VesselSegment) : Bool :=
  decide (geo.segmentDistance (st.node s.node0) (st.node s.node1) location /
    (st.node s.node0).referenceLengthScale ≤ distanceTolerance)

/-- The identification loop of `DivideSegment`: `Sum.inl n` when the loop returns the
existing node `n`, otherwise `Sum.inr` of the value of `pVesselSegment` after the loop
(the last segment within tolerance, if any). -/
def identifySegment (geo : Geometry) (st : Store) (location : List ℚ) (distanceTolerance : ℚ) :
    List VesselSegment → Option VesselSegment → Nat ⊕ Option VesselSegment
  | [], pVesselSegment => .inr pVesselSegment
  | s :: rest, pVesselSegment =>
    if withinTolerance geo st location distanceTolerance s then
      if geo.isCoincident (st.node s.node0) location then .inl s.node0
      else if geo.isCoincident (st.node s.node1) location then .inl s.node1
      else identifySegment geo st location distanceTolerance rest (some s)
    else identifySegment geo st location distanceTolerance rest pVesselSegment

/-- Modelled from the spec: `VesselNode::Create(const VesselNode&)` followed by the three
setters.  The copy gets the fresh identity `st.next`, the properties of the node it copies,
no incident segments, the query location and cleared input and output flags. -/
def Store.createSplitNode (st : Store) (closest : Nat) (location : List ℚ) : Store :=
  { st with
    node := Function.update st.node st.next
      { st.node closest with location := location, isInputNode := false, isOutputNode := false }
    nodeSegments := Function.update st.nodeSegments st.next []
    next := st.next + 1 }

/-- Modelled from the spec: the factory `VesselSegment::Create(n0, n1)` followed by
`CopyDataFromExistingSegment(source)`.  The new segment gets the fresh identity `st.next`,
is attached to its two nodes, has no owning vessel and carries the data of `source`. -/
def Store.createSegment (st : Store) (n0 n1 : Nat) (source : VesselSegment) :
    VesselSegment × Store :=
  let attach0 := Function.update st.nodeSegments n0 (st.nodeSegments n0 ++ [st.next])
  let attach1 := Function.update attach0 n1 (attach0 n1 ++ [st.next])
  (⟨st.next, n0, n1, source.radius⟩,
    { st with
      nodeSegments := attach1
      segVessel := Function.update st.segVessel st.next none
      next := st.next + 1 })

/-- Modelled from the spec: `VesselSegment::Remove()` "clears its vessel and node
back-references but does not destroy the nodes". -/
def Store.removeSegment (st : Store) (s : VesselSegment) : Store :=
  let detach0 := Function.update st.nodeSegments s.node0 ((st.nodeSegments s.node0).erase s.id)
  let detach1 := Function.update detach0 s.node1 ((detach0 s.node1).erase s.id)
  { st with nodeSegments := detach1, segVessel := Function.update st.segVessel s.id none }

/-- Position of the first element of `segs` that is the object `s`
(`std::find` on shared pointers); `segs.length` stands for `end()`. -/
def findSegment (segs : List VesselSegment) (s : VesselSegment) : Nat :=
  segs.findIdx fun t => t.id == s.id

/-- The order in which `DivideSegment` puts the two replacement segments, `it` being the
position of the divided segment in `mSegments`. -/
def orderNewSegments (mSegments : List VesselSegment) (it : Nat)
    (p_new_segment0 p_new_segment1 : VesselSegment) : Option (List VesselSegment) :=
  if mSegments.length = 1 then some [p_new_segment0, p_new_segment1]
  else if it = 0 then
    match mSegments[it + 1]? with
    | some nxt =>
      if nxt.IsConnectedTo p_new_segment1 then some [p_new_segment0, p_new_segment1]
      else some [p_new_segment1, p_new_segment0]
    | none => none
  else
    match mSegments[it - 1]? with
    | some prv =>
      if prv.IsConnectedTo p_new_segment0 then some [p_new_segment0, p_new_segment1]
      else some [p_new_segment1, p_new_segment0]
    | none => none

/-- The part of `DivideSegment` that runs once a segment has been identified. -/
def Vessel.divideAt (v : Vessel) (geo : Geometry) (st : Store) (location : List ℚ)
    (pVesselSegment : VesselSegment) : Outcome Nat :=
  if nonAdjacentConnected v.mSegments then
    ⟨.exception "Input vessel segments are not correctly connected.", v, st⟩
  else
    let distance0 := geo.nodeDistance (st.node pVesselSegment.node0) location
    let distance1 := geo.nodeDistance (st.node pVesselSegment.node1) location
    let closest := if distance0 ≤ distance1 then pVesselSegment.node0 else pVesselSegment.node1
    let p_new_node := st.next
    let st1 := st.createSplitNode closest location
    let created0 := st1.createSegment pVesselSegment.node0 p_new_node pVesselSegment
    let p_new_segment0 := created0.1
    let created1 := created0.2.createSegment p_new_node pVesselSegment.node1 pVesselSegment
    let p_new_segment1 := created1.1
    let st3 := created1.2
    let it := findSegment v.mSegments pVesselSegment
    if it = v.mSegments.length then
      ⟨.exception "Vessel segment is not contained inside vessel.", v, st3⟩
    else
      match orderNewSegments v.mSegments it p_new_segment0 p_new_segment1 with
      | none => ⟨.undefined, v, st3⟩
      | some newSegments =>
        let inserted := v.mSegments.take it ++ newSegments ++ v.mSegments.drop it
        let it2 := findSegment inserted pVesselSegment
        if it2 = inserted.length then
          ⟨.exception "Vessel segment is not contained inside vessel.",
            { v with mSegments := inserted }, st3⟩
        else
          let v1 : Vessel := { v with mSegments := inserted.eraseIdx it2 }
          let st4 := st3.removeSegment pVesselSegment
          if nonAdjacentConnected v1.mSegments then
            ⟨.exception "Input vessel segments are not correctly connected.", v1, st4⟩
          else
            ⟨.ok p_new_node, v1.invalidate, st4.AddVesselAll newSegments v.self⟩

/-- Embedding of `Vessel::DivideSegment` (lines 299 to 442). -/
def Vessel.DivideSegment (v : Vessel) (geo : Geometry) (st : Store) (location : List ℚ)
    (distanceTolerance : ℚ) : Outcome Nat :=
  match identifySegment geo st location distanceTolerance v.mSegments none with
  | .inl n => ⟨.ok n, v, st⟩
  | .inr none => ⟨.exception "Specified location is not on a segment in this vessel.", v, st⟩
  | .inr (some pVesselSegment) => v.divideAt geo st location pVesselSegment

/-! ## Example objects for the concrete evaluations -/

/-- A store in which no node is flagged, no segment is owned and identities from `100` on
are unused. -/
def exampleStore : Store :=
  ⟨fun _ => ⟨[], 1, false, false, 0⟩, fun _ => [], fun _ => none, 100⟩

/-- A vessel object with identity `7`, the given segments and a stale node cache. -/
def exampleVessel (segs : List VesselSegment) : Vessel := ⟨7, segs, [], false, segs⟩

/-- A one-dimensional geometry on node identities used as coordinates: node `k` sits at
coordinate `k`, the distance from a segment to a point `[x]` is `0` when `x` lies between
the coordinates of its nodes and `1` otherwise. -/
def exampleGeometry : Geometry where
  segmentDistance a b p :=
    let x := p.headD 0
    let lo := min (a.location.headD 0) (b.location.headD 0)
    let hi := max (a.location.headD 0) (b.location.headD 0)
    if lo ≤ x ∧ x ≤ hi then 0 else 1
  nodeDistance a p := |a.location.headD 0 - p.headD 0|
  isCoincident a p := decide (a.location.headD 0 = p.headD 0)

/-- A store whose node `k` is located at coordinate `k`. -/
def lineStore : Store :=
  ⟨fun k => ⟨[(k : ℚ)], 1, decide (k = 0), false, 0⟩, fun _ => [], fun _ => none, 100⟩

/-! ## `BetteridgeHaematocritSolver`

The solver reads the network through the accessors listed below and writes haematocrit to
the segments.  Vessels are referred to by their position in `GetVessels()`, which is also
the `Id` the solver assigns them; every segment incident on a node is taken to be owned by
a vessel of the network. -/

/-- What `Calculate` reads from and writes to one vessel: `GetStartNode()`, `GetEndNode()`,
`GetFlowProperties()->GetFlowRate()`, `GetRadius()`, and the haematocrit stored on each of
its segments (`GetSegments()[jdx]->GetFlowProperties()`). -/
structure NetworkVessel where
  startNode : Nat
  endNode : Nat
  flowRate : ℚ
  radius : ℚ
  segmentHaematocrit : List ℚ

/-- The network as the solver sees it: `vessel idx` for `idx < numberOfVessels` is
`GetVessels()[idx]`, `isInputNode p` is `p->GetFlowProperties()->IsInputNode()` and
`nodeSegments p` lists, for `jdx = 0, 1, ...`, the vessel `p->GetSegment(jdx)->GetVessel()`. -/
structure VesselNetwork where
  numberOfVessels : Nat
  vessel : Nat → NetworkVessel
  isInputNode : Nat → Bool
  nodeSegments : Nat → List Nat

/-- Chaste `LinearSystem` (external): a square matrix and a right-hand side, both zero when
constructed; `SetMatrixElement` and `SetRhsVectorElement` overwrite one entry. -/
structure LinearSystem where
  size : Nat
  lhs : Nat → Nat → ℚ
  rhs : Nat → ℚ

/-- The constructor `LinearSystem(lhsVectorSize, rowPreallocation)`. -/
def LinearSystem.create (lhsVectorSize : Nat) : LinearSystem :=
  ⟨lhsVectorSize, fun _ _ => 0, fun _ => 0⟩

/-- The member `LinearSystem::SetMatrixElement`. -/
def LinearSystem.SetMatrixElement (ls : LinearSystem) (row col : Nat) (value : ℚ) :
    LinearSystem :=
  { ls with lhs := fun r c => if r = row ∧ c = col then value else ls.lhs r c }

/-- The member `LinearSystem::SetRhsVectorElement`. -/
def LinearSystem.SetRhsVectorElement (ls : LinearSystem) (row : Nat) (value : ℚ) :
    LinearSystem :=
  { ls with rhs := fun r => if r = row then value else ls.rhs r }

/-- The vector `x` solves the system exactly. -/
def LinearSystem.IsSolution (ls : LinearSystem) (x : Nat → ℚ) : Prop :=
  ∀ r, r < ls.size → (Finset.range ls.size).sum (fun c => ls.lhs r c * x c) = ls.rhs r

/-- Code outside the excerpt that `Calculate` calls: `Solve` is `LinearSystem::Solve`
followed by the read through `ReplicatableVector`, `GetHaematocrit` is
`VesselFlowProperties::GetHaematocrit`, the vessel value derived from the values stored on
its segments. -/
structure Collaborators where
  Solve : LinearSystem → Nat → ℚ
  GetHaematocrit : List ℚ → ℚ

/-- The solver object: its three parameters and the network it works on. -/
structure BetteridgeHaematocritSolver where
  mTHR : ℚ
  mAlpha : ℚ
  mHaematocrit : ℚ
  mpNetwork : VesselNetwork

/-- The value of `M_PI` as a `double`. -/
def M_PI : ℚ := 884279719003555 / 281474976710656

/-- The value of `DBL_MAX`. -/
def DBL_MAX : ℚ := (2 ^ 53 - 1) * 2 ^ 971

/-- The local `double tolerance = 1e-3;`: the value of the literal as a `double`, the double
nearest to 1/1000, which is `1152921504606847 / 2^60` and larger than 1/1000. -/
def tolerance : ℚ := 1152921504606847 / 1152921504606846976

/-- The local `double max_iterations = 1000;`. -/
def max_iterations : Nat := 1000

/-- One pass of the classification loop body for the vessel `w` owning segment `jdx` of the
inflow node: both tests (end node, start node) are made, in this order. -/
def classifyStep (net : VesselNetwork) (idx p_inflow_node : Nat)
    (acc : List Nat × List Nat) (w : Nat) : List Nat × List Nat :=
  if w ≠ idx then
    let inflow_rate := (net.vessel w).flowRate
    let acc1 : List Nat × List Nat :=
      if (net.vessel w).endNode = p_inflow_node then
        if inflow_rate > 0 then (acc.1 ++ [w], acc.2)
        else if inflow_rate < 0 then (acc.1, acc.2 ++ [w])
        else acc
      else acc
    if (net.vessel w).startNode = p_inflow_node then
      if inflow_rate > 0 then (acc1.1, acc1.2 ++ [w])
      else if inflow_rate < 0 then (acc1.1 ++ [w], acc1.2)
      else acc1
    else acc1
  else acc

/-- The pair `(parent_vessels, competitor_vessels)` built for vessel `idx` at its inflow
node. -/
def classify (net : VesselNetwork) (idx p_inflow_node : Nat) : List Nat × List Nat :=
  (net.nodeSegments p_inflow_node).foldl (classifyStep net idx p_inflow_node) ([], [])

/-- The inflow node of vessel `idx`: its start node for positive flow, else its end node. -/
def inflowNode (net : VesselNetwork) (idx : Nat) : Nat :=
  if (net.vessel idx).flowRate > 0 then (net.vessel idx).startNode
  else (net.vessel idx).endNode

/-- The coefficient written at `(self, parent)` during setup (lines 183 to 205).  The
quotients are rational quotients; they are the quotients of the source where no divisor is
zero. -/
def setupCoefficient (flow_rate competitor0_flow_rate parent0_flow_rate my_radius
    competitor_radius parentHaematocrit : ℚ) : ℚ :=
  let my_velocity := |flow_rate| / (M_PI * my_radius * my_radius)
  let competitor_velocity := |competitor0_flow_rate| / (M_PI * competitor_radius * competitor_radius)
  let alpha := 1 - parentHaematocrit
  let flow_ratio_pm := |parent0_flow_rate| / |flow_rate|
  let flow_ratio_cm := |competitor0_flow_rate| / |flow_rate|
  let numer := flow_ratio_pm
  if my_velocity ≥ competitor_velocity then
    (let term := alpha * (my_velocity / competitor_velocity - 1)
     let denom := 1 + flow_ratio_cm * (1 / (1 + term));
     -numer / denom)
  else
    (let term := alpha * (competitor_velocity / my_velocity - 1)
     let denom := 1 + flow_ratio_cm * (1 + term);
     -numer / denom)

/-- The coefficient written at `(self, parent)` by the refresh inside the loop (lines 232 to
258).  The quotients are rational quotients, as in `setupCoefficient`. -/
def refreshCoefficient (self_flow_rate competitor0_flow_rate parent0_flow_rate my_radius
    competitor_radius parentHaematocrit : ℚ) : ℚ :=
  let my_velocity := |self_flow_rate| / (M_PI * my_radius * my_radius)
  let competitor_velocity := |competitor0_flow_rate| / (M_PI * competitor_radius * competitor_radius)
  let alpha := 1 - parentHaematocrit
  let flow_ratio_pm := |parent0_flow_rate / self_flow_rate|
  let flow_ratio_cm := |competitor0_flow_rate / self_flow_rate|
  let numer := flow_ratio_pm
  if my_velocity ≥ competitor_velocity then
    (let term := alpha * (my_velocity / competitor_velocity - 1)
     let denom := 1 + flow_ratio_cm * (1 / (1 + term));
     -numer / denom)
  else
    (let term := alpha * (competitor_velocity / my_velocity - 1)
     let denom := 1 + flow_ratio_cm * (1 + term);
     -numer / denom)

/-- The vessel-level haematocrit `vessels[i]->GetFlowProperties()->GetHaematocrit()`. -/
def vesselHaematocrit (ext : Collaborators) (net : VesselNetwork) (i : Nat) : ℚ :=
  ext.GetHaematocrit (net.vessel i).segmentHaematocrit

/-- The test `competitor_vessels.size()==0 or
fabs(competitor_vessels[0]->GetFlowProperties()->GetFlowRate()) == 0.0`. -/
def isConverging (net : VesselNetwork) (competitor_vessels : List Nat) : Bool :=
  match competitor_vessels with
  | [] => true
  | competitor0 :: _ => decide (|(net.vessel competitor0).flowRate| = 0)

/-- The loop writing `-fabs(parent flow / flow_rate)` at the column of every parent. -/
def convergingRow (net : VesselNetwork) (idx : Nat) (parent_vessels : List Nat)
    (linearSystem : LinearSystem) : LinearSystem :=
  parent_vessels.foldl (fun ls w =>
    ls.SetMatrixElement idx w (-|(net.vessel w).flowRate / (net.vessel idx).flowRate|))
    linearSystem

/-- The `else` branch of the junction test (lines 174 to 213): the connectivity guard, the
splitting rule and the recording of the triple.  Reading `parent_vessels[0]` or
`competitor_vessels[0]` of an empty vector is `undefined`. -/
def bifurcationRow (solver : BetteridgeHaematocritSolver) (ext : Collaborators) (idx : Nat)
    (linearSystem : LinearSystem) (update_indices : List (Nat × Nat × Nat))
    (parent_vessels competitor_vessels : List Nat) :
    Result (LinearSystem × List (Nat × Nat × Nat)) :=
  let net := solver.mpNetwork
  if competitor_vessels.length > 1 || parent_vessels.length > 1 then
    .exception "This solver can only work with branches with connectivity 3"
  else
    match competitor_vessels, parent_vessels with
    | competitor0 :: _, parent0 :: _ =>
      .ok (linearSystem.SetMatrixElement idx parent0
          (setupCoefficient (net.vessel idx).flowRate (net.vessel competitor0).flowRate
            (net.vessel parent0).flowRate (net.vessel idx).radius
            (net.vessel competitor0).radius (vesselHaematocrit ext net parent0)),
        update_indices ++ [(idx, parent0, competitor0)])
    | _, _ => .undefined

/-- The vessel touches a node flagged as network input. -/
def touchesInput (net : VesselNetwork) (idx : Nat) : Bool :=
  net.isInputNode (net.vessel idx).startNode || net.isInputNode (net.vessel idx).endNode

/-- The body of the setup loop for vessel `idx`: the linear system and `update_indices`
after the pass, an exception, or an undefined read. -/
def setupRow (solver : BetteridgeHaematocritSolver) (ext : Collaborators) (idx : Nat)
    (linearSystem : LinearSystem) (update_indices : List (Nat × Nat × Nat)) :
    Result (LinearSystem × List (Nat × Nat × Nat)) :=
  let net := solver.mpNetwork
  let ls1 := linearSystem.SetMatrixElement idx idx 1
  if touchesInput net idx then
    .ok (ls1.SetRhsVectorElement idx solver.mHaematocrit, update_indices)
  else if (net.vessel idx).flowRate = 0 then
    .ok (ls1.SetRhsVectorElement idx 0, update_indices)
  else if (net.nodeSegments (inflowNode net idx)).length > 1 then
    if isConverging net (classify net idx (inflowNode net idx)).2 then
      .ok (convergingRow net idx (classify net idx (inflowNode net idx)).1 ls1, update_indices)
    else
      bifurcationRow solver ext idx ls1 update_indices
        (classify net idx (inflowNode net idx)).1 (classify net idx (inflowNode net idx)).2
  else .ok (ls1, update_indices)

/-- One step of the setup loop on the running result. -/
def setupStep (solver : BetteridgeHaematocritSolver) (ext : Collaborators)
    (acc : Result (LinearSystem × List (Nat × Nat × Nat))) (idx : Nat) :
    Result (LinearSystem × List (Nat × Nat × Nat)) :=
  match acc with
  | .ok (linearSystem, update_indices) => setupRow solver ext idx linearSystem update_indices
  | .exception msg => .exception msg
  | .undefined => .undefined

/-- The setup loop over the first `n` vessels. -/
def setupUpTo (solver : BetteridgeHaematocritSolver) (ext : Collaborators) (n : Nat) :
    Result (LinearSystem × List (Nat × Nat × Nat)) :=
  (List.range n).foldl (setupStep solver ext)
    (.ok (LinearSystem.create solver.mpNetwork.numberOfVessels, []))

/-- The setup phase of `Calculate` (lines 77 to 216). -/
def setup (solver : BetteridgeHaematocritSolver) (ext : Collaborators) :
    Result (LinearSystem × List (Nat × Nat × Nat)) :=
  setupUpTo solver ext solver.mpNetwork.numberOfVessels

/-- The refresh of one recorded entry `(self, parent, competitor)` inside the loop. -/
def refreshEntry (ext : Collaborators) (net : VesselNetwork) (ls : LinearSystem)
    (entry : Nat × Nat × Nat) : LinearSystem :=
  ls.SetMatrixElement entry.1 entry.2.1
    (refreshCoefficient (net.vessel entry.1).flowRate (net.vessel entry.2.2).flowRate
      (net.vessel entry.2.1).flowRate (net.vessel entry.1).radius
      (net.vessel entry.2.2).radius (vesselHaematocrit ext net entry.2.1))

/-- The residual loop: the largest `|H_i - a[i]|` over the vessels. -/
def computeResidual (ext : Collaborators) (net : VesselNetwork) (a : Nat → ℚ) : ℚ :=
  (List.range net.numberOfVessels).foldl (fun residual i =>
    if |vesselHaematocrit ext net i - a i| > residual then |vesselHaematocrit ext net i - a i|
    else residual) 0

/-- The assignment loop: every segment of every vessel `idx` of the network receives
`a[idx]`. -/
def assignHaematocrit (net : VesselNetwork) (a : Nat → ℚ) : VesselNetwork :=
  { net with vessel := fun idx =>
      if idx < net.numberOfVessels then
        { net.vessel idx with
          segmentHaematocrit := (net.vessel idx).segmentHaematocrit.map fun _ => a idx }
      else net.vessel idx }

/-- State of the iteration loop; `solved` lists the systems handed to `Solve`, oldest
first. -/
structure LoopState where
  network : VesselNetwork
  linearSystem : LinearSystem
  residual : ℚ
  iterations : Nat
  solved : List LinearSystem

/-- How `Calculate` was left and the state it leaves behind. -/
structure CalculateOutcome where
  result : Result Unit
  state : LoopState

/-- One pass through the body of the `while` loop, up to and including `iterations++`. -/
def loopBody (ext : Collaborators) (update_indices : List (Nat × Nat × Nat)) (s : LoopState) :
    LoopState :=
  let ls :=
    if s.iterations > 0 ∧ update_indices.length > 0 then
      update_indices.foldl (refreshEntry ext s.network) s.linearSystem
    else s.linearSystem
  let a := ext.Solve ls
  { network := assignHaematocrit s.network a
    linearSystem := ls
    residual := computeResidual ext s.network a
    iterations := s.iterations + 1
    solved := s.solved ++ [ls] }

/-- The `while` loop.  The first argument bounds the number of passes still possible; the
loop is entered with `max_iterations` of them, and `undefined` marks a run that would need
more, which never happens since the source leaves at `iterations == max_iterations`. -/
def iterate (ext : Collaborators) (update_indices : List (Nat × Nat × Nat)) :
    Nat → LoopState → CalculateOutcome
  | 0, s =>
    if s.residual > tolerance ∧ s.iterations < max_iterations then ⟨.undefined, s⟩
    else ⟨.ok (), s⟩
  | fuel + 1, s =>
    if s.residual > tolerance ∧ s.iterations < max_iterations then
      let s1 := loopBody ext update_indices s
      if s1.iterations = max_iterations then
        ⟨.exception "Haematocrit calculation failed to converge.", s1⟩
      else iterate ext update_indices fuel s1
    else ⟨.ok (), s⟩

/-- Embedding of `BetteridgeHaematocritSolver::Calculate` (lines 74 to 294): setup, then the
iteration loop entered with residual `DBL_MAX` and no iteration done.  When setup is left by
an exception or an undefined read, no system is solved and the network is untouched. -/
def BetteridgeHaematocritSolver.Calculate (solver : BetteridgeHaematocritSolver)
    (ext : Collaborators) : CalculateOutcome :=
  match setup solver ext with
  | .ok (linearSystem, update_indices) =>
    iterate ext update_indices max_iterations
      ⟨solver.mpNetwork, linearSystem, DBL_MAX, 0, []⟩
  | .exception msg =>
    ⟨.exception msg, ⟨solver.mpNetwork, LinearSystem.create solver.mpNetwork.numberOfVessels,
      DBL_MAX, 0, []⟩⟩
  | .undefined =>
    ⟨.undefined, ⟨solver.mpNetwork, LinearSystem.create solver.mpNetwork.numberOfVessels,
      DBL_MAX, 0, []⟩⟩

/-- What setup has established about an entry of `update_indices`. -/
def Recorded (net : VesselNetwork) (e : Nat × Nat × Nat) : Prop :=
  touchesInput net e.1 = false ∧ (net.vessel e.1).flowRate ≠ 0 ∧
    isConverging net (classify net e.1 (inflowNode net e.1)).2 = false ∧
    classify net e.1 (inflowNode net e.1) = ([e.2.1], [e.2.2])

/-- Every system handed to `Solve` so far came back with an exact solution. -/
def ExactSolves (ext : Collaborators) (s : LoopState) : Prop :=
  ∀ ls ∈ s.solved, ls.IsSolution (ext.Solve ls)

/-- The system agrees with `ls0` in size, right-hand side and every matrix entry that is not
a recorded `(self, parent)` position. -/
def AgreesOffRecorded (upd : List (Nat × Nat × Nat)) (ls0 ls : LinearSystem) : Prop :=
  ls.size = ls0.size ∧ ls.rhs = ls0.rhs ∧
    ∀ r c, (∀ e ∈ upd, ¬ (e.1 = r ∧ e.2.1 = c)) → ls.lhs r c = ls0.lhs r c

/-- The haematocrit on the segments of the network `net` is what the last solve of the loop
state `s` returned, on as many segments per vessel as `orig` has. -/
def WrittenFromLastSolve (ext : Collaborators) (orig : VesselNetwork) (s : LoopState) : Prop :=
  s.network.numberOfVessels = orig.numberOfVessels ∧
  (∀ idx, (s.network.vessel idx).segmentHaematocrit.length =
    (orig.vessel idx).segmentHaematocrit.length) ∧
  (1 ≤ s.iterations → ∃ lsLast ∈ s.solved, ∀ idx, idx < orig.numberOfVessels →
    (s.network.vessel idx).segmentHaematocrit =
      List.replicate (orig.vessel idx).segmentHaematocrit.length (ext.Solve lsLast idx))


/-- Setup ran to completion: no exception and no undefined read. -/
def setupCompletes (solver : BetteridgeHaematocritSolver) (ext : Collaborators) : Bool :=
  match setup solver ext with
  | .ok _ => true
  | _ => false

/-- The linear system that setup hands to the iteration loop. -/
def setupSystem (solver : BetteridgeHaematocritSolver) (ext : Collaborators) : LinearSystem :=
  match setup solver ext with
  | .ok p => p.1
  | _ => LinearSystem.create solver.mpNetwork.numberOfVessels

/-- The list `update_indices` that setup hands to the iteration loop. -/
def setupUpdateIndices (solver : BetteridgeHaematocritSolver) (ext : Collaborators) :
    List (Nat × Nat × Nat) :=
  match setup solver ext with
  | .ok p => p.2
  | _ => []

/-- Row `r` of the system has diagonal coefficient 1, no other non-zero coefficient and
right-hand side `b`. -/
def IsDirichletRow (ls : LinearSystem) (r : Nat) (b : ℚ) : Prop :=
  ls.lhs r r = 1 ∧ (∀ c, c ≠ r → ls.lhs r c = 0) ∧ ls.rhs r = b

/-- Row `i` of the system is the balance of vessel `i` over the vessels `parents`:
coefficient 1 on the diagonal, `-(|Q_w| / |Q_i|)` at the column of every parent `w`, zero
elsewhere, right-hand side 0. -/
def IsConvergingRow (net : VesselNetwork) (ls : LinearSystem) (i : Nat) (parents : List Nat) :
    Prop :=
  ls.lhs i i = 1 ∧
  (∀ w ∈ parents, ls.lhs i w = -(|(net.vessel w).flowRate| / |(net.vessel i).flowRate|)) ∧
  (∀ c, c ≠ i → c ∉ parents → ls.lhs i c = 0) ∧
  ls.rhs i = 0

/-- Consistency of the network view: a node lists the vessels whose segments are incident
on it, so every vessel is listed at its own start and end node, and every listed vessel is
a vessel of the network. -/
def VesselNetwork.WellFormed (net : VesselNetwork) : Prop :=
  (∀ i, i < net.numberOfVessels →
    i ∈ net.nodeSegments (net.vessel i).startNode ∧
      i ∈ net.nodeSegments (net.vessel i).endNode) ∧
  (∀ p w, w ∈ net.nodeSegments p → w < net.numberOfVessels)

/-- The bifurcation coefficient in the words of the specification: `alpha = 1 - H_parent`,
`v = |Q| / (pi r^2)`, `flow_ratio_pm = |Q_parent| / |Q_self|`,
`flow_ratio_cm = |Q_competitor| / |Q_self|`, `denom` by the faster-branch rule, and the
coefficient `-flow_ratio_pm / denom`. -/
def specCoefficient (Q_self Q_competitor Q_parent r_self r_competitor H_parent : ℚ) : ℚ :=
  let alpha := 1 - H_parent
  let v_self := |Q_self| / (M_PI * r_self ^ 2)
  let v_comp := |Q_competitor| / (M_PI * r_competitor ^ 2)
  let flow_ratio_pm := |Q_parent| / |Q_self|
  let flow_ratio_cm := |Q_competitor| / |Q_self|
  let denom :=
    if v_self ≥ v_comp then 1 + flow_ratio_cm / (1 + alpha * (v_self / v_comp - 1))
    else 1 + flow_ratio_cm * (1 + alpha * (v_comp / v_self - 1));
  -(flow_ratio_pm / denom)

instance (ls : LinearSystem) (x : Nat → ℚ) : Decidable (ls.IsSolution x) := by
  unfold LinearSystem.IsSolution
  infer_instance

instance (ext : Collaborators) (s : LoopState) : Decidable (ExactSolves ext s) := by
  unfold ExactSolves
  infer_instance

/-! ## Example networks and collaborators for the concrete evaluations -/

/-- Jacobi sweeps `x := rhs - (A - I) x` from the zero vector. -/
def jacobi (ls : LinearSystem) : Nat → Nat → ℚ
  | 0 => fun _ => 0
  | k + 1 => fun r =>
    ls.rhs r - (Finset.range ls.size).sum fun c => if c = r then 0 else ls.lhs r c * jacobi ls k c

/-- Collaborators for the examples: as many Jacobi sweeps as the system has rows (exact when
every vessel comes after its parents in the list) and the mean over the segments. -/
def exampleCollaborators : Collaborators :=
  ⟨fun ls => jacobi ls ls.size, fun l => l.sum / l.length⟩

/-- One vessel from the input node 0 to node 1 that carries no flow. -/
def stagnantInletNetwork : VesselNetwork :=
  ⟨1, fun _ => ⟨0, 1, 0, 1, [0]⟩, fun p => decide (p = 0),
    fun p => if p = 0 ∨ p = 1 then [0] else []⟩

/-- A bifurcation: vessel 0 runs from the input node 0 to node 1 with flow 2 and feeds
vessel 1 (to node 2, flow 3/2, two segments) and vessel 2 (to node 3, flow 1/2); vessel 3
hangs off node 3 without flow. -/
def bifurcationNetwork : VesselNetwork :=
  ⟨4, fun i =>
      if i = 0 then ⟨0, 1, 2, 1, [0]⟩
      else if i = 1 then ⟨1, 2, 3 / 2, 1, [0, 0]⟩
      else if i = 2 then ⟨1, 3, 1 / 2, 1, [0]⟩
      else ⟨3, 4, 0, 1, [1]⟩,
    fun p => decide (p = 0),
    fun p =>
      if p = 0 then [0] else if p = 1 then [0, 1, 2] else if p = 2 then [1]
      else if p = 3 then [2, 3] else if p = 4 then [3] else []⟩

/-- A merge: vessels 0 (flow 1) and 1 (flow 2) run from the input nodes 0 and 1 to node 2
and feed vessel 2 (flow 3) towards node 3. -/
def mergeNetwork : VesselNetwork :=
  ⟨3, fun i =>
      if i = 0 then ⟨0, 2, 1, 1, [0]⟩
      else if i = 1 then ⟨1, 2, 2, 1, [0]⟩
      else ⟨2, 3, 3, 1, [0]⟩,
    fun p => decide (p = 0 ∨ p = 1),
    fun p =>
      if p = 0 then [0] else if p = 1 then [1] else if p = 2 then [0, 1, 2]
      else if p = 3 then [2] else []⟩

/-- A source without a parent in front of a four-way junction: vessels 0 and 1 both leave
the unflagged node 5; vessel 2 runs from the input node 0 to node 1 with flow 3 and feeds
vessels 3, 4 and 5 with flow 1 each. -/
def sourceThenFourWayNetwork : VesselNetwork :=
  ⟨6, fun i =>
      if i = 0 then ⟨5, 6, 1, 1, [0]⟩
      else if i = 1 then ⟨5, 7, 1, 1, [0]⟩
      else if i = 2 then ⟨0, 1, 3, 1, [0]⟩
      else if i = 3 then ⟨1, 2, 1, 1, [0]⟩
      else if i = 4 then ⟨1, 3, 1, 1, [0]⟩
      else ⟨1, 4, 1, 1, [0]⟩,
    fun p => decide (p = 0),
    fun p =>
      if p = 0 then [2] else if p = 1 then [2, 3, 4, 5] else if p = 2 then [3]
      else if p = 3 then [4] else if p = 4 then [5] else if p = 5 then [0, 1]
      else if p = 6 then [0] else if p = 7 then [1] else []⟩

/-- The four-way junction alone: vessel 0 runs from the input node 0 to node 1 with flow 3
and feeds vessels 1, 2 and 3 with flow 1 each. -/
def fourWayNetwork : VesselNetwork :=
  ⟨4, fun i =>
      if i = 0 then ⟨0, 1, 3, 1, [0]⟩
      else if i = 1 then ⟨1, 2, 1, 1, [0]⟩
      else if i = 2 then ⟨1, 3, 1, 1, [0]⟩
      else ⟨1, 4, 1, 1, [0]⟩,
    fun p => decide (p = 0),
    fun p =>
      if p = 0 then [0] else if p = 1 then [0, 1, 2, 3] else if p = 2 then [1]
      else if p = 3 then [2] else if p = 4 then [3] else []⟩

/-! ## Constructors of `Vessel`, `RemoveSegments` and `Remove` -/

/-- Embedding of the constructor `Vessel::Vessel(std::vector<segments>)` (lines 54 to 87) for
a vessel object of identity `self`: the vessel it builds, or the exception it throws.  The
two checks run only for more than one segment. -/
def Vessel.fromSegments (self : Nat) (segments : List VesselSegment) : Result Vessel :=
  if segments.length > 1 then
    if orderBroken segments then
      .exception "Input vessel segments are not attached in the correct order."
    else if nonAdjacentConnected segments then
      .exception "Input vessel segments are not correctly connected."
    else .ok ⟨self, segments, [], false, segments⟩
  else .ok ⟨self, segments, [], false, segments⟩

/-- Embedding of the factory `Vessel::Create(std::vector<segments>)` (lines 137 to 148): the
new vessel takes the next fresh identity, and when the constructor returns every segment
gets the vessel as its owner. -/
def Vessel.CreateFromSegments (st : Store) (segments : List VesselSegment) :
    Result (Vessel × Store) :=
  match Vessel.fromSegments st.next segments with
  | .ok v => .ok (v, ({ st with next := st.next + 1 }).AddVesselAll segments v.self)
  | .exception msg => .exception msg
  | .undefined => .undefined

/-- Modelled from the spec: the factory `VesselSegment::Create(n0, n1)` without a copy of
data: a segment of fresh identity attached to its two nodes, with the radius `radius` that a
new segment starts with (a value the excerpt does not show). -/
def Store.newSegment (st : Store) (n0 n1 : Nat) (radius : ℚ) : VesselSegment × Store :=
  st.createSegment n0 n1 ⟨st.next, n0, n1, radius⟩

/-- The loop `for i = 1 .. size-1: mSegments.push_back(VesselSegment::Create(nodes[i-1],
nodes[i]))` of the node-list constructor, on the nodes not yet paired. -/
def createSegmentsLoop (radius : ℚ) :
    List Nat → Store → List VesselSegment → List VesselSegment × Store
  | a :: b :: rest, st, mSegments =>
    createSegmentsLoop radius (b :: rest) (st.newSegment a b radius).2
      (mSegments ++ [(st.newSegment a b radius).1])
  | _, st, mSegments => (mSegments, st)

/-- Embedding of the constructor `Vessel::Vessel(std::vector<nodes>)` (lines 89 to 109)
followed by the factory `Vessel::Create(std::vector<nodes>)` (lines 150 to 163). -/
def Vessel.CreateFromNodes (st : Store) (nodes : List Nat) (radius : ℚ) :
    Result (Vessel × Store) :=
  if nodes.length < 2 then
    .exception "Insufficient number of nodes to define a segment."
  else
    let self := st.next
    let built := createSegmentsLoop radius nodes { st with next := st.next + 1 } []
    .ok (⟨self, built.1, [], false, built.1⟩, built.2.AddVesselAll built.1 self)

/-- Modelled from the spec: the enumeration `SegmentLocation::Value` of `Vessel.hpp`, which is
not part of the excerpt: `Start`, `End`, and any other value an argument of this type can
hold. -/
inductive SegmentLocation where
  | Start : SegmentLocation
  | End : SegmentLocation
  | Other : Nat → SegmentLocation
deriving DecidableEq

/-- Embedding of `Vessel::RemoveSegments` (lines 675 to 698); `front()` and `back()` of an
empty vector are `undefined`. -/
def Vessel.RemoveSegments (v : Vessel) (st : Store) (location : SegmentLocation) :
    Outcome Unit :=
  if v.mSegments.length = 1 then
    ⟨.exception "Vessel must have at least one segment.", v, st⟩
  else
    match location with
    | .Start =>
      match v.mSegments with
      | front :: rest =>
        ⟨.ok (), ({ v with mSegments := rest }).invalidate, st.RemoveVessel front.id⟩
      | [] => ⟨.undefined, v, st⟩
    | .End =>
      match v.mSegments.getLast? with
      | some back =>
        ⟨.ok (), ({ v with mSegments := v.mSegments.dropLast }).invalidate,
          st.RemoveVessel back.id⟩
      | none => ⟨.undefined, v, st⟩
    | .Other _ =>
      ⟨.exception "You can only remove segments from the start or end of vessels.", v, st⟩

/-- Embedding of `Vessel::Remove` (lines 663 to 673): every segment is detached, the flag is
cleared and the segment list emptied. -/
def Vessel.Remove (v : Vessel) (st : Store) : Outcome Unit :=
  ⟨.ok (), { v with mSegments := [], mNodesUpToDate := false },
    v.mSegments.foldl (fun acc s => acc.removeSegment s) st⟩

/-- Cache coherence: when the freshness flag is set, the cached node sequence is the one
`UpdateNodes` derives from the current segment list. -/
def CacheCoherent (v : Vessel) : Prop :=
  v.mNodesUpToDate = true → rebuildNodes v.mSegments = some v.mNodes

instance (v : Vessel) : Decidable (CacheCoherent v) := by
  unfold CacheCoherent
  infer_instance

/-- The vessel 1-2, 2-3 after a call of `GetNodes`: the node cache is filled and the
freshness flag set. -/
def cachedVessel : Vessel :=
  ((exampleVessel [⟨10, 1, 2, 1⟩, ⟨11, 2, 3, 1⟩]).GetNodes exampleStore).vessel

/-- The call `AddSegments` with the segment 3-1 on `cachedVessel`. -/
def failedAddSegments : Outcome Unit :=
  cachedVessel.AddSegments exampleStore [⟨12, 3, 1, 1⟩]

/-! ## The outcome of setup as a function of the network

Setup reads the network through its topology, its flow rates and radii, and through the
vessel-level haematocrit of the parent at a bifurcation.  The definitions below describe, by
the same case distinction as the body of the setup loop, whether the pass for a vessel
completes, which triple it records and which row it writes, with the haematocrit reading
as a parameter `H`. -/

/-- The network with the haematocrit values on the segments of vessel `i` replaced by
`f i`; topology, flow rates and radii are kept. -/
def withHaematocrit (net : VesselNetwork) (f : Nat → List ℚ) : VesselNetwork :=
  { net with vessel := fun i => { net.vessel i with segmentHaematocrit := f i } }

/-- The pass of the setup loop for vessel `idx` neither throws nor reads out of range. -/
def rowCompletes (net : VesselNetwork) (idx : Nat) : Bool :=
  if touchesInput net idx then true
  else if (net.vessel idx).flowRate = 0 then true
  else if (net.nodeSegments (inflowNode net idx)).length > 1 then
    if isConverging net (classify net idx (inflowNode net idx)).2 then true
    else if (classify net idx (inflowNode net idx)).2.length > 1 ||
        (classify net idx (inflowNode net idx)).1.length > 1 then false
    else
      match (classify net idx (inflowNode net idx)).2,
        (classify net idx (inflowNode net idx)).1 with
      | _ :: _, _ :: _ => true
      | _, _ => false
  else true

/-- The triple `(self, parent, competitor)` that the pass for vessel `idx` appends to
`update_indices`, as a list with at most one element. -/
def rowTriples (net : VesselNetwork) (idx : Nat) : List (Nat × Nat × Nat) :=
  if touchesInput net idx then []
  else if (net.vessel idx).flowRate = 0 then []
  else if (net.nodeSegments (inflowNode net idx)).length > 1 then
    if isConverging net (classify net idx (inflowNode net idx)).2 then []
    else
      match (classify net idx (inflowNode net idx)).2,
        (classify net idx (inflowNode net idx)).1 with
      | competitor0 :: _, parent0 :: _ => [(idx, parent0, competitor0)]
      | _, _ => []
  else []

/-- The matrix entry `(r, c)` that the pass for vessel `r` leaves in a row that was zero,
with `H` giving the vessel-level haematocrit read for the parent. -/
def expectedLhs (net : VesselNetwork) (H : Nat → ℚ) (r c : Nat) : ℚ :=
  if touchesInput net r then (if c = r then 1 else 0)
  else if (net.vessel r).flowRate = 0 then (if c = r then 1 else 0)
  else if (net.nodeSegments (inflowNode net r)).length > 1 then
    if isConverging net (classify net r (inflowNode net r)).2 then
      (if c ∈ (classify net r (inflowNode net r)).1 then
        -|(net.vessel c).flowRate / (net.vessel r).flowRate|
      else if c = r then 1 else 0)
    else
      match (classify net r (inflowNode net r)).2, (classify net r (inflowNode net r)).1 with
      | competitor0 :: _, parent0 :: _ =>
        if c = parent0 then
          setupCoefficient (net.vessel r).flowRate (net.vessel competitor0).flowRate
            (net.vessel parent0).flowRate (net.vessel r).radius
            (net.vessel competitor0).radius (H parent0)
        else if c = r then 1 else 0
      | _, _ => if c = r then 1 else 0
  else (if c = r then 1 else 0)

/-- The right-hand side that the pass for vessel `r` leaves at row `r`. -/
def expectedRhs (net : VesselNetwork) (mHaematocrit : ℚ) (r : Nat) : ℚ :=
  if touchesInput net r then mHaematocrit else 0

/-- The linear system after the passes for the vessels `0, ..., n - 1`. -/
def systemUpTo (net : VesselNetwork) (mHaematocrit : ℚ) (H : Nat → ℚ) (n : Nat) :
    LinearSystem :=
  ⟨net.numberOfVessels, fun r c => if r < n then expectedLhs net H r c else 0,
    fun r => if r < n then expectedRhs net mHaematocrit r else 0⟩

/-- The list `update_indices` after the passes for the vessels `0, ..., n - 1`. -/
def updateIndicesUpTo (net : VesselNetwork) : Nat → List (Nat × Nat × Nat)
  | 0 => []
  | n + 1 => updateIndicesUpTo net n ++ rowTriples net n

/-- The loop state after `k` passes through the body of the loop, without the loop tests. -/
def afterPasses (ext : Collaborators) (update_indices : List (Nat × Nat × Nat))
    (s : LoopState) : Nat → LoopState
  | 0 => s
  | k + 1 => loopBody ext update_indices (afterPasses ext update_indices s k)

/-- The loop state with which `Calculate` enters the loop after a completed setup. -/
def initialState (solver : BetteridgeHaematocritSolver) (ext : Collaborators) : LoopState :=
  ⟨solver.mpNetwork, setupSystem solver ext, DBL_MAX, 0, []⟩

/-- The loop state after `k` passes of the run of `Calculate`. -/
def passState (solver : BetteridgeHaematocritSolver) (ext : Collaborators) (k : Nat) :
    LoopState :=
  afterPasses ext (setupUpdateIndices solver ext) (initialState solver ext) k

/-! ## Further example networks -/

/-- Two vessels that leave the unflagged node 0 with flow 1 each, towards the nodes 1 and 2:
each has the other as competitor and no parent. -/
def sourcePairNetwork : VesselNetwork :=
  ⟨2, fun i => if i = 0 then ⟨0, 1, 1, 1, [0]⟩ else ⟨0, 2, 1, 1, [0]⟩,
    fun _ => false,
    fun p => if p = 0 then [0, 1] else if p = 1 then [0] else if p = 2 then [1] else []⟩

/-- A symmetric bifurcation: vessel 0 runs from the input node 0 to node 1 with flow 2 and
feeds the vessels 1 and 2 of equal radius 1/2 with flow 1 each. -/
def symmetricBifurcationNetwork : VesselNetwork :=
  ⟨3, fun i =>
      if i = 0 then ⟨0, 1, 2, 1, [0]⟩
      else if i = 1 then ⟨1, 2, 1, 1 / 2, [0]⟩
      else ⟨1, 3, 1, 1 / 2, [0]⟩,
    fun p => decide (p = 0),
    fun p => if p = 0 then [0] else if p = 1 then [0, 1, 2] else if p = 2 then [1]
      else if p = 3 then [2] else []⟩

/-- An unbranched chain of `n` vessels: vessel `i` runs from node `i` to node `i + 1` with
flow `q` and radius `radius i` and holds the haematocrit values `init i` on its segments;
node 0 is the only input node. -/
def chainNetwork (n : Nat) (q : ℚ) (radius : Nat → ℚ) (init : Nat → List ℚ) : VesselNetwork :=
  ⟨n, fun i => ⟨i, i + 1, q, radius i, init i⟩, fun p => decide (p = 0),
    fun p => if p = 0 then [0] else if p < n then [p - 1, p] else if p = n then [p - 1] else []⟩

/-- The vessels 0 and 1 of the counting example follow each other; vessel 2 hangs off node 1
as a second outlet. -/
def countingNetwork : VesselNetwork :=
  ⟨3, fun i =>
      if i = 0 then ⟨0, 1, 3, 1, [0]⟩
      else if i = 1 then ⟨1, 2, 1, 1, [0]⟩
      else ⟨1, 3, 2, 1, [0]⟩,
    fun p => decide (p = 0),
    fun p => if p = 0 then [0] else if p = 1 then [0, 1, 2] else if p = 2 then [1]
      else if p = 3 then [2] else []⟩

/-- A stand-in for the solve that moves the value of vessel 0 by `1/999` per pass until it
is 1 and keeps it there: from the coefficient at `(1, 0)`, which the refresh computes from
the value of vessel 0, it recovers that value and returns it increased by `1/999`, capped
at 1.  It does not solve the system; it serves to reach the last pass of the loop. -/
def countingCollaborators : Collaborators :=
  ⟨fun ls i =>
      if i = 0 then
        (if (5 + 3 / ls.lhs 1 0) / 2 < 1 then (5 + 3 / ls.lhs 1 0) / 2 + 1 / 999
         else (5 + 3 / ls.lhs 1 0) / 2)
      else 0,
    fun l => l.sum / l.length⟩

/-- A bifurcation that holds nearly converged haematocrit values before the call: vessel 0
(flow 2) runs from the input node 0 to node 1 and holds 899/2000, its children 1 (flow 3/2)
and 2 (flow 1/2) hold 259/500 and 247/1000. -/
def nearConvergedNetwork : VesselNetwork :=
  ⟨3, fun i =>
      if i = 0 then ⟨0, 1, 2, 1, [899 / 2000]⟩
      else if i = 1 then ⟨1, 2, 3 / 2, 1, [259 / 500]⟩
      else ⟨1, 3, 1 / 2, 1, [247 / 1000]⟩,
    fun p => decide (p = 0),
    fun p => if p = 0 then [0] else if p = 1 then [0, 1, 2] else if p = 2 then [1]
      else if p = 3 then [2] else []⟩

/-- The solver run a second time: the same parameters on the network the first run left. -/
def secondRun (solver : BetteridgeHaematocritSolver) (ext : Collaborators) :
    CalculateOutcome :=
  BetteridgeHaematocritSolver.Calculate
    ⟨solver.mTHR, solver.mAlpha, solver.mHaematocrit, (solver.Calculate ext).state.network⟩ ext

/-! ## `GetLength`, `GetRadius`, `SetRadius` and `GetConnectedVessels` -/

/-- Modelled from the spec: `VesselSegment::GetLength` is not part of the excerpt; the length
of a segment, "an edge between exactly two nodes", is the distance from its node 0 to the
location of its node 1. -/
def segmentLength (geo : Geometry) (st : Store) (s : VesselSegment) : ℚ :=
  geo.nodeDistance (st.node s.node0) (st.node s.node1).location

/-- Embedding of `Vessel::GetLength` (lines 551 to 560): the loop adds the segment lengths to
`0`. -/
def Vessel.GetLength (v : Vessel) (geo : Geometry) (st : Store) : ℚ :=
  v.mSegments.foldl (fun length s => length + segmentLength geo st s) 0

/-! ## Double arithmetic for `GetRadius`

`GetRadius` adds and divides `double` values.  A finite `double` is modelled by the rational
it denotes; the result of an operation is the exact result rounded to the nearest `double`,
ties to the even significand (IEEE 754 binary64, the default rounding), or no finite value
when the rounded result is an infinity or not a number. -/

/-- The number of halvings that bring `n` below 2, at most `fuel` of them. -/
def halvings : Nat → Nat → Nat
  | 0, _ => 0
  | fuel + 1, n => if 2 ≤ n then halvings fuel (n / 2) + 1 else 0

/-- The position of the leading binary digit of `n`: `2^(bitLog n) ≤ n < 2^(bitLog n + 1)`
for positive `n`. -/
def bitLog (n : Nat) : Nat := halvings n n

/-- The integer `e` with `2^e ≤ p / q < 2^(e + 1)`, for positive `p` and `q`. -/
def floorLog2 (p q : Nat) : Int :=
  let d : Int := (bitLog p : Int) - (bitLog q : Int)
  if 0 ≤ d then (if q * 2 ^ d.toNat ≤ p then d else d - 1)
  else (if q ≤ p * 2 ^ (-d).toNat then d else d - 1)

/-- The integer nearest to `n / d`, the even one of the two when `n / d` lies half way. -/
def roundHalfEven (n d : Nat) : Nat :=
  if 2 * (n % d) < d then n / d
  else if d < 2 * (n % d) then n / d + 1
  else if n / d % 2 = 0 then n / d else n / d + 1

/-- The `double` nearest to the rational `x`, `none` when `x` rounds to an infinity.  The
spacing of the doubles around `x` is `2^k` with `k = e - 52` for `2^e ≤ |x| < 2^(e + 1)`, and
`2^(-1074)` in the subnormal range; the largest finite double is `(2^53 - 1) 2^971`. -/
def roundDouble (x : ℚ) : Option ℚ :=
  if x = 0 then some 0
  else
    let p := x.num.natAbs
    let q := x.den
    let k : Int := max (floorLog2 p q - 52) (-1074)
    if 0 ≤ k then
      (let m := roundHalfEven p (q * 2 ^ k.toNat)
       if 2 ^ 1024 ≤ m * 2 ^ k.toNat then none
       else some (if x < 0 then -((m * 2 ^ k.toNat : Nat) : ℚ) else ((m * 2 ^ k.toNat : Nat) : ℚ)))
    else
      (let m := roundHalfEven (p * 2 ^ (-k).toNat) q
       some (if x < 0 then -((m : ℚ) / ((2 ^ (-k).toNat : Nat) : ℚ))
         else (m : ℚ) / ((2 ^ (-k).toNat : Nat) : ℚ)))

/-- One pass of the loop of `GetRadius`: `radius += mSegments[i]->GetRadius()`. -/
def addRadius (radius : Option ℚ) (s : VesselSegment) : Option ℚ :=
  match radius with
  | some x => roundDouble (x + s.radius)
  | none => none

/-- Embedding of `Vessel::GetRadius` (lines 562 to 571) in double arithmetic: the loop adds
the segment radii to `0.0`, and the sum is divided by `double(mSegments.size())`.  The
result is `none` when it is not a finite number: an overflowed sum, or `0.0 / 0.0` on a
vessel without segments. -/
def Vessel.GetRadius (v : Vessel) : Option ℚ :=
  match v.mSegments.foldl addRadius (some 0) with
  | some sum =>
    if v.mSegments.length = 0 then none
    else roundDouble (sum / (v.mSegments.length : ℚ))
  | none => none

/-- Embedding of `Vessel::SetRadius` (lines 707 to 714): every segment object of the vessel
receives the radius; the flow properties hold the same segment objects. -/
def Vessel.SetRadius (v : Vessel) (radius : ℚ) : Vessel :=
  { v with
    mSegments := v.mSegments.map fun s => { s with radius := radius }
    mpFlowProperties := v.mpFlowProperties.map fun s =>
      if v.mSegments.any (fun t => t.id == s.id) then { s with radius := radius } else s }

/-- One of the two loops of `GetConnectedVessels`: the owner of every segment of the list
that is not the vessel `self` itself is pushed; an owner that is not set is the null
pointer, `none`. -/
def connectedLoop (st : Store) (self : Nat) (segments : List Nat)
    (connected : List (Option Nat)) : List (Option Nat) :=
  segments.foldl (fun acc seg =>
    if st.segVessel seg ≠ some self then acc ++ [st.segVessel seg] else acc) connected

/-- Embedding of `Vessel::GetConnectedVessels` (lines 492 to 515): `start_segments` and
`end_segments` are both read from `GetStartNode()`. -/
def Vessel.GetConnectedVessels (v : Vessel) (st : Store) : Outcome (List (Option Nat)) :=
  match v.GetStartNode st with
  | ⟨.ok startNode, w, st1⟩ =>
    match w.GetStartNode st1 with
    | ⟨.ok startNode2, w2, st2⟩ =>
      let start_segments := st2.nodeSegments startNode
      let end_segments := st2.nodeSegments startNode2
      ⟨.ok (connectedLoop st2 v.self end_segments
        (connectedLoop st2 v.self start_segments [])), w2, st2⟩
    | ⟨.exception m, w2, st2⟩ => ⟨.exception m, w2, st2⟩
    | ⟨.undefined, w2, st2⟩ => ⟨.undefined, w2, st2⟩
  | ⟨.exception m, w, st1⟩ => ⟨.exception m, w, st1⟩
  | ⟨.undefined, w, st1⟩ => ⟨.undefined, w, st1⟩

/-- A store around the vessel 7 with segments 10 (nodes 1-2) and 11 (nodes 2-3): vessel 9
owns segment 30 (nodes 0-1) at the start node 1, vessel 8 owns segment 20 (nodes 3-4) at
the end node 3. -/
def junctionStore : Store :=
  ⟨fun _ => ⟨[], 1, false, false, 0⟩,
    fun n => if n = 0 then [30] else if n = 1 then [30, 10] else if n = 2 then [10, 11]
      else if n = 3 then [11, 20] else if n = 4 then [20] else [],
    fun s => if s = 10 ∨ s = 11 then some 7 else if s = 20 then some 8
      else if s = 30 then some 9 else none,
    100⟩

/-- A network without vessels. -/
def emptyNetwork : VesselNetwork :=
  ⟨0, fun _ => ⟨0, 0, 0, 0, []⟩, fun _ => false, fun _ => []⟩

/-! ## Definitions for the opposite end, the node sequence, the setters and the range of the haematocrit -/

/-- Embedding of `Vessel::GetNodeAtOppositeEnd` (lines 528 to 549): the refresh, then the
comparison of the query node with `GetStartNode()` and with `GetEndNode()`. -/
def Vessel.GetNodeAtOppositeEnd (v : Vessel) (st : Store) (pQueryNode : Nat) : Outcome Nat :=
  match v.refresh st with
  | ⟨.ok _, w, st1⟩ =>
    match w.GetStartNode st1 with
    | ⟨.ok startNode, w1, st2⟩ =>
      if pQueryNode = startNode then w1.GetEndNode st2
      else
        match w1.GetEndNode st2 with
        | ⟨.ok endNode, w2, st3⟩ =>
          if pQueryNode = endNode then w2.GetStartNode st3
          else ⟨.exception "Query node is not at either end of the vessel.", w2, st3⟩
        | ⟨.exception m, w2, st3⟩ => ⟨.exception m, w2, st3⟩
        | ⟨.undefined, w2, st3⟩ => ⟨.undefined, w2, st3⟩
    | ⟨.exception m, w1, st2⟩ => ⟨.exception m, w1, st2⟩
    | ⟨.undefined, w1, st2⟩ => ⟨.undefined, w1, st2⟩
  | ⟨.exception m, w, st1⟩ => ⟨.exception m, w, st1⟩
  | ⟨.undefined, w, st1⟩ => ⟨.undefined, w, st1⟩

/-- The node sequence `nodes` follows the segment sequence `segs`: it has one node more than
there are segments, and its entries `i` and `i + 1` are the two nodes of segment `i`, in one
order or the other. -/
def NodesFollowSegments (nodes : List Nat) (segs : List VesselSegment) : Prop :=
  nodes.length = segs.length + 1 ∧
  ∀ i seg, segs[i]? = some seg →
    (nodes[i]? = some seg.node0 ∧ nodes[i + 1]? = some seg.node1) ∨
    (nodes[i]? = some seg.node1 ∧ nodes[i + 1]? = some seg.node0)

/-- Embedding of `BetteridgeHaematocritSolver::SetTHR` (lines 56 to 60). -/
def BetteridgeHaematocritSolver.SetTHR (solver : BetteridgeHaematocritSolver) (THR : ℚ) :
    BetteridgeHaematocritSolver :=
  { solver with mTHR := THR }

/-- Embedding of `BetteridgeHaematocritSolver::SetAlpha` (lines 62 to 66). -/
def BetteridgeHaematocritSolver.SetAlpha (solver : BetteridgeHaematocritSolver) (Alpha : ℚ) :
    BetteridgeHaematocritSolver :=
  { solver with mAlpha := Alpha }

/-- Embedding of `BetteridgeHaematocritSolver::SetHaematocrit` (lines 68 to 72). -/
def BetteridgeHaematocritSolver.SetHaematocrit (solver : BetteridgeHaematocritSolver)
    (haematocrit : ℚ) : BetteridgeHaematocritSolver :=
  { solver with mHaematocrit := haematocrit }

/-- A flow-conserving bifurcation with a narrow fast branch: vessel 0 runs from the input
node 0 to node 1 with flow 5 and feeds vessel 1 (flow 1, radius 1) and vessel 2 (flow 4,
radius 6); every vessel holds haematocrit 1/2 before the call. -/
def skimmingNetwork : VesselNetwork :=
  ⟨3, fun i =>
      if i = 0 then ⟨0, 1, 5, 3, [1 / 2]⟩
      else if i = 1 then ⟨1, 2, 1, 1, [1 / 2]⟩
      else ⟨1, 3, 4, 6, [1 / 2]⟩,
    fun p => decide (p = 0),
    fun p => if p = 0 then [0] else if p = 1 then [0, 1, 2] else if p = 2 then [1]
      else if p = 3 then [2] else []⟩

/-! ## Where the quotients of the splitting rule are quotients

The embedding computes in the rationals, where a quotient by zero is zero; the source
computes in doubles, where it is an infinity or not a number.  The two agree, up to
rounding, where no divisor is zero. -/

/-- Every divisor in the splitting rule (lines 185 to 204) is non-zero: the flow of the
vessel, the two cross sections, the velocity the other velocity is divided by, `1 + term` in
the branch of the faster vessel, and `denom`. -/
def splittingRuleDefined (flow_rate competitor0_flow_rate my_radius competitor_radius
    parentHaematocrit : ℚ) : Prop :=
  flow_rate ≠ 0 ∧ competitor0_flow_rate ≠ 0 ∧ my_radius ≠ 0 ∧ competitor_radius ≠ 0 ∧
  (if |flow_rate| / (M_PI * my_radius * my_radius) ≥
      |competitor0_flow_rate| / (M_PI * competitor_radius * competitor_radius) then
    1 + (1 - parentHaematocrit) * (|flow_rate| / (M_PI * my_radius * my_radius) /
      (|competitor0_flow_rate| / (M_PI * competitor_radius * competitor_radius)) - 1) ≠ 0 ∧
    1 + |competitor0_flow_rate| / |flow_rate| * (1 / (1 + (1 - parentHaematocrit) *
      (|flow_rate| / (M_PI * my_radius * my_radius) /
        (|competitor0_flow_rate| / (M_PI * competitor_radius * competitor_radius)) - 1))) ≠ 0
  else
    1 + |competitor0_flow_rate| / |flow_rate| * (1 + (1 - parentHaematocrit) *
      (|competitor0_flow_rate| / (M_PI * competitor_radius * competitor_radius) /
        (|flow_rate| / (M_PI * my_radius * my_radius)) - 1)) ≠ 0)

instance (a b c d e : ℚ) : Decidable (splittingRuleDefined a b c d e) := by
  unfold splittingRuleDefined
  infer_instance

/-! ## Lemmas on the connectivity checks -/

theorem orderBroken_eq_false_iff (segs : List VesselSegment) :
    orderBroken segs = false ↔ AdjacentConnected segs := by
  induction segs with
  | nil => simp [orderBroken, AdjacentConnected]
  | cons a tl ih =>
    cases tl with
    | nil => simp [orderBroken, AdjacentConnected]
    | cons b rest =>
      simp only [orderBroken, Bool.or_eq_false_iff, Bool.not_eq_false', ih]
      constructor
      · rintro ⟨hab, hrest⟩ i hi
        cases i with
        | zero => simpa using hab
        | succ k =>
          have := hrest k (by simpa using hi)
          simpa using this
      · intro h
        refine ⟨by simpa using h 0 (by simp), ?_⟩
        intro k hk
        have := h (k + 1) (by simpa using hk)
        simpa using this

/-- The pairwise check passes exactly when no two segments at index distance two or more are
connected. -/
theorem nonAdjacentConnected_eq_false_iff (segs : List VesselSegment) :
    nonAdjacentConnected segs = false ↔ NonAdjacentDisconnected segs := by
  unfold nonAdjacentConnected NonAdjacentDisconnected
  simp only [List.any_eq_false, List.mem_range, Bool.and_eq_true, bne_iff_ne, ne_eq, not_and,
    Bool.not_eq_true]
  constructor
  · intro h i j hi hj hd
    have := h i hi j hj ⟨⟨by omega, by omega⟩, by omega⟩
    simpa [List.getElem?_eq_getElem hi, List.getElem?_eq_getElem hj] using this
  · intro h i hi j hj hg
    have := h i j hi hj (by omega)
    simpa [List.getElem?_eq_getElem hi, List.getElem?_eq_getElem hj] using this

/-- When the checks of `AddSegments` pass, the segment sequence is the spliced one and both
checks were negative on it. -/
theorem AddSegmentsCheck_ok (v : Vessel) (st : Store) (segments : List VesselSegment)
    (h : (v.AddSegmentsCheck st segments).result = .ok ()) :
    (v.AddSegmentsCheck st segments).vessel.mSegments = v.mSegments ∧
      orderBroken v.mSegments = false ∧ nonAdjacentConnected v.mSegments = false := by
  unfold Vessel.AddSegmentsCheck at h ⊢
  split_ifs at h ⊢ with h1 h2
  simp [Vessel.invalidate, h1, h2]


/-! ## Lemmas on `DivideSegment` -/

theorem identifySegment_inr (geo : Geometry) (st : Store) (location : List ℚ) (tol : ℚ)
    (segs : List VesselSegment) (acc : Option VesselSegment) (r : VesselSegment)
    (h : identifySegment geo st location tol segs acc = .inr (some r)) :
    (r ∈ segs ∧ withinTolerance geo st location tol r = true) ∨ acc = some r := by
  induction segs generalizing acc with
  | nil => right; simpa [identifySegment] using h
  | cons s rest ih =>
    unfold identifySegment at h
    split_ifs at h with h1 h2 h3
    · rcases ih _ h with ⟨hm, hw⟩ | hacc
      · exact Or.inl ⟨List.mem_cons_of_mem _ hm, hw⟩
      · left
        have : s = r := by simpa using hacc
        subst this
        exact ⟨List.mem_cons_self _ _, h1⟩
    · rcases ih _ h with ⟨hm, hw⟩ | hacc
      · exact Or.inl ⟨List.mem_cons_of_mem _ hm, hw⟩
      · exact Or.inr hacc

/-- When no segment within tolerance has an end node coincident with the location, the
identification loop does not return an existing node. -/
theorem identifySegment_ne_inl (geo : Geometry) (st : Store) (location : List ℚ) (tol : ℚ)
    (segs : List VesselSegment) (acc : Option VesselSegment) (n : Nat)
    (hno : ∀ t ∈ segs, withinTolerance geo st location tol t = true →
      geo.isCoincident (st.node t.node0) location = false ∧
        geo.isCoincident (st.node t.node1) location = false) :
    identifySegment geo st location tol segs acc ≠ .inl n := by
  induction segs generalizing acc with
  | nil => simp [identifySegment]
  | cons s rest ih =>
    have hrest : ∀ t ∈ rest, withinTolerance geo st location tol t = true →
        geo.isCoincident (st.node t.node0) location = false ∧
          geo.isCoincident (st.node t.node1) location = false :=
      fun t ht => hno t (List.mem_cons_of_mem _ ht)
    unfold identifySegment
    by_cases h1 : withinTolerance geo st location tol s = true
    · have := hno s (List.mem_cons_self _ _) h1
      simp only [h1, this.1, this.2, if_true, Bool.false_eq_true, if_false]
      exact ih _ hrest
    · simp only [h1, Bool.false_eq_true, if_false]
      exact ih _ hrest

theorem findSegment_append (pre post : List VesselSegment) (x s : VesselSegment)
    (hpre : ∀ t ∈ pre, t.id ≠ s.id) (hx : x.id = s.id) :
    findSegment (pre ++ x :: post) s = pre.length := by
  induction pre with
  | nil => simp [findSegment, List.findIdx_cons, hx]
  | cons a tl ih =>
    have ha : a.id ≠ s.id := hpre a (List.mem_cons_self _ _)
    have := ih (fun t ht => hpre t (List.mem_cons_of_mem _ ht))
    have hb : (a.id == s.id) = false := by simpa using ha
    unfold findSegment at this ⊢
    simp [List.findIdx_cons, hb, this]

/-- When `std::find` does not return `end()`, the sequence splits at the position found into
segments that are not the object sought, the object, and the rest. -/
theorem findSegment_split (segs : List VesselSegment) (s : VesselSegment)
    (h : findSegment segs s ≠ segs.length) :
    ∃ pre x post, segs = pre ++ x :: post ∧ x.id = s.id ∧ (∀ t ∈ pre, t.id ≠ s.id) ∧
      findSegment segs s = pre.length := by
  induction segs with
  | nil => simp [findSegment] at h
  | cons a tl ih =>
    by_cases ha : a.id = s.id
    · exact ⟨[], a, tl, rfl, ha, by simp, by simp [findSegment, List.findIdx_cons, ha]⟩
    · have htl : findSegment tl s ≠ tl.length := by
        intro hc
        apply h
        have hb : (a.id == s.id) = false := by simpa using ha
        unfold findSegment at hc ⊢
        simp [List.findIdx_cons, hb, hc]
      obtain ⟨pre, x, post, hsplit, hx, hpre, _⟩ := ih htl
      refine ⟨a :: pre, x, post, by simp [hsplit], hx, ?_, ?_⟩
      · intro t ht
        rcases List.mem_cons.1 ht with rfl | ht
        · exact ha
        · exact hpre t ht
      · rw [hsplit]
        exact findSegment_append (a :: pre) post x s (by
          intro t ht
          rcases List.mem_cons.1 ht with rfl | ht
          · exact ha
          · exact hpre t ht) hx

theorem orderNewSegments_cases (segs : List VesselSegment) (it : Nat) (a b : VesselSegment)
    (new : List VesselSegment) (h : orderNewSegments segs it a b = some new) :
    new = [a, b] ∨ new = [b, a] := by
  unfold orderNewSegments at h
  split_ifs at h with h1 h2
  · left; simpa using h.symm
  · split at h
    · split_ifs at h
      · left; simpa using h.symm
      · right; simpa using h.symm
    · simp at h
  · split at h
    · split_ifs at h
      · left; simpa using h.symm
      · right; simpa using h.symm
    · simp at h
@[simp] theorem createSplitNode_next (st : Store) (c : Nat) (loc : List ℚ) :
    (st.createSplitNode c loc).next = st.next + 1 := rfl

@[simp] theorem createSplitNode_node (st : Store) (c : Nat) (loc : List ℚ) :
    (st.createSplitNode c loc).node st.next =
      { st.node c with location := loc, isInputNode := false, isOutputNode := false } := by
  simp [Store.createSplitNode]

@[simp] theorem createSegment_fst (st : Store) (n0 n1 : Nat) (src : VesselSegment) :
    (st.createSegment n0 n1 src).1 = ⟨st.next, n0, n1, src.radius⟩ := rfl

@[simp] theorem createSegment_next (st : Store) (n0 n1 : Nat) (src : VesselSegment) :
    (st.createSegment n0 n1 src).2.next = st.next + 1 := rfl

@[simp] theorem createSegment_node (st : Store) (n0 n1 : Nat) (src : VesselSegment) :
    (st.createSegment n0 n1 src).2.node = st.node := rfl

@[simp] theorem removeSegment_node (st : Store) (s : VesselSegment) :
    (st.removeSegment s).node = st.node := rfl

@[simp] theorem AddVesselAll_node (st : Store) (segs : List VesselSegment) (vessel : Nat) :
    (st.AddVesselAll segs vessel).node = st.node := by
  unfold Store.AddVesselAll
  induction segs generalizing st with
  | nil => rfl
  | cons a tl ih => simpa [Store.AddVessel] using ih (st.AddVessel a.id vessel)

/-- What a successful division leaves behind: the new node has the identity `st.next`, the
first occurrence of the divided segment is replaced by the two new segments in one of the
two orders, the result passes the pairwise check, and the new node object is the copy of the
closer end node moved to the location with cleared flags. -/
theorem divideAt_ok (v : Vessel) (geo : Geometry) (st : Store) (location : List ℚ)
    (s : VesselSegment) (m : Nat)
    (hfresh : ∀ t ∈ v.mSegments, t.id < st.next)
    (hok : (v.divideAt geo st location s).result = .ok m) :
    m = st.next ∧
    ∃ pre x post new, v.mSegments = pre ++ x :: post ∧ x.id = s.id ∧
      (∀ t ∈ pre, t.id ≠ s.id) ∧
      (new = [⟨st.next + 1, s.node0, st.next, s.radius⟩, ⟨st.next + 2, st.next, s.node1, s.radius⟩] ∨
        new = [⟨st.next + 2, st.next, s.node1, s.radius⟩, ⟨st.next + 1, s.node0, st.next, s.radius⟩]) ∧
      (v.divideAt geo st location s).vessel.mSegments = pre ++ new ++ post ∧
      nonAdjacentConnected (pre ++ new ++ post) = false ∧
      (v.divideAt geo st location s).store.node st.next =
        { st.node (if geo.nodeDistance (st.node s.node0) location ≤
              geo.nodeDistance (st.node s.node1) location then s.node0 else s.node1) with
          location := location, isInputNode := false, isOutputNode := false } := by
  unfold Vessel.divideAt at hok ⊢
  by_cases hpre : nonAdjacentConnected v.mSegments = true
  · simp [hpre] at hok
  simp only [hpre, Bool.false_eq_true, if_false] at hok ⊢
  simp only [createSegment_fst, createSplitNode_next, createSegment_next] at hok ⊢
  by_cases hit : findSegment v.mSegments s = v.mSegments.length
  · simp [hit] at hok
  simp only [hit, if_false] at hok ⊢
  obtain ⟨pre, x, post, hsplit, hx, hprex, hk⟩ := findSegment_split _ _ hit
  generalize hord : orderNewSegments _ _ _ _ = o at hok ⊢
  cases o with
  | none => simp at hok
  | some new =>
    have hnew := orderNewSegments_cases _ _ _ _ _ hord
    have hlen : new.length = 2 := by rcases hnew with h | h <;> simp [h]
    have hnewid : ∀ t ∈ new, t.id ≠ s.id := by
      have hlt := hfresh x (by simp [hsplit])
      intro t ht
      rcases hnew with h | h <;> simp [h] at ht <;> rcases ht with rfl | rfl <;> simp <;> omega
    have htake : v.mSegments.take (findSegment v.mSegments s) = pre := by
      rw [hk, hsplit]; simp
    have hdrop : v.mSegments.drop (findSegment v.mSegments s) = x :: post := by
      rw [hk, hsplit]; simp
    have hfind2 : findSegment (pre ++ new ++ x :: post) s = pre.length + 2 := by
      have := findSegment_append (pre ++ new) post x s (by
        intro t ht
        rcases List.mem_append.1 ht with h | h
        · exact hprex t h
        · exact hnewid t h) hx
      simpa [hlen] using this
    simp only [htake, hdrop, hfind2] at hok ⊢
    have hne : pre.length + 2 ≠ (pre ++ new ++ x :: post).length := by
      simp [hlen]
    have herase : (pre ++ new ++ x :: post).eraseIdx (pre.length + 2) = pre ++ new ++ post := by
      have h1 : (pre ++ new).length ≤ pre.length + 2 := by simp [hlen]
      rw [List.eraseIdx_append_of_length_le h1]
      simp [hlen]
    simp only [hne, if_false, herase] at hok ⊢
    by_cases hpost : nonAdjacentConnected (pre ++ new ++ post) = true
    · rw [if_pos hpost] at hok
      simp at hok
    rw [if_neg hpost] at hok ⊢
    refine ⟨by simpa using hok.symm, pre, x, post, new, hsplit, hx, hprex, hnew, ?_, ?_, ?_⟩
    · simp [Vessel.invalidate]
    · simpa using hpost
    · simp

/-- In a sequence that passes the pairwise check, a segment is not connected to any segment
two or more places behind it. -/
theorem nonAdjacent_far_of_append (pre post : List VesselSegment) (a b t : VesselSegment)
    (ht : t ∈ post) (h : NonAdjacentDisconnected (pre ++ a :: b :: post)) :
    a.IsConnectedTo t = false := by
  obtain ⟨k, hk, rfl⟩ := List.getElem_of_mem ht
  have hi : pre.length < (pre ++ a :: b :: post).length := by simp
  have hj : pre.length + 2 + k < (pre ++ a :: b :: post).length := by
    simp only [List.length_append, List.length_cons]; omega
  have key := h pre.length (pre.length + 2 + k) hi hj (Or.inl (by omega))
  have e1 : (pre ++ a :: b :: post)[pre.length] = a := by
    rw [List.getElem_append_right (Nat.le_refl _)]
    simp
  have e2 : (pre ++ a :: b :: post)[pre.length + 2 + k] = post[k] := by
    rw [List.getElem_append_right (by omega)]
    have : pre.length + 2 + k - pre.length = k + 2 := by omega
    simp [this]
  rw [e1, e2] at key
  exact key

/-! ## Claims on `AddSegment`, `AddSegments` and the node sequence -/

/-- C1, evaluated at the failing input.  The vessel with segments 0-1, 1-2 has start node 0
and end node 2.  The segment 1-5 contains neither of them and touches the vessel only at
the interior node 1, yet `AddSegment` returns normally and appends it. -/
theorem C1_AddSegment_accepts_interior_node :
    ((exampleVessel [⟨10, 0, 1, 1⟩, ⟨11, 1, 2, 1⟩]).GetStartNode exampleStore).result = .ok 0 ∧
    ((exampleVessel [⟨10, 0, 1, 1⟩, ⟨11, 1, 2, 1⟩]).GetEndNode exampleStore).result = .ok 2 ∧
    VesselSegment.HasNode ⟨12, 1, 5, 1⟩ 0 = false ∧
    VesselSegment.HasNode ⟨12, 1, 5, 1⟩ 2 = false ∧
    ((exampleVessel [⟨10, 0, 1, 1⟩, ⟨11, 1, 2, 1⟩]).AddSegment exampleStore
      ⟨12, 1, 5, 1⟩).result = .ok () ∧
    ((exampleVessel [⟨10, 0, 1, 1⟩, ⟨11, 1, 2, 1⟩]).AddSegment exampleStore
      ⟨12, 1, 5, 1⟩).vessel.mSegments = [⟨10, 0, 1, 1⟩, ⟨11, 1, 2, 1⟩, ⟨12, 1, 5, 1⟩] := by
  refine ⟨by decide, by decide, by decide, by decide, by decide, by decide⟩

/-- C2, evaluated at the failing input.  The vessel with segments 0-1, 1-2 satisfies both
path invariants.  `AddSegment` accepts the segment 2-0, which closes a loop: in the result
the first and the third segment share node 0.  `AddSegments` given the same segment as a
one-element list splices it the same way and then throws from its connectivity check. -/
theorem C2_AddSegment_closes_loop :
    AdjacentConnected [⟨10, 0, 1, 1⟩, ⟨11, 1, 2, 1⟩] ∧
    NonAdjacentDisconnected [⟨10, 0, 1, 1⟩, ⟨11, 1, 2, 1⟩] ∧
    ((exampleVessel [⟨10, 0, 1, 1⟩, ⟨11, 1, 2, 1⟩]).AddSegment exampleStore
      ⟨12, 2, 0, 1⟩).result = .ok () ∧
    ((exampleVessel [⟨10, 0, 1, 1⟩, ⟨11, 1, 2, 1⟩]).AddSegment exampleStore
      ⟨12, 2, 0, 1⟩).vessel.mSegments = [⟨10, 0, 1, 1⟩, ⟨11, 1, 2, 1⟩, ⟨12, 2, 0, 1⟩] ∧
    ¬ NonAdjacentDisconnected ((exampleVessel [⟨10, 0, 1, 1⟩, ⟨11, 1, 2, 1⟩]).AddSegment
      exampleStore ⟨12, 2, 0, 1⟩).vessel.mSegments ∧
    ((exampleVessel [⟨10, 0, 1, 1⟩, ⟨11, 1, 2, 1⟩]).AddSegments exampleStore
      [⟨12, 2, 0, 1⟩]).result =
        .exception "Input vessel segments are not correctly connected." := by
  refine ⟨(orderBroken_eq_false_iff _).1 (by decide),
    (nonAdjacentConnected_eq_false_iff _).1 (by decide), by decide, by decide, ?_, by decide⟩
  rw [← nonAdjacentConnected_eq_false_iff]
  decide

/-- C3.  When `AddSegments` returns normally on a non-empty vessel `V` and a non-empty list
`S`, the new sequence is `V ++ S` if the first of `S` is connected to the last of `V`,
otherwise `S ++ V` if the last of `S` is connected to the first of `V`, otherwise
`reverse S ++ V` if the first of `S` is connected to the first of `V`, otherwise
`V ++ reverse S`, and in that last case the last of `S` is connected to the last of `V`.
The result has `|V| + |S|` segments and contains `V` as a contiguous block. -/
theorem C3_AddSegments_splice (v : Vessel) (st : Store) (S : List VesselSegment)
    (hV : v.mSegments ≠ []) (hS : S ≠ [])
    (hok : (v.AddSegments st S).result = .ok ()) :
    (v.AddSegments st S).vessel.mSegments =
        (if (S.head hS).IsConnectedTo (v.mSegments.getLast hV) then v.mSegments ++ S
         else if (S.getLast hS).IsConnectedTo (v.mSegments.head hV) then S ++ v.mSegments
         else if (S.head hS).IsConnectedTo (v.mSegments.head hV) then S.reverse ++ v.mSegments
         else v.mSegments ++ S.reverse) ∧
      ((S.head hS).IsConnectedTo (v.mSegments.getLast hV) = false →
        (S.getLast hS).IsConnectedTo (v.mSegments.head hV) = false →
        (S.head hS).IsConnectedTo (v.mSegments.head hV) = false →
        (S.getLast hS).IsConnectedTo (v.mSegments.getLast hV) = true) ∧
      (v.AddSegments st S).vessel.mSegments.length = v.mSegments.length + S.length ∧
      v.mSegments <:+: (v.AddSegments st S).vessel.mSegments := by
  unfold Vessel.AddSegments at hok ⊢
  rw [List.head?_eq_head hS, List.getLast?_eq_getLast _ hS, List.head?_eq_head hV,
    List.getLast?_eq_getLast _ hV] at hok ⊢
  simp only at hok ⊢
  split_ifs at hok ⊢ with h1 h2 h3 h4
  · have := (AddSegmentsCheck_ok _ st _ hok).1
    simp only [this]
    refine ⟨trivial, ?_, by simp, ⟨[], S, by simp⟩⟩
    intro h; simp [h1] at h
  · have := (AddSegmentsCheck_ok _ st _ hok).1
    simp only [this]
    refine ⟨trivial, ?_, by simp [Nat.add_comm], ⟨S, [], by simp⟩⟩
    intro _ h; simp [h2] at h
  · have := (AddSegmentsCheck_ok _ st _ hok).1
    simp only [this]
    refine ⟨trivial, ?_, by simp [Nat.add_comm], ⟨S.reverse, [], by simp⟩⟩
    intro _ _ h; simp [h3] at h
  · have := (AddSegmentsCheck_ok _ st _ hok).1
    simp only [this]
    refine ⟨trivial, ?_, by simp, ⟨[], S.reverse, by simp⟩⟩
    intro _ _ _; exact h4

/-- C3 at a concrete input: the chain 1-0, 0-9 handed to the vessel 1-2, 2-3 meets it start
to start, so it is reversed and put in front. -/
theorem C3_AddSegments_splice_witness :
    ((exampleVessel [⟨10, 1, 2, 1⟩, ⟨11, 2, 3, 1⟩]).AddSegments exampleStore
        [⟨20, 1, 0, 1⟩, ⟨21, 0, 9, 1⟩]).result = .ok () ∧
    ((exampleVessel [⟨10, 1, 2, 1⟩, ⟨11, 2, 3, 1⟩]).AddSegments exampleStore
        [⟨20, 1, 0, 1⟩, ⟨21, 0, 9, 1⟩]).vessel.mSegments =
      [⟨21, 0, 9, 1⟩, ⟨20, 1, 0, 1⟩, ⟨10, 1, 2, 1⟩, ⟨11, 2, 3, 1⟩] :=
  ⟨by decide,
    (C3_AddSegments_splice (exampleVessel [⟨10, 1, 2, 1⟩, ⟨11, 2, 3, 1⟩]) exampleStore
      [⟨20, 1, 0, 1⟩, ⟨21, 0, 9, 1⟩] (by decide) (by decide) (by decide)).1.trans (by decide)⟩

/-- C5, evaluated at the failing input.  The segments 1-0, 1-2 satisfy both path
invariants, the first segment being held with its free end as node 1.  `UpdateNodes` pushes
no node for the first segment and then reads `mNodes[1]` of an empty vector, so neither
`GetNodes` nor `GetNumberOfNodes` delivers a result; with the first segment held as 0-1 the
same vessel yields the three nodes 0, 1, 2. -/
theorem C5_GetNodes_reversed_first_segment :
    AdjacentConnected [⟨10, 1, 0, 1⟩, ⟨11, 1, 2, 1⟩] ∧
    NonAdjacentDisconnected [⟨10, 1, 0, 1⟩, ⟨11, 1, 2, 1⟩] ∧
    rebuildNodes [⟨10, 1, 0, 1⟩, ⟨11, 1, 2, 1⟩] = none ∧
    ((exampleVessel [⟨10, 1, 0, 1⟩, ⟨11, 1, 2, 1⟩]).GetNodes exampleStore).result =
      .undefined ∧
    ((exampleVessel [⟨10, 1, 0, 1⟩, ⟨11, 1, 2, 1⟩]).GetNumberOfNodes exampleStore).result =
      .undefined ∧
    ((exampleVessel [⟨10, 0, 1, 1⟩, ⟨11, 1, 2, 1⟩]).GetNodes exampleStore).result =
      .ok [0, 1, 2] := by
  refine ⟨(orderBroken_eq_false_iff _).1 (by decide),
    (nonAdjacentConnected_eq_false_iff _).1 (by decide), by decide, by decide, by decide,
    by decide⟩

/-! ## Claim on `DivideSegment` -/

/-- C4.  Let every segment of the vessel and every node of its segments have an identity
already handed out by the store, and let equal identities mean equal segments.  If no
segment within tolerance has an end node coincident with the location and `DivideSegment`
returns the node `m`, then a segment `s` within tolerance is replaced at its position by two
consecutive segments `a`, `b`, one joining node 0 of `s` to `m` and the other joining `m` to
node 1 of `s`; the segments before and after `s` keep their places, the vessel has one more
segment, `s` appears nowhere in the result, `a` and `b` are segments the vessel did not
hold, `m` is a node of none of the old segments, and the node object `m` sits at the
location with cleared input and output flags. -/
theorem C4_DivideSegment_split (v : Vessel) (geo : Geometry) (st : Store)
    (location : List ℚ) (distanceTolerance : ℚ) (m : Nat)
    (hsegIds : ∀ t ∈ v.mSegments, t.id < st.next)
    (hnodeIds : ∀ t ∈ v.mSegments, t.node0 < st.next ∧ t.node1 < st.next)
    (hident : ∀ a ∈ v.mSegments, ∀ b ∈ v.mSegments, a.id = b.id → a = b)
    (hnoend : ∀ t ∈ v.mSegments, withinTolerance geo st location distanceTolerance t = true →
      geo.isCoincident (st.node t.node0) location = false ∧
        geo.isCoincident (st.node t.node1) location = false)
    (hok : (v.DivideSegment geo st location distanceTolerance).result = .ok m) :
    ∃ pre s post a b,
      v.mSegments = pre ++ s :: post ∧
      withinTolerance geo st location distanceTolerance s = true ∧
      (v.DivideSegment geo st location distanceTolerance).vessel.mSegments =
        pre ++ a :: b :: post ∧
      ((a.node0 = s.node0 ∧ a.node1 = m ∧ b.node0 = m ∧ b.node1 = s.node1) ∨
        (b.node0 = s.node0 ∧ b.node1 = m ∧ a.node0 = m ∧ a.node1 = s.node1)) ∧
      (v.DivideSegment geo st location distanceTolerance).vessel.mSegments.length =
        v.mSegments.length + 1 ∧
      (∀ t ∈ (v.DivideSegment geo st location distanceTolerance).vessel.mSegments,
        t.id ≠ s.id) ∧
      (∀ t ∈ v.mSegments, t.id ≠ a.id ∧ t.id ≠ b.id) ∧
      (∀ t ∈ v.mSegments, t.node0 ≠ m ∧ t.node1 ≠ m) ∧
      ((v.DivideSegment geo st location distanceTolerance).store.node m).location = location ∧
      ((v.DivideSegment geo st location distanceTolerance).store.node m).isInputNode = false ∧
      ((v.DivideSegment geo st location distanceTolerance).store.node m).isOutputNode = false := by
  unfold Vessel.DivideSegment at hok ⊢
  cases hid : identifySegment geo st location distanceTolerance v.mSegments none with
  | inl n => exact absurd hid (identifySegment_ne_inl _ _ _ _ _ _ _ hnoend)
  | inr found =>
    cases found with
    | none => simp [hid] at hok
    | some s =>
      simp only [hid] at hok ⊢
      have hs : s ∈ v.mSegments ∧ withinTolerance geo st location distanceTolerance s = true := by
        rcases identifySegment_inr _ _ _ _ _ _ _ hid with h | h
        · exact h
        · simp at h
      obtain ⟨hm, pre, x, post, new, hsplit, hx, hprex, hnew, hres, hpost, hnode⟩ :=
        divideAt_ok v geo st location s m hsegIds hok
      have hxs : x = s := hident x (by simp [hsplit]) s hs.1 hx
      subst hxs
      subst hm
      have hlt := hsegIds x hs.1
      have hpostx : ∀ t ∈ post, t.id ≠ x.id := by
        intro t ht hte
        have htx : t = x := hident t (by simp [hsplit, ht]) x hs.1 hte
        subst htx
        rw [nonAdjacentConnected_eq_false_iff] at hpost
        rcases hnew with h | h
        · subst h
          have := nonAdjacent_far_of_append pre post _ _ t ht (by simpa using hpost)
          simp [VesselSegment.IsConnectedTo] at this
        · subst h
          have := nonAdjacent_far_of_append pre post _ _ t ht (by simpa using hpost)
          simp [VesselSegment.IsConnectedTo] at this
      have hnodes : ∀ t ∈ v.mSegments, t.node0 ≠ st.next ∧ t.node1 ≠ st.next := by
        intro t ht
        have := hnodeIds t ht
        omega
      rcases hnew with h | h
      · subst h
        refine ⟨pre, x, post, (⟨st.next + 1, x.node0, st.next, x.radius⟩ : VesselSegment),
          (⟨st.next + 2, st.next, x.node1, x.radius⟩ : VesselSegment), hsplit, hs.2,
          by simpa using hres, Or.inl ⟨rfl, rfl, rfl, rfl⟩,
          by simp [hres, hsplit]; omega, ?_, ?_, hnodes, by simp [hnode], by simp [hnode],
          by simp [hnode]⟩
        · intro t ht
          rw [hres] at ht
          simp only [List.mem_append, List.mem_cons, List.mem_singleton, List.not_mem_nil,
            or_false] at ht
          rcases ht with (h | h | h) | h
          · exact hprex t h
          · subst h; simp; omega
          · subst h; simp; omega
          · exact hpostx t h
        · intro t ht
          have := hsegIds t ht
          constructor <;> simp <;> omega
      · subst h
        refine ⟨pre, x, post, (⟨st.next + 2, st.next, x.node1, x.radius⟩ : VesselSegment),
          (⟨st.next + 1, x.node0, st.next, x.radius⟩ : VesselSegment), hsplit, hs.2,
          by simpa using hres, Or.inr ⟨rfl, rfl, rfl, rfl⟩,
          by simp [hres, hsplit]; omega, ?_, ?_, hnodes, by simp [hnode], by simp [hnode],
          by simp [hnode]⟩
        · intro t ht
          rw [hres] at ht
          simp only [List.mem_append, List.mem_cons, List.mem_singleton, List.not_mem_nil,
            or_false] at ht
          rcases ht with (h | h | h) | h
          · exact hprex t h
          · subst h; simp; omega
          · subst h; simp; omega
          · exact hpostx t h
        · intro t ht
          have := hsegIds t ht
          constructor <;> simp <;> omega

/-- C4 at a concrete input: on the line store, whose node 0 is an input node, dividing the
vessel 0-2, 2-4 at coordinate 1 copies node 0 and yields 0-100, 100-2, 2-4. -/
theorem C4_DivideSegment_split_witness :
    ((exampleVessel [⟨10, 0, 2, 1⟩, ⟨11, 2, 4, 1⟩]).DivideSegment exampleGeometry lineStore
        [1] (1 / 2)).result = .ok 100 ∧
    ((exampleVessel [⟨10, 0, 2, 1⟩, ⟨11, 2, 4, 1⟩]).DivideSegment exampleGeometry lineStore
        [1] (1 / 2)).vessel.mSegments = [⟨101, 0, 100, 1⟩, ⟨102, 100, 2, 1⟩, ⟨11, 2, 4, 1⟩] ∧
    ∃ pre s post a b,
      (exampleVessel [⟨10, 0, 2, 1⟩, ⟨11, 2, 4, 1⟩]).mSegments = pre ++ s :: post ∧
      withinTolerance exampleGeometry lineStore [1] (1 / 2) s = true ∧
      ((exampleVessel [⟨10, 0, 2, 1⟩, ⟨11, 2, 4, 1⟩]).DivideSegment exampleGeometry lineStore
        [1] (1 / 2)).vessel.mSegments = pre ++ a :: b :: post ∧
      ((a.node0 = s.node0 ∧ a.node1 = 100 ∧ b.node0 = 100 ∧ b.node1 = s.node1) ∨
        (b.node0 = s.node0 ∧ b.node1 = 100 ∧ a.node0 = 100 ∧ a.node1 = s.node1)) ∧
      ((exampleVessel [⟨10, 0, 2, 1⟩, ⟨11, 2, 4, 1⟩]).DivideSegment exampleGeometry lineStore
        [1] (1 / 2)).vessel.mSegments.length =
        (exampleVessel [⟨10, 0, 2, 1⟩, ⟨11, 2, 4, 1⟩]).mSegments.length + 1 ∧
      (∀ t ∈ ((exampleVessel [⟨10, 0, 2, 1⟩, ⟨11, 2, 4, 1⟩]).DivideSegment exampleGeometry
        lineStore [1] (1 / 2)).vessel.mSegments, t.id ≠ s.id) ∧
      (∀ t ∈ (exampleVessel [⟨10, 0, 2, 1⟩, ⟨11, 2, 4, 1⟩]).mSegments,
        t.id ≠ a.id ∧ t.id ≠ b.id) ∧
      (∀ t ∈ (exampleVessel [⟨10, 0, 2, 1⟩, ⟨11, 2, 4, 1⟩]).mSegments,
        t.node0 ≠ 100 ∧ t.node1 ≠ 100) ∧
      (((exampleVessel [⟨10, 0, 2, 1⟩, ⟨11, 2, 4, 1⟩]).DivideSegment exampleGeometry lineStore
        [1] (1 / 2)).store.node 100).location = [1] ∧
      (((exampleVessel [⟨10, 0, 2, 1⟩, ⟨11, 2, 4, 1⟩]).DivideSegment exampleGeometry lineStore
        [1] (1 / 2)).store.node 100).isInputNode = false ∧
      (((exampleVessel [⟨10, 0, 2, 1⟩, ⟨11, 2, 4, 1⟩]).DivideSegment exampleGeometry lineStore
        [1] (1 / 2)).store.node 100).isOutputNode = false :=
  ⟨by decide!, by decide!,
    C4_DivideSegment_split (exampleVessel [⟨10, 0, 2, 1⟩, ⟨11, 2, 4, 1⟩]) exampleGeometry
      lineStore [1] (1 / 2) 100 (by decide) (by decide) (by decide) (by decide!) (by decide!)⟩

/-! ## What `AddSegment` and `UpdateNodes` do in general -/

/-- On a single-segment vessel `AddSegment` returns normally exactly when the new segment
contains node 0 or node 1 of that segment, the two end nodes of the vessel. -/
theorem AddSegment_single_ok_iff (v : Vessel) (st : Store) (s0 pSegment : VesselSegment)
    (hv : v.mSegments = [s0]) :
    (v.AddSegment st pSegment).result = .ok () ↔
      pSegment.HasNode s0.node0 = true ∨ pSegment.HasNode s0.node1 = true := by
  unfold Vessel.AddSegment
  rw [hv]
  simp only [VesselSegment.HasNode, Bool.or_eq_true, beq_iff_eq]
  split_ifs with h1 h2 h3 h4
  · simp [h1]
  · simp [h2]
  · simp [h3]
  · simp [h4]
  · constructor
    · intro h; simp at h
    · rintro ((h | h) | (h | h))
      · exact absurd h.symm h1
      · exact absurd h.symm h2
      · exact absurd h.symm h3
      · exact absurd h.symm h4

/-- On a vessel of two or more segments `AddSegment` returns normally exactly when the new
segment is connected to the last or to the first segment, at whichever of their nodes. -/
theorem AddSegment_multi_ok_iff (v : Vessel) (st : Store) (a b : VesselSegment)
    (rest : List VesselSegment) (pSegment : VesselSegment) (hv : v.mSegments = a :: b :: rest) :
    (v.AddSegment st pSegment).result = .ok () ↔
      pSegment.IsConnectedTo ((a :: b :: rest).getLast (by simp)) = true ∨
        pSegment.IsConnectedTo a = true := by
  unfold Vessel.AddSegment
  rw [hv]
  simp only [List.getLast?_eq_getLast _ (List.cons_ne_nil a (b :: rest)), List.head?_cons]
  have hlast : (a :: b :: rest).getLast (by simp) = (b :: rest).getLast (by simp) :=
    List.getLast_cons (by simp)
  split_ifs with h1 h2
  · exact ⟨fun _ => Or.inl h1, fun _ => rfl⟩
  · exact ⟨fun _ => Or.inr h2, fun _ => rfl⟩
  · constructor
    · intro h; simp at h
    · rintro (h | h)
      · exact absurd h h1
      · exact absurd h h2

/-- Every pass of the loop of `UpdateNodes` that completes adds one node. -/
theorem updateNodesLoop_length (segs : List VesselSegment) (idx : Nat) (mNodes nodes : List Nat)
    (h : updateNodesLoop segs idx mNodes = some nodes) :
    nodes.length = mNodes.length + segs.length := by
  induction segs generalizing idx mNodes with
  | nil =>
    simp only [updateNodesLoop, Option.some.injEq] at h
    simp [h]
  | cons s rest ih =>
    unfold updateNodesLoop at h
    split at h
    · simp at h
    · have := ih _ _ h
      rw [this]
      simp only [List.length_append, List.length_cons, List.length_nil]
      omega

/-- Entered with `idx + 1` nodes, the loop of `UpdateNodes` never reads out of range. -/
theorem updateNodesLoop_isSome (segs : List VesselSegment) (idx : Nat) (mNodes : List Nat)
    (h : mNodes.length = idx + 1) : (updateNodesLoop segs idx mNodes).isSome = true := by
  induction segs generalizing idx mNodes with
  | nil => simp [updateNodesLoop]
  | cons s rest ih =>
    unfold updateNodesLoop
    have hlt : idx < mNodes.length := by omega
    rw [List.getElem?_eq_getElem hlt]
    exact ih (idx + 1) _ (by simp [h])

/-- Whenever `UpdateNodes` completes without an out-of-range read, the node sequence has
one node more than the vessel has segments. -/
theorem rebuildNodes_length (segs : List VesselSegment) (nodes : List Nat)
    (h : rebuildNodes segs = some nodes) : nodes.length = segs.length + 1 := by
  match segs, h with
  | [s], h =>
    simp only [rebuildNodes, Option.some.injEq] at h
    simp [← h]
  | s0 :: s1 :: rest, h =>
    unfold rebuildNodes at h
    simp only at h
    by_cases h1 : s1.HasNode s0.node1 = true
    · simp only [h1, if_true] at h
      have := updateNodesLoop_length _ _ _ _ h
      rw [this]
      simp only [List.length_cons, List.length_nil]
      omega
    · simp only [h1, Bool.false_eq_true, if_false] at h
      unfold updateNodesLoop at h
      simp at h

/-- On two or more segments `UpdateNodes` reads out of range exactly when node 1 of the
first segment is not a node of the second segment. -/
theorem rebuildNodes_eq_none_iff (s0 s1 : VesselSegment) (rest : List VesselSegment) :
    rebuildNodes (s0 :: s1 :: rest) = none ↔ s1.HasNode s0.node1 = false := by
  unfold rebuildNodes
  simp only
  by_cases h1 : s1.HasNode s0.node1 = true
  · simp only [h1, if_true, Bool.true_eq_false, iff_false]
    have := updateNodesLoop_isSome (s1 :: rest) 1 [s0.node0, s0.node1] rfl
    intro hnone
    rw [hnone] at this
    simp at this
  · simp only [h1, Bool.false_eq_true, if_false]
    unfold updateNodesLoop
    simp [h1]

/-- The four orientations of `AddSegments` on the vessel 1-2, 2-3: a chain meeting its end
is appended, one meeting its start is put in front, and chains given in reverse order are
reversed first. -/
theorem AddSegments_four_orientations :
    ((exampleVessel [⟨10, 1, 2, 1⟩, ⟨11, 2, 3, 1⟩]).AddSegments exampleStore
        [⟨20, 3, 4, 1⟩, ⟨21, 4, 5, 1⟩]).vessel.mSegments =
      [⟨10, 1, 2, 1⟩, ⟨11, 2, 3, 1⟩, ⟨20, 3, 4, 1⟩, ⟨21, 4, 5, 1⟩] ∧
    ((exampleVessel [⟨10, 1, 2, 1⟩, ⟨11, 2, 3, 1⟩]).AddSegments exampleStore
        [⟨21, 9, 0, 1⟩, ⟨20, 0, 1, 1⟩]).vessel.mSegments =
      [⟨21, 9, 0, 1⟩, ⟨20, 0, 1, 1⟩, ⟨10, 1, 2, 1⟩, ⟨11, 2, 3, 1⟩] ∧
    ((exampleVessel [⟨10, 1, 2, 1⟩, ⟨11, 2, 3, 1⟩]).AddSegments exampleStore
        [⟨20, 1, 0, 1⟩, ⟨21, 0, 9, 1⟩]).vessel.mSegments =
      [⟨21, 0, 9, 1⟩, ⟨20, 1, 0, 1⟩, ⟨10, 1, 2, 1⟩, ⟨11, 2, 3, 1⟩] ∧
    ((exampleVessel [⟨10, 1, 2, 1⟩, ⟨11, 2, 3, 1⟩]).AddSegments exampleStore
        [⟨21, 5, 4, 1⟩, ⟨20, 4, 3, 1⟩]).vessel.mSegments =
      [⟨10, 1, 2, 1⟩, ⟨11, 2, 3, 1⟩, ⟨20, 4, 3, 1⟩, ⟨21, 5, 4, 1⟩] := by
  refine ⟨by decide, by decide, by decide, by decide⟩

/-! ## Lemmas on the setup phase of `Calculate` -/

theorem foldl_SetMatrixElement_frame (row : Nat) (f : Nat → ℚ) (ws : List Nat)
    (ls : LinearSystem) :
    (ws.foldl (fun acc w => acc.SetMatrixElement row w (f w)) ls).size = ls.size ∧
    (ws.foldl (fun acc w => acc.SetMatrixElement row w (f w)) ls).rhs = ls.rhs ∧
    (∀ r c, r ≠ row →
      (ws.foldl (fun acc w => acc.SetMatrixElement row w (f w)) ls).lhs r c = ls.lhs r c) ∧
    (∀ c, c ∉ ws →
      (ws.foldl (fun acc w => acc.SetMatrixElement row w (f w)) ls).lhs row c = ls.lhs row c) ∧
    (∀ c, c ∈ ws →
      (ws.foldl (fun acc w => acc.SetMatrixElement row w (f w)) ls).lhs row c = f c) := by
  induction ws generalizing ls with
  | nil => simp
  | cons w tl ih =>
    simp only [List.foldl_cons]
    obtain ⟨h1, h2, h3, h4, h5⟩ := ih (ls.SetMatrixElement row w (f w))
    refine ⟨by rw [h1]; rfl, by rw [h2]; rfl, ?_, ?_, ?_⟩
    · intro r c hr
      rw [h3 r c hr]
      simp [LinearSystem.SetMatrixElement, hr]
    · intro c hc
      simp only [List.mem_cons, not_or] at hc
      rw [h4 c hc.2]
      simp [LinearSystem.SetMatrixElement, hc.1]
    · intro c hc
      by_cases hct : c ∈ tl
      · exact h5 c hct
      · have hcw : c = w := by
          rcases List.mem_cons.1 hc with h | h
          · exact h
          · exact absurd h hct
        rw [h4 c hct]
        simp [LinearSystem.SetMatrixElement, hcw]

theorem convergingRow_frame (net : VesselNetwork) (idx : Nat) (ws : List Nat)
    (ls : LinearSystem) :
    (convergingRow net idx ws ls).size = ls.size ∧
    (convergingRow net idx ws ls).rhs = ls.rhs ∧
    (∀ r c, r ≠ idx → (convergingRow net idx ws ls).lhs r c = ls.lhs r c) ∧
    (∀ c, c ∉ ws → (convergingRow net idx ws ls).lhs idx c = ls.lhs idx c) ∧
    (∀ c, c ∈ ws → (convergingRow net idx ws ls).lhs idx c =
      -|(net.vessel c).flowRate / (net.vessel idx).flowRate|) :=
  foldl_SetMatrixElement_frame idx
    (fun w => -|(net.vessel w).flowRate / (net.vessel idx).flowRate|) ws ls

theorem bifurcationRow_frame (solver : BetteridgeHaematocritSolver) (ext : Collaborators)
    (idx : Nat) (ls : LinearSystem) (upd : List (Nat × Nat × Nat)) (ps cs : List Nat)
    (ls1 : LinearSystem) (upd1 : List (Nat × Nat × Nat))
    (h : bifurcationRow solver ext idx ls upd ps cs = .ok (ls1, upd1)) :
    ∃ p c, ps = [p] ∧ cs = [c] ∧ upd1 = upd ++ [(idx, p, c)] ∧
      ls1 = ls.SetMatrixElement idx p
        (setupCoefficient (solver.mpNetwork.vessel idx).flowRate
          (solver.mpNetwork.vessel c).flowRate (solver.mpNetwork.vessel p).flowRate
          (solver.mpNetwork.vessel idx).radius (solver.mpNetwork.vessel c).radius
          (vesselHaematocrit ext solver.mpNetwork p)) := by
  unfold bifurcationRow at h
  simp only at h
  by_cases hg : (decide (cs.length > 1) || decide (ps.length > 1)) = true
  · simp [hg] at h
  · rw [if_neg hg] at h
    simp only [Bool.or_eq_true, decide_eq_true_eq, not_or, not_lt] at hg
    cases cs with
    | nil => simp at h
    | cons c ctl =>
      cases ps with
      | nil => simp at h
      | cons p ptl =>
        have hc : ctl = [] := by
          have := hg.1; simp at this; exact this
        have hp : ptl = [] := by
          have := hg.2; simp at this; exact this
        subst hc hp
        simp only [Result.ok.injEq, Prod.mk.injEq] at h
        exact ⟨p, c, rfl, rfl, h.2.symm, h.1.symm⟩

/-- The pass of setup for vessel `idx` keeps the size of the system and every row other than
`idx`. -/
theorem setupRow_frame (solver : BetteridgeHaematocritSolver) (ext : Collaborators) (idx : Nat)
    (ls : LinearSystem) (upd : List (Nat × Nat × Nat)) (ls1 : LinearSystem)
    (upd1 : List (Nat × Nat × Nat)) (h : setupRow solver ext idx ls upd = .ok (ls1, upd1)) :
    ls1.size = ls.size ∧
    (∀ r, r ≠ idx → (∀ c, ls1.lhs r c = ls.lhs r c) ∧ ls1.rhs r = ls.rhs r) := by
  unfold setupRow at h
  simp only at h
  by_cases h1 : touchesInput solver.mpNetwork idx = true
  · rw [if_pos h1] at h
    simp only [Result.ok.injEq, Prod.mk.injEq] at h
    rw [← h.1]
    refine ⟨rfl, fun r hr => ⟨fun c => ?_, ?_⟩⟩ <;>
      simp [LinearSystem.SetMatrixElement, LinearSystem.SetRhsVectorElement, hr]
  rw [if_neg h1] at h
  by_cases h2 : (solver.mpNetwork.vessel idx).flowRate = 0
  · rw [if_pos h2] at h
    simp only [Result.ok.injEq, Prod.mk.injEq] at h
    rw [← h.1]
    refine ⟨rfl, fun r hr => ⟨fun c => ?_, ?_⟩⟩ <;>
      simp [LinearSystem.SetMatrixElement, LinearSystem.SetRhsVectorElement, hr]
  rw [if_neg h2] at h
  by_cases h3 : (solver.mpNetwork.nodeSegments (inflowNode solver.mpNetwork idx)).length > 1
  · rw [if_pos h3] at h
    by_cases h4 : isConverging solver.mpNetwork
        (classify solver.mpNetwork idx (inflowNode solver.mpNetwork idx)).2 = true
    · rw [if_pos h4] at h
      simp only [Result.ok.injEq, Prod.mk.injEq] at h
      rw [← h.1]
      obtain ⟨f1, f2, f3, -, -⟩ := convergingRow_frame solver.mpNetwork idx
        (classify solver.mpNetwork idx (inflowNode solver.mpNetwork idx)).1
        (ls.SetMatrixElement idx idx 1)
      refine ⟨by rw [f1]; rfl, fun r hr => ⟨fun c => ?_, ?_⟩⟩
      · rw [f3 r c hr]; simp [LinearSystem.SetMatrixElement, hr]
      · rw [f2]; rfl
    · rw [if_neg h4] at h
      obtain ⟨p, c, -, -, -, hls⟩ := bifurcationRow_frame _ _ _ _ _ _ _ _ _ h
      rw [hls]
      refine ⟨rfl, fun r hr => ⟨fun c => ?_, ?_⟩⟩ <;>
        simp [LinearSystem.SetMatrixElement, hr]
  · rw [if_neg h3] at h
    simp only [Result.ok.injEq, Prod.mk.injEq] at h
    rw [← h.1]
    refine ⟨rfl, fun r hr => ⟨fun c => ?_, ?_⟩⟩ <;>
      simp [LinearSystem.SetMatrixElement, hr]

theorem setupUpTo_succ (solver : BetteridgeHaematocritSolver) (ext : Collaborators) (n : Nat) :
    setupUpTo solver ext (n + 1) = setupStep solver ext (setupUpTo solver ext n) n := by
  simp [setupUpTo, List.range_succ, List.foldl_append]

theorem setupUpTo_ok_of_le (solver : BetteridgeHaematocritSolver) (ext : Collaborators)
    (m n : Nat) (hmn : m ≤ n) (ls : LinearSystem) (upd : List (Nat × Nat × Nat))
    (h : setupUpTo solver ext n = .ok (ls, upd)) :
    ∃ ls0 upd0, setupUpTo solver ext m = .ok (ls0, upd0) := by
  induction n generalizing ls upd with
  | zero =>
    have : m = 0 := by omega
    subst this
    exact ⟨ls, upd, h⟩
  | succ k ih =>
    by_cases hm : m = k + 1
    · subst hm; exact ⟨ls, upd, h⟩
    · rw [setupUpTo_succ] at h
      cases hk : setupUpTo solver ext k with
      | ok p =>
        obtain ⟨a, b⟩ := p
        exact ih (by omega) a b hk
      | exception msg => simp [hk, setupStep] at h
      | undefined => simp [hk, setupStep] at h

/-- The five ways in which the pass of setup for vessel `idx` completes, with the system and
the list of recorded triples each of them produces. -/
theorem setupRow_ok_cases (solver : BetteridgeHaematocritSolver) (ext : Collaborators)
    (idx : Nat) (ls : LinearSystem) (upd : List (Nat × Nat × Nat)) (ls1 : LinearSystem)
    (upd1 : List (Nat × Nat × Nat)) (h : setupRow solver ext idx ls upd = .ok (ls1, upd1)) :
    (touchesInput solver.mpNetwork idx = true ∧ upd1 = upd ∧
      ls1 = (ls.SetMatrixElement idx idx 1).SetRhsVectorElement idx solver.mHaematocrit) ∨
    (touchesInput solver.mpNetwork idx = false ∧ (solver.mpNetwork.vessel idx).flowRate = 0 ∧
      upd1 = upd ∧ ls1 = (ls.SetMatrixElement idx idx 1).SetRhsVectorElement idx 0) ∨
    (touchesInput solver.mpNetwork idx = false ∧ (solver.mpNetwork.vessel idx).flowRate ≠ 0 ∧
      (solver.mpNetwork.nodeSegments (inflowNode solver.mpNetwork idx)).length > 1 ∧
      isConverging solver.mpNetwork
        (classify solver.mpNetwork idx (inflowNode solver.mpNetwork idx)).2 = true ∧
      upd1 = upd ∧
      ls1 = convergingRow solver.mpNetwork idx
        (classify solver.mpNetwork idx (inflowNode solver.mpNetwork idx)).1
        (ls.SetMatrixElement idx idx 1)) ∨
    (touchesInput solver.mpNetwork idx = false ∧ (solver.mpNetwork.vessel idx).flowRate ≠ 0 ∧
      (solver.mpNetwork.nodeSegments (inflowNode solver.mpNetwork idx)).length > 1 ∧
      isConverging solver.mpNetwork
        (classify solver.mpNetwork idx (inflowNode solver.mpNetwork idx)).2 = false ∧
      ∃ p c, classify solver.mpNetwork idx (inflowNode solver.mpNetwork idx) = ([p], [c]) ∧
        upd1 = upd ++ [(idx, p, c)] ∧
        ls1 = (ls.SetMatrixElement idx idx 1).SetMatrixElement idx p
          (setupCoefficient (solver.mpNetwork.vessel idx).flowRate
            (solver.mpNetwork.vessel c).flowRate (solver.mpNetwork.vessel p).flowRate
            (solver.mpNetwork.vessel idx).radius (solver.mpNetwork.vessel c).radius
            (vesselHaematocrit ext solver.mpNetwork p))) ∨
    (touchesInput solver.mpNetwork idx = false ∧ (solver.mpNetwork.vessel idx).flowRate ≠ 0 ∧
      ¬ (solver.mpNetwork.nodeSegments (inflowNode solver.mpNetwork idx)).length > 1 ∧
      upd1 = upd ∧ ls1 = ls.SetMatrixElement idx idx 1) := by
  unfold setupRow at h
  simp only at h
  by_cases h1 : touchesInput solver.mpNetwork idx = true
  · rw [if_pos h1] at h
    simp only [Result.ok.injEq, Prod.mk.injEq] at h
    exact Or.inl ⟨h1, h.2.symm, h.1.symm⟩
  rw [if_neg h1] at h
  have h1f : touchesInput solver.mpNetwork idx = false := by simpa using h1
  by_cases h2 : (solver.mpNetwork.vessel idx).flowRate = 0
  · rw [if_pos h2] at h
    simp only [Result.ok.injEq, Prod.mk.injEq] at h
    exact Or.inr (Or.inl ⟨h1f, h2, h.2.symm, h.1.symm⟩)
  rw [if_neg h2] at h
  by_cases h3 : (solver.mpNetwork.nodeSegments (inflowNode solver.mpNetwork idx)).length > 1
  · rw [if_pos h3] at h
    by_cases h4 : isConverging solver.mpNetwork
        (classify solver.mpNetwork idx (inflowNode solver.mpNetwork idx)).2 = true
    · rw [if_pos h4] at h
      simp only [Result.ok.injEq, Prod.mk.injEq] at h
      exact Or.inr (Or.inr (Or.inl ⟨h1f, h2, h3, h4, h.2.symm, h.1.symm⟩))
    · rw [if_neg h4] at h
      obtain ⟨p, c, hp, hc, hupd, hls⟩ := bifurcationRow_frame _ _ _ _ _ _ _ _ _ h
      refine Or.inr (Or.inr (Or.inr (Or.inl ⟨h1f, h2, h3, by simpa using h4, p, c, ?_, hupd, hls⟩)))
      exact Prod.ext hp hc
  · rw [if_neg h3] at h
    simp only [Result.ok.injEq, Prod.mk.injEq] at h
    exact Or.inr (Or.inr (Or.inr (Or.inr ⟨h1f, h2, h3, h.2.symm, h.1.symm⟩)))

theorem setupRow_recorded (solver : BetteridgeHaematocritSolver) (ext : Collaborators)
    (idx : Nat) (ls : LinearSystem) (upd : List (Nat × Nat × Nat)) (ls1 : LinearSystem)
    (upd1 : List (Nat × Nat × Nat)) (h : setupRow solver ext idx ls upd = .ok (ls1, upd1)) :
    (∀ e ∈ upd, e ∈ upd1) ∧ (∀ e ∈ upd1, e ∈ upd ∨ (e.1 = idx ∧ Recorded solver.mpNetwork e)) := by
  rcases setupRow_ok_cases _ _ _ _ _ _ _ h with
    ⟨-, hu, -⟩ | ⟨-, -, hu, -⟩ | ⟨-, -, -, -, hu, -⟩ | ⟨h1, h2, -, h4, p, c, hcl, hu, -⟩ |
    ⟨-, -, -, hu, -⟩
  · subst hu; exact ⟨fun e he => he, fun e he => Or.inl he⟩
  · subst hu; exact ⟨fun e he => he, fun e he => Or.inl he⟩
  · subst hu; exact ⟨fun e he => he, fun e he => Or.inl he⟩
  · subst hu
    refine ⟨fun e he => List.mem_append_left _ he, fun e he => ?_⟩
    rcases List.mem_append.1 he with he | he
    · exact Or.inl he
    · have : e = (idx, p, c) := by simpa using he
      subst this
      exact Or.inr ⟨rfl, h1, h2, h4, hcl⟩
  · subst hu; exact ⟨fun e he => he, fun e he => Or.inl he⟩

/-- After the first `n` passes of setup the system has one row per vessel, the rows from `n`
on are still zero, and every recorded triple belongs to a vessel below `n` at which the
splitting rule was applied. -/
theorem setupUpTo_inv (solver : BetteridgeHaematocritSolver) (ext : Collaborators) (n : Nat)
    (ls : LinearSystem) (upd : List (Nat × Nat × Nat))
    (h : setupUpTo solver ext n = .ok (ls, upd)) :
    ls.size = solver.mpNetwork.numberOfVessels ∧
    (∀ r, n ≤ r → (∀ c, ls.lhs r c = 0) ∧ ls.rhs r = 0) ∧
    (∀ e ∈ upd, e.1 < n ∧ Recorded solver.mpNetwork e) := by
  induction n generalizing ls upd with
  | zero =>
    simp only [setupUpTo, List.range_zero, List.foldl_nil, Result.ok.injEq, Prod.mk.injEq] at h
    rw [← h.1, ← h.2]
    exact ⟨rfl, fun r _ => ⟨fun c => rfl, rfl⟩, by simp⟩
  | succ k ih =>
    rw [setupUpTo_succ] at h
    cases hk : setupUpTo solver ext k with
    | ok p =>
      obtain ⟨ls0, upd0⟩ := p
      rw [hk] at h
      simp only [setupStep] at h
      obtain ⟨i1, i2, i3⟩ := ih ls0 upd0 hk
      obtain ⟨f1, f2⟩ := setupRow_frame _ _ _ _ _ _ _ h
      obtain ⟨-, g2⟩ := setupRow_recorded _ _ _ _ _ _ _ h
      refine ⟨by rw [f1, i1], fun r hr => ?_, fun e he => ?_⟩
      · obtain ⟨a, b⟩ := f2 r (by omega)
        obtain ⟨a0, b0⟩ := i2 r (by omega)
        exact ⟨fun c => by rw [a c, a0 c], by rw [b, b0]⟩
      · rcases g2 e he with he0 | ⟨he1, he2⟩
        · exact ⟨by have := (i3 e he0).1; omega, (i3 e he0).2⟩
        · exact ⟨by omega, he2⟩
    | exception msg => simp [hk, setupStep] at h
    | undefined => simp [hk, setupStep] at h

/-- Row `i` of the system after `n > i` passes is the row that pass `i` wrote, starting from a
zero row, and the triples recorded by pass `i` are still on the list. -/
theorem setupUpTo_row (solver : BetteridgeHaematocritSolver) (ext : Collaborators) (n i : Nat)
    (hi : i < n) (ls : LinearSystem) (upd : List (Nat × Nat × Nat))
    (h : setupUpTo solver ext n = .ok (ls, upd)) :
    ∃ ls0 upd0 lsi updi, setupUpTo solver ext i = .ok (ls0, upd0) ∧
      setupRow solver ext i ls0 upd0 = .ok (lsi, updi) ∧
      (∀ c, ls0.lhs i c = 0) ∧ ls0.rhs i = 0 ∧
      (∀ c, ls.lhs i c = lsi.lhs i c) ∧ ls.rhs i = lsi.rhs i ∧ (∀ e ∈ updi, e ∈ upd) := by
  induction n generalizing ls upd with
  | zero => omega
  | succ k ih =>
    rw [setupUpTo_succ] at h
    cases hk : setupUpTo solver ext k with
    | ok p =>
      obtain ⟨lsk, updk⟩ := p
      rw [hk] at h
      simp only [setupStep] at h
      by_cases hik : i = k
      · subst hik
        obtain ⟨-, i2, -⟩ := setupUpTo_inv _ _ _ _ _ hk
        exact ⟨lsk, updk, ls, upd, hk, h, (i2 i (Nat.le_refl _)).1, (i2 i (Nat.le_refl _)).2,
          fun c => rfl, rfl, fun e he => he⟩
      · obtain ⟨ls0, upd0, lsi, updi, e1, e2, e3, e4, e5, e6, e7⟩ := ih (by omega) lsk updk hk
        obtain ⟨-, f2⟩ := setupRow_frame _ _ _ _ _ _ _ h
        obtain ⟨g1, -⟩ := setupRow_recorded _ _ _ _ _ _ _ h
        obtain ⟨a, b⟩ := f2 i hik
        exact ⟨ls0, upd0, lsi, updi, e1, e2, e3, e4, fun c => by rw [a c, e5 c], by rw [b, e6],
          fun e he => g1 e (e7 e he)⟩
    | exception msg => simp [hk, setupStep] at h
    | undefined => simp [hk, setupStep] at h

/-! ## Lemmas on the iteration loop of `Calculate` -/

theorem refresh_frame (ext : Collaborators) (net : VesselNetwork)
    (upd : List (Nat × Nat × Nat)) (ls : LinearSystem) :
    (upd.foldl (refreshEntry ext net) ls).size = ls.size ∧
    (upd.foldl (refreshEntry ext net) ls).rhs = ls.rhs ∧
    (∀ r c, (∀ e ∈ upd, ¬ (e.1 = r ∧ e.2.1 = c)) →
      (upd.foldl (refreshEntry ext net) ls).lhs r c = ls.lhs r c) := by
  induction upd generalizing ls with
  | nil => simp
  | cons e tl ih =>
    simp only [List.foldl_cons]
    obtain ⟨h1, h2, h3⟩ := ih (refreshEntry ext net ls e)
    refine ⟨by rw [h1]; rfl, by rw [h2]; rfl, fun r c hrc => ?_⟩
    rw [h3 r c (fun e' he' => hrc e' (List.mem_cons_of_mem _ he'))]
    have := hrc e (List.mem_cons_self _ _)
    simp only [refreshEntry, LinearSystem.SetMatrixElement]
    rw [if_neg]
    rintro ⟨rfl, rfl⟩
    exact this ⟨rfl, rfl⟩

theorem loopBody_solved (ext : Collaborators) (upd : List (Nat × Nat × Nat)) (s : LoopState) :
    (loopBody ext upd s).solved = s.solved ++ [(loopBody ext upd s).linearSystem] := rfl

theorem loopBody_network (ext : Collaborators) (upd : List (Nat × Nat × Nat)) (s : LoopState) :
    (loopBody ext upd s).network =
      assignHaematocrit s.network (ext.Solve (loopBody ext upd s).linearSystem) := rfl

theorem loopBody_iterations (ext : Collaborators) (upd : List (Nat × Nat × Nat))
    (s : LoopState) : (loopBody ext upd s).iterations = s.iterations + 1 := rfl

theorem loopBody_frame (ext : Collaborators) (upd : List (Nat × Nat × Nat)) (s : LoopState) :
    (loopBody ext upd s).linearSystem.size = s.linearSystem.size ∧
    (loopBody ext upd s).linearSystem.rhs = s.linearSystem.rhs ∧
    (∀ r c, (∀ e ∈ upd, ¬ (e.1 = r ∧ e.2.1 = c)) →
      (loopBody ext upd s).linearSystem.lhs r c = s.linearSystem.lhs r c) := by
  unfold loopBody
  simp only
  split_ifs with h
  · exact refresh_frame ext s.network upd s.linearSystem
  · exact ⟨rfl, rfl, fun _ _ _ => rfl⟩

theorem iterate_solved_subset (ext : Collaborators) (upd : List (Nat × Nat × Nat)) (fuel : Nat)
    (s : LoopState) : ∀ ls ∈ s.solved, ls ∈ (iterate ext upd fuel s).state.solved := by
  induction fuel generalizing s with
  | zero =>
    intro ls hls
    unfold iterate
    split_ifs <;> exact hls
  | succ k ih =>
    intro ls hls
    have hs1 : ls ∈ (loopBody ext upd s).solved := by
      rw [loopBody_solved]; exact List.mem_append_left _ hls
    unfold iterate
    simp only
    split_ifs
    · exact hs1
    · exact ih _ ls hs1
    · exact hls

theorem DBL_MAX_gt_tolerance : DBL_MAX > tolerance := by
  unfold DBL_MAX tolerance
  have h : (1 : ℚ) ≤ 2 ^ 971 := one_le_pow₀ (by norm_num)
  have h2 : (1 : ℚ) ≤ 2 ^ 53 - 1 := by norm_num
  have : (1 : ℚ) ≤ (2 ^ 53 - 1) * 2 ^ 971 := by
    calc (1 : ℚ) = 1 * 1 := by norm_num
      _ ≤ (2 ^ 53 - 1) * 2 ^ 971 := mul_le_mul h2 h (by norm_num) (by norm_num)
  have h3 : (1152921504606847 : ℚ) / 1152921504606846976 < 1 := by norm_num
  exact lt_of_lt_of_le h3 this

/-- Once setup has completed, the loop is entered and its first pass always runs. -/
theorem Calculate_eq (solver : BetteridgeHaematocritSolver) (ext : Collaborators)
    (ls0 : LinearSystem) (upd : List (Nat × Nat × Nat)) (h : setup solver ext = .ok (ls0, upd)) :
    solver.Calculate ext =
      iterate ext upd 999 (loopBody ext upd ⟨solver.mpNetwork, ls0, DBL_MAX, 0, []⟩) := by
  unfold BetteridgeHaematocritSolver.Calculate
  rw [h]
  simp only
  have hfuel : max_iterations = 999 + 1 := rfl
  have hc : DBL_MAX > tolerance ∧ 0 < max_iterations :=
    ⟨DBL_MAX_gt_tolerance, by unfold max_iterations; norm_num⟩
  have hne : ¬ (0 + 1 = max_iterations) := by unfold max_iterations; norm_num
  conv_lhs => rw [hfuel, iterate]
  simp only [loopBody_iterations]
  rw [if_pos hc, if_neg hne]

/-- A property of the loop state that every pass preserves holds when the loop is left. -/
theorem iterate_invariant_plain (ext : Collaborators) (upd : List (Nat × Nat × Nat))
    (I : LoopState → Prop) (hbody : ∀ s, I s → I (loopBody ext upd s))
    (fuel : Nat) (s : LoopState) (hs : I s) : I (iterate ext upd fuel s).state := by
  induction fuel generalizing s with
  | zero =>
    unfold iterate
    split_ifs <;> exact hs
  | succ k ih =>
    unfold iterate
    simp only
    split_ifs
    · exact hbody s hs
    · exact ih _ (hbody s hs)
    · exact hs

/-- Every system handed to the solve agrees with the system built by setup in size,
right-hand side and every entry that is not a recorded `(self, parent)` position. -/
theorem Calculate_systems (solver : BetteridgeHaematocritSolver) (ext : Collaborators)
    (ls0 : LinearSystem) (upd : List (Nat × Nat × Nat)) (h : setup solver ext = .ok (ls0, upd)) :
    ∀ ls ∈ (solver.Calculate ext).state.solved, AgreesOffRecorded upd ls0 ls := by
  rw [Calculate_eq solver ext ls0 upd h]
  have hstep : ∀ s : LoopState,
      (AgreesOffRecorded upd ls0 s.linearSystem ∧
        ∀ ls ∈ s.solved, AgreesOffRecorded upd ls0 ls) →
      (AgreesOffRecorded upd ls0 (loopBody ext upd s).linearSystem ∧
        ∀ ls ∈ (loopBody ext upd s).solved, AgreesOffRecorded upd ls0 ls) := by
    intro s hs
    obtain ⟨f1, f2, f3⟩ := loopBody_frame ext upd s
    have hnew : AgreesOffRecorded upd ls0 (loopBody ext upd s).linearSystem :=
      ⟨by rw [f1, hs.1.1], by rw [f2, hs.1.2.1],
        fun r c hrc => by rw [f3 r c hrc, hs.1.2.2 r c hrc]⟩
    refine ⟨hnew, fun ls hls => ?_⟩
    rw [loopBody_solved] at hls
    rcases List.mem_append.1 hls with hl | hl
    · exact hs.2 ls hl
    · have : ls = (loopBody ext upd s).linearSystem := by simpa using hl
      rw [this]; exact hnew
  have h0 : AgreesOffRecorded upd ls0 ls0 ∧
      ∀ ls ∈ ([] : List LinearSystem), AgreesOffRecorded upd ls0 ls :=
    ⟨⟨rfl, rfl, fun _ _ _ => rfl⟩, by simp⟩
  exact (iterate_invariant_plain ext upd _ hstep 999 _
    (hstep ⟨solver.mpNetwork, ls0, DBL_MAX, 0, []⟩ h0)).2

theorem assignHaematocrit_vessel (net : VesselNetwork) (a : Nat → ℚ) (idx : Nat)
    (h : idx < net.numberOfVessels) :
    ((assignHaematocrit net a).vessel idx).segmentHaematocrit =
      List.replicate (net.vessel idx).segmentHaematocrit.length (a idx) := by
  simp [assignHaematocrit, h, List.map_const']

theorem assignHaematocrit_length (net : VesselNetwork) (a : Nat → ℚ) (idx : Nat) :
    ((assignHaematocrit net a).vessel idx).segmentHaematocrit.length =
      (net.vessel idx).segmentHaematocrit.length := by
  unfold assignHaematocrit
  simp only
  split_ifs <;> simp

/-- When `Calculate` is left after setup has completed, every segment of every vessel `idx`
carries component `idx` of the solution of the last system solved. -/
theorem Calculate_written (solver : BetteridgeHaematocritSolver) (ext : Collaborators)
    (ls0 : LinearSystem) (upd : List (Nat × Nat × Nat)) (h : setup solver ext = .ok (ls0, upd)) :
    ∃ lsLast ∈ (solver.Calculate ext).state.solved, ∀ idx, idx < solver.mpNetwork.numberOfVessels →
      ((solver.Calculate ext).state.network.vessel idx).segmentHaematocrit =
        List.replicate (solver.mpNetwork.vessel idx).segmentHaematocrit.length
          (ext.Solve lsLast idx) := by
  rw [Calculate_eq solver ext ls0 upd h]
  have hstep : ∀ s : LoopState,
      (WrittenFromLastSolve ext solver.mpNetwork s) →
      (WrittenFromLastSolve ext solver.mpNetwork (loopBody ext upd s) ∧
        1 ≤ (loopBody ext upd s).iterations) := by
    intro s hs
    refine ⟨⟨hs.1, fun idx => ?_, fun _ => ?_⟩, by rw [loopBody_iterations]; omega⟩
    · rw [loopBody_network, assignHaematocrit_length]; exact hs.2.1 idx
    · refine ⟨(loopBody ext upd s).linearSystem, ?_, fun idx hidx => ?_⟩
      · rw [loopBody_solved]; simp
      · rw [loopBody_network, assignHaematocrit_vessel _ _ _ (by rw [hs.1]; exact hidx),
          hs.2.1 idx]
  have h0 : WrittenFromLastSolve ext solver.mpNetwork ⟨solver.mpNetwork, ls0, DBL_MAX, 0, []⟩ :=
    ⟨rfl, fun _ => rfl, fun h => absurd h (by simp)⟩
  have hfinal := iterate_invariant_plain ext upd
    (fun s => WrittenFromLastSolve ext solver.mpNetwork s ∧ 1 ≤ s.iterations)
    (fun s hs => hstep s hs.1) 999 _ (hstep _ h0)
  exact hfinal.1.2.2 hfinal.2

/-! ## Lemmas on the classification of the vessels at the inflow node -/

theorem classifyStep_mem (net : VesselNetwork) (idx p : Nat) (acc : List Nat × List Nat)
    (w x : Nat) :
    (x ∈ (classifyStep net idx p acc w).1 ↔ x ∈ acc.1 ∨ (x = w ∧ w ≠ idx ∧
      (((net.vessel w).endNode = p ∧ (net.vessel w).flowRate > 0) ∨
        ((net.vessel w).startNode = p ∧ (net.vessel w).flowRate < 0)))) ∧
    (x ∈ (classifyStep net idx p acc w).2 ↔ x ∈ acc.2 ∨ (x = w ∧ w ≠ idx ∧
      (((net.vessel w).endNode = p ∧ (net.vessel w).flowRate < 0) ∨
        ((net.vessel w).startNode = p ∧ (net.vessel w).flowRate > 0)))) := by
  unfold classifyStep
  by_cases hw : w = idx
  · simp [hw]
  · have hpos_neg : ∀ q : ℚ, q > 0 → ¬ q < 0 := fun q h => not_lt.2 (le_of_lt h)
    simp only [ne_eq, hw, not_false_eq_true, if_true, true_and]
    by_cases he : (net.vessel w).endNode = p <;> by_cases hs : (net.vessel w).startNode = p <;>
      by_cases hp : (net.vessel w).flowRate > 0 <;>
      by_cases hn : (net.vessel w).flowRate < 0 <;>
      simp [he, hs, hp, hn, hpos_neg] <;>
      exact absurd hn (hpos_neg _ hp)

theorem classify_foldl_mem (net : VesselNetwork) (idx p : Nat) (ws : List Nat)
    (acc : List Nat × List Nat) (x : Nat) :
    (x ∈ (ws.foldl (classifyStep net idx p) acc).1 ↔ x ∈ acc.1 ∨ (x ∈ ws ∧ x ≠ idx ∧
      (((net.vessel x).endNode = p ∧ (net.vessel x).flowRate > 0) ∨
        ((net.vessel x).startNode = p ∧ (net.vessel x).flowRate < 0)))) ∧
    (x ∈ (ws.foldl (classifyStep net idx p) acc).2 ↔ x ∈ acc.2 ∨ (x ∈ ws ∧ x ≠ idx ∧
      (((net.vessel x).endNode = p ∧ (net.vessel x).flowRate < 0) ∨
        ((net.vessel x).startNode = p ∧ (net.vessel x).flowRate > 0)))) := by
  induction ws generalizing acc with
  | nil => simp
  | cons w tl ih =>
    simp only [List.foldl_cons]
    obtain ⟨i1, i2⟩ := ih (classifyStep net idx p acc w)
    obtain ⟨s1, s2⟩ := classifyStep_mem net idx p acc w x
    rw [i1, i2, s1, s2]
    constructor
    · constructor
      · rintro ((h | ⟨rfl, h⟩) | ⟨h1, h2⟩)
        · exact Or.inl h
        · exact Or.inr ⟨List.mem_cons_self _ _, h⟩
        · exact Or.inr ⟨List.mem_cons_of_mem _ h1, h2⟩
      · rintro (h | ⟨h1, h2⟩)
        · exact Or.inl (Or.inl h)
        · rcases List.mem_cons.1 h1 with rfl | h1
          · exact Or.inl (Or.inr ⟨rfl, h2⟩)
          · exact Or.inr ⟨h1, h2⟩
    · constructor
      · rintro ((h | ⟨rfl, h⟩) | ⟨h1, h2⟩)
        · exact Or.inl h
        · exact Or.inr ⟨List.mem_cons_self _ _, h⟩
        · exact Or.inr ⟨List.mem_cons_of_mem _ h1, h2⟩
      · rintro (h | ⟨h1, h2⟩)
        · exact Or.inl (Or.inl h)
        · rcases List.mem_cons.1 h1 with rfl | h1
          · exact Or.inl (Or.inr ⟨rfl, h2⟩)
          · exact Or.inr ⟨h1, h2⟩

/-- A vessel is on `parent_vessels` exactly when it is listed at the inflow node, is not the
vessel itself, and either ends there with positive flow or starts there with negative
flow. -/
theorem mem_parent_vessels (net : VesselNetwork) (idx p x : Nat) :
    x ∈ (classify net idx p).1 ↔ x ∈ net.nodeSegments p ∧ x ≠ idx ∧
      (((net.vessel x).endNode = p ∧ (net.vessel x).flowRate > 0) ∨
        ((net.vessel x).startNode = p ∧ (net.vessel x).flowRate < 0)) := by
  have := (classify_foldl_mem net idx p (net.nodeSegments p) ([], []) x).1
  simpa [classify] using this

/-- A vessel is on `competitor_vessels` exactly when it is listed at the inflow node, is not
the vessel itself, and either ends there with negative flow or starts there with positive
flow. -/
theorem mem_competitor_vessels (net : VesselNetwork) (idx p x : Nat) :
    x ∈ (classify net idx p).2 ↔ x ∈ net.nodeSegments p ∧ x ≠ idx ∧
      (((net.vessel x).endNode = p ∧ (net.vessel x).flowRate < 0) ∨
        ((net.vessel x).startNode = p ∧ (net.vessel x).flowRate > 0)) := by
  have := (classify_foldl_mem net idx p (net.nodeSegments p) ([], []) x).2
  simpa [classify] using this

/-- The junction test succeeds exactly when there is no competitor: a listed competitor never
carries zero flow. -/
theorem isConverging_eq_true_iff (net : VesselNetwork) (idx p : Nat) :
    isConverging net (classify net idx p).2 = true ↔ (classify net idx p).2 = [] := by
  cases h : (classify net idx p).2 with
  | nil => simp [isConverging]
  | cons c tl =>
    have hc : c ∈ (classify net idx p).2 := by rw [h]; exact List.mem_cons_self _ _
    have hflow : (net.vessel c).flowRate ≠ 0 := by
      rcases ((mem_competitor_vessels net idx p c).1 hc).2.2 with ⟨-, h⟩ | ⟨-, h⟩
      · exact ne_of_lt h
      · exact ne_of_gt h
    simp [isConverging, hflow]

/-! ## Claims on the haematocrit solver -/

theorem dirichlet_solution (ls : LinearSystem) (r : Nat) (b : ℚ) (x : Nat → ℚ)
    (hrow : IsDirichletRow ls r b) (hr : r < ls.size) (hx : ls.IsSolution x) : x r = b := by
  have h := hx r hr
  rw [Finset.sum_eq_single r] at h
  · rw [hrow.1, one_mul] at h
    rw [h, hrow.2.2]
  · intro c _ hc
    rw [hrow.2.1 c hc, zero_mul]
  · intro hnot
    exact absurd (Finset.mem_range.2 hr) hnot

theorem setup_recorded (solver : BetteridgeHaematocritSolver) (ext : Collaborators)
    (ls0 : LinearSystem) (upd : List (Nat × Nat × Nat)) (h : setup solver ext = .ok (ls0, upd)) :
    ls0.size = solver.mpNetwork.numberOfVessels ∧ ∀ e ∈ upd, Recorded solver.mpNetwork e := by
  obtain ⟨h1, -, h3⟩ := setupUpTo_inv solver ext _ ls0 upd h
  exact ⟨h1, fun e he => (h3 e he).2⟩

theorem setup_dirichlet_row (solver : BetteridgeHaematocritSolver) (ext : Collaborators)
    (i : Nat) (ls0 : LinearSystem) (upd : List (Nat × Nat × Nat))
    (hi : i < solver.mpNetwork.numberOfVessels)
    (hsetup : setup solver ext = .ok (ls0, upd))
    (hcase : touchesInput solver.mpNetwork i = true ∨
      (solver.mpNetwork.vessel i).flowRate = 0) :
    IsDirichletRow ls0 i
      (if touchesInput solver.mpNetwork i = true then solver.mHaematocrit else 0) := by
  obtain ⟨ls00, upd00, lsi, updi, -, hrow, hz1, -, hl, hr, -⟩ :=
    setupUpTo_row solver ext _ i hi ls0 upd hsetup
  have key : ∀ b, lsi = (ls00.SetMatrixElement i i 1).SetRhsVectorElement i b →
      IsDirichletRow ls0 i b := by
    intro b hb
    refine ⟨?_, fun c hc => ?_, ?_⟩
    · rw [hl, hb]; simp [LinearSystem.SetMatrixElement, LinearSystem.SetRhsVectorElement]
    · rw [hl, hb]
      simp [LinearSystem.SetMatrixElement, LinearSystem.SetRhsVectorElement, hc, hz1 c]
    · rw [hr, hb]; simp [LinearSystem.SetRhsVectorElement]
  rcases setupRow_ok_cases _ _ _ _ _ _ _ hrow with
    ⟨h1, -, hls⟩ | ⟨h1, -, -, hls⟩ | ⟨h1, h2, -⟩ | ⟨h1, h2, -⟩ | ⟨h1, h2, -⟩
  · rw [if_pos h1]; exact key _ hls
  · rw [if_neg (by simp [h1])]; exact key _ hls
  · rcases hcase with h | h
    · rw [h1] at h; exact absurd h (by simp)
    · exact absurd h h2
  · rcases hcase with h | h
    · rw [h1] at h; exact absurd h (by simp)
    · exact absurd h h2
  · rcases hcase with h | h
    · rw [h1] at h; exact absurd h (by simp)
    · exact absurd h h2

theorem Calculate_dirichlet (solver : BetteridgeHaematocritSolver) (ext : Collaborators)
    (i : Nat) (ls0 : LinearSystem) (upd : List (Nat × Nat × Nat)) (b : ℚ)
    (hi : i < solver.mpNetwork.numberOfVessels)
    (hsetup : setup solver ext = .ok (ls0, upd))
    (hcase : touchesInput solver.mpNetwork i = true ∨
      (solver.mpNetwork.vessel i).flowRate = 0)
    (hrow : IsDirichletRow ls0 i b) :
    (∀ ls ∈ (solver.Calculate ext).state.solved, IsDirichletRow ls i b) ∧
    (ExactSolves ext (solver.Calculate ext).state →
      ((solver.Calculate ext).state.network.vessel i).segmentHaematocrit =
        List.replicate (solver.mpNetwork.vessel i).segmentHaematocrit.length b) := by
  obtain ⟨hsize, hrec⟩ := setup_recorded solver ext ls0 upd hsetup
  have hnot : ∀ c, ∀ e ∈ upd, ¬ (e.1 = i ∧ e.2.1 = c) := by
    rintro c e he ⟨h1, -⟩
    obtain ⟨r1, r2, -⟩ := hrec e he
    rw [h1] at r1 r2
    rcases hcase with h | h
    · rw [r1] at h; exact absurd h (by simp)
    · exact r2 h
  have hsys : ∀ ls ∈ (solver.Calculate ext).state.solved, IsDirichletRow ls i b := by
    intro ls hls
    obtain ⟨a1, a2, a3⟩ := Calculate_systems solver ext ls0 upd hsetup ls hls
    exact ⟨by rw [a3 i i (hnot i)]; exact hrow.1,
      fun c hc => by rw [a3 i c (hnot c)]; exact hrow.2.1 c hc, by rw [a2]; exact hrow.2.2⟩
  refine ⟨hsys, fun hexact => ?_⟩
  obtain ⟨lsLast, hmem, hwritten⟩ := Calculate_written solver ext ls0 upd hsetup
  rw [hwritten i hi]
  have hsz : lsLast.size = ls0.size := (Calculate_systems solver ext ls0 upd hsetup lsLast hmem).1
  rw [dirichlet_solution lsLast i b (ext.Solve lsLast) (hsys lsLast hmem)
    (by rw [hsz, hsize]; exact hi) (hexact lsLast hmem)]

theorem setup_eq_of_completes (solver : BetteridgeHaematocritSolver) (ext : Collaborators)
    (h : setupCompletes solver ext = true) :
    setup solver ext = .ok (setupSystem solver ext, setupUpdateIndices solver ext) := by
  unfold setupCompletes at h
  unfold setupSystem setupUpdateIndices
  cases hs : setup solver ext with
  | ok p => rfl
  | exception msg => rw [hs] at h; simp at h
  | undefined => rw [hs] at h; simp at h

/-- C6.  Let vessel `i` of the network have its start node or its end node flagged as a
network input and let setup run to completion.  Then row `i` of the system that setup
builds has diagonal coefficient 1, no other non-zero coefficient and the arterial
haematocrit as right-hand side; every system handed to the solve during `Calculate` has the
same row `i`; and if every solve returned an exact solution, every segment of vessel `i`
carries the arterial haematocrit when `Calculate` is left.  Nothing is assumed on the flow
rate of the vessel or on the junctions it takes part in. -/
theorem C6_input_vessel_row (solver : BetteridgeHaematocritSolver) (ext : Collaborators)
    (i : Nat) (hi : i < solver.mpNetwork.numberOfVessels)
    (hinput : solver.mpNetwork.isInputNode (solver.mpNetwork.vessel i).startNode = true ∨
      solver.mpNetwork.isInputNode (solver.mpNetwork.vessel i).endNode = true)
    (hsetup : setupCompletes solver ext = true) :
    IsDirichletRow (setupSystem solver ext) i solver.mHaematocrit ∧
    (∀ ls ∈ (solver.Calculate ext).state.solved, IsDirichletRow ls i solver.mHaematocrit) ∧
    (ExactSolves ext (solver.Calculate ext).state →
      ((solver.Calculate ext).state.network.vessel i).segmentHaematocrit =
        List.replicate (solver.mpNetwork.vessel i).segmentHaematocrit.length
          solver.mHaematocrit) := by
  have hs := setup_eq_of_completes solver ext hsetup
  have ht : touchesInput solver.mpNetwork i = true := by
    simpa [touchesInput] using hinput
  have hrow := setup_dirichlet_row solver ext i _ _ hi hs (Or.inl ht)
  rw [if_pos ht] at hrow
  exact ⟨hrow, Calculate_dirichlet solver ext i _ _ _ hi hs (Or.inl ht) hrow⟩

/-- C6 at a concrete input: in the bifurcation network with arterial haematocrit 9/20 the
feeding vessel 0 starts at the input node; its row is the Dirichlet row and its segment ends
with haematocrit 9/20. -/
theorem C6_input_vessel_row_witness :
    IsDirichletRow
      (setupSystem ⟨5 / 2, 1 / 2, 9 / 20, bifurcationNetwork⟩ exampleCollaborators) 0 (9 / 20) ∧
    ((BetteridgeHaematocritSolver.Calculate ⟨5 / 2, 1 / 2, 9 / 20, bifurcationNetwork⟩
      exampleCollaborators).state.network.vessel 0).segmentHaematocrit = [9 / 20] :=
  ⟨(C6_input_vessel_row ⟨5 / 2, 1 / 2, 9 / 20, bifurcationNetwork⟩ exampleCollaborators 0
      (by decide) (Or.inl (by decide)) (by decide!)).1,
    ((C6_input_vessel_row ⟨5 / 2, 1 / 2, 9 / 20, bifurcationNetwork⟩ exampleCollaborators 0
      (by decide) (Or.inl (by decide)) (by decide!)).2.2 (by decide!)).trans (by decide!)⟩

/-- C7 as stated fails: the single vessel of the stagnant inlet network carries no flow but
starts at an input node; `Calculate` with arterial haematocrit 9/20 and exact solves returns
normally and leaves 9/20, not 0, on its segment. -/
theorem C7_zero_flow_at_input_counterexample :
    (stagnantInletNetwork.vessel 0).flowRate = 0 ∧
    (BetteridgeHaematocritSolver.Calculate ⟨5 / 2, 1 / 2, 9 / 20, stagnantInletNetwork⟩
      exampleCollaborators).result = .ok () ∧
    ExactSolves exampleCollaborators
      (BetteridgeHaematocritSolver.Calculate ⟨5 / 2, 1 / 2, 9 / 20, stagnantInletNetwork⟩
        exampleCollaborators).state ∧
    ((BetteridgeHaematocritSolver.Calculate ⟨5 / 2, 1 / 2, 9 / 20, stagnantInletNetwork⟩
      exampleCollaborators).state.network.vessel 0).segmentHaematocrit = [9 / 20] ∧
    (9 / 20 : ℚ) ≠ 0 := by
  refine ⟨by decide!, by decide!, by decide!, by decide!, by norm_num⟩

/-- C7, amended.  Let vessel `i` of the network carry exactly zero flow, let neither its
start node nor its end node be flagged as a network input, and let setup run to completion.
Then row `i` of every system built and solved by `Calculate` has diagonal coefficient 1, no
other non-zero coefficient and right-hand side 0, and if every solve returned an exact
solution, every segment of vessel `i` carries haematocrit 0 when `Calculate` is left. -/
theorem C7_zero_flow_vessel (solver : BetteridgeHaematocritSolver) (ext : Collaborators)
    (i : Nat) (hi : i < solver.mpNetwork.numberOfVessels)
    (hflow : (solver.mpNetwork.vessel i).flowRate = 0)
    (hstart : solver.mpNetwork.isInputNode (solver.mpNetwork.vessel i).startNode = false)
    (hend : solver.mpNetwork.isInputNode (solver.mpNetwork.vessel i).endNode = false)
    (hsetup : setupCompletes solver ext = true) :
    IsDirichletRow (setupSystem solver ext) i 0 ∧
    (∀ ls ∈ (solver.Calculate ext).state.solved, IsDirichletRow ls i 0) ∧
    (ExactSolves ext (solver.Calculate ext).state →
      ((solver.Calculate ext).state.network.vessel i).segmentHaematocrit =
        List.replicate (solver.mpNetwork.vessel i).segmentHaematocrit.length 0) := by
  have hs := setup_eq_of_completes solver ext hsetup
  have ht : ¬ touchesInput solver.mpNetwork i = true := by
    simp [touchesInput, hstart, hend]
  have hrow := setup_dirichlet_row solver ext i _ _ hi hs (Or.inr hflow)
  rw [if_neg ht] at hrow
  exact ⟨hrow, Calculate_dirichlet solver ext i _ _ _ hi hs (Or.inr hflow) hrow⟩

/-- C7, amended, at a concrete input: vessel 3 of the bifurcation network carries no flow,
touches no input node and starts with haematocrit 1 on its segment; it ends with 0. -/
theorem C7_zero_flow_vessel_witness :
    (bifurcationNetwork.vessel 3).segmentHaematocrit = [1] ∧
    ((BetteridgeHaematocritSolver.Calculate ⟨5 / 2, 1 / 2, 9 / 20, bifurcationNetwork⟩
      exampleCollaborators).state.network.vessel 3).segmentHaematocrit = [0] :=
  ⟨by decide!,
    ((C7_zero_flow_vessel ⟨5 / 2, 1 / 2, 9 / 20, bifurcationNetwork⟩ exampleCollaborators 3
      (by decide) (by decide!) (by decide) (by decide) (by decide!)).2.2
        (by decide!)).trans (by decide!)⟩

theorem length_gt_one_of_mem_ne (l : List Nat) (a b : Nat) (ha : a ∈ l) (hb : b ∈ l)
    (hab : a ≠ b) : l.length > 1 := by
  match l, ha, hb with
  | [x], ha, hb =>
    simp only [List.mem_singleton] at ha hb
    exact absurd (ha.trans hb.symm) hab
  | _ :: _ :: _, _, _ => simp

theorem inflowNode_mem (net : VesselNetwork) (hwf : net.WellFormed) (i : Nat)
    (hi : i < net.numberOfVessels) : i ∈ net.nodeSegments (inflowNode net i) := by
  unfold inflowNode
  split_ifs
  · exact (hwf.1 i hi).1
  · exact (hwf.1 i hi).2

/-- An exact solution of a system whose row `i` is the balance over the parents satisfies
`x_i = sum (|Q_w| / |Q_i|) x_w` over the distinct parents. -/
theorem converging_solution (net : VesselNetwork) (ls : LinearSystem) (i : Nat)
    (parents : List Nat) (x : Nat → ℚ) (hrow : IsConvergingRow net ls i parents)
    (hi : i < ls.size) (hpar : ∀ w ∈ parents, w < ls.size ∧ w ≠ i) (hx : ls.IsSolution x) :
    x i = parents.toFinset.sum fun w =>
      |(net.vessel w).flowRate| / |(net.vessel i).flowRate| * x w := by
  have h := hx i hi
  have hsub : insert i parents.toFinset ⊆ Finset.range ls.size := by
    intro c hc
    rcases Finset.mem_insert.1 hc with rfl | hc
    · exact Finset.mem_range.2 hi
    · exact Finset.mem_range.2 (hpar c (List.mem_toFinset.1 hc)).1
  rw [← Finset.sum_subset hsub] at h
  · have hnot : i ∉ parents.toFinset := fun hmem => (hpar i (List.mem_toFinset.1 hmem)).2 rfl
    rw [Finset.sum_insert hnot, hrow.1, one_mul, hrow.2.2.2] at h
    have hsum : (parents.toFinset.sum fun c => ls.lhs i c * x c) =
        -(parents.toFinset.sum fun w =>
          |(net.vessel w).flowRate| / |(net.vessel i).flowRate| * x w) := by
      rw [← Finset.sum_neg_distrib]
      refine Finset.sum_congr rfl fun w hw => ?_
      rw [hrow.2.1 w (List.mem_toFinset.1 hw)]
      ring
    rw [hsum] at h
    linarith
  · intro c _ hc
    have h1 : c ≠ i := fun e => hc (Finset.mem_insert.2 (Or.inl e))
    have h2 : c ∉ parents := fun e =>
      hc (Finset.mem_insert.2 (Or.inr (List.mem_toFinset.2 e)))
    rw [hrow.2.2.1 c h1 h2, zero_mul]

theorem setup_converging_row (solver : BetteridgeHaematocritSolver) (ext : Collaborators)
    (i : Nat) (ls0 : LinearSystem) (upd : List (Nat × Nat × Nat))
    (hi : i < solver.mpNetwork.numberOfVessels)
    (hwf : solver.mpNetwork.WellFormed)
    (hinput : touchesInput solver.mpNetwork i = false)
    (hflow : (solver.mpNetwork.vessel i).flowRate ≠ 0)
    (hparents : (classify solver.mpNetwork i (inflowNode solver.mpNetwork i)).1 ≠ [])
    (hcomp : (classify solver.mpNetwork i (inflowNode solver.mpNetwork i)).2 = [])
    (hsetup : setup solver ext = .ok (ls0, upd)) :
    IsConvergingRow solver.mpNetwork ls0 i
      (classify solver.mpNetwork i (inflowNode solver.mpNetwork i)).1 := by
  obtain ⟨ls00, upd00, lsi, updi, -, hrow, hz1, hz2, hl, hr, -⟩ :=
    setupUpTo_row solver ext _ i hi ls0 upd hsetup
  have hnotmem : i ∉ (classify solver.mpNetwork i (inflowNode solver.mpNetwork i)).1 :=
    fun hm => ((mem_parent_vessels _ _ _ _).1 hm).2.1 rfl
  rcases setupRow_ok_cases _ _ _ _ _ _ _ hrow with
    ⟨h1, -⟩ | ⟨-, h2, -⟩ | ⟨-, -, -, -, -, hls⟩ | ⟨-, -, -, h4, -⟩ | ⟨-, -, h3, -⟩
  · rw [hinput] at h1; exact absurd h1 (by simp)
  · exact absurd h2 hflow
  · obtain ⟨-, f2, -, f4, f5⟩ := convergingRow_frame solver.mpNetwork i
      (classify solver.mpNetwork i (inflowNode solver.mpNetwork i)).1
      (ls00.SetMatrixElement i i 1)
    refine ⟨?_, fun w hw => ?_, fun c hc hcn => ?_, ?_⟩
    · rw [hl, hls, f4 i hnotmem]; simp [LinearSystem.SetMatrixElement]
    · rw [hl, hls, f5 w hw, abs_div]
    · rw [hl, hls, f4 c hcn]; simp [LinearSystem.SetMatrixElement, hc, hz1 c]
    · rw [hr, hls, f2]; exact hz2
  · rw [(isConverging_eq_true_iff _ _ _).2 hcomp] at h4; exact absurd h4 (by simp)
  · exfalso
    apply h3
    obtain ⟨w, hw⟩ := List.exists_mem_of_ne_nil _ hparents
    obtain ⟨hw1, hw2, -⟩ := (mem_parent_vessels _ _ _ _).1 hw
    exact length_gt_one_of_mem_ne _ w i hw1 (inflowNode_mem _ hwf i hi) hw2

/-- C8.  Let the network view be consistent, let vessel `i` touch no input node and carry
non-zero flow, and let the classification at its inflow node yield at least one parent and
no competitor.  If setup runs to completion, row `i` of the system it builds is
`H_i - sum over the parents w of (|Q_w| / |Q_i|) H_w = 0`; every system handed to the solve
during `Calculate`, at whatever iteration, has this same row; and if every solve returned an
exact solution, every solution computed satisfies `H_i = sum (|Q_w| / |Q_i|) H_w`, and so do
the haematocrit values `H` that the segments of the network carry when `Calculate` is
left. -/
theorem C8_converging_junction (solver : BetteridgeHaematocritSolver) (ext : Collaborators)
    (i : Nat) (hi : i < solver.mpNetwork.numberOfVessels)
    (hwf : solver.mpNetwork.WellFormed)
    (hstart : solver.mpNetwork.isInputNode (solver.mpNetwork.vessel i).startNode = false)
    (hend : solver.mpNetwork.isInputNode (solver.mpNetwork.vessel i).endNode = false)
    (hflow : (solver.mpNetwork.vessel i).flowRate ≠ 0)
    (hparents : (classify solver.mpNetwork i (inflowNode solver.mpNetwork i)).1 ≠ [])
    (hcomp : (classify solver.mpNetwork i (inflowNode solver.mpNetwork i)).2 = [])
    (hsetup : setupCompletes solver ext = true) :
    IsConvergingRow solver.mpNetwork (setupSystem solver ext) i
      (classify solver.mpNetwork i (inflowNode solver.mpNetwork i)).1 ∧
    (∀ ls ∈ (solver.Calculate ext).state.solved,
      IsConvergingRow solver.mpNetwork ls i
        (classify solver.mpNetwork i (inflowNode solver.mpNetwork i)).1) ∧
    (ExactSolves ext (solver.Calculate ext).state →
      (∀ ls ∈ (solver.Calculate ext).state.solved,
        ext.Solve ls i =
          (classify solver.mpNetwork i (inflowNode solver.mpNetwork i)).1.toFinset.sum fun w =>
            |(solver.mpNetwork.vessel w).flowRate| / |(solver.mpNetwork.vessel i).flowRate| *
              ext.Solve ls w) ∧
      ∃ H : Nat → ℚ,
        (∀ idx, idx < solver.mpNetwork.numberOfVessels →
          ((solver.Calculate ext).state.network.vessel idx).segmentHaematocrit =
            List.replicate (solver.mpNetwork.vessel idx).segmentHaematocrit.length (H idx)) ∧
        H i =
          (classify solver.mpNetwork i (inflowNode solver.mpNetwork i)).1.toFinset.sum fun w =>
            |(solver.mpNetwork.vessel w).flowRate| / |(solver.mpNetwork.vessel i).flowRate| *
              H w) := by
  have hs := setup_eq_of_completes solver ext hsetup
  have ht : touchesInput solver.mpNetwork i = false := by
    simp [touchesInput, hstart, hend]
  have hrow := setup_converging_row solver ext i _ _ hi hwf ht hflow hparents hcomp hs
  obtain ⟨hsize, hrec⟩ := setup_recorded solver ext _ _ hs
  have hnot : ∀ c, ∀ e ∈ setupUpdateIndices solver ext, ¬ (e.1 = i ∧ e.2.1 = c) := by
    rintro c e he ⟨h1, -⟩
    obtain ⟨-, -, r3, -⟩ := hrec e he
    rw [h1, (isConverging_eq_true_iff _ _ _).2 hcomp] at r3
    exact absurd r3 (by simp)
  have hsys : ∀ ls ∈ (solver.Calculate ext).state.solved,
      IsConvergingRow solver.mpNetwork ls i
        (classify solver.mpNetwork i (inflowNode solver.mpNetwork i)).1 := by
    intro ls hls
    obtain ⟨-, a2, a3⟩ := Calculate_systems solver ext _ _ hs ls hls
    exact ⟨by rw [a3 i i (hnot i)]; exact hrow.1,
      fun w hw => by rw [a3 i w (hnot w)]; exact hrow.2.1 w hw,
      fun c hc hcn => by rw [a3 i c (hnot c)]; exact hrow.2.2.1 c hc hcn,
      by rw [a2]; exact hrow.2.2.2⟩
  have hsol : ExactSolves ext (solver.Calculate ext).state →
      ∀ ls ∈ (solver.Calculate ext).state.solved,
        ext.Solve ls i =
          (classify solver.mpNetwork i (inflowNode solver.mpNetwork i)).1.toFinset.sum fun w =>
            |(solver.mpNetwork.vessel w).flowRate| / |(solver.mpNetwork.vessel i).flowRate| *
              ext.Solve ls w := by
    intro hexact ls hls
    have hsz : ls.size = solver.mpNetwork.numberOfVessels := by
      rw [(Calculate_systems solver ext _ _ hs ls hls).1, hsize]
    refine converging_solution solver.mpNetwork ls i _ _ (hsys ls hls) (by rw [hsz]; exact hi)
      (fun w hw => ?_) (hexact ls hls)
    obtain ⟨hw1, hw2, -⟩ := (mem_parent_vessels _ _ _ _).1 hw
    exact ⟨by rw [hsz]; exact hwf.2 _ w hw1, hw2⟩
  refine ⟨hrow, hsys, fun hexact => ⟨hsol hexact, ?_⟩⟩
  obtain ⟨lsLast, hmem, hwritten⟩ := Calculate_written solver ext _ _ hs
  exact ⟨ext.Solve lsLast, hwritten, hsol hexact lsLast hmem⟩

/-- The merge network is a consistent network view. -/
theorem mergeNetwork_wellFormed : mergeNetwork.WellFormed := by
  refine ⟨fun i hi => ?_, fun p w hw => ?_⟩
  · have hi3 : i < 3 := hi
    interval_cases i <;> decide
  · show w < 3
    unfold mergeNetwork at hw
    simp only at hw
    split_ifs at hw <;> simp at hw <;> omega

/-- The bifurcation network is a consistent network view. -/
theorem bifurcationNetwork_wellFormed : bifurcationNetwork.WellFormed := by
  refine ⟨fun i hi => ?_, fun p w hw => ?_⟩
  · have hi4 : i < 4 := hi
    interval_cases i <;> decide
  · show w < 4
    unfold bifurcationNetwork at hw
    simp only at hw
    split_ifs at hw <;> simp at hw <;> omega

/-- C8 at a concrete input: in the merge network vessel 2 (flow 3) is fed by the parents 0
(flow 1) and 1 (flow 2); its row is the balance over them, every solution computed satisfies
`H_2 = (1/3) H_0 + (2/3) H_1`, and its segment ends with haematocrit 9/20. -/
theorem C8_converging_junction_witness :
    (classify mergeNetwork 2 (inflowNode mergeNetwork 2)).1 = [0, 1] ∧
    IsConvergingRow mergeNetwork
      (setupSystem ⟨5 / 2, 1 / 2, 9 / 20, mergeNetwork⟩ exampleCollaborators) 2
      (classify mergeNetwork 2 (inflowNode mergeNetwork 2)).1 ∧
    (∀ ls ∈ (BetteridgeHaematocritSolver.Calculate ⟨5 / 2, 1 / 2, 9 / 20, mergeNetwork⟩
        exampleCollaborators).state.solved,
      exampleCollaborators.Solve ls 2 =
        (classify mergeNetwork 2 (inflowNode mergeNetwork 2)).1.toFinset.sum fun w =>
          |(mergeNetwork.vessel w).flowRate| / |(mergeNetwork.vessel 2).flowRate| *
            exampleCollaborators.Solve ls w) ∧
    ((BetteridgeHaematocritSolver.Calculate ⟨5 / 2, 1 / 2, 9 / 20, mergeNetwork⟩
      exampleCollaborators).state.network.vessel 2).segmentHaematocrit = [9 / 20] :=
  ⟨by decide!,
    (C8_converging_junction ⟨5 / 2, 1 / 2, 9 / 20, mergeNetwork⟩ exampleCollaborators 2
      (by decide) mergeNetwork_wellFormed (by decide) (by decide) (by decide!) (by decide!)
      (by decide!) (by decide!)).1,
    ((C8_converging_junction ⟨5 / 2, 1 / 2, 9 / 20, mergeNetwork⟩ exampleCollaborators 2
      (by decide) mergeNetwork_wellFormed (by decide) (by decide) (by decide!) (by decide!)
      (by decide!) (by decide!)).2.2 (by decide!)).1,
    by decide!⟩

/-- The coefficient computed by the setup code is the coefficient of the specification. -/
theorem setupCoefficient_eq_spec (Q_self Q_competitor Q_parent r_self r_competitor
    H_parent : ℚ) :
    setupCoefficient Q_self Q_competitor Q_parent r_self r_competitor H_parent =
      specCoefficient Q_self Q_competitor Q_parent r_self r_competitor H_parent := by
  unfold setupCoefficient specCoefficient
  simp only [pow_two, mul_assoc, mul_one_div, neg_div]
  split_ifs <;> rfl

/-- C10.  Let the network view be consistent, let vessel `i` touch no input node and carry
non-zero flow, let the classification at its inflow node yield exactly the parent `p` and
the competitor `c`, and let every divisor of the splitting rule be non-zero for the flows and
radii of `i` and `c` and the haematocrit the parent holds before the call.  Then the
competitor carries non-zero flow, and if setup runs to completion the coefficient at
`(i, p)` of the system it builds is the coefficient of the specification,
`-flow_ratio_pm / denom` with `alpha = 1 - H_p`, where `denom`, given by the rule of the
faster or of the slower vessel, is not zero, so that the coefficient times `denom` is
`-flow_ratio_pm`; and the triple `(i, p, c)` is on the list kept for the refresh. -/
theorem C10_bifurcation_coefficient (solver : BetteridgeHaematocritSolver)
    (ext : Collaborators) (i p c : Nat) (hi : i < solver.mpNetwork.numberOfVessels)
    (hwf : solver.mpNetwork.WellFormed)
    (hstart : solver.mpNetwork.isInputNode (solver.mpNetwork.vessel i).startNode = false)
    (hend : solver.mpNetwork.isInputNode (solver.mpNetwork.vessel i).endNode = false)
    (hflow : (solver.mpNetwork.vessel i).flowRate ≠ 0)
    (hclass : classify solver.mpNetwork i (inflowNode solver.mpNetwork i) = ([p], [c]))
    (hsetup : setupCompletes solver ext = true)
    (hdef : splittingRuleDefined (solver.mpNetwork.vessel i).flowRate
      (solver.mpNetwork.vessel c).flowRate (solver.mpNetwork.vessel i).radius
      (solver.mpNetwork.vessel c).radius (vesselHaematocrit ext solver.mpNetwork p)) :
    (solver.mpNetwork.vessel c).flowRate ≠ 0 ∧
    (setupSystem solver ext).lhs i p =
      specCoefficient (solver.mpNetwork.vessel i).flowRate (solver.mpNetwork.vessel c).flowRate
        (solver.mpNetwork.vessel p).flowRate (solver.mpNetwork.vessel i).radius
        (solver.mpNetwork.vessel c).radius (vesselHaematocrit ext solver.mpNetwork p) ∧
    (i, p, c) ∈ setupUpdateIndices solver ext ∧
    ∃ denom : ℚ, denom ≠ 0 ∧
      denom =
        (if |(solver.mpNetwork.vessel i).flowRate| /
            (M_PI * (solver.mpNetwork.vessel i).radius * (solver.mpNetwork.vessel i).radius) ≥
            |(solver.mpNetwork.vessel c).flowRate| /
            (M_PI * (solver.mpNetwork.vessel c).radius * (solver.mpNetwork.vessel c).radius)
        then
          1 + |(solver.mpNetwork.vessel c).flowRate| / |(solver.mpNetwork.vessel i).flowRate| *
            (1 / (1 + (1 - vesselHaematocrit ext solver.mpNetwork p) *
              (|(solver.mpNetwork.vessel i).flowRate| /
                (M_PI * (solver.mpNetwork.vessel i).radius *
                  (solver.mpNetwork.vessel i).radius) /
              (|(solver.mpNetwork.vessel c).flowRate| /
                (M_PI * (solver.mpNetwork.vessel c).radius *
                  (solver.mpNetwork.vessel c).radius)) - 1)))
        else
          1 + |(solver.mpNetwork.vessel c).flowRate| / |(solver.mpNetwork.vessel i).flowRate| *
            (1 + (1 - vesselHaematocrit ext solver.mpNetwork p) *
              (|(solver.mpNetwork.vessel c).flowRate| /
                (M_PI * (solver.mpNetwork.vessel c).radius *
                  (solver.mpNetwork.vessel c).radius) /
              (|(solver.mpNetwork.vessel i).flowRate| /
                (M_PI * (solver.mpNetwork.vessel i).radius *
                  (solver.mpNetwork.vessel i).radius)) - 1))) ∧
      (setupSystem solver ext).lhs i p * denom =
        -(|(solver.mpNetwork.vessel p).flowRate| / |(solver.mpNetwork.vessel i).flowRate|) := by
  have hs := setup_eq_of_completes solver ext hsetup
  have ht : touchesInput solver.mpNetwork i = false := by
    simp [touchesInput, hstart, hend]
  have hcmem : c ∈ (classify solver.mpNetwork i (inflowNode solver.mpNetwork i)).2 := by
    rw [hclass]; simp
  have hpmem : p ∈ (classify solver.mpNetwork i (inflowNode solver.mpNetwork i)).1 := by
    rw [hclass]; simp
  have hcflow : (solver.mpNetwork.vessel c).flowRate ≠ 0 := by
    rcases ((mem_competitor_vessels _ _ _ _).1 hcmem).2.2 with ⟨-, h⟩ | ⟨-, h⟩
    · exact ne_of_lt h
    · exact ne_of_gt h
  have hnotconv : ¬ isConverging solver.mpNetwork
      (classify solver.mpNetwork i (inflowNode solver.mpNetwork i)).2 = true := by
    rw [isConverging_eq_true_iff, hclass]; simp
  obtain ⟨ls00, upd00, lsi, updi, -, hrow, -, -, hl, -, hupd⟩ :=
    setupUpTo_row solver ext _ i hi _ _ hs
  rcases setupRow_ok_cases _ _ _ _ _ _ _ hrow with
    ⟨h1, -⟩ | ⟨-, h2, -⟩ | ⟨-, -, -, h4, -⟩ | ⟨-, -, -, -, p1, c1, hcl, hu, hls⟩ | ⟨-, -, h3, -⟩
  · rw [ht] at h1; exact absurd h1 (by simp)
  · exact absurd h2 hflow
  · exact absurd h4 hnotconv
  · rw [hclass] at hcl
    simp only [Prod.mk.injEq, List.cons.injEq, and_true] at hcl
    obtain ⟨rfl, rfl⟩ := hcl
    have hcoef : (setupSystem solver ext).lhs i p =
        setupCoefficient (solver.mpNetwork.vessel i).flowRate
          (solver.mpNetwork.vessel c).flowRate (solver.mpNetwork.vessel p).flowRate
          (solver.mpNetwork.vessel i).radius (solver.mpNetwork.vessel c).radius
          (vesselHaematocrit ext solver.mpNetwork p) := by
      rw [hl, hls]
      simp [LinearSystem.SetMatrixElement]
    refine ⟨hcflow, by rw [hcoef, setupCoefficient_eq_spec], hupd _ (by rw [hu]; simp), ?_⟩
    obtain ⟨-, -, -, -, hden⟩ := hdef
    by_cases hv : |(solver.mpNetwork.vessel i).flowRate| /
        (M_PI * (solver.mpNetwork.vessel i).radius * (solver.mpNetwork.vessel i).radius) ≥
        |(solver.mpNetwork.vessel c).flowRate| /
        (M_PI * (solver.mpNetwork.vessel c).radius * (solver.mpNetwork.vessel c).radius)
    · rw [if_pos hv] at hden
      refine ⟨_, hden.2, by rw [if_pos hv], ?_⟩
      rw [hcoef]
      simp only [setupCoefficient, if_pos hv]
      exact div_mul_cancel₀ _ hden.2
    · rw [if_neg hv] at hden
      refine ⟨_, hden, by rw [if_neg hv], ?_⟩
      rw [hcoef]
      simp only [setupCoefficient, if_neg hv]
      exact div_mul_cancel₀ _ hden
  · exfalso
    apply h3
    obtain ⟨hp1, hp2, -⟩ := (mem_parent_vessels _ _ _ _).1 hpmem
    exact length_gt_one_of_mem_ne _ p i hp1 (inflowNode_mem _ hwf i hi) hp2

/-- C10 at a concrete input: in the bifurcation network vessel 1 (flow 3/2) has the parent 0
and the competitor 2 (flow 1/2), the parent holding haematocrit 0 before the call; every
divisor of the rule is non-zero, the coefficient at `(1, 0)` is `-6/5` and the triple
`(1, 0, 2)` is recorded. -/
theorem C10_bifurcation_coefficient_witness :
    (setupSystem ⟨5 / 2, 1 / 2, 9 / 20, bifurcationNetwork⟩ exampleCollaborators).lhs 1 0 =
      -6 / 5 ∧
    (1, 0, 2) ∈ setupUpdateIndices ⟨5 / 2, 1 / 2, 9 / 20, bifurcationNetwork⟩
      exampleCollaborators :=
  ⟨(C10_bifurcation_coefficient ⟨5 / 2, 1 / 2, 9 / 20, bifurcationNetwork⟩
      exampleCollaborators 1 0 2 (by decide) bifurcationNetwork_wellFormed (by decide)
      (by decide) (by decide!) (by decide!) (by decide!) (by decide!)).2.1.trans (by decide!),
    (C10_bifurcation_coefficient ⟨5 / 2, 1 / 2, 9 / 20, bifurcationNetwork⟩
      exampleCollaborators 1 0 2 (by decide) bifurcationNetwork_wellFormed (by decide)
      (by decide) (by decide!) (by decide!) (by decide!) (by decide!)).2.2.1⟩

theorem classifyStep_length (net : VesselNetwork) (idx p : Nat) (acc : List Nat × List Nat)
    (w : Nat) :
    (classifyStep net idx p acc w).1.length ≤ acc.1.length + 1 ∧
    (classifyStep net idx p acc w).2.length ≤ acc.2.length + 1 := by
  have hpos_neg : ∀ q : ℚ, q > 0 → ¬ q < 0 := fun q h => not_lt.2 (le_of_lt h)
  unfold classifyStep
  by_cases hw : w = idx
  · simp [hw]
  · simp only [ne_eq, hw, not_false_eq_true, if_true]
    by_cases he : (net.vessel w).endNode = p <;> by_cases hs : (net.vessel w).startNode = p <;>
      by_cases hp : (net.vessel w).flowRate > 0 <;>
      by_cases hn : (net.vessel w).flowRate < 0 <;>
      simp [he, hs, hp, hn, hpos_neg]

theorem classify_foldl_length (net : VesselNetwork) (idx p : Nat) (ws : List Nat)
    (acc : List Nat × List Nat) :
    (ws.foldl (classifyStep net idx p) acc).1.length ≤ acc.1.length + ws.length ∧
    (ws.foldl (classifyStep net idx p) acc).2.length ≤ acc.2.length + ws.length := by
  induction ws generalizing acc with
  | nil => simp
  | cons w tl ih =>
    simp only [List.foldl_cons, List.length_cons]
    obtain ⟨i1, i2⟩ := ih (classifyStep net idx p acc w)
    obtain ⟨s1, s2⟩ := classifyStep_length net idx p acc w
    exact ⟨by omega, by omega⟩

/-- Neither list built by the classification is longer than the list of segments at the
node. -/
theorem classify_length (net : VesselNetwork) (idx p : Nat) :
    (classify net idx p).1.length ≤ (net.nodeSegments p).length ∧
    (classify net idx p).2.length ≤ (net.nodeSegments p).length := by
  have := classify_foldl_length net idx p (net.nodeSegments p) ([], [])
  simpa [classify] using this

theorem setupRow_exception (solver : BetteridgeHaematocritSolver) (ext : Collaborators)
    (idx : Nat) (ls : LinearSystem) (upd : List (Nat × Nat × Nat)) (msg : String)
    (h : setupRow solver ext idx ls upd = .exception msg) :
    msg = "This solver can only work with branches with connectivity 3" := by
  unfold setupRow at h
  simp only at h
  split_ifs at h
  unfold bifurcationRow at h
  simp only at h
  split_ifs at h
  · simpa using h.symm
  · split at h <;> simp at h

/-- The only exception setup can be left by is the "connectivity 3" one. -/
theorem setupUpTo_exception (solver : BetteridgeHaematocritSolver) (ext : Collaborators)
    (n : Nat) (msg : String) (h : setupUpTo solver ext n = .exception msg) :
    msg = "This solver can only work with branches with connectivity 3" := by
  induction n generalizing msg with
  | zero => simp [setupUpTo] at h
  | succ k ih =>
    rw [setupUpTo_succ] at h
    cases hk : setupUpTo solver ext k with
    | ok q =>
      rw [hk] at h
      exact setupRow_exception _ _ _ _ _ _ h
    | exception m =>
      rw [hk] at h
      simp only [setupStep, Result.exception.injEq] at h
      rw [← h]; exact ih m hk
    | undefined => rw [hk] at h; simp [setupStep] at h

/-- The guarantee behind C9 on the runs in which setup makes no undefined read.  If some
vessel of the network touches no input node, carries non-zero flow and has, at its inflow
node, at least one competitor together with more than one competitor or more than one
parent, then setup does not complete and `Calculate` is left without any solve and with the
network untouched; unless setup reads `parent_vessels[0]` of an empty vector on the way, it
is left by the "connectivity 3" exception. -/
theorem connectivity3_raised_unless_undefined (solver : BetteridgeHaematocritSolver)
    (ext : Collaborators) (i : Nat) (hi : i < solver.mpNetwork.numberOfVessels)
    (hstart : solver.mpNetwork.isInputNode (solver.mpNetwork.vessel i).startNode = false)
    (hend : solver.mpNetwork.isInputNode (solver.mpNetwork.vessel i).endNode = false)
    (hflow : (solver.mpNetwork.vessel i).flowRate ≠ 0)
    (hcomp : (classify solver.mpNetwork i (inflowNode solver.mpNetwork i)).2 ≠ [])
    (hmany : (classify solver.mpNetwork i (inflowNode solver.mpNetwork i)).2.length > 1 ∨
      (classify solver.mpNetwork i (inflowNode solver.mpNetwork i)).1.length > 1) :
    setupCompletes solver ext = false ∧
    (solver.Calculate ext).state.solved = [] ∧
    (solver.Calculate ext).state.network = solver.mpNetwork ∧
    ((solver.Calculate ext).result = .undefined ∨
      (solver.Calculate ext).result =
        .exception "This solver can only work with branches with connectivity 3") := by
  have ht : touchesInput solver.mpNetwork i = false := by
    simp [touchesInput, hstart, hend]
  have hnotok : ∀ ls0 upd, setup solver ext ≠ .ok (ls0, upd) := by
    intro ls0 upd hs
    obtain ⟨ls00, upd00, lsi, updi, -, hrow, -⟩ := setupUpTo_row solver ext _ i hi ls0 upd hs
    rcases setupRow_ok_cases _ _ _ _ _ _ _ hrow with
      ⟨h1, -⟩ | ⟨-, h2, -⟩ | ⟨-, -, -, h4, -⟩ | ⟨-, -, -, -, p1, c1, hcl, -⟩ | ⟨-, -, h3, -⟩
    · rw [ht] at h1; exact absurd h1 (by simp)
    · exact absurd h2 hflow
    · exact hcomp ((isConverging_eq_true_iff _ _ _).1 h4)
    · rw [hcl] at hmany; simp at hmany
    · have := classify_length solver.mpNetwork i (inflowNode solver.mpNetwork i)
      omega
  unfold setupCompletes BetteridgeHaematocritSolver.Calculate
  cases hs : setup solver ext with
  | ok q => exact absurd hs (hnotok q.1 q.2)
  | exception msg =>
    have := setupUpTo_exception solver ext _ msg hs
    subst this
    exact ⟨rfl, rfl, rfl, Or.inr rfl⟩
  | undefined => exact ⟨rfl, rfl, rfl, Or.inl rfl⟩

/-- C9, evaluated at the failing input.  In the network `sourceThenFourWayNetwork` vessel 3
touches no input node, carries flow and has two competitors at its inflow node, a four-way
junction.  Vessel 0, which setup visits first, has one competitor and no parent, so setup
reads `parent_vessels[0]` of an empty vector and `Calculate` has no defined result; the
"connectivity 3" exception is not what ends it.  On the four-way junction alone the
exception is raised, before any solve and with the network untouched. -/
theorem C9_undefined_read_before_junction :
    sourceThenFourWayNetwork.isInputNode (sourceThenFourWayNetwork.vessel 3).startNode = false ∧
    sourceThenFourWayNetwork.isInputNode (sourceThenFourWayNetwork.vessel 3).endNode = false ∧
    (sourceThenFourWayNetwork.vessel 3).flowRate ≠ 0 ∧
    classify sourceThenFourWayNetwork 3 (inflowNode sourceThenFourWayNetwork 3) =
      ([2], [4, 5]) ∧
    classify sourceThenFourWayNetwork 0 (inflowNode sourceThenFourWayNetwork 0) = ([], [1]) ∧
    (BetteridgeHaematocritSolver.Calculate ⟨5 / 2, 1 / 2, 9 / 20, sourceThenFourWayNetwork⟩
      exampleCollaborators).result = .undefined ∧
    (BetteridgeHaematocritSolver.Calculate ⟨5 / 2, 1 / 2, 9 / 20, fourWayNetwork⟩
      exampleCollaborators).result =
        .exception "This solver can only work with branches with connectivity 3" ∧
    (BetteridgeHaematocritSolver.Calculate ⟨5 / 2, 1 / 2, 9 / 20, fourWayNetwork⟩
      exampleCollaborators).state.solved = [] := by
  refine ⟨by decide, by decide, by decide!, by decide!, by decide!, by decide!, by decide!, ?_⟩
  exact (connectivity3_raised_unless_undefined ⟨5 / 2, 1 / 2, 9 / 20, fourWayNetwork⟩
    exampleCollaborators 1 (by decide) (by decide) (by decide) (by decide!) (by decide!)
    (Or.inl (by decide!))).2.1

/-! ## Path invariants after `AddSegments` and in the segment-list constructor -/

/-- C16: whenever `AddSegments` returns without error, the segment sequence the vessel then
holds satisfies both path invariants: every segment is connected to its predecessor, and no
two segments at index distance two or more are connected. -/
theorem C16_AddSegments_path_invariants (v : Vessel) (st : Store)
    (segments : List VesselSegment)
    (hok : (v.AddSegments st segments).result = .ok ()) :
    AdjacentConnected (v.AddSegments st segments).vessel.mSegments ∧
      NonAdjacentDisconnected (v.AddSegments st segments).vessel.mSegments := by
  rw [← orderBroken_eq_false_iff, ← nonAdjacentConnected_eq_false_iff]
  unfold Vessel.AddSegments at hok ⊢
  split at hok
  · split_ifs at hok ⊢
    all_goals
      have h := AddSegmentsCheck_ok _ st _ hok
      rw [h.1]
      exact h.2
  · simp at hok

/-- C16 at a concrete input: the chain 3-4, 4-5 is appended to the vessel 1-2, 2-3 and the
five-node path satisfies both invariants. -/
theorem C16_AddSegments_path_invariants_witness :
    ((exampleVessel [⟨10, 1, 2, 1⟩, ⟨11, 2, 3, 1⟩]).AddSegments exampleStore
        [⟨20, 3, 4, 1⟩, ⟨21, 4, 5, 1⟩]).result = .ok () ∧
    AdjacentConnected ((exampleVessel [⟨10, 1, 2, 1⟩, ⟨11, 2, 3, 1⟩]).AddSegments exampleStore
        [⟨20, 3, 4, 1⟩, ⟨21, 4, 5, 1⟩]).vessel.mSegments ∧
    NonAdjacentDisconnected
      ((exampleVessel [⟨10, 1, 2, 1⟩, ⟨11, 2, 3, 1⟩]).AddSegments exampleStore
        [⟨20, 3, 4, 1⟩, ⟨21, 4, 5, 1⟩]).vessel.mSegments :=
  ⟨by decide,
    C16_AddSegments_path_invariants (exampleVessel [⟨10, 1, 2, 1⟩, ⟨11, 2, 3, 1⟩]) exampleStore
      [⟨20, 3, 4, 1⟩, ⟨21, 4, 5, 1⟩] (by decide)⟩

/-- The segment-list constructor on two or more segments: it returns the vessel holding
the input list when both checks are negative and throws otherwise. -/
theorem fromSegments_cases (self : Nat) (segments : List VesselSegment)
    (hlen : 2 ≤ segments.length) :
    (orderBroken segments = false ∧ nonAdjacentConnected segments = false ∧
        Vessel.fromSegments self segments = .ok ⟨self, segments, [], false, segments⟩) ∨
      (orderBroken segments = true ∧ Vessel.fromSegments self segments =
        .exception "Input vessel segments are not attached in the correct order.") ∨
      (orderBroken segments = false ∧ nonAdjacentConnected segments = true ∧
        Vessel.fromSegments self segments =
          .exception "Input vessel segments are not correctly connected.") := by
  unfold Vessel.fromSegments
  rw [if_pos (by omega)]
  cases h1 : orderBroken segments
  · cases h2 : nonAdjacentConnected segments
    · left; simp
    · right; right; simp
  · right; left; simp

/-- C17: creating a vessel from two or more segments throws exactly when some pair of
consecutive segments shares no node or some pair of segments at index distance two or more
shares a node; the two exceptions are the only outcomes other than a vessel, and a vessel
that is returned holds the input list in the input order, each segment owned by it. -/
theorem C17_create_from_segments (st : Store) (segments : List VesselSegment)
    (hlen : 2 ≤ segments.length) :
    ((∃ msg, Vessel.CreateFromSegments st segments = .exception msg) ↔
        (¬ AdjacentConnected segments ∨ ¬ NonAdjacentDisconnected segments)) ∧
      (∀ msg, Vessel.CreateFromSegments st segments = .exception msg →
        msg = "Input vessel segments are not attached in the correct order." ∨
        msg = "Input vessel segments are not correctly connected.") ∧
      Vessel.CreateFromSegments st segments ≠ .undefined ∧
      (∀ v st1, Vessel.CreateFromSegments st segments = .ok (v, st1) →
        v.mSegments = segments ∧ v.mNodesUpToDate = false ∧
        st1 = ({ st with next := st.next + 1 }).AddVesselAll segments v.self) := by
  rw [← orderBroken_eq_false_iff, ← nonAdjacentConnected_eq_false_iff]
  unfold Vessel.CreateFromSegments
  rcases fromSegments_cases st.next segments hlen with ⟨h1, h2, h⟩ | ⟨h1, h⟩ | ⟨h1, h2, h⟩
  · rw [h]
    simp only [h1, h2, not_true_eq_false, or_self, iff_false, not_exists]
    refine ⟨by intro msg; simp, by intro msg; simp, by simp, ?_⟩
    intro v st1 hv
    simp only [Result.ok.injEq, Prod.mk.injEq] at hv
    obtain ⟨rfl, rfl⟩ := hv
    exact ⟨rfl, rfl, rfl⟩
  · rw [h]
    simp only [h1]
    refine ⟨⟨fun _ => Or.inl (by simp), fun _ => ⟨_, rfl⟩⟩, ?_, by simp, by simp⟩
    intro msg hm
    simp only [Result.exception.injEq] at hm
    exact Or.inl hm.symm
  · rw [h]
    simp only [h1, h2]
    refine ⟨⟨fun _ => Or.inr (by simp), fun _ => ⟨_, rfl⟩⟩, ?_, by simp, by simp⟩
    intro msg hm
    simp only [Result.exception.injEq] at hm
    exact Or.inr hm.symm

/-- C17 at concrete inputs: the list 1-2, 2-3, 3-4 yields a vessel holding it, the list
1-2, 3-4 has a consecutive pair without a common node and is refused. -/
theorem C17_create_from_segments_witness :
    (∀ v st1, Vessel.CreateFromSegments exampleStore
          [⟨10, 1, 2, 1⟩, ⟨11, 2, 3, 1⟩, ⟨12, 3, 4, 1⟩] = .ok (v, st1) →
        v.mSegments = [⟨10, 1, 2, 1⟩, ⟨11, 2, 3, 1⟩, ⟨12, 3, 4, 1⟩] ∧
        v.mNodesUpToDate = false ∧
        st1 = ({ exampleStore with next := exampleStore.next + 1 }).AddVesselAll
          [⟨10, 1, 2, 1⟩, ⟨11, 2, 3, 1⟩, ⟨12, 3, 4, 1⟩] v.self) ∧
      ∃ msg, Vessel.CreateFromSegments exampleStore [⟨10, 1, 2, 1⟩, ⟨12, 3, 4, 1⟩] =
        .exception msg :=
  ⟨(C17_create_from_segments exampleStore [⟨10, 1, 2, 1⟩, ⟨11, 2, 3, 1⟩, ⟨12, 3, 4, 1⟩]
      (by decide)).2.2.2,
    ((C17_create_from_segments exampleStore [⟨10, 1, 2, 1⟩, ⟨12, 3, 4, 1⟩]
      (by decide)).1).2
      (Or.inl fun h => absurd ((orderBroken_eq_false_iff _).mpr h) (by decide))⟩
/-! ## The node-list constructor -/

/-- The loop of the node-list constructor appends one segment per consecutive pair of
nodes, holding the earlier node as node 0 and the later as node 1. -/
theorem createSegmentsLoop_nodes (radius : ℚ) (nodes : List Nat) :
    ∀ (st : Store) (acc : List VesselSegment),
      (createSegmentsLoop radius nodes st acc).1.map (fun s => (s.node0, s.node1)) =
        acc.map (fun s => (s.node0, s.node1)) ++ nodes.zip nodes.tail := by
  induction nodes with
  | nil => intro st acc; simp [createSegmentsLoop]
  | cons a tl ih =>
    intro st acc
    cases tl with
    | nil => simp [createSegmentsLoop]
    | cons b rest =>
      rw [createSegmentsLoop, ih]
      simp [Store.newSegment, Store.createSegment]

/-- On segments that pair consecutive nodes, the loop of `UpdateNodes` appends the
remaining nodes in order. -/
theorem updateNodesLoop_pairs (rest : List Nat) :
    ∀ (a : Nat) (pre : List Nat) (segs : List VesselSegment),
      segs.map (fun s => (s.node0, s.node1)) = (a :: rest).zip rest →
      updateNodesLoop segs pre.length (pre ++ [a]) = some (pre ++ a :: rest) := by
  induction rest with
  | nil =>
    intro a pre segs h
    simp only [List.zip_nil_right, List.map_eq_nil_iff] at h
    subst h
    simp [updateNodesLoop]
  | cons b rest ih =>
    intro a pre segs h
    cases segs with
    | nil => simp at h
    | cons s segs =>
      simp only [List.map_cons, List.zip_cons_cons, List.cons.injEq, Prod.mk.injEq] at h
      obtain ⟨⟨h0, h1⟩, htl⟩ := h
      have := ih b (pre ++ [a]) segs htl
      simp only [List.length_append, List.length_singleton, List.append_assoc,
        List.singleton_append] at this
      simp [updateNodesLoop, h0, h1, this]

/-- On segments that pair consecutive nodes of a list of two or more nodes, `UpdateNodes`
rebuilds the list. -/
theorem rebuildNodes_pairs (nodes : List Nat) (segs : List VesselSegment)
    (hlen : 2 ≤ nodes.length)
    (h : segs.map (fun s => (s.node0, s.node1)) = nodes.zip nodes.tail) :
    rebuildNodes segs = some nodes := by
  match nodes, hlen with
  | [a, b], _ =>
    match segs, h with
    | [s], h =>
      simp only [List.map_cons, List.map_nil, List.tail_cons, List.zip_cons_cons,
        List.zip_nil_right, List.cons.injEq, Prod.mk.injEq, and_true] at h
      simp [rebuildNodes, h.1, h.2]
  | a :: b :: c :: rest, _ =>
    match segs, h with
    | s0 :: s1 :: segs, h =>
      simp only [List.map_cons, List.tail_cons, List.zip_cons_cons, List.cons.injEq,
        Prod.mk.injEq] at h
      obtain ⟨⟨h00, h01⟩, ⟨h10, h11⟩, htl⟩ := h
      have := updateNodesLoop_pairs (c :: rest) b [a] (s1 :: segs)
        (by simp [h10, h11, htl])
      simpa [rebuildNodes, VesselSegment.HasNode, h00, h01, h10] using this

/-- C18: creating a vessel from fewer than two nodes throws; from `n ≥ 2` nodes it yields
`n - 1` segments, segment `i` holding node `i` of the list as node 0 and node `i + 1` as
node 1, and `GetNodes` on the new vessel returns the input list in the input order. -/
theorem C18_create_from_nodes (st : Store) (nodes : List Nat) (radius : ℚ) :
    (nodes.length < 2 → Vessel.CreateFromNodes st nodes radius =
        .exception "Insufficient number of nodes to define a segment.") ∧
      (2 ≤ nodes.length → ∃ v st1, Vessel.CreateFromNodes st nodes radius = .ok (v, st1) ∧
        v.mSegments.length = nodes.length - 1 ∧
        (∀ i (h : i < v.mSegments.length),
          nodes[i]? = some v.mSegments[i].node0 ∧ nodes[i + 1]? = some v.mSegments[i].node1) ∧
        (v.GetNodes st1).result = .ok nodes ∧ (v.GetNodes st1).vessel.mNodes = nodes) := by
  constructor
  · intro h
    simp [Vessel.CreateFromNodes, h]
  · intro h
    have hp := createSegmentsLoop_nodes radius nodes { st with next := st.next + 1 } []
    simp only [List.map_nil, List.nil_append] at hp
    have hr := rebuildNodes_pairs nodes _ h hp
    have hl := congrArg List.length hp
    simp only [List.length_map, List.length_zip, List.length_tail] at hl
    refine ⟨_, _, by simp only [Vessel.CreateFromNodes, if_neg (Nat.not_lt.mpr h)]; rfl,
      by simp only [hl]; omega, ?_, ?_, ?_⟩
    · intro i hi
      have hi2 : i < (nodes.zip nodes.tail).length := by
        rw [← hp, List.length_map]; exact hi
      have h1 : ((createSegmentsLoop radius nodes { st with next := st.next + 1 } []).1.map
          (fun s => (s.node0, s.node1)))[i]? = (nodes.zip nodes.tail)[i]? := by rw [hp]
      rw [List.getElem?_map, List.getElem?_eq_getElem hi, List.getElem?_eq_getElem hi2,
        List.getElem_zip] at h1
      simp only [Option.map_some', Option.some.injEq, Prod.mk.injEq] at h1
      simp only [List.length_zip, List.length_tail] at hi2
      constructor
      · rw [List.getElem?_eq_getElem (by omega), h1.1]
      · rw [List.getElem?_eq_getElem (by omega), h1.2, List.getElem_tail]
    · simp [Vessel.GetNodes, Vessel.refresh, Vessel.UpdateNodes, hr]
    · simp [Vessel.GetNodes, Vessel.refresh, Vessel.UpdateNodes, hr]

/-- C18 at concrete inputs: the nodes 4, 9, 2 give the segments 4-9 and 9-2 and the node
sequence 4, 9, 2; a single node is refused. -/
theorem C18_create_from_nodes_witness :
    (∃ v st1, Vessel.CreateFromNodes exampleStore [4, 9, 2] 1 = .ok (v, st1) ∧
        v.mSegments.length = [4, 9, 2].length - 1 ∧
        (∀ i (h : i < v.mSegments.length),
          [4, 9, 2][i]? = some v.mSegments[i].node0 ∧
          [4, 9, 2][i + 1]? = some v.mSegments[i].node1) ∧
        (v.GetNodes st1).result = .ok [4, 9, 2] ∧ (v.GetNodes st1).vessel.mNodes = [4, 9, 2]) ∧
      Vessel.CreateFromNodes exampleStore [4] 1 =
        .exception "Insufficient number of nodes to define a segment." :=
  ⟨(C18_create_from_nodes exampleStore [4, 9, 2] 1).2 (by decide),
    (C18_create_from_nodes exampleStore [4] 1).1 (by decide)⟩

/-! ## `RemoveSegments` -/

/-- Both path invariants pass from a segment sequence to the sequence without its first
segment. -/
theorem path_invariants_tail (segs : List VesselSegment) :
    (AdjacentConnected segs → AdjacentConnected segs.tail) ∧
      (NonAdjacentDisconnected segs → NonAdjacentDisconnected segs.tail) := by
  cases segs with
  | nil => exact ⟨fun h => h, fun h => h⟩
  | cons a tl =>
    constructor
    · intro h i hi
      have := h (i + 1) (by simpa using hi)
      simpa using this
    · intro h i j hi hj hd
      have := h (i + 1) (j + 1) (by simpa using hi) (by simpa using hj) (by omega)
      simpa using this

/-- Both path invariants pass from a segment sequence to the sequence without its last
segment. -/
theorem path_invariants_dropLast (segs : List VesselSegment) :
    (AdjacentConnected segs → AdjacentConnected segs.dropLast) ∧
      (NonAdjacentDisconnected segs → NonAdjacentDisconnected segs.dropLast) := by
  constructor
  · intro h i hi
    have hi2 : i + 1 < segs.length := by
      simp only [List.length_dropLast] at hi; omega
    have := h i hi2
    simpa [List.getElem_dropLast] using this
  · intro h i j hi hj hd
    simp only [List.length_dropLast] at hi hj
    have := h i j (by omega) (by omega) hd
    simpa [List.getElem_dropLast] using this

/-- C20: on a vessel with two or more segments `RemoveSegments(Start)` returns and leaves
the sequence without its first segment, `RemoveSegments(End)` returns and leaves the
sequence without its last segment; either leaves one segment less in unchanged order,
clears the owner of the removed segment and of no other segment, clears the freshness flag,
and the remaining sequence satisfies each path invariant the original satisfied. -/
theorem C20_RemoveSegments (v : Vessel) (st : Store) (hlen : 2 ≤ v.mSegments.length) :
    ((v.RemoveSegments st .Start).result = .ok () ∧
      (v.RemoveSegments st .Start).vessel.mSegments = v.mSegments.tail ∧
      (v.RemoveSegments st .Start).vessel.mSegments.length = v.mSegments.length - 1 ∧
      (v.RemoveSegments st .Start).vessel.mNodesUpToDate = false ∧
      (∀ front, v.mSegments.head? = some front →
        (v.RemoveSegments st .Start).store.segVessel front.id = none ∧
        ∀ s, s ≠ front.id →
          (v.RemoveSegments st .Start).store.segVessel s = st.segVessel s)) ∧
    ((v.RemoveSegments st .End).result = .ok () ∧
      (v.RemoveSegments st .End).vessel.mSegments = v.mSegments.dropLast ∧
      (v.RemoveSegments st .End).vessel.mSegments.length = v.mSegments.length - 1 ∧
      (v.RemoveSegments st .End).vessel.mNodesUpToDate = false ∧
      (∀ back, v.mSegments.getLast? = some back →
        (v.RemoveSegments st .End).store.segVessel back.id = none ∧
        ∀ s, s ≠ back.id →
          (v.RemoveSegments st .End).store.segVessel s = st.segVessel s)) ∧
    (AdjacentConnected v.mSegments →
      AdjacentConnected (v.RemoveSegments st .Start).vessel.mSegments ∧
      AdjacentConnected (v.RemoveSegments st .End).vessel.mSegments) ∧
    (NonAdjacentDisconnected v.mSegments →
      NonAdjacentDisconnected (v.RemoveSegments st .Start).vessel.mSegments ∧
      NonAdjacentDisconnected (v.RemoveSegments st .End).vessel.mSegments) := by
  have hne : v.mSegments ≠ [] := by
    intro h; rw [h] at hlen; simp at hlen
  have h1 : ¬ v.mSegments.length = 1 := by omega
  obtain ⟨front, rest, hfr⟩ := List.exists_cons_of_ne_nil hne
  have hS : v.RemoveSegments st .Start =
      ⟨.ok (), ({ v with mSegments := rest }).invalidate, st.RemoveVessel front.id⟩ := by
    have h1b : ¬ (front :: rest).length = 1 := by rw [← hfr]; exact h1
    simp only [Vessel.RemoveSegments, hfr, if_neg h1b]
  have hE : v.RemoveSegments st .End =
      ⟨.ok (), ({ v with mSegments := v.mSegments.dropLast }).invalidate,
        st.RemoveVessel (v.mSegments.getLast hne).id⟩ := by
    simp only [Vessel.RemoveSegments, if_neg h1, List.getLast?_eq_getLast _ hne]
  have hSm : (v.RemoveSegments st .Start).vessel.mSegments = v.mSegments.tail := by
    rw [hS, hfr]; rfl
  have hEm : (v.RemoveSegments st .End).vessel.mSegments = v.mSegments.dropLast := by
    rw [hE]; rfl
  refine ⟨⟨by rw [hS], hSm, by rw [hSm, List.length_tail], by rw [hS]; rfl, ?_⟩,
    ⟨by rw [hE], hEm, by rw [hEm, List.length_dropLast], by rw [hE]; rfl, ?_⟩, ?_, ?_⟩
  · intro f hf
    rw [hfr] at hf
    simp only [List.head?_cons, Option.some.injEq] at hf
    subst hf
    rw [hS]
    exact ⟨by simp [Store.RemoveVessel], fun s hs => by simp [Store.RemoveVessel, hs]⟩
  · intro b hb
    rw [List.getLast?_eq_getLast _ hne] at hb
    simp only [Option.some.injEq] at hb
    subst hb
    rw [hE]
    exact ⟨by simp [Store.RemoveVessel], fun s hs => by simp [Store.RemoveVessel, hs]⟩
  · intro h
    rw [hSm, hEm]
    exact ⟨(path_invariants_tail _).1 h, (path_invariants_dropLast _).1 h⟩
  · intro h
    rw [hSm, hEm]
    exact ⟨(path_invariants_tail _).2 h, (path_invariants_dropLast _).2 h⟩

/-- C20 at a concrete input: from the vessel 1-2, 2-3, 3-4 the start removal leaves 2-3,
3-4 and the end removal leaves 1-2, 2-3. -/
theorem C20_RemoveSegments_witness :
    ((exampleVessel [⟨10, 1, 2, 1⟩, ⟨11, 2, 3, 1⟩, ⟨12, 3, 4, 1⟩]).RemoveSegments
        exampleStore .Start).vessel.mSegments = [⟨11, 2, 3, 1⟩, ⟨12, 3, 4, 1⟩] ∧
      ((exampleVessel [⟨10, 1, 2, 1⟩, ⟨11, 2, 3, 1⟩, ⟨12, 3, 4, 1⟩]).RemoveSegments
        exampleStore .End).vessel.mSegments = [⟨10, 1, 2, 1⟩, ⟨11, 2, 3, 1⟩] :=
  ⟨(C20_RemoveSegments (exampleVessel [⟨10, 1, 2, 1⟩, ⟨11, 2, 3, 1⟩, ⟨12, 3, 4, 1⟩])
      exampleStore (by decide)).1.2.1,
    (C20_RemoveSegments (exampleVessel [⟨10, 1, 2, 1⟩, ⟨11, 2, 3, 1⟩, ⟨12, 3, 4, 1⟩])
      exampleStore (by decide)).2.1.2.1⟩

/-! ## Coherence of the node cache -/

/-- C19, evaluated at the failing input.  The vessel 1-2, 2-3 holds a fresh node cache
1, 2, 3 after `GetNodes`.  `AddSegments` with the segment 3-1 appends the segment, finds the
first and the last segment connected and throws; the vessel is left with three segments,
the freshness flag still set and the cache of the two-segment vessel, so the cache is not
the node sequence of the segment list: `GetNodes` returns three nodes where
`GetNumberOfNodes` reports four. -/
theorem C19_stale_cache_after_failed_AddSegments :
    cachedVessel.mNodesUpToDate = true ∧ cachedVessel.mNodes = [1, 2, 3] ∧
    CacheCoherent cachedVessel ∧
    failedAddSegments.result =
      .exception "Input vessel segments are not correctly connected." ∧
    failedAddSegments.vessel.mSegments = [⟨10, 1, 2, 1⟩, ⟨11, 2, 3, 1⟩, ⟨12, 3, 1, 1⟩] ∧
    failedAddSegments.vessel.mNodesUpToDate = true ∧
    failedAddSegments.vessel.mNodes = [1, 2, 3] ∧
    rebuildNodes failedAddSegments.vessel.mSegments = some [1, 2, 3, 1] ∧
    ¬ CacheCoherent failedAddSegments.vessel ∧
    (failedAddSegments.vessel.GetNodes failedAddSegments.store).result = .ok [1, 2, 3] ∧
    (failedAddSegments.vessel.GetNumberOfNodes failedAddSegments.store).result = .ok 4 := by
  decide

/-- On every normal return of `AddSegment`, `AddSegments`, `RemoveSegments` and `Remove` the
freshness flag is cleared; the flag can stay set over a changed segment list only when the
member function throws. -/
theorem flag_cleared_on_normal_return (v : Vessel) (st : Store) :
    (∀ s, (v.AddSegment st s).result = .ok () →
      (v.AddSegment st s).vessel.mNodesUpToDate = false) ∧
    (∀ S, (v.AddSegments st S).result = .ok () →
      (v.AddSegments st S).vessel.mNodesUpToDate = false) ∧
    (∀ location, (v.RemoveSegments st location).result = .ok () →
      (v.RemoveSegments st location).vessel.mNodesUpToDate = false) ∧
    (v.Remove st).vessel.mNodesUpToDate = false := by
  refine ⟨?_, ?_, ?_, rfl⟩
  · intro s h
    unfold Vessel.AddSegment at h ⊢
    split at h
    · simp only at h ⊢
      split_ifs at h ⊢ <;> rfl
    · split at h
      · split_ifs at h ⊢ <;> rfl
      · simp at h
  · intro S h
    unfold Vessel.AddSegments at h ⊢
    split at h
    · split_ifs at h ⊢
      all_goals
        unfold Vessel.AddSegmentsCheck at h ⊢
        split_ifs at h ⊢
        rfl
    · simp at h
  · intro location h
    unfold Vessel.RemoveSegments at h ⊢
    by_cases h1 : v.mSegments.length = 1
    · rw [if_pos h1] at h; simp at h
    · rw [if_neg h1] at h ⊢
      cases location with
      | Start =>
        simp only at h ⊢
        cases hm : v.mSegments with
        | nil => rw [hm] at h; simp at h
        | cons a tl => rfl
      | End =>
        simp only at h ⊢
        cases hm : v.mSegments.getLast? with
        | none => rw [hm] at h; simp at h
        | some b => rfl
      | Other n => simp at h

/-! ## Setup as a function of the network -/

theorem LinearSystem.ext_fields (a b : LinearSystem) (h1 : a.size = b.size)
    (h2 : ∀ r c, a.lhs r c = b.lhs r c) (h3 : ∀ r, a.rhs r = b.rhs r) : a = b := by
  cases a; cases b
  simp only [LinearSystem.mk.injEq]
  exact ⟨h1, funext fun r => funext fun c => h2 r c, funext h3⟩

/-- A system that differs from the system of the passes before `idx` in row `idx` alone, and
holds the expected row there, is the system of the passes up to and including `idx`. -/
theorem systemUpTo_step (net : VesselNetwork) (h : ℚ) (H : Nat → ℚ) (idx : Nat)
    (ls1 : LinearSystem) (hsize : ls1.size = net.numberOfVessels)
    (hother : ∀ r, r ≠ idx → (∀ c, ls1.lhs r c = (systemUpTo net h H idx).lhs r c) ∧
      ls1.rhs r = (systemUpTo net h H idx).rhs r)
    (hrow : ∀ c, ls1.lhs idx c = expectedLhs net H idx c)
    (hrhs : ls1.rhs idx = expectedRhs net h idx) :
    ls1 = systemUpTo net h H (idx + 1) := by
  apply LinearSystem.ext_fields
  · exact hsize
  · intro r c
    by_cases hr : r = idx
    · subst hr
      rw [hrow]
      simp [systemUpTo]
    · rw [(hother r hr).1 c]
      simp only [systemUpTo]
      by_cases h1 : r < idx
      · rw [if_pos h1, if_pos (by omega)]
      · rw [if_neg h1, if_neg (by omega)]
  · intro r
    by_cases hr : r = idx
    · subst hr
      rw [hrhs]
      simp [systemUpTo]
    · rw [(hother r hr).2]
      simp only [systemUpTo]
      by_cases h1 : r < idx
      · rw [if_pos h1, if_pos (by omega)]
      · rw [if_neg h1, if_neg (by omega)]

/-- A pass of the setup loop that completes, entered with the system of the earlier passes,
leaves the system of the passes up to and including it and appends its triple. -/
theorem setupRow_spec (solver : BetteridgeHaematocritSolver) (ext : Collaborators) (idx : Nat)
    (upd : List (Nat × Nat × Nat)) (hok : rowCompletes solver.mpNetwork idx = true) :
    setupRow solver ext idx
        (systemUpTo solver.mpNetwork solver.mHaematocrit
          (vesselHaematocrit ext solver.mpNetwork) idx) upd =
      .ok (systemUpTo solver.mpNetwork solver.mHaematocrit
          (vesselHaematocrit ext solver.mpNetwork) (idx + 1),
        upd ++ rowTriples solver.mpNetwork idx) := by
  have hzero : ∀ c, (systemUpTo solver.mpNetwork solver.mHaematocrit
      (vesselHaematocrit ext solver.mpNetwork) idx).lhs idx c = 0 := by
    intro c; simp [systemUpTo]
  have hzero2 : (systemUpTo solver.mpNetwork solver.mHaematocrit
      (vesselHaematocrit ext solver.mpNetwork) idx).rhs idx = 0 := by
    simp [systemUpTo]
  unfold setupRow
  unfold rowCompletes at hok
  simp only []
  by_cases h1 : touchesInput solver.mpNetwork idx = true
  · rw [if_pos h1]
    have ht : rowTriples solver.mpNetwork idx = [] := by simp [rowTriples, h1]
    rw [ht, List.append_nil]
    congr 2
    apply systemUpTo_step
    · rfl
    · intro r hr
      simp [LinearSystem.SetRhsVectorElement, LinearSystem.SetMatrixElement, hr]
    · intro c
      simp only [LinearSystem.SetRhsVectorElement, LinearSystem.SetMatrixElement, hzero]
      simp [expectedLhs, h1]
    · simp [LinearSystem.SetRhsVectorElement, expectedRhs, h1]
  · rw [if_neg h1]
    rw [if_neg h1] at hok
    have hrhs : expectedRhs solver.mpNetwork solver.mHaematocrit idx = 0 := by
      simp [expectedRhs, h1]
    by_cases h2 : (solver.mpNetwork.vessel idx).flowRate = 0
    · rw [if_pos h2]
      have ht : rowTriples solver.mpNetwork idx = [] := by simp [rowTriples, h1, h2]
      rw [ht, List.append_nil]
      congr 2
      apply systemUpTo_step
      · rfl
      · intro r hr
        simp [LinearSystem.SetRhsVectorElement, LinearSystem.SetMatrixElement, hr]
      · intro c
        simp only [LinearSystem.SetRhsVectorElement, LinearSystem.SetMatrixElement, hzero]
        simp [expectedLhs, h1, h2]
      · simp [LinearSystem.SetRhsVectorElement, hrhs]
    · rw [if_neg h2]
      rw [if_neg h2] at hok
      by_cases h3 : (solver.mpNetwork.nodeSegments (inflowNode solver.mpNetwork idx)).length > 1
      · rw [if_pos h3]
        rw [if_pos h3] at hok
        by_cases h4 : isConverging solver.mpNetwork
            (classify solver.mpNetwork idx (inflowNode solver.mpNetwork idx)).2 = true
        · rw [if_pos h4]
          have ht : rowTriples solver.mpNetwork idx = [] := by
            simp [rowTriples, h1, h2, h3, h4]
          rw [ht, List.append_nil]
          congr 2
          obtain ⟨c1, c2, c3, c4, c5⟩ := convergingRow_frame solver.mpNetwork idx
            (classify solver.mpNetwork idx (inflowNode solver.mpNetwork idx)).1
            ((systemUpTo solver.mpNetwork solver.mHaematocrit
              (vesselHaematocrit ext solver.mpNetwork) idx).SetMatrixElement idx idx 1)
          apply systemUpTo_step
          · rw [c1]; rfl
          · intro r hr
            refine ⟨fun c => ?_, ?_⟩
            · rw [c3 r c hr]; simp [LinearSystem.SetMatrixElement, hr]
            · rw [c2]; rfl
          · intro c
            by_cases hc : c ∈ (classify solver.mpNetwork idx (inflowNode solver.mpNetwork idx)).1
            · rw [c5 c hc]
              simp [expectedLhs, h1, h2, h3, h4, hc]
            · rw [c4 c hc]
              simp only [LinearSystem.SetMatrixElement, hzero]
              simp [expectedLhs, h1, h2, h3, h4, hc]
          · rw [c2]; simp [LinearSystem.SetMatrixElement, hzero2, hrhs]
        · rw [if_neg h4]
          rw [if_neg h4] at hok
          unfold bifurcationRow
          simp only []
          by_cases h5 : ((classify solver.mpNetwork idx (inflowNode solver.mpNetwork idx)).2.length > 1 ||
              (classify solver.mpNetwork idx (inflowNode solver.mpNetwork idx)).1.length > 1) = true
          · rw [if_pos h5] at hok; exact absurd hok (by simp)
          · rw [if_neg h5]
            rw [if_neg h5] at hok
            cases hcs : (classify solver.mpNetwork idx (inflowNode solver.mpNetwork idx)).2 with
            | nil => rw [hcs] at hok; simp at hok
            | cons c0 cs =>
              cases hps : (classify solver.mpNetwork idx (inflowNode solver.mpNetwork idx)).1 with
              | nil => rw [hcs, hps] at hok; simp at hok
              | cons p0 ps =>
                have h4c : isConverging solver.mpNetwork (c0 :: cs) = false := by
                  rw [← hcs]; simpa using h4
                have ht : rowTriples solver.mpNetwork idx = [(idx, p0, c0)] := by
                  simp [rowTriples, h1, h2, h3, h4c, hcs, hps]
                rw [ht]
                simp only []
                congr 2
                apply systemUpTo_step
                · rfl
                · intro r hr
                  simp [LinearSystem.SetMatrixElement, hr]
                · intro c
                  simp only [LinearSystem.SetMatrixElement, hzero]
                  simp [expectedLhs, h1, h2, h3, h4c, hcs, hps]
                · simp [LinearSystem.SetMatrixElement, hzero2, hrhs]
      · rw [if_neg h3]
        have ht : rowTriples solver.mpNetwork idx = [] := by simp [rowTriples, h1, h2, h3]
        rw [ht, List.append_nil]
        congr 2
        apply systemUpTo_step
        · rfl
        · intro r hr
          simp [LinearSystem.SetMatrixElement, hr]
        · intro c
          simp only [LinearSystem.SetMatrixElement, hzero]
          simp [expectedLhs, h1, h2, h3]
        · simp [LinearSystem.SetMatrixElement, hzero2, hrhs]

/-- A pass of the setup loop that returns normally is one that completes. -/
theorem rowCompletes_of_setupRow_ok (solver : BetteridgeHaematocritSolver)
    (ext : Collaborators) (idx : Nat) (ls : LinearSystem) (upd : List (Nat × Nat × Nat))
    (ls1 : LinearSystem) (upd1 : List (Nat × Nat × Nat))
    (h : setupRow solver ext idx ls upd = .ok (ls1, upd1)) :
    rowCompletes solver.mpNetwork idx = true := by
  unfold rowCompletes
  rcases setupRow_ok_cases _ _ _ _ _ _ _ h with
    ⟨h1, -⟩ | ⟨h1, h2, -⟩ | ⟨h1, h2, h3, h4, -⟩ | ⟨h1, h2, h3, h4, p, c, hcl, -⟩ | ⟨h1, h2, h3, -⟩
  · simp [h1]
  · simp [h1, h2]
  · simp [h1, h2, h3, h4]
  · rw [if_neg (by simp [h1]), if_neg h2, if_pos h3, if_neg (by simp [h4])]
    simp [hcl]
  · simp [h1, h2, h3]

/-- When the passes for the vessels below `n` all complete, the setup loop over them returns
the system and the list described by `systemUpTo` and `updateIndicesUpTo`. -/
theorem setupUpTo_spec (solver : BetteridgeHaematocritSolver) (ext : Collaborators) (n : Nat)
    (hok : ∀ i, i < n → rowCompletes solver.mpNetwork i = true) :
    setupUpTo solver ext n =
      .ok (systemUpTo solver.mpNetwork solver.mHaematocrit
          (vesselHaematocrit ext solver.mpNetwork) n,
        updateIndicesUpTo solver.mpNetwork n) := by
  induction n with
  | zero =>
    simp only [setupUpTo, List.range_zero, List.foldl_nil, updateIndicesUpTo]
    congr 2
  | succ k ih =>
    rw [setupUpTo_succ, ih (fun i hi => hok i (by omega))]
    simp only [setupStep]
    rw [setupRow_spec solver ext k _ (hok k (by omega))]
    rfl

/-- When the setup loop over the vessels below `n` returns normally, each of its passes
completes. -/
theorem rowCompletes_of_setupUpTo_ok (solver : BetteridgeHaematocritSolver)
    (ext : Collaborators) (n : Nat) (ls : LinearSystem) (upd : List (Nat × Nat × Nat))
    (h : setupUpTo solver ext n = .ok (ls, upd)) :
    ∀ i, i < n → rowCompletes solver.mpNetwork i = true := by
  intro i hi
  obtain ⟨ls0, upd0, lsi, updi, -, hrow, -⟩ := setupUpTo_row solver ext n i hi ls upd h
  exact rowCompletes_of_setupRow_ok _ _ _ _ _ _ _ hrow

/-- The outcome of a completed setup: the system and the list are functions of the topology,
the flow rates and radii, the arterial haematocrit and the vessel-level haematocrit values
of the network. -/
theorem setup_spec (solver : BetteridgeHaematocritSolver) (ext : Collaborators)
    (ls0 : LinearSystem) (upd : List (Nat × Nat × Nat)) (h : setup solver ext = .ok (ls0, upd)) :
    (∀ i, i < solver.mpNetwork.numberOfVessels → rowCompletes solver.mpNetwork i = true) ∧
    ls0 = systemUpTo solver.mpNetwork solver.mHaematocrit
      (vesselHaematocrit ext solver.mpNetwork) solver.mpNetwork.numberOfVessels ∧
    upd = updateIndicesUpTo solver.mpNetwork solver.mpNetwork.numberOfVessels := by
  have hrows := rowCompletes_of_setupUpTo_ok solver ext _ ls0 upd h
  have := setupUpTo_spec solver ext _ hrows
  unfold setup at h
  rw [this] at h
  simp only [Result.ok.injEq, Prod.mk.injEq] at h
  exact ⟨hrows, h.1.symm, h.2.symm⟩

/-- Setup completes exactly when the pass of every vessel completes. -/
theorem setupCompletes_iff (solver : BetteridgeHaematocritSolver) (ext : Collaborators) :
    setupCompletes solver ext = true ↔
      ∀ i, i < solver.mpNetwork.numberOfVessels → rowCompletes solver.mpNetwork i = true := by
  constructor
  · intro h
    exact (setup_spec solver ext _ _ (setup_eq_of_completes solver ext h)).1
  · intro h
    have := setupUpTo_spec solver ext _ h
    unfold setupCompletes setup
    rw [this]

/-- The triples of a row: at most one, and it names the row, the first parent and the first
competitor. -/
theorem rowTriples_cases (net : VesselNetwork) (r : Nat) :
    rowTriples net r = [] ∨
      ∃ p c ps cs, rowTriples net r = [(r, p, c)] ∧
        touchesInput net r = false ∧ (net.vessel r).flowRate ≠ 0 ∧
        (net.nodeSegments (inflowNode net r)).length > 1 ∧
        isConverging net (classify net r (inflowNode net r)).2 = false ∧
        (classify net r (inflowNode net r)).1 = p :: ps ∧
        (classify net r (inflowNode net r)).2 = c :: cs := by
  unfold rowTriples
  by_cases h1 : touchesInput net r = true
  · left; rw [if_pos h1]
  · rw [if_neg h1]
    by_cases h2 : (net.vessel r).flowRate = 0
    · left; rw [if_pos h2]
    · rw [if_neg h2]
      by_cases h3 : (net.nodeSegments (inflowNode net r)).length > 1
      · rw [if_pos h3]
        by_cases h4 : isConverging net (classify net r (inflowNode net r)).2 = true
        · left; rw [if_pos h4]
        · rw [if_neg h4]
          cases hcs : (classify net r (inflowNode net r)).2 with
          | nil => left; rfl
          | cons c0 cs =>
            cases hps : (classify net r (inflowNode net r)).1 with
            | nil => left; rfl
            | cons p0 ps =>
              right
              refine ⟨p0, c0, ps, cs, rfl, by simpa using h1, h2, h3, ?_, rfl, rfl⟩
              rw [← hcs]; simpa using h4
      · left; rw [if_neg h3]

theorem mem_updateIndicesUpTo (net : VesselNetwork) (n : Nat) (e : Nat × Nat × Nat) :
    e ∈ updateIndicesUpTo net n ↔ ∃ r, r < n ∧ e ∈ rowTriples net r := by
  induction n with
  | zero => simp [updateIndicesUpTo]
  | succ k ih =>
    simp only [updateIndicesUpTo, List.mem_append, ih]
    constructor
    · rintro (⟨r, hr, he⟩ | he)
      · exact ⟨r, by omega, he⟩
      · exact ⟨k, by omega, he⟩
    · rintro ⟨r, hr, he⟩
      by_cases hrk : r = k
      · subst hrk; exact Or.inr he
      · exact Or.inl ⟨r, by omega, he⟩

/-- The entry at the recorded position of a row is the setup coefficient computed with the
haematocrit read for the parent. -/
theorem expectedLhs_recorded (net : VesselNetwork) (H : Nat → ℚ) (r : Nat)
    (e : Nat × Nat × Nat) (he : e ∈ rowTriples net r) :
    e.1 = r ∧
    expectedLhs net H r e.2.1 =
      setupCoefficient (net.vessel e.1).flowRate (net.vessel e.2.2).flowRate
        (net.vessel e.2.1).flowRate (net.vessel e.1).radius (net.vessel e.2.2).radius
        (H e.2.1) := by
  rcases rowTriples_cases net r with h | ⟨p, c, ps, cs, h, h1, h2, h3, h4, hps, hcs⟩
  · rw [h] at he; simp at he
  · rw [h] at he
    simp only [List.mem_singleton] at he
    subst he
    have h4c : isConverging net (c :: cs) = false := by rw [← hcs]; exact h4
    refine ⟨rfl, ?_⟩
    simp [expectedLhs, h1, h2, h3, h4c, hps, hcs]

/-- Off the recorded position of its row an entry does not depend on the haematocrit
reading. -/
theorem expectedLhs_off_recorded (net : VesselNetwork) (H H1 : Nat → ℚ) (r c : Nat)
    (hc : ∀ e ∈ rowTriples net r, e.2.1 ≠ c) :
    expectedLhs net H r c = expectedLhs net H1 r c := by
  rcases rowTriples_cases net r with h | ⟨p, c0, ps, cs, h, h1, h2, h3, h4, hps, hcs⟩
  · unfold rowTriples at h
    unfold expectedLhs
    by_cases h1 : touchesInput net r = true
    · rw [if_pos h1, if_pos h1]
    · rw [if_neg h1, if_neg h1]
      rw [if_neg h1] at h
      by_cases h2 : (net.vessel r).flowRate = 0
      · rw [if_pos h2, if_pos h2]
      · rw [if_neg h2, if_neg h2]
        rw [if_neg h2] at h
        by_cases h3 : (net.nodeSegments (inflowNode net r)).length > 1
        · rw [if_pos h3, if_pos h3]
          rw [if_pos h3] at h
          by_cases h4 : isConverging net (classify net r (inflowNode net r)).2 = true
          · rw [if_pos h4, if_pos h4]
          · rw [if_neg h4, if_neg h4]
            rw [if_neg h4] at h
            cases hcs : (classify net r (inflowNode net r)).2 with
            | nil => rfl
            | cons c0 cs =>
              cases hps : (classify net r (inflowNode net r)).1 with
              | nil => rfl
              | cons p0 ps => rw [hcs, hps] at h; simp at h
        · rw [if_neg h3, if_neg h3]
  · have hcp : c ≠ p := by
      have := hc (r, p, c0) (by rw [h]; simp)
      exact fun hh => this hh.symm
    have h4c : isConverging net (c0 :: cs) = false := by rw [← hcs]; exact h4
    simp [expectedLhs, h1, h2, h3, h4c, hps, hcs, hcp]

/-- Two haematocrit readings that agree on the parent of every recorded triple give the same
system. -/
theorem systemUpTo_congr (net : VesselNetwork) (h : ℚ) (H H1 : Nat → ℚ) (n : Nat)
    (hagree : ∀ e ∈ updateIndicesUpTo net n, H e.2.1 = H1 e.2.1) :
    systemUpTo net h H n = systemUpTo net h H1 n := by
  apply LinearSystem.ext_fields
  · rfl
  · intro r c
    simp only [systemUpTo]
    by_cases hr : r < n
    · rw [if_pos hr, if_pos hr]
      by_cases hc : ∀ e ∈ rowTriples net r, e.2.1 ≠ c
      · exact expectedLhs_off_recorded net H H1 r c hc
      · push_neg at hc
        obtain ⟨e, he, hec⟩ := hc
        have h1 := (expectedLhs_recorded net H r e he).2
        have h2 := (expectedLhs_recorded net H1 r e he).2
        rw [hec] at h1 h2
        rw [h1, h2, ← hec, hagree e ((mem_updateIndicesUpTo net n e).2 ⟨r, hr, he⟩)]
    · rw [if_neg hr, if_neg hr]
  · intro r; rfl

/-! ## Networks that differ in the haematocrit values alone -/

theorem rowCompletes_withHaematocrit (net : VesselNetwork) (f : Nat → List ℚ) (i : Nat) :
    rowCompletes (withHaematocrit net f) i = rowCompletes net i := rfl

theorem rowTriples_withHaematocrit (net : VesselNetwork) (f : Nat → List ℚ) (i : Nat) :
    rowTriples (withHaematocrit net f) i = rowTriples net i := rfl

theorem systemUpTo_withHaematocrit (net : VesselNetwork) (f : Nat → List ℚ) (h : ℚ)
    (H : Nat → ℚ) (n : Nat) :
    systemUpTo (withHaematocrit net f) h H n = systemUpTo net h H n := rfl

theorem updateIndicesUpTo_withHaematocrit (net : VesselNetwork) (f : Nat → List ℚ) (n : Nat) :
    updateIndicesUpTo (withHaematocrit net f) n = updateIndicesUpTo net n := by
  induction n with
  | zero => rfl
  | succ k ih => simp only [updateIndicesUpTo, ih, rowTriples_withHaematocrit]

theorem withHaematocrit_self (net : VesselNetwork) :
    withHaematocrit net (fun i => (net.vessel i).segmentHaematocrit) = net := rfl

theorem withHaematocrit_withHaematocrit (net : VesselNetwork) (f g : Nat → List ℚ) :
    withHaematocrit (withHaematocrit net f) g = withHaematocrit net g := rfl

/-- The assignment loop changes the haematocrit values alone. -/
theorem assignHaematocrit_withHaematocrit (net : VesselNetwork) (f : Nat → List ℚ)
    (a : Nat → ℚ) :
    assignHaematocrit (withHaematocrit net f) a =
      withHaematocrit net (fun idx =>
        if idx < net.numberOfVessels then (f idx).map fun _ => a idx else f idx) := by
  unfold assignHaematocrit withHaematocrit
  simp only [VesselNetwork.mk.injEq, true_and, and_true]
  funext idx
  by_cases h : idx < net.numberOfVessels
  · simp [h]
  · simp [h]

/-- The refresh computes the same coefficient as setup. -/
theorem refreshCoefficient_eq_setupCoefficient (Qs Qc Qp rs rc H : ℚ) :
    refreshCoefficient Qs Qc Qp rs rc H = setupCoefficient Qs Qc Qp rs rc H := by
  unfold refreshCoefficient setupCoefficient
  simp only [abs_div]

/-- After the refresh loop a recorded position that only one triple of the list names holds
the refresh coefficient of that triple. -/
theorem refresh_recorded (ext : Collaborators) (net : VesselNetwork)
    (upd : List (Nat × Nat × Nat)) (ls : LinearSystem) (e : Nat × Nat × Nat)
    (he : e ∈ upd) (huniq : ∀ e1 ∈ upd, e1.1 = e.1 → e1.2.1 = e.2.1 → e1 = e) :
    (upd.foldl (refreshEntry ext net) ls).lhs e.1 e.2.1 =
      refreshCoefficient (net.vessel e.1).flowRate (net.vessel e.2.2).flowRate
        (net.vessel e.2.1).flowRate (net.vessel e.1).radius (net.vessel e.2.2).radius
        (vesselHaematocrit ext net e.2.1) := by
  induction upd using List.reverseRecOn with
  | nil => simp at he
  | append_singleton l x ih =>
    rw [List.foldl_append]
    simp only [List.foldl_cons, List.foldl_nil, refreshEntry, LinearSystem.SetMatrixElement]
    by_cases hx : e.1 = x.1 ∧ e.2.1 = x.2.1
    · have := huniq x (by simp) hx.1.symm hx.2.symm
      subst this
      rw [if_pos ⟨rfl, rfl⟩]
    · rw [if_neg hx]
      have hel : e ∈ l := by
        rcases List.mem_append.1 he with h | h
        · exact h
        · simp only [List.mem_singleton] at h
          subst h
          exact absurd ⟨rfl, rfl⟩ hx
      exact ih hel (fun e1 h1 => huniq e1 (List.mem_append_left _ h1))

/-- The refresh loop, run on a system built by setup for any haematocrit reading, leaves the
system that setup builds from the haematocrit values the network holds at the refresh. -/
theorem refresh_spec (ext : Collaborators) (net : VesselNetwork) (f : Nat → List ℚ) (h : ℚ)
    (H : Nat → ℚ) :
    (updateIndicesUpTo net net.numberOfVessels).foldl
        (refreshEntry ext (withHaematocrit net f))
        (systemUpTo net h H net.numberOfVessels) =
      systemUpTo net h (vesselHaematocrit ext (withHaematocrit net f)) net.numberOfVessels := by
  obtain ⟨f1, f2, f3⟩ := refresh_frame ext (withHaematocrit net f)
    (updateIndicesUpTo net net.numberOfVessels) (systemUpTo net h H net.numberOfVessels)
  apply LinearSystem.ext_fields
  · rw [f1]; rfl
  · intro r c
    by_cases hrec : ∀ e ∈ updateIndicesUpTo net net.numberOfVessels, ¬ (e.1 = r ∧ e.2.1 = c)
    · rw [f3 r c hrec]
      simp only [systemUpTo]
      by_cases hr : r < net.numberOfVessels
      · rw [if_pos hr, if_pos hr]
        apply expectedLhs_off_recorded
        intro e he hec
        have he1 := (expectedLhs_recorded net H r e he).1
        exact hrec e ((mem_updateIndicesUpTo net _ e).2 ⟨r, hr, he⟩) ⟨he1, hec⟩
      · rw [if_neg hr, if_neg hr]
    · push_neg at hrec
      obtain ⟨e, he, her, hec⟩ := hrec
      obtain ⟨r1, hr1, hrow⟩ := (mem_updateIndicesUpTo net _ e).1 he
      have he1 := (expectedLhs_recorded net
        (vesselHaematocrit ext (withHaematocrit net f)) r1 e hrow)
      have hr1r : r1 = r := by rw [← he1.1, her]
      subst hr1r
      have huniq : ∀ e1 ∈ updateIndicesUpTo net net.numberOfVessels,
          e1.1 = e.1 → e1.2.1 = e.2.1 → e1 = e := by
        intro e1 h1 h11 _
        obtain ⟨r2, -, hrow2⟩ := (mem_updateIndicesUpTo net _ e1).1 h1
        have h21 := (expectedLhs_recorded net H r2 e1 hrow2).1
        have : r2 = r1 := by rw [← h21, h11, her]
        subst this
        rcases rowTriples_cases net r2 with h0 | ⟨p, c0, ps, cs, h0, -⟩
        · rw [h0] at hrow; simp at hrow
        · rw [h0] at hrow hrow2
          simp only [List.mem_singleton] at hrow hrow2
          rw [hrow, hrow2]
      have := refresh_recorded ext (withHaematocrit net f) _
        (systemUpTo net h H net.numberOfVessels) e he huniq
      rw [her, hec] at this
      rw [this, refreshCoefficient_eq_setupCoefficient]
      simp only [systemUpTo]
      rw [if_pos hr1, ← hec, he1.2, her]
      rfl
  · intro r
    rw [f2]; rfl

/-! ## The iteration loop, pass by pass -/

theorem afterPasses_loopBody (ext : Collaborators) (upd : List (Nat × Nat × Nat))
    (s : LoopState) (k : Nat) :
    afterPasses ext upd (loopBody ext upd s) k = afterPasses ext upd s (k + 1) := by
  induction k with
  | zero => rfl
  | succ n ih => simp only [afterPasses, ih]

theorem afterPasses_iterations (ext : Collaborators) (upd : List (Nat × Nat × Nat))
    (s : LoopState) (k : Nat) : (afterPasses ext upd s k).iterations = s.iterations + k := by
  induction k with
  | zero => rfl
  | succ n ih => simp only [afterPasses, loopBody_iterations, ih]; omega

/-- The loop returns normally, in the state after pass `k`, when pass `k` is the first to
end with a residual within the tolerance and the counter is then still below the cap. -/
theorem iterate_of_first_converged (ext : Collaborators) (upd : List (Nat × Nat × Nat)) :
    ∀ (k fuel : Nat) (s : LoopState),
      (∀ m, m < k → (afterPasses ext upd s m).residual > tolerance) →
      ¬ (afterPasses ext upd s k).residual > tolerance →
      s.iterations + k < max_iterations → k ≤ fuel →
      iterate ext upd fuel s = ⟨.ok (), afterPasses ext upd s k⟩ := by
  intro k
  induction k with
  | zero =>
    intro fuel s _ hk _ _
    simp only [afterPasses] at hk
    cases fuel with
    | zero => simp [iterate, hk, afterPasses]
    | succ f => simp [iterate, hk, afterPasses]
  | succ n ih =>
    intro fuel s hbefore hk hcap hfuel
    cases fuel with
    | zero => omega
    | succ f =>
      have h0 : s.residual > tolerance := hbefore 0 (by omega)
      have hit : (loopBody ext upd s).iterations ≠ max_iterations := by
        rw [loopBody_iterations]; omega
      rw [iterate, if_pos ⟨h0, by omega⟩]
      simp only [if_neg hit]
      rw [ih f (loopBody ext upd s)
        (fun m hm => by rw [afterPasses_loopBody]; exact hbefore (m + 1) (by omega))
        (by rw [afterPasses_loopBody]; exact hk)
        (by rw [loopBody_iterations]; omega) (by omega), afterPasses_loopBody]

/-- The loop throws, in the state after the pass that brings the counter to the cap, when
every earlier pass ended with a residual above the tolerance; the residual of the throwing
pass itself is not looked at. -/
theorem iterate_of_none_converged (ext : Collaborators) (upd : List (Nat × Nat × Nat)) :
    ∀ (k fuel : Nat) (s : LoopState),
      (∀ m, m ≤ k → (afterPasses ext upd s m).residual > tolerance) →
      s.iterations + k + 1 = max_iterations → k + 1 ≤ fuel →
      iterate ext upd fuel s =
        ⟨.exception "Haematocrit calculation failed to converge.",
          afterPasses ext upd s (k + 1)⟩ := by
  intro k
  induction k with
  | zero =>
    intro fuel s hbefore hcap hfuel
    cases fuel with
    | zero => omega
    | succ f =>
      have h0 : s.residual > tolerance := hbefore 0 (by omega)
      have hit : (loopBody ext upd s).iterations = max_iterations := by
        rw [loopBody_iterations]; omega
      rw [iterate, if_pos ⟨h0, by omega⟩]
      simp only [if_pos hit]
      rfl
  | succ n ih =>
    intro fuel s hbefore hcap hfuel
    cases fuel with
    | zero => omega
    | succ f =>
      have h0 : s.residual > tolerance := hbefore 0 (by omega)
      have hit : (loopBody ext upd s).iterations ≠ max_iterations := by
        rw [loopBody_iterations]; omega
      rw [iterate, if_pos ⟨h0, by omega⟩]
      simp only [if_neg hit]
      rw [ih f (loopBody ext upd s)
        (fun m hm => by rw [afterPasses_loopBody]; exact hbefore (m + 1) (by omega))
        (by rw [loopBody_iterations]; omega) (by omega), afterPasses_loopBody]

theorem Calculate_eq_iterate (solver : BetteridgeHaematocritSolver) (ext : Collaborators)
    (h : setupCompletes solver ext = true) :
    solver.Calculate ext =
      iterate ext (setupUpdateIndices solver ext) max_iterations (initialState solver ext) := by
  unfold BetteridgeHaematocritSolver.Calculate
  rw [setup_eq_of_completes solver ext h]
  rfl

/-- After a completed setup `Calculate` returns normally in the state after pass `k` when
`k ≤ 999` is the first pass that ends with a residual within the tolerance, and it throws
the convergence exception in the state after pass 1000 when there is no such pass. -/
theorem Calculate_outcome (solver : BetteridgeHaematocritSolver) (ext : Collaborators)
    (h : setupCompletes solver ext = true) :
    (∀ k, 1 ≤ k → k ≤ 999 →
      (∀ m, 1 ≤ m → m < k → (passState solver ext m).residual > tolerance) →
      (passState solver ext k).residual ≤ tolerance →
      solver.Calculate ext = ⟨.ok (), passState solver ext k⟩) ∧
    ((∀ k, 1 ≤ k → k ≤ 999 → (passState solver ext k).residual > tolerance) →
      solver.Calculate ext =
        ⟨.exception "Haematocrit calculation failed to converge.",
          passState solver ext 1000⟩) := by
  rw [Calculate_eq_iterate solver ext h]
  constructor
  · intro k hk1 hk2 hbefore hk
    apply iterate_of_first_converged ext _ k max_iterations
    · intro m hm
      by_cases hm0 : m = 0
      · subst hm0; exact DBL_MAX_gt_tolerance
      · exact hbefore m (by omega) hm
    · exact not_lt.mpr hk
    · simp only [initialState, max_iterations]; omega
    · simp only [max_iterations]; omega
  · intro hall
    apply iterate_of_none_converged ext _ 999 max_iterations
    · intro m hm
      by_cases hm0 : m = 0
      · subst hm0; exact DBL_MAX_gt_tolerance
      · exact hall m (by omega) hm
    · simp only [initialState, max_iterations]
    · simp only [max_iterations]; omega

theorem setupSystem_eq (solver : BetteridgeHaematocritSolver) (ext : Collaborators)
    (h : setupCompletes solver ext = true) :
    setupSystem solver ext = systemUpTo solver.mpNetwork solver.mHaematocrit
      (vesselHaematocrit ext solver.mpNetwork) solver.mpNetwork.numberOfVessels :=
  (setup_spec solver ext _ _ (setup_eq_of_completes solver ext h)).2.1

theorem setupUpdateIndices_eq (solver : BetteridgeHaematocritSolver) (ext : Collaborators)
    (h : setupCompletes solver ext = true) :
    setupUpdateIndices solver ext =
      updateIndicesUpTo solver.mpNetwork solver.mpNetwork.numberOfVessels :=
  (setup_spec solver ext _ _ (setup_eq_of_completes solver ext h)).2.2

theorem passState_succ (solver : BetteridgeHaematocritSolver) (ext : Collaborators) (k : Nat) :
    passState solver ext (k + 1) =
      loopBody ext (setupUpdateIndices solver ext) (passState solver ext k) := rfl

theorem passState_iterations (solver : BetteridgeHaematocritSolver) (ext : Collaborators)
    (k : Nat) : (passState solver ext k).iterations = k := by
  unfold passState
  rw [afterPasses_iterations]
  simp [initialState]

/-- The network after any number of passes is the network handed to the solver with other
haematocrit values. -/
theorem passState_network (solver : BetteridgeHaematocritSolver) (ext : Collaborators)
    (k : Nat) : ∃ f, (passState solver ext k).network = withHaematocrit solver.mpNetwork f := by
  induction k with
  | zero => exact ⟨_, (withHaematocrit_self solver.mpNetwork).symm⟩
  | succ n ih =>
    obtain ⟨f, hf⟩ := ih
    rw [passState_succ, loopBody_network, hf, assignHaematocrit_withHaematocrit]
    exact ⟨_, rfl⟩

/-- Every pass solves the system that setup builds from the haematocrit values the network
holds when the pass begins: pass 1 the system of setup itself, a later pass the system left
by the refresh, and without a recorded triple always the same system. -/
theorem passState_system (solver : BetteridgeHaematocritSolver) (ext : Collaborators)
    (h : setupCompletes solver ext = true) (k : Nat) :
    (passState solver ext (k + 1)).linearSystem =
      systemUpTo solver.mpNetwork solver.mHaematocrit
        (vesselHaematocrit ext (passState solver ext k).network)
        solver.mpNetwork.numberOfVessels := by
  induction k with
  | zero =>
    rw [passState_succ]
    simp only [loopBody, passState, afterPasses, initialState]
    rw [if_neg (by simp)]
    exact setupSystem_eq solver ext h
  | succ n ih =>
    obtain ⟨f, hf⟩ := passState_network solver ext (n + 1)
    rw [passState_succ (k := n + 1)]
    simp only [loopBody]
    rw [ih, passState_iterations, setupUpdateIndices_eq solver ext h]
    by_cases hu : (updateIndicesUpTo solver.mpNetwork solver.mpNetwork.numberOfVessels).length > 0
    · rw [if_pos ⟨by omega, hu⟩, hf, refresh_spec]
    · rw [if_neg (fun hh => hu hh.2)]
      apply systemUpTo_congr
      intro e he
      have : updateIndicesUpTo solver.mpNetwork solver.mpNetwork.numberOfVessels = [] :=
        List.length_eq_zero.mp (by omega)
      rw [this] at he
      simp at he

theorem passState_solved (solver : BetteridgeHaematocritSolver) (ext : Collaborators)
    (k : Nat) (ls : LinearSystem) :
    ls ∈ (passState solver ext k).solved ↔
      ∃ j, j < k ∧ ls = (passState solver ext (j + 1)).linearSystem := by
  induction k with
  | zero => simp [passState, afterPasses, initialState]
  | succ n ih =>
    rw [passState_succ, loopBody_solved, List.mem_append, ih]
    simp only [List.mem_singleton]
    constructor
    · rintro (⟨j, hj, hls⟩ | hls)
      · exact ⟨j, by omega, hls⟩
      · exact ⟨n, by omega, by rw [hls, passState_succ]⟩
    · rintro ⟨j, hj, hls⟩
      by_cases hjn : j = n
      · subst hjn
        right
        rw [hls, passState_succ]
      · exact Or.inl ⟨j, by omega, hls⟩

/-- The run of `Calculate` after a completed setup ends in the state after some pass
`k ≥ 1`: normally when `k ≤ 999` is the first pass with a residual within the tolerance,
with the convergence exception after pass 1000 when there is no such pass. -/
theorem Calculate_cases (solver : BetteridgeHaematocritSolver) (ext : Collaborators)
    (h : setupCompletes solver ext = true) :
    (∃ k, 1 ≤ k ∧ k ≤ 999 ∧ solver.Calculate ext = ⟨.ok (), passState solver ext k⟩ ∧
      (∀ m, 1 ≤ m → m < k → (passState solver ext m).residual > tolerance) ∧
      (passState solver ext k).residual ≤ tolerance) ∨
    (solver.Calculate ext =
        ⟨.exception "Haematocrit calculation failed to converge.",
          passState solver ext 1000⟩ ∧
      ∀ k, 1 ≤ k → k ≤ 999 → (passState solver ext k).residual > tolerance) := by
  classical
  by_cases hex : ∃ k, 1 ≤ k ∧ k ≤ 999 ∧ (passState solver ext k).residual ≤ tolerance
  · left
    have hmin : ∀ m, m < Nat.find hex →
        ¬ (1 ≤ m ∧ m ≤ 999 ∧ (passState solver ext m).residual ≤ tolerance) :=
      fun m hm => Nat.find_min hex hm
    obtain ⟨h1, h2, h3⟩ := Nat.find_spec hex
    refine ⟨Nat.find hex, h1, h2, ?_, ?_, h3⟩
    · apply (Calculate_outcome solver ext h).1 _ h1 h2 _ h3
      intro m hm1 hm
      have := hmin m hm
      simp only [not_and, not_le] at this
      exact this hm1 (by omega)
    · intro m hm1 hm
      have := hmin m hm
      simp only [not_and, not_le] at this
      exact this hm1 (by omega)
  · right
    have hall : ∀ k, 1 ≤ k → k ≤ 999 → (passState solver ext k).residual > tolerance := by
      intro k h1 h2
      by_contra hk
      exact hex ⟨k, h1, h2, not_lt.mp hk⟩
    exact ⟨(Calculate_outcome solver ext h).2 hall, hall⟩

/-- After a completed setup the convergence exception is thrown exactly when each of the
passes 1 to 999 ends with a residual above the tolerance; the residual of pass 1000 plays no
part. -/
theorem convergence_exception_iff (solver : BetteridgeHaematocritSolver) (ext : Collaborators)
    (h : setupCompletes solver ext = true) :
    (solver.Calculate ext).result =
        .exception "Haematocrit calculation failed to converge." ↔
      ∀ k, 1 ≤ k → k ≤ 999 → (passState solver ext k).residual > tolerance := by
  rcases Calculate_cases solver ext h with ⟨k, h1, h2, hc, -, hk⟩ | ⟨hc, hall⟩
  · rw [hc]
    constructor
    · intro hh; simp at hh
    · intro hall
      exact absurd hk (not_le.mpr (hall k h1 h2))
  · rw [hc]
    exact ⟨fun _ => hall, fun _ => rfl⟩

/-! ## Bifurcations whose branches carry blood at the same velocity -/

theorem M_PI_pos : (0 : ℚ) < M_PI := by decide!

/-- With equal, non-zero velocities of self and competitor the setup coefficient is
`-flow_ratio_pm / (1 + flow_ratio_cm)`, whatever the haematocrit of the parent. -/
theorem setupCoefficient_equal_velocity (Qs Qc Qp rs rc H : ℚ) (hQc : Qc ≠ 0) (hrc : rc ≠ 0)
    (hvel : |Qs| / (M_PI * rs * rs) = |Qc| / (M_PI * rc * rc)) :
    setupCoefficient Qs Qc Qp rs rc H = -(|Qp| / |Qs|) / (1 + |Qc| / |Qs|) := by
  have hv : |Qc| / (M_PI * rc * rc) ≠ 0 := by
    have := M_PI_pos
    have h1 : |Qc| ≠ 0 := abs_ne_zero.mpr hQc
    have h2 : M_PI * rc * rc ≠ 0 := by positivity
    exact div_ne_zero h1 h2
  unfold setupCoefficient
  simp only [hvel, ge_iff_le, le_refl, if_true, div_self hv, sub_self, mul_zero, add_zero,
    div_one, mul_one]

/-- With conservation of the flow at the junction in addition, the coefficient is `-1`. -/
theorem conserving_coefficient (Qs Qc Qp : ℚ) (hQs : Qs ≠ 0) (hcons : |Qp| = |Qs| + |Qc|) :
    -(|Qp| / |Qs|) / (1 + |Qc| / |Qs|) = -1 := by
  have h1 : 0 < |Qs| := abs_pos.mpr hQs
  have h2 : 0 ≤ |Qc| := abs_nonneg Qc
  have h3 : |Qs| + |Qc| ≠ 0 := by positivity
  rw [hcons]
  field_simp

/-- The triple of a row at a bifurcation with one parent and one competitor. -/
theorem rowTriples_of_classify (net : VesselNetwork) (i p c : Nat) (hi : i < net.numberOfVessels)
    (hwf : net.WellFormed) (hinput : touchesInput net i = false)
    (hflow : (net.vessel i).flowRate ≠ 0)
    (hclass : classify net i (inflowNode net i) = ([p], [c])) :
    rowTriples net i = [(i, p, c)] ∧ rowCompletes net i = true ∧
      (net.vessel c).flowRate ≠ 0 ∧ p < net.numberOfVessels ∧ p ≠ i := by
  have hcmem : c ∈ (classify net i (inflowNode net i)).2 := by rw [hclass]; simp
  have hpmem : p ∈ (classify net i (inflowNode net i)).1 := by rw [hclass]; simp
  have hcflow : (net.vessel c).flowRate ≠ 0 := by
    rcases ((mem_competitor_vessels _ _ _ _).1 hcmem).2.2 with ⟨-, h⟩ | ⟨-, h⟩
    · exact ne_of_lt h
    · exact ne_of_gt h
  obtain ⟨hp1, hp2, -⟩ := (mem_parent_vessels _ _ _ _).1 hpmem
  have hlen : (net.nodeSegments (inflowNode net i)).length > 1 :=
    length_gt_one_of_mem_ne _ p i hp1 (inflowNode_mem _ hwf i hi) hp2
  have hconv : isConverging net [c] = false := by
    simp [isConverging, hcflow]
  refine ⟨?_, ?_, hcflow, hwf.2 _ _ hp1, hp2⟩
  · simp [rowTriples, hinput, hflow, hlen, hclass, hconv]
  · simp [rowCompletes, hinput, hflow, hlen, hclass, hconv]

/-- Every system handed to `Solve` in a run of `Calculate` is the system setup builds from
some haematocrit reading. -/
theorem Calculate_solved_form (solver : BetteridgeHaematocritSolver) (ext : Collaborators)
    (h : setupCompletes solver ext = true) :
    ∀ ls ∈ (solver.Calculate ext).state.solved, ∃ H,
      ls = systemUpTo solver.mpNetwork solver.mHaematocrit H
        solver.mpNetwork.numberOfVessels := by
  intro ls hls
  have key : ∀ k, ls ∈ (passState solver ext k).solved → ∃ H,
      ls = systemUpTo solver.mpNetwork solver.mHaematocrit H
        solver.mpNetwork.numberOfVessels := by
    intro k hk
    obtain ⟨j, -, hj⟩ := (passState_solved solver ext k ls).1 hk
    exact ⟨_, hj.trans (passState_system solver ext h j)⟩
  rcases Calculate_cases solver ext h with ⟨k, -, -, hc, -⟩ | ⟨hc, -⟩
  · rw [hc] at hls; exact key k hls
  · rw [hc] at hls; exact key 1000 hls

/-- An exact solution of a system whose row `i` holds 1 on the diagonal, `k` at column `p`
and zero elsewhere, with right-hand side 0, satisfies `x_i = -k x_p`. -/
theorem two_entry_row_solution (ls : LinearSystem) (i p : Nat) (k : ℚ) (x : Nat → ℚ)
    (hi : i < ls.size) (hp : p < ls.size) (hpi : p ≠ i)
    (hrow : ∀ c, ls.lhs i c = if c = p then k else if c = i then 1 else 0)
    (hrhs : ls.rhs i = 0) (hx : ls.IsSolution x) : x i = -k * x p := by
  have h := hx i hi
  rw [Finset.sum_eq_add i p (fun e => hpi e.symm)] at h
  · rw [hrow i, hrow p, if_neg (fun e => hpi e.symm), if_pos rfl, if_pos rfl, hrhs] at h
    linarith
  · intro c _ hc
    rw [hrow c, if_neg hc.2, if_neg hc.1, zero_mul]
  · intro hh; exact absurd (Finset.mem_range.2 hi) hh
  · intro hh; exact absurd (Finset.mem_range.2 hp) hh

/-- The row of a vessel to which setup applies the splitting rule: the coefficient at the
column of the parent, 1 on the diagonal, zero elsewhere, right-hand side 0. -/
theorem expectedLhs_bifurcation_row (net : VesselNetwork) (r p c : Nat)
    (hrow : rowTriples net r = [(r, p, c)]) :
    (∀ (H : Nat → ℚ) (col : Nat), expectedLhs net H r col =
      if col = p then
        setupCoefficient (net.vessel r).flowRate (net.vessel c).flowRate
          (net.vessel p).flowRate (net.vessel r).radius (net.vessel c).radius (H p)
      else if col = r then 1 else 0) ∧
    ∀ h, expectedRhs net h r = 0 := by
  rcases rowTriples_cases net r with h | ⟨p1, c1, ps, cs, h, h1, h2, h3, h4, hps, hcs⟩
  · rw [h] at hrow; simp at hrow
  · rw [h] at hrow
    simp only [List.cons.injEq, Prod.mk.injEq, true_and, and_true] at hrow
    obtain ⟨rfl, rfl⟩ := hrow
    have h4c : isConverging net (c1 :: cs) = false := by rw [← hcs]; exact h4
    constructor
    · intro H col
      simp [expectedLhs, h1, h2, h3, h4c, hps, hcs]
    · intro h
      simp [expectedRhs, h1]


/-! ## The residual -/

theorem residual_fold_bounds (d : Nat → ℚ) (l : List Nat) (r0 : ℚ) :
    r0 ≤ l.foldl (fun residual i => if |d i| > residual then |d i| else residual) r0 ∧
    (∀ i ∈ l, |d i| ≤ l.foldl (fun residual i => if |d i| > residual then |d i| else residual) r0) ∧
    (∀ t, r0 ≤ t → (∀ i ∈ l, |d i| ≤ t) →
      l.foldl (fun residual i => if |d i| > residual then |d i| else residual) r0 ≤ t) := by
  induction l generalizing r0 with
  | nil => exact ⟨le_refl _, by simp, fun t h _ => h⟩
  | cons a tl ih =>
    simp only [List.foldl_cons]
    obtain ⟨i1, i2, i3⟩ := ih (if |d a| > r0 then |d a| else r0)
    have hstep : r0 ≤ (if |d a| > r0 then |d a| else r0) ∧
        |d a| ≤ (if |d a| > r0 then |d a| else r0) := by
      by_cases h : |d a| > r0
      · rw [if_pos h]; exact ⟨le_of_lt h, le_refl _⟩
      · rw [if_neg h]; exact ⟨le_refl _, not_lt.mp h⟩
    refine ⟨le_trans hstep.1 i1, ?_, ?_⟩
    · intro i hi
      rcases List.mem_cons.1 hi with rfl | hi
      · exact le_trans hstep.2 i1
      · exact i2 i hi
    · intro t ht hall
      apply i3 t
      · by_cases h : |d a| > r0
        · rw [if_pos h]; exact hall a (by simp)
        · rw [if_neg h]; exact ht
      · intro i hi; exact hall i (List.mem_cons_of_mem _ hi)

/-- The residual of a pass is within `t ≥ 0` exactly when every vessel changed by at most
`t`. -/
theorem computeResidual_le_iff (ext : Collaborators) (net : VesselNetwork) (a : Nat → ℚ)
    (t : ℚ) (ht : 0 ≤ t) :
    computeResidual ext net a ≤ t ↔
      ∀ i, i < net.numberOfVessels → |vesselHaematocrit ext net i - a i| ≤ t := by
  obtain ⟨-, b2, b3⟩ := residual_fold_bounds (fun i => vesselHaematocrit ext net i - a i)
    (List.range net.numberOfVessels) 0
  constructor
  · intro h i hi
    exact le_trans (b2 i (List.mem_range.2 hi)) h
  · intro h
    exact b3 t ht (fun i hi => h i (List.mem_range.1 hi))

theorem computeResidual_nonneg (ext : Collaborators) (net : VesselNetwork) (a : Nat → ℚ) :
    0 ≤ computeResidual ext net a :=
  (residual_fold_bounds (fun i => vesselHaematocrit ext net i - a i)
    (List.range net.numberOfVessels) 0).1

/-- The residual of a pass is 0 exactly when no vessel changed. -/
theorem computeResidual_eq_zero_iff (ext : Collaborators) (net : VesselNetwork)
    (a : Nat → ℚ) :
    computeResidual ext net a = 0 ↔
      ∀ i, i < net.numberOfVessels → vesselHaematocrit ext net i = a i := by
  constructor
  · intro h i hi
    have := (computeResidual_le_iff ext net a 0 (le_refl _)).1 (le_of_eq h) i hi
    have h2 := abs_nonneg (vesselHaematocrit ext net i - a i)
    have h3 : |vesselHaematocrit ext net i - a i| = 0 := le_antisymm this h2
    exact sub_eq_zero.mp (abs_eq_zero.mp h3)
  · intro h
    apply le_antisymm _ (computeResidual_nonneg ext net a)
    apply (computeResidual_le_iff ext net a 0 (le_refl _)).2
    intro i hi
    rw [h i hi, sub_self, abs_zero]

/-- The mean over the segments of a vessel whose segments all carry `x` is `x`. -/
theorem mean_replicate (m : Nat) (x : ℚ) (hm : 1 ≤ m) :
    exampleCollaborators.GetHaematocrit (List.replicate m x) = x := by
  simp only [exampleCollaborators, List.sum_replicate, List.length_replicate, nsmul_eq_mul]
  have : (m : ℚ) ≠ 0 := by
    have : (0 : ℚ) < m := by exact_mod_cast hm
    exact ne_of_gt this
  field_simp

theorem map_const_eq_replicate (l : List ℚ) (x : ℚ) :
    (l.map fun _ => x) = List.replicate l.length x := by
  induction l with
  | nil => rfl
  | cons a tl ih => simp [List.replicate_succ, ih]

/-- After the assignment loop a vessel with segments reads the value assigned to it, when
the vessel-level value of equal segment values is that value. -/
theorem vesselHaematocrit_assign (ext : Collaborators) (net : VesselNetwork) (a : Nat → ℚ)
    (hagg : ∀ (m : Nat) (x : ℚ), 1 ≤ m → ext.GetHaematocrit (List.replicate m x) = x)
    (i : Nat) (hi : i < net.numberOfVessels) (hseg : (net.vessel i).segmentHaematocrit ≠ []) :
    vesselHaematocrit ext (assignHaematocrit net a) i = a i := by
  unfold vesselHaematocrit assignHaematocrit
  simp only [if_pos hi, map_const_eq_replicate]
  exact hagg _ _ (List.length_pos.mpr hseg)

/-! ## Unbranched chains -/

theorem passState_network_succ (solver : BetteridgeHaematocritSolver) (ext : Collaborators)
    (k : Nat) :
    (passState solver ext (k + 1)).network =
      assignHaematocrit (passState solver ext k).network
        (ext.Solve (passState solver ext (k + 1)).linearSystem) := rfl

theorem passState_residual_succ (solver : BetteridgeHaematocritSolver) (ext : Collaborators)
    (k : Nat) :
    (passState solver ext (k + 1)).residual =
      computeResidual ext (passState solver ext k).network
        (ext.Solve (passState solver ext (k + 1)).linearSystem) := rfl

theorem passState_zero_network (solver : BetteridgeHaematocritSolver) (ext : Collaborators) :
    (passState solver ext 0).network = solver.mpNetwork := rfl

theorem passState_numberOfVessels (solver : BetteridgeHaematocritSolver) (ext : Collaborators)
    (k : Nat) :
    (passState solver ext k).network.numberOfVessels = solver.mpNetwork.numberOfVessels := by
  obtain ⟨f, hf⟩ := passState_network solver ext k
  rw [hf]; rfl

theorem tolerance_nonneg : (0 : ℚ) ≤ tolerance := by decide!


/-! ## Running `Calculate` a second time -/

theorem setupCompletes_of_ok (solver : BetteridgeHaematocritSolver) (ext : Collaborators)
    (h : (solver.Calculate ext).result = .ok ()) : setupCompletes solver ext = true := by
  unfold BetteridgeHaematocritSolver.Calculate at h
  unfold setupCompletes
  cases hs : setup solver ext with
  | ok p => rfl
  | exception msg => rw [hs] at h; simp at h
  | undefined => rw [hs] at h; simp at h

theorem passState_segments_length (solver : BetteridgeHaematocritSolver) (ext : Collaborators)
    (k i : Nat) :
    ((passState solver ext k).network.vessel i).segmentHaematocrit.length =
      (solver.mpNetwork.vessel i).segmentHaematocrit.length := by
  induction k with
  | zero => rfl
  | succ n ih => rw [passState_network_succ, assignHaematocrit_length, ih]

theorem assignHaematocrit_idem (net : VesselNetwork) (a : Nat → ℚ) :
    assignHaematocrit (assignHaematocrit net a) a = assignHaematocrit net a := by
  unfold assignHaematocrit
  simp only [VesselNetwork.mk.injEq, true_and, and_true]
  funext idx
  by_cases h : idx < net.numberOfVessels
  · simp [h]
  · simp [h]

/-- A run that ended with residual 0 leaves a network on which setup builds the system that
the last pass of the run solved. -/
theorem second_setup_system (solver : BetteridgeHaematocritSolver) (ext : Collaborators)
    (hseg : ∀ i, i < solver.mpNetwork.numberOfVessels →
      (solver.mpNetwork.vessel i).segmentHaematocrit ≠ [])
    (hagg : ∀ (m : Nat) (x : ℚ), 1 ≤ m → ext.GetHaematocrit (List.replicate m x) = x)
    (hsetup : setupCompletes solver ext = true) (j : Nat)
    (hres : (passState solver ext (j + 1)).residual = 0) :
    setupCompletes ⟨solver.mTHR, solver.mAlpha, solver.mHaematocrit,
      (passState solver ext (j + 1)).network⟩ ext = true ∧
    setupSystem ⟨solver.mTHR, solver.mAlpha, solver.mHaematocrit,
      (passState solver ext (j + 1)).network⟩ ext = (passState solver ext (j + 1)).linearSystem ∧
    ∀ i, i < solver.mpNetwork.numberOfVessels →
      vesselHaematocrit ext (passState solver ext (j + 1)).network i =
        ext.Solve (passState solver ext (j + 1)).linearSystem i := by
  have hN := passState_numberOfVessels solver ext j
  rw [passState_residual_succ, computeResidual_eq_zero_iff, hN] at hres
  have hread : ∀ p, vesselHaematocrit ext (passState solver ext (j + 1)).network p =
      vesselHaematocrit ext (passState solver ext j).network p := by
    intro p
    by_cases hp : p < solver.mpNetwork.numberOfVessels
    · rw [passState_network_succ, hres p hp]
      apply vesselHaematocrit_assign ext _ _ hagg p (by rw [hN]; exact hp)
      intro hnil
      have := passState_segments_length solver ext j p
      rw [hnil] at this
      exact hseg p hp (List.length_eq_zero.mp this.symm)
    · rw [passState_network_succ]
      unfold vesselHaematocrit assignHaematocrit
      simp only [hN, if_neg hp]
  obtain ⟨f, hf⟩ := passState_network solver ext (j + 1)
  have hcomp : setupCompletes ⟨solver.mTHR, solver.mAlpha, solver.mHaematocrit,
      (passState solver ext (j + 1)).network⟩ ext = true := by
    rw [setupCompletes_iff]
    intro i hi
    have hi2 : i < solver.mpNetwork.numberOfVessels := by
      rw [← passState_numberOfVessels solver ext (j + 1)]; exact hi
    show rowCompletes (passState solver ext (j + 1)).network i = true
    rw [hf, rowCompletes_withHaematocrit]
    exact (setupCompletes_iff solver ext).1 hsetup i hi2
  refine ⟨hcomp, ?_, ?_⟩
  · rw [setupSystem_eq _ ext hcomp, passState_system solver ext hsetup j]
    show systemUpTo (passState solver ext (j + 1)).network solver.mHaematocrit
      (vesselHaematocrit ext (passState solver ext (j + 1)).network)
      (passState solver ext (j + 1)).network.numberOfVessels = _
    rw [funext hread, passState_numberOfVessels, hf, systemUpTo_withHaematocrit]
  · intro i hi
    rw [hread i, hres i hi]


/-! ## The reads of the first parent and the first competitor -/

/-- C15, evaluated at the failing input.  In the network `sourcePairNetwork` vessel 0 touches
no input node, carries flow, and its inflow node joins two vessels; the other vessel is a
competitor with flow, so setup applies the bifurcation rule to vessel 0.  The list of parents
is empty and there is one competitor: the connectivity guard does not throw, the read of
`parent_vessels[0]` is out of range, and `Calculate` has no defined result. -/
theorem C15_parent_read_out_of_range :
    touchesInput sourcePairNetwork 0 = false ∧
    (sourcePairNetwork.vessel 0).flowRate ≠ 0 ∧
    (sourcePairNetwork.nodeSegments (inflowNode sourcePairNetwork 0)).length > 1 ∧
    classify sourcePairNetwork 0 (inflowNode sourcePairNetwork 0) = ([], [1]) ∧
    isConverging sourcePairNetwork
      (classify sourcePairNetwork 0 (inflowNode sourcePairNetwork 0)).2 = false ∧
    (∀ (ls : LinearSystem) (upd : List (Nat × Nat × Nat)),
      setupRow ⟨5 / 2, 1 / 2, 9 / 20, sourcePairNetwork⟩ exampleCollaborators 0 ls upd =
        .undefined) ∧
    rowCompletes sourcePairNetwork 0 = false ∧
    setupCompletes ⟨5 / 2, 1 / 2, 9 / 20, sourcePairNetwork⟩ exampleCollaborators = false ∧
    (BetteridgeHaematocritSolver.Calculate ⟨5 / 2, 1 / 2, 9 / 20, sourcePairNetwork⟩
      exampleCollaborators).result = .undefined := by
  have hcl : classify sourcePairNetwork 0 (inflowNode sourcePairNetwork 0) = ([], [1]) := by
    decide!
  have hconv : isConverging sourcePairNetwork
      (classify sourcePairNetwork 0 (inflowNode sourcePairNetwork 0)).2 = false := by decide!
  have hflow : (sourcePairNetwork.vessel 0).flowRate ≠ 0 := by decide!
  refine ⟨by decide, hflow, by decide!, hcl, hconv, ?_, by decide!, by decide!, by decide!⟩
  intro ls upd
  unfold setupRow
  simp only []
  rw [if_neg (by decide), if_neg hflow, if_pos (by decide!), if_neg (by simp [hconv]), hcl]
  rfl

/-- C12: at a bifurcation with one parent `p` and one competitor `c` of vessel `i`, where
the velocities `|Q| / (pi r^2)` of `i` and `c` are equal, the coefficient that setup and
refresh compute for `(i, p)` is `-flow_ratio_pm / (1 + flow_ratio_cm)` for every haematocrit
of the parent, hence for every `alpha = 1 - H_parent`, and every system solved holds it at
`(i, p)`.  If moreover `|Q_p| = |Q_i| + |Q_c|`, the coefficient is `-1`, every exact solution
gives vessel `i` the value of its parent, and when all solves are exact the segments of `i`
end with the haematocrit of the segments of `p`. -/
theorem C12_equal_velocity_bifurcation (solver : BetteridgeHaematocritSolver)
    (ext : Collaborators) (i p c : Nat) (hi : i < solver.mpNetwork.numberOfVessels)
    (hwf : solver.mpNetwork.WellFormed)
    (hstart : solver.mpNetwork.isInputNode (solver.mpNetwork.vessel i).startNode = false)
    (hend : solver.mpNetwork.isInputNode (solver.mpNetwork.vessel i).endNode = false)
    (hflow : (solver.mpNetwork.vessel i).flowRate ≠ 0)
    (hclass : classify solver.mpNetwork i (inflowNode solver.mpNetwork i) = ([p], [c]))
    (hrc : (solver.mpNetwork.vessel c).radius ≠ 0)
    (hvel : |(solver.mpNetwork.vessel i).flowRate| /
        (M_PI * (solver.mpNetwork.vessel i).radius * (solver.mpNetwork.vessel i).radius) =
      |(solver.mpNetwork.vessel c).flowRate| /
        (M_PI * (solver.mpNetwork.vessel c).radius * (solver.mpNetwork.vessel c).radius))
    (hsetup : setupCompletes solver ext = true) :
    (∀ H, setupCoefficient (solver.mpNetwork.vessel i).flowRate
        (solver.mpNetwork.vessel c).flowRate (solver.mpNetwork.vessel p).flowRate
        (solver.mpNetwork.vessel i).radius (solver.mpNetwork.vessel c).radius H =
      -(|(solver.mpNetwork.vessel p).flowRate| / |(solver.mpNetwork.vessel i).flowRate|) /
        (1 + |(solver.mpNetwork.vessel c).flowRate| / |(solver.mpNetwork.vessel i).flowRate|)) ∧
    (∀ H, refreshCoefficient (solver.mpNetwork.vessel i).flowRate
        (solver.mpNetwork.vessel c).flowRate (solver.mpNetwork.vessel p).flowRate
        (solver.mpNetwork.vessel i).radius (solver.mpNetwork.vessel c).radius H =
      -(|(solver.mpNetwork.vessel p).flowRate| / |(solver.mpNetwork.vessel i).flowRate|) /
        (1 + |(solver.mpNetwork.vessel c).flowRate| / |(solver.mpNetwork.vessel i).flowRate|)) ∧
    (∀ ls ∈ (solver.Calculate ext).state.solved, ls.lhs i p =
      -(|(solver.mpNetwork.vessel p).flowRate| / |(solver.mpNetwork.vessel i).flowRate|) /
        (1 + |(solver.mpNetwork.vessel c).flowRate| / |(solver.mpNetwork.vessel i).flowRate|)) ∧
    (|(solver.mpNetwork.vessel p).flowRate| =
        |(solver.mpNetwork.vessel i).flowRate| + |(solver.mpNetwork.vessel c).flowRate| →
      (∀ ls ∈ (solver.Calculate ext).state.solved, ls.lhs i p = -1 ∧
        (ls.IsSolution (ext.Solve ls) → ext.Solve ls i = ext.Solve ls p)) ∧
      (ExactSolves ext (solver.Calculate ext).state →
        ∀ x ∈ ((solver.Calculate ext).state.network.vessel i).segmentHaematocrit,
        ∀ y ∈ ((solver.Calculate ext).state.network.vessel p).segmentHaematocrit, x = y)) := by
  have ht : touchesInput solver.mpNetwork i = false := by
    simp [touchesInput, hstart, hend]
  obtain ⟨hrow, -, hcflow, hpN, hpi⟩ :=
    rowTriples_of_classify solver.mpNetwork i p c hi hwf ht hflow hclass
  obtain ⟨hlhs, hrhs⟩ := expectedLhs_bifurcation_row solver.mpNetwork i p c hrow
  have hcoef := fun H => setupCoefficient_equal_velocity (solver.mpNetwork.vessel i).flowRate
    (solver.mpNetwork.vessel c).flowRate (solver.mpNetwork.vessel p).flowRate
    (solver.mpNetwork.vessel i).radius (solver.mpNetwork.vessel c).radius H hcflow hrc hvel
  have hentry : ∀ ls ∈ (solver.Calculate ext).state.solved, ∀ col, ls.lhs i col =
      if col = p then
        -(|(solver.mpNetwork.vessel p).flowRate| / |(solver.mpNetwork.vessel i).flowRate|) /
          (1 + |(solver.mpNetwork.vessel c).flowRate| / |(solver.mpNetwork.vessel i).flowRate|)
      else if col = i then 1 else 0 := by
    intro ls hls col
    obtain ⟨H, hH⟩ := Calculate_solved_form solver ext hsetup ls hls
    rw [hH]
    simp only [systemUpTo]
    rw [if_pos hi, hlhs H col, hcoef]
  have hform : ∀ ls ∈ (solver.Calculate ext).state.solved,
      ls.size = solver.mpNetwork.numberOfVessels ∧ ls.rhs i = 0 := by
    intro ls hls
    obtain ⟨H, hH⟩ := Calculate_solved_form solver ext hsetup ls hls
    rw [hH]
    refine ⟨rfl, ?_⟩
    simp only [systemUpTo]
    rw [if_pos hi, hrhs]
  refine ⟨hcoef, fun H => by rw [refreshCoefficient_eq_setupCoefficient]; exact hcoef H,
    fun ls hls => by rw [hentry ls hls p, if_pos rfl], fun hcons => ?_⟩
  have hone := conserving_coefficient (solver.mpNetwork.vessel i).flowRate
    (solver.mpNetwork.vessel c).flowRate (solver.mpNetwork.vessel p).flowRate hflow hcons
  have hsol : ∀ ls ∈ (solver.Calculate ext).state.solved,
      ls.IsSolution (ext.Solve ls) → ext.Solve ls i = ext.Solve ls p := by
    intro ls hls hx
    obtain ⟨hsize, hr⟩ := hform ls hls
    have := two_entry_row_solution ls i p _ (ext.Solve ls) (by rw [hsize]; exact hi)
      (by rw [hsize]; exact hpN) hpi (hentry ls hls) hr hx
    rw [hone] at this
    simpa using this
  refine ⟨fun ls hls => ⟨by rw [hentry ls hls p, if_pos rfl, hone], hsol ls hls⟩, ?_⟩
  intro hexact x hx y hy
  obtain ⟨lsLast, hmem, hw⟩ := Calculate_written solver ext _ _
    (setup_eq_of_completes solver ext hsetup)
  rw [hw i hi] at hx
  rw [hw p hpN] at hy
  rw [List.eq_of_mem_replicate hx, List.eq_of_mem_replicate hy]
  exact hsol lsLast hmem (hexact lsLast hmem)

theorem symmetricBifurcationNetwork_wellFormed : symmetricBifurcationNetwork.WellFormed := by
  refine ⟨fun i hi => ?_, fun p w hw => ?_⟩
  · have hi3 : i < 3 := hi
    interval_cases i <;> decide
  · show w < 3
    unfold symmetricBifurcationNetwork at hw
    simp only at hw
    split_ifs at hw <;> simp at hw <;> omega

/-- C12 at a concrete input: in the symmetric bifurcation (parent flow 2, arterial
haematocrit 9/20, two children of radius 1/2 with flow 1 each) the coefficient at `(1, 0)`
is `-1` in every system solved and both children end with haematocrit 9/20, the value of
the parent. -/
theorem C12_equal_velocity_bifurcation_witness :
    (∀ ls ∈ (BetteridgeHaematocritSolver.Calculate
          ⟨5 / 2, 1 / 2, 9 / 20, symmetricBifurcationNetwork⟩ exampleCollaborators).state.solved,
        ls.lhs 1 0 = -1 ∧
        (ls.IsSolution (exampleCollaborators.Solve ls) →
          exampleCollaborators.Solve ls 1 = exampleCollaborators.Solve ls 0)) ∧
    ((BetteridgeHaematocritSolver.Calculate
        ⟨5 / 2, 1 / 2, 9 / 20, symmetricBifurcationNetwork⟩
        exampleCollaborators).state.network.vessel 0).segmentHaematocrit = [9 / 20] ∧
    ((BetteridgeHaematocritSolver.Calculate
        ⟨5 / 2, 1 / 2, 9 / 20, symmetricBifurcationNetwork⟩
        exampleCollaborators).state.network.vessel 1).segmentHaematocrit = [9 / 20] ∧
    ((BetteridgeHaematocritSolver.Calculate
        ⟨5 / 2, 1 / 2, 9 / 20, symmetricBifurcationNetwork⟩
        exampleCollaborators).state.network.vessel 2).segmentHaematocrit = [9 / 20] :=
  ⟨((C12_equal_velocity_bifurcation ⟨5 / 2, 1 / 2, 9 / 20, symmetricBifurcationNetwork⟩
      exampleCollaborators 1 0 2 (by decide) symmetricBifurcationNetwork_wellFormed
      (by decide) (by decide) (by decide!) (by decide!) (by decide!) (by decide!)
      (by decide!)).2.2.2 (by decide!)).1,
    by decide!, by decide!, by decide!⟩

/-- C13 as stated fails: on the nearly converged bifurcation the first run returns normally
after one pass with residual 3841/7303000, within the tolerance, and leaves 18909/36515 on
vessel 1; the second run, with the same flows, radii and parameters, computes the
coefficient of vessel 1 from the haematocrit 9/20 that the first run gave to the parent and
changes the value on vessel 1 to 189/365.  All solves are exact. -/
theorem C13_second_run_changes_value_counterexample :
    (BetteridgeHaematocritSolver.Calculate ⟨5 / 2, 1 / 2, 9 / 20, nearConvergedNetwork⟩
      exampleCollaborators).result = .ok () ∧
    (BetteridgeHaematocritSolver.Calculate ⟨5 / 2, 1 / 2, 9 / 20, nearConvergedNetwork⟩
      exampleCollaborators).state.iterations = 1 ∧
    (BetteridgeHaematocritSolver.Calculate ⟨5 / 2, 1 / 2, 9 / 20, nearConvergedNetwork⟩
      exampleCollaborators).state.residual = 3841 / 7303000 ∧
    (BetteridgeHaematocritSolver.Calculate ⟨5 / 2, 1 / 2, 9 / 20, nearConvergedNetwork⟩
      exampleCollaborators).state.residual ≤ tolerance ∧
    ExactSolves exampleCollaborators (BetteridgeHaematocritSolver.Calculate
      ⟨5 / 2, 1 / 2, 9 / 20, nearConvergedNetwork⟩ exampleCollaborators).state ∧
    ((BetteridgeHaematocritSolver.Calculate ⟨5 / 2, 1 / 2, 9 / 20, nearConvergedNetwork⟩
      exampleCollaborators).state.network.vessel 1).segmentHaematocrit = [18909 / 36515] ∧
    (secondRun ⟨5 / 2, 1 / 2, 9 / 20, nearConvergedNetwork⟩ exampleCollaborators).result =
      .ok () ∧
    ExactSolves exampleCollaborators
      (secondRun ⟨5 / 2, 1 / 2, 9 / 20, nearConvergedNetwork⟩ exampleCollaborators).state ∧
    ((secondRun ⟨5 / 2, 1 / 2, 9 / 20, nearConvergedNetwork⟩
      exampleCollaborators).state.network.vessel 1).segmentHaematocrit = [189 / 365] := by
  decide!

/-- C13, amended: when `Calculate` has returned normally and its last pass ended with
residual 0, on a network whose vessels all have segments and with a vessel-level haematocrit
that is the common value of equal segment values, a second run with unchanged flows, radii
and parameters returns normally after its first pass with residual 0 and leaves the network
as the first run left it, so no segment's haematocrit changes. -/
theorem C13_second_run_at_zero_residual (solver : BetteridgeHaematocritSolver)
    (ext : Collaborators)
    (hseg : ∀ i, i < solver.mpNetwork.numberOfVessels →
      (solver.mpNetwork.vessel i).segmentHaematocrit ≠ [])
    (hagg : ∀ (m : Nat) (x : ℚ), 1 ≤ m → ext.GetHaematocrit (List.replicate m x) = x)
    (hok : (solver.Calculate ext).result = .ok ())
    (hres : (solver.Calculate ext).state.residual = 0) :
    (secondRun solver ext).result = .ok () ∧
    (secondRun solver ext).state.iterations = 1 ∧
    (secondRun solver ext).state.residual = 0 ∧
    (secondRun solver ext).state.residual ≤ tolerance ∧
    (secondRun solver ext).state.network = (solver.Calculate ext).state.network := by
  have hsetup := setupCompletes_of_ok solver ext hok
  rcases Calculate_cases solver ext hsetup with ⟨k, hk1, -, hc, -, -⟩ | ⟨hc, -⟩
  · obtain ⟨j, rfl⟩ : ∃ j, k = j + 1 := ⟨k - 1, by omega⟩
    unfold secondRun
    rw [hc] at hres ⊢
    simp only at hres ⊢
    obtain ⟨hcomp, hsys, hread⟩ := second_setup_system solver ext hseg hagg hsetup j hres
    have hls : (passState ⟨solver.mTHR, solver.mAlpha, solver.mHaematocrit,
        (passState solver ext (j + 1)).network⟩ ext 1).linearSystem =
          (passState solver ext (j + 1)).linearSystem := by
      rw [passState_system _ ext hcomp 0, ← hsys, setupSystem_eq _ ext hcomp]
      rfl
    have hr : (passState ⟨solver.mTHR, solver.mAlpha, solver.mHaematocrit,
        (passState solver ext (j + 1)).network⟩ ext 1).residual = 0 := by
      rw [passState_residual_succ, hls, passState_zero_network, computeResidual_eq_zero_iff]
      intro i hi
      exact hread i (by rw [← passState_numberOfVessels solver ext (j + 1)]; exact hi)
    have hn : (passState ⟨solver.mTHR, solver.mAlpha, solver.mHaematocrit,
        (passState solver ext (j + 1)).network⟩ ext 1).network =
          (passState solver ext (j + 1)).network := by
      rw [passState_network_succ, hls, passState_zero_network]
      show assignHaematocrit (passState solver ext (j + 1)).network _ = _
      rw [passState_network_succ solver ext j, assignHaematocrit_idem]
    have hrun := (Calculate_outcome _ ext hcomp).1 1 (le_refl _) (by omega)
      (fun m h1 h2 => by omega) (by rw [hr]; exact tolerance_nonneg)
    rw [hrun]
    exact ⟨rfl, passState_iterations _ _ 1, hr, by rw [hr]; exact tolerance_nonneg, hn⟩
  · rw [hc] at hok
    simp at hok

/-- C13 (amended) at a concrete input: the first run on the bifurcation network ends with
residual 0 after three passes, and the second run stops after one pass and leaves the
network as the first run left it. -/
theorem C13_second_run_at_zero_residual_witness :
    (BetteridgeHaematocritSolver.Calculate ⟨5 / 2, 1 / 2, 9 / 20, bifurcationNetwork⟩
      exampleCollaborators).state.iterations = 3 ∧
    (secondRun ⟨5 / 2, 1 / 2, 9 / 20, bifurcationNetwork⟩ exampleCollaborators).result =
      .ok () ∧
    (secondRun ⟨5 / 2, 1 / 2, 9 / 20, bifurcationNetwork⟩
      exampleCollaborators).state.iterations = 1 ∧
    (secondRun ⟨5 / 2, 1 / 2, 9 / 20, bifurcationNetwork⟩
      exampleCollaborators).state.network =
      (BetteridgeHaematocritSolver.Calculate ⟨5 / 2, 1 / 2, 9 / 20, bifurcationNetwork⟩
        exampleCollaborators).state.network :=
  ⟨by decide!,
    (C13_second_run_at_zero_residual ⟨5 / 2, 1 / 2, 9 / 20, bifurcationNetwork⟩
      exampleCollaborators
      (fun i hi => by
        have h4 : i < 4 := hi
        interval_cases i <;> decide)
      mean_replicate (by decide!) (by decide!)).1,
    (C13_second_run_at_zero_residual ⟨5 / 2, 1 / 2, 9 / 20, bifurcationNetwork⟩
      exampleCollaborators
      (fun i hi => by
        have h4 : i < 4 := hi
        interval_cases i <;> decide)
      mean_replicate (by decide!) (by decide!)).2.1,
    (C13_second_run_at_zero_residual ⟨5 / 2, 1 / 2, 9 / 20, bifurcationNetwork⟩
      exampleCollaborators
      (fun i hi => by
        have h4 : i < 4 := hi
        interval_cases i <;> decide)
      mean_replicate (by decide!) (by decide!)).2.2.2.2⟩


/-! ## The convergence exception -/

theorem counting_coefficient (x : ℚ) : setupCoefficient 1 2 3 1 1 x = -3 / (5 - 2 * x) := by
  have h1 : ¬ (|(1 : ℚ)| / (M_PI * 1 * 1) ≥ |(2 : ℚ)| / (M_PI * 1 * 1)) := by decide!
  have h2 : |(2 : ℚ)| / (M_PI * 1 * 1) / (|(1 : ℚ)| / (M_PI * 1 * 1)) = 2 := by decide!
  have h3 : |(3 : ℚ)| / |(1 : ℚ)| = 3 := by decide!
  have h4 : |(2 : ℚ)| / |(1 : ℚ)| = 2 := by decide!
  unfold setupCoefficient
  simp only [if_neg h1, h2, h3, h4]
  congr 1
  ring

/-- The stand-in for the solve returns, for the system built from the reading `H`, the value
`H 0` moved by `1/999` towards 1 on vessel 0 and 0 elsewhere. -/
theorem counting_solve (H : Nat → ℚ) (i : Nat) :
    countingCollaborators.Solve (systemUpTo countingNetwork (9 / 20) H 3) i =
      if i = 0 then (if H 0 < 1 then H 0 + 1 / 999 else H 0) else 0 := by
  have hrow : rowTriples countingNetwork 1 = [(1, 0, 2)] := by decide!
  have hl := (expectedLhs_bifurcation_row countingNetwork 1 0 2 hrow).1 H 0
  have hc : (systemUpTo countingNetwork (9 / 20) H 3).lhs 1 0 = -3 / (5 - 2 * H 0) := by
    simp only [systemUpTo]
    rw [if_pos (by decide), hl, if_pos rfl, ← counting_coefficient]
    rfl
  have hv : (5 + 3 / (-3 / (5 - 2 * H 0))) / 2 = H 0 := by
    field_simp
    ring
  simp only [countingCollaborators, hc, hv]

theorem counting_mean (m : Nat) (x : ℚ) (hm : 1 ≤ m) :
    countingCollaborators.GetHaematocrit (List.replicate m x) = x :=
  mean_replicate m x hm

/-- The haematocrit of the three vessels of the counting example after `k ≤ 999` passes. -/
theorem counting_values (k : Nat) (hk : k ≤ 999) :
    ∀ i, i < 3 → vesselHaematocrit countingCollaborators
        (passState ⟨5 / 2, 1 / 2, 9 / 20, countingNetwork⟩ countingCollaborators k).network i =
      if i = 0 then (k : ℚ) / 999 else 0 := by
  have hsetup : setupCompletes ⟨5 / 2, 1 / 2, 9 / 20, countingNetwork⟩ countingCollaborators =
      true := by decide!
  induction k with
  | zero =>
    intro i hi
    interval_cases i <;> decide!
  | succ n ih =>
    intro i hi
    have hn := ih (by omega)
    have hseg : ((passState ⟨5 / 2, 1 / 2, 9 / 20, countingNetwork⟩ countingCollaborators
        n).network.vessel i).segmentHaematocrit ≠ [] := by
      intro hnil
      have := passState_segments_length ⟨5 / 2, 1 / 2, 9 / 20, countingNetwork⟩
        countingCollaborators n i
      rw [hnil] at this
      interval_cases i <;> simp [countingNetwork] at this
    rw [passState_network_succ,
      vesselHaematocrit_assign _ _ _ counting_mean i
        (by rw [passState_numberOfVessels]; exact hi) hseg,
      passState_system _ _ hsetup n]
    show countingCollaborators.Solve (systemUpTo countingNetwork (9 / 20) _ 3) i = _
    have h0 := hn 0 (by omega)
    rw [if_pos rfl] at h0
    rw [counting_solve, h0]
    by_cases hi0 : i = 0
    · have hlt : (n : ℚ) / 999 < 1 := by
        rw [div_lt_one (by norm_num)]
        exact_mod_cast (by omega : n < 999)
      rw [if_pos hi0, if_pos hi0, if_pos hlt]
      push_cast
      ring
    · rw [if_neg hi0, if_neg hi0]

/-- The residuals of the run on the counting example: above the tolerance after each of the
passes 1 to 999, and 0 after pass 1000. -/
theorem counting_residuals :
    (∀ k, 1 ≤ k → k ≤ 999 →
      (passState ⟨5 / 2, 1 / 2, 9 / 20, countingNetwork⟩ countingCollaborators k).residual >
        tolerance) ∧
    (passState ⟨5 / 2, 1 / 2, 9 / 20, countingNetwork⟩ countingCollaborators 1000).residual =
      0 := by
  have hsetup : setupCompletes ⟨5 / 2, 1 / 2, 9 / 20, countingNetwork⟩ countingCollaborators =
      true := by decide!
  have hsolve : ∀ n, n ≤ 999 → ∀ i,
      countingCollaborators.Solve (passState ⟨5 / 2, 1 / 2, 9 / 20, countingNetwork⟩
        countingCollaborators (n + 1)).linearSystem i =
      if i = 0 then (if (n : ℚ) / 999 < 1 then (n : ℚ) / 999 + 1 / 999 else (n : ℚ) / 999)
      else 0 := by
    intro n hn i
    rw [passState_system _ _ hsetup n]
    show countingCollaborators.Solve (systemUpTo countingNetwork (9 / 20) _ 3) i = _
    have h0 := counting_values n hn 0 (by omega)
    rw [if_pos rfl] at h0
    rw [counting_solve, h0]
  constructor
  · intro k hk1 hk2
    obtain ⟨n, rfl⟩ : ∃ n, k = n + 1 := ⟨k - 1, by omega⟩
    rw [gt_iff_lt, ← not_le, passState_residual_succ,
      computeResidual_le_iff _ _ _ _ tolerance_nonneg]
    intro hall
    have h0 := hall 0 (by rw [passState_numberOfVessels]; decide)
    have hlt : (n : ℚ) / 999 < 1 := by
      rw [div_lt_one (by norm_num)]
      exact_mod_cast (by omega : n < 999)
    rw [hsolve n (by omega) 0, counting_values n (by omega) 0 (by omega), if_pos rfl,
      if_pos rfl, if_pos hlt] at h0
    have : (n : ℚ) / 999 - ((n : ℚ) / 999 + 1 / 999) = -(1 / 999) := by ring
    rw [this, abs_neg] at h0
    exact absurd h0 (by decide!)
  · rw [passState_residual_succ, computeResidual_eq_zero_iff]
    intro i hi
    rw [passState_numberOfVessels] at hi
    have hi3 : i < 3 := hi
    rw [hsolve 999 (le_refl _) i, counting_values 999 (le_refl _) i hi3]
    have hnlt : ¬ (((999 : Nat) : ℚ) / 999 < 1) := by decide!
    rw [if_neg hnlt]

/-- C11, evaluated at the failing input.  On the counting example the residual is above the
tolerance after each of the passes 1 to 999 and is 0 after pass 1000, so the loop has
converged at an iteration `k ≤ 1000`; `Calculate` nevertheless throws the convergence
exception, since it throws as soon as the counter reaches the cap of 1000, before the loop
test can look at the residual of that pass. -/
theorem C11_exception_after_converged_last_pass :
    (BetteridgeHaematocritSolver.Calculate ⟨5 / 2, 1 / 2, 9 / 20, countingNetwork⟩
        countingCollaborators).result =
      .exception "Haematocrit calculation failed to converge." ∧
    (BetteridgeHaematocritSolver.Calculate ⟨5 / 2, 1 / 2, 9 / 20, countingNetwork⟩
        countingCollaborators).state.iterations = 1000 ∧
    (BetteridgeHaematocritSolver.Calculate ⟨5 / 2, 1 / 2, 9 / 20, countingNetwork⟩
        countingCollaborators).state.residual = 0 ∧
    (BetteridgeHaematocritSolver.Calculate ⟨5 / 2, 1 / 2, 9 / 20, countingNetwork⟩
        countingCollaborators).state.residual ≤ tolerance ∧
    ∀ k, 1 ≤ k → k ≤ 999 →
      (passState ⟨5 / 2, 1 / 2, 9 / 20, countingNetwork⟩ countingCollaborators k).residual >
        tolerance := by
  have hsetup : setupCompletes ⟨5 / 2, 1 / 2, 9 / 20, countingNetwork⟩ countingCollaborators =
      true := by decide!
  obtain ⟨hall, hlast⟩ := counting_residuals
  rw [(Calculate_outcome _ _ hsetup).2 hall]
  exact ⟨rfl, passState_iterations _ _ 1000, hlast, by rw [hlast]; exact tolerance_nonneg,
    hall⟩

/-! ## Errors of `RemoveSegments` -/

/-- C21: `RemoveSegments` throws on a vessel with exactly one segment, whatever the location
argument, and on any vessel when the location is neither `Start` nor `End`; in both cases
the vessel, with its segment sequence and freshness flag, and the store are left exactly as
they were before the call. -/
theorem C21_RemoveSegments_errors (v : Vessel) (st : Store) :
    (v.mSegments.length = 1 → ∀ location,
      (v.RemoveSegments st location).result =
        .exception "Vessel must have at least one segment." ∧
      (v.RemoveSegments st location).vessel = v ∧
      (v.RemoveSegments st location).store = st) ∧
    (∀ n, (∃ msg, (v.RemoveSegments st (.Other n)).result = .exception msg) ∧
      (v.mSegments.length ≠ 1 → (v.RemoveSegments st (.Other n)).result =
        .exception "You can only remove segments from the start or end of vessels.") ∧
      (v.RemoveSegments st (.Other n)).vessel = v ∧
      (v.RemoveSegments st (.Other n)).vessel.mSegments = v.mSegments ∧
      (v.RemoveSegments st (.Other n)).vessel.mNodesUpToDate = v.mNodesUpToDate ∧
      (v.RemoveSegments st (.Other n)).store = st) := by
  constructor
  · intro h location
    simp [Vessel.RemoveSegments, h]
  · intro n
    by_cases h : v.mSegments.length = 1
    · simp [Vessel.RemoveSegments, h]
    · simp [Vessel.RemoveSegments, h]

/-- C21 at concrete inputs: the one-segment vessel 1-2 refuses the removal at its start, and
the vessel 1-2, 2-3 refuses a location that is neither start nor end; both keep their
segments. -/
theorem C21_RemoveSegments_errors_witness :
    ((exampleVessel [⟨10, 1, 2, 1⟩]).RemoveSegments exampleStore .Start).result =
      .exception "Vessel must have at least one segment." ∧
    ((exampleVessel [⟨10, 1, 2, 1⟩]).RemoveSegments exampleStore .Start).vessel =
      exampleVessel [⟨10, 1, 2, 1⟩] ∧
    ((exampleVessel [⟨10, 1, 2, 1⟩, ⟨11, 2, 3, 1⟩]).RemoveSegments exampleStore
      (.Other 2)).result =
      .exception "You can only remove segments from the start or end of vessels." ∧
    ((exampleVessel [⟨10, 1, 2, 1⟩, ⟨11, 2, 3, 1⟩]).RemoveSegments exampleStore
      (.Other 2)).vessel = exampleVessel [⟨10, 1, 2, 1⟩, ⟨11, 2, 3, 1⟩] :=
  ⟨((C21_RemoveSegments_errors (exampleVessel [⟨10, 1, 2, 1⟩]) exampleStore).1
      (by decide) .Start).1,
    ((C21_RemoveSegments_errors (exampleVessel [⟨10, 1, 2, 1⟩]) exampleStore).1
      (by decide) .Start).2.1,
    ((C21_RemoveSegments_errors (exampleVessel [⟨10, 1, 2, 1⟩, ⟨11, 2, 3, 1⟩])
      exampleStore).2 2).2.1 (by decide),
    ((C21_RemoveSegments_errors (exampleVessel [⟨10, 1, 2, 1⟩, ⟨11, 2, 3, 1⟩])
      exampleStore).2 2).2.2.1⟩

/-! ## Where `AddSegment` puts the segment -/

/-- C30: whenever `AddSegment` returns normally on a vessel with segment sequence `V`, the
new sequence is the segment `s` followed by `V` or `V` followed by `s`, one segment longer,
and `s` is connected to the segment next to it.  On a single-segment vessel `s` is put in
front when it contains node 0 of that segment and behind otherwise, where it then contains
node 1; on a longer vessel it is put behind when connected to the last segment and in front
otherwise, where it is then connected to the first segment. -/
theorem C30_AddSegment_position (v : Vessel) (st : Store) (s : VesselSegment)
    (hok : (v.AddSegment st s).result = .ok ()) :
    ((v.AddSegment st s).vessel.mSegments = s :: v.mSegments ∨
      (v.AddSegment st s).vessel.mSegments = v.mSegments ++ [s]) ∧
    (v.AddSegment st s).vessel.mSegments.length = v.mSegments.length + 1 ∧
    (∀ s0, v.mSegments = [s0] →
      (s.HasNode s0.node0 = true → (v.AddSegment st s).vessel.mSegments = [s, s0]) ∧
      (s.HasNode s0.node0 = false → (v.AddSegment st s).vessel.mSegments = [s0, s] ∧
        s.HasNode s0.node1 = true) ∧
      s.IsConnectedTo s0 = true) ∧
    (∀ front back, 2 ≤ v.mSegments.length → v.mSegments.head? = some front →
      v.mSegments.getLast? = some back →
      (s.IsConnectedTo back = true →
        (v.AddSegment st s).vessel.mSegments = v.mSegments ++ [s]) ∧
      (s.IsConnectedTo back = false →
        (v.AddSegment st s).vessel.mSegments = s :: v.mSegments ∧
        s.IsConnectedTo front = true)) := by
  unfold Vessel.AddSegment at hok ⊢
  split at hok
  · rename_i s0 hv
    simp only [hv] at hok ⊢
    simp only [VesselSegment.HasNode, VesselSegment.IsConnectedTo, beq_iff_eq,
      Bool.or_eq_true, Bool.or_eq_false_iff, beq_eq_false_iff_ne]
    split_ifs at hok ⊢ with h1 h2 h3 h4
    all_goals simp_all [Vessel.invalidate, eq_comm]
  · rename_i hv
    split at hok
    · rename_i back front hb hf
      simp only [hb, hf] at hok ⊢
      split_ifs at hok ⊢ with h1 h2
      · refine ⟨Or.inr (by simp [Vessel.invalidate]), by simp [Vessel.invalidate], ?_, ?_⟩
        · intro s0 h0; exact absurd h0 (hv s0)
        · intro f b _ hfr hba
          simp only [Option.some.injEq] at hfr hba
          subst hfr hba
          exact ⟨fun _ => by simp [Vessel.invalidate], fun h => by simp [h1] at h⟩
      · refine ⟨Or.inl (by simp [Vessel.invalidate]), by simp [Vessel.invalidate], ?_, ?_⟩
        · intro s0 h0; exact absurd h0 (hv s0)
        · intro f b _ hfr hba
          simp only [Option.some.injEq] at hfr hba
          subst hfr hba
          exact ⟨fun h => absurd h h1, fun _ => ⟨by simp [Vessel.invalidate], h2⟩⟩
    · simp at hok

/-- C30 at a concrete input: the segment 0-1 added to the vessel 1-2, 2-3 is connected to
the first segment and not to the last, and is put in front. -/
theorem C30_AddSegment_position_witness :
    ((exampleVessel [⟨10, 1, 2, 1⟩, ⟨11, 2, 3, 1⟩]).AddSegment exampleStore
      ⟨12, 0, 1, 1⟩).vessel.mSegments = [⟨12, 0, 1, 1⟩, ⟨10, 1, 2, 1⟩, ⟨11, 2, 3, 1⟩] ∧
    (⟨12, 0, 1, 1⟩ : VesselSegment).IsConnectedTo ⟨10, 1, 2, 1⟩ = true :=
  ((C30_AddSegment_position (exampleVessel [⟨10, 1, 2, 1⟩, ⟨11, 2, 3, 1⟩]) exampleStore
    ⟨12, 0, 1, 1⟩ (by decide)).2.2.2 ⟨10, 1, 2, 1⟩ ⟨11, 2, 3, 1⟩ (by decide) (by decide)
    (by decide)).2 (by decide)

/-! ## `GetRadius` and `SetRadius` -/

/-- The loop of `GetRadius` started at `acc`: when every partial sum is a `double`, no
addition rounds and the loop ends with the exact sum. -/
theorem foldl_addRadius_exact (segs : List VesselSegment) :
    ∀ acc : ℚ,
      (∀ k, k ≤ segs.length → 1 ≤ k →
        roundDouble (acc + ((segs.take k).map fun s => s.radius).sum) =
          some (acc + ((segs.take k).map fun s => s.radius).sum)) →
      segs.foldl addRadius (some acc) = some (acc + (segs.map fun s => s.radius).sum) := by
  induction segs with
  | nil => intro acc _; simp
  | cons a tl ih =>
    intro acc h
    have h1 := h 1 (by simp) (le_refl 1)
    simp only [List.take_succ_cons, List.take_zero, List.map_cons, List.map_nil, List.sum_cons,
      List.sum_nil, add_zero] at h1
    rw [List.foldl_cons]
    have hstep : addRadius (some acc) a = some (acc + a.radius) := h1
    rw [hstep, ih (acc + a.radius)]
    · simp only [List.map_cons, List.sum_cons, add_assoc]
    · intro k hk hk1
      have := h (k + 1) (by simpa using hk) (by omega)
      simpa only [List.take_succ_cons, List.map_cons, List.sum_cons, add_assoc] using this

/-- The value of `GetRadius` when neither the additions nor the division round. -/
theorem GetRadius_exact (w : Vessel) (hne : w.mSegments ≠ [])
    (hsums : ∀ k, k ≤ w.mSegments.length → 1 ≤ k →
      roundDouble ((w.mSegments.take k).map fun s => s.radius).sum =
        some ((w.mSegments.take k).map fun s => s.radius).sum)
    (hmean : roundDouble ((w.mSegments.map fun s => s.radius).sum / (w.mSegments.length : ℚ)) =
      some ((w.mSegments.map fun s => s.radius).sum / (w.mSegments.length : ℚ))) :
    w.GetRadius = some ((w.mSegments.map fun s => s.radius).sum / (w.mSegments.length : ℚ)) := by
  have hfold := foldl_addRadius_exact w.mSegments 0 (by
    intro k hk hk1
    simpa only [zero_add] using hsums k hk hk1)
  rw [zero_add] at hfold
  unfold Vessel.GetRadius
  rw [hfold]
  have hlen : w.mSegments.length ≠ 0 := fun h => hne (List.length_eq_zero.mp h)
  simp only [hlen, if_false]
  exact hmean

/-- C26, counterexample.  Let `r` be the `double` nearest to 1/10,
`3602879701896397 / 2^55`.  On a vessel of three segments `SetRadius(r)` followed by
`GetRadius` returns `r + 2^(-56)`, not `r`: the sum `3 r` lies half way between two doubles
and is rounded up, and its third part is rounded up again.  So `GetRadius` is neither the
arithmetic mean of the radii, which is `r`, nor the value set.  On a vessel of two segments
with `r = 2^1023` the sum overflows and the result is not a finite number. -/
theorem C26_GetRadius_not_exact_counterexample :
    roundDouble (3602879701896397 / 36028797018963968) =
      some (3602879701896397 / 36028797018963968) ∧
    (∀ s ∈ ((exampleVessel [⟨10, 1, 2, 1⟩, ⟨11, 2, 3, 1⟩, ⟨12, 3, 4, 1⟩]).SetRadius
      (3602879701896397 / 36028797018963968)).mSegments,
        s.radius = 3602879701896397 / 36028797018963968) ∧
    ((exampleVessel [⟨10, 1, 2, 1⟩, ⟨11, 2, 3, 1⟩, ⟨12, 3, 4, 1⟩]).SetRadius
      (3602879701896397 / 36028797018963968)).mSegments.foldl addRadius (some 0) =
      some (1351079888211149 / 4503599627370496) ∧
    ((exampleVessel [⟨10, 1, 2, 1⟩, ⟨11, 2, 3, 1⟩, ⟨12, 3, 4, 1⟩]).SetRadius
      (3602879701896397 / 36028797018963968)).GetRadius =
      some (7205759403792795 / 72057594037927936) ∧
    ((exampleVessel [⟨10, 1, 2, 1⟩, ⟨11, 2, 3, 1⟩, ⟨12, 3, 4, 1⟩]).SetRadius
      (3602879701896397 / 36028797018963968)).GetRadius ≠
      some (3602879701896397 / 36028797018963968) ∧
    (7205759403792795 / 72057594037927936 : ℚ) =
      3602879701896397 / 36028797018963968 + 1 / 2 ^ 56 ∧
    roundDouble (2 ^ 1023) = some (2 ^ 1023) ∧
    ((exampleVessel [⟨10, 1, 2, 1⟩, ⟨11, 2, 3, 1⟩]).SetRadius (2 ^ 1023)).GetRadius = none := by
  refine ⟨by decide!, by decide!, by decide!, by decide!, by decide!, by decide!, by decide!,
    by decide!⟩

/-- C26, amended.  `GetRadius` adds the radii of the segments to 0 from left to right and
divides the sum by their number, each operation rounded to the nearest `double`.  On a
vessel with at least one segment it returns the arithmetic mean of the radii when every
partial sum and the mean are doubles, so that no operation rounds.  `SetRadius(r)` keeps the
segments, their order and their nodes and gives every segment the radius `r`; `GetRadius`
then returns exactly `r` when the multiples `k r` for `k` up to the number of segments are
doubles, in particular on a vessel of one segment for every double `r`. -/
theorem C26_GetRadius_mean (v : Vessel) (r : ℚ) :
    (v.mSegments ≠ [] →
      (∀ k, k ≤ v.mSegments.length → 1 ≤ k →
        roundDouble ((v.mSegments.take k).map fun s => s.radius).sum =
          some ((v.mSegments.take k).map fun s => s.radius).sum) →
      roundDouble ((v.mSegments.map fun s => s.radius).sum / (v.mSegments.length : ℚ)) =
        some ((v.mSegments.map fun s => s.radius).sum / (v.mSegments.length : ℚ)) →
      v.GetRadius =
        some ((v.mSegments.map fun s => s.radius).sum / (v.mSegments.length : ℚ))) ∧
    (v.SetRadius r).mSegments.map (fun s => (s.id, s.node0, s.node1)) =
      v.mSegments.map (fun s => (s.id, s.node0, s.node1)) ∧
    (∀ s ∈ (v.SetRadius r).mSegments, s.radius = r) ∧
    (v.mSegments ≠ [] →
      (∀ k, k ≤ v.mSegments.length → 1 ≤ k → roundDouble ((k : ℚ) * r) = some ((k : ℚ) * r)) →
      (v.SetRadius r).GetRadius = some r) ∧
    (v.mSegments.length = 1 → roundDouble r = some r →
      (v.SetRadius r).GetRadius = some r) := by
  have hl : (v.SetRadius r).mSegments.length = v.mSegments.length := by
    simp [Vessel.SetRadius]
  have htake : ∀ k, (((v.SetRadius r).mSegments.take k).map fun s => s.radius) =
      List.replicate (min k v.mSegments.length) r := by
    intro k
    simp only [Vessel.SetRadius, ← List.map_take, List.map_map]
    have hc := List.map_const' (List.take k v.mSegments) r
    rw [List.length_take] at hc
    exact hc
  have hset : v.mSegments ≠ [] →
      (∀ k, k ≤ v.mSegments.length → 1 ≤ k →
        roundDouble ((k : ℚ) * r) = some ((k : ℚ) * r)) →
      (v.SetRadius r).GetRadius = some r := by
    intro hne hmult
    have hlen : 1 ≤ v.mSegments.length := List.length_pos.mpr hne
    have hlenq : ((v.mSegments.length : ℕ) : ℚ) ≠ 0 := by
      exact_mod_cast (Nat.pos_iff_ne_zero.mp hlen)
    have hall : ((v.SetRadius r).mSegments.map fun s => s.radius) =
        List.replicate v.mSegments.length r := by
      have := htake v.mSegments.length
      rw [min_self, ← hl, List.take_length] at this
      rw [this, hl]
    have hmeanval : ((v.SetRadius r).mSegments.map fun s => s.radius).sum /
        ((v.SetRadius r).mSegments.length : ℚ) = r := by
      rw [hall, hl, List.sum_replicate, nsmul_eq_mul]
      field_simp
    have hmain := GetRadius_exact (v.SetRadius r)
      (by intro h; rw [← List.length_eq_zero, hl] at h; omega)
      (by
        intro k hk hk1
        rw [hl] at hk
        rw [htake k, min_eq_left hk, List.sum_replicate, nsmul_eq_mul]
        exact hmult k hk hk1)
      (by
        rw [hmeanval]
        have := hmult 1 hlen (le_refl 1)
        simpa using this)
    rw [hmain, hmeanval]
  refine ⟨fun hne hs hm => GetRadius_exact v hne hs hm, ?_, ?_, hset, ?_⟩
  · simp [Vessel.SetRadius, List.map_map, Function.comp]
  · intro s hs
    simp only [Vessel.SetRadius, List.mem_map] at hs
    obtain ⟨t, -, rfl⟩ := hs
    rfl
  · intro h1 hr
    apply hset
    · intro h; rw [h] at h1; simp at h1
    · intro k hk hk1
      have hk' : k = 1 := by omega
      subst hk'
      simpa using hr

/-- C26, amended, at a concrete input: on the vessel with radii 1, 2 and 6 the partial sums
1, 3, 9 and the mean 3 are doubles and `GetRadius` returns 3; after `SetRadius(5/2)` the
multiples 5/2, 5, 15/2 are doubles and `GetRadius` returns 5/2. -/
theorem C26_GetRadius_mean_witness :
    (exampleVessel [⟨10, 1, 2, 1⟩, ⟨11, 2, 3, 2⟩, ⟨12, 3, 4, 6⟩]).GetRadius = some 3 ∧
    ((exampleVessel [⟨10, 1, 2, 1⟩, ⟨11, 2, 3, 2⟩, ⟨12, 3, 4, 6⟩]).SetRadius
      (5 / 2)).GetRadius = some (5 / 2) :=
  ⟨((C26_GetRadius_mean (exampleVessel [⟨10, 1, 2, 1⟩, ⟨11, 2, 3, 2⟩, ⟨12, 3, 4, 6⟩])
      (5 / 2)).1 (by decide) (by decide!) (by decide!)).trans (by decide!),
    (C26_GetRadius_mean (exampleVessel [⟨10, 1, 2, 1⟩, ⟨11, 2, 3, 2⟩, ⟨12, 3, 4, 6⟩])
      (5 / 2)).2.2.2.1 (by decide) (by decide!)⟩

/-! ## `GetConnectedVessels` -/

theorem mem_connectedLoop (st : Store) (self : Nat) (segments : List Nat)
    (connected : List (Option Nat)) (x : Option Nat) :
    x ∈ connectedLoop st self segments connected ↔
      x ∈ connected ∨ (x ≠ some self ∧ ∃ seg ∈ segments, st.segVessel seg = x) := by
  unfold connectedLoop
  induction segments generalizing connected with
  | nil => simp
  | cons a tl ih =>
    simp only [List.foldl_cons]
    rw [ih]
    by_cases h : st.segVessel a ≠ some self
    · rw [if_pos h]
      simp only [List.mem_append, List.mem_cons, List.not_mem_nil, or_false, exists_eq_or_imp]
      constructor
      · rintro ((h1 | rfl) | ⟨h2, h3⟩)
        · exact Or.inl h1
        · exact Or.inr ⟨h, Or.inl rfl⟩
        · exact Or.inr ⟨h2, Or.inr h3⟩
      · rintro (h1 | ⟨h2, h3 | h3⟩)
        · exact Or.inl (Or.inl h1)
        · exact Or.inl (Or.inr h3.symm)
        · exact Or.inr ⟨h2, h3⟩
    · rw [if_neg h]
      simp only [List.mem_cons, exists_eq_or_imp]
      push_neg at h
      constructor
      · rintro (h1 | ⟨h2, h3⟩)
        · exact Or.inl h1
        · exact Or.inr ⟨h2, Or.inr h3⟩
      · rintro (h1 | ⟨h2, h3 | h3⟩)
        · exact Or.inl h1
        · exact absurd (h3.symm.trans h) h2
        · exact Or.inr ⟨h2, h3⟩

/-- A call of `GetStartNode` that returns a node leaves the store as it was, and a second
call on the vessel it leaves returns the same node and changes nothing. -/
theorem GetStartNode_ok (v : Vessel) (st : Store) (n : Nat)
    (h : (v.GetStartNode st).result = .ok n) :
    (v.GetStartNode st).store = st ∧
    (v.GetStartNode st).vessel.GetStartNode st =
      ⟨.ok n, (v.GetStartNode st).vessel, st⟩ := by
  unfold Vessel.GetStartNode Vessel.refresh at h ⊢
  by_cases hflag : v.mNodesUpToDate = true
  · simp only [hflag, if_true] at h ⊢
    cases hh : v.mNodes.head? with
    | none => simp [hh] at h
    | some k =>
      simp only [hh] at h ⊢
      simp only [Result.ok.injEq] at h
      subst h
      simp [hflag, hh]
  · simp only [hflag, Bool.false_eq_true, if_false] at h ⊢
    unfold Vessel.UpdateNodes at h ⊢
    cases hr : rebuildNodes v.mSegments with
    | none => simp [hr] at h
    | some nodes =>
      simp only [hr] at h ⊢
      cases hh : nodes.head? with
      | none => simp [hh] at h
      | some k =>
        simp only [hh] at h ⊢
        simp only [Result.ok.injEq] at h
        subst h
        simp [hh]

/-- What `GetConnectedVessels` returns in general: exactly the owners, other than the vessel
itself, of the segments incident on the start node; the end node is not consulted. -/
theorem GetConnectedVessels_start_only (v : Vessel) (st : Store) (connected : List (Option Nat))
    (h : (v.GetConnectedVessels st).result = .ok connected) :
    ∃ startNode, (v.GetStartNode st).result = .ok startNode ∧
      ∀ x, x ∈ connected ↔
        (x ≠ some v.self ∧ ∃ seg ∈ st.nodeSegments startNode, st.segVessel seg = x) := by
  unfold Vessel.GetConnectedVessels at h
  cases hres : (v.GetStartNode st).result with
  | ok n =>
    obtain ⟨hs, h2⟩ := GetStartNode_ok v st n hres
    have hout : v.GetStartNode st = ⟨.ok n, (v.GetStartNode st).vessel, st⟩ := by
      cases hg : v.GetStartNode st with
      | mk r w s =>
        rw [hg] at hres hs
        simp only at hres hs
        rw [hres, hs]
    rw [hout] at h
    simp only [h2] at h
    simp only [Result.ok.injEq] at h
    refine ⟨n, rfl, fun x => ?_⟩
    rw [← h, mem_connectedLoop, mem_connectedLoop]
    simp
  | exception m =>
    cases hg : v.GetStartNode st with
    | mk r w s =>
      rw [hg] at hres h
      simp only at hres
      subst hres
      simp at h
  | undefined =>
    cases hg : v.GetStartNode st with
    | mk r w s =>
      rw [hg] at hres h
      simp only at hres
      subst hres
      simp at h

/-- C27, evaluated at the failing input.  The vessel 7 with segments 1-2, 2-3 has start node
1 and end node 3.  Vessel 8 owns the segment 20, which is incident on the end node, and
vessel 9 owns the segment 30, which is incident on the start node.  `GetConnectedVessels`
reads the segments of the start node for both of its loops: it returns vessel 9 twice and
does not return vessel 8; the vessel itself is not returned. -/
theorem C27_GetConnectedVessels_misses_end_node :
    ((exampleVessel [⟨10, 1, 2, 1⟩, ⟨11, 2, 3, 1⟩]).GetStartNode junctionStore).result =
      .ok 1 ∧
    ((exampleVessel [⟨10, 1, 2, 1⟩, ⟨11, 2, 3, 1⟩]).GetEndNode junctionStore).result =
      .ok 3 ∧
    20 ∈ junctionStore.nodeSegments 3 ∧ junctionStore.segVessel 20 = some 8 ∧
    (exampleVessel [⟨10, 1, 2, 1⟩, ⟨11, 2, 3, 1⟩]).self = 7 ∧
    ((exampleVessel [⟨10, 1, 2, 1⟩, ⟨11, 2, 3, 1⟩]).GetConnectedVessels junctionStore).result =
      .ok [some 9, some 9] ∧
    (∀ connected,
      ((exampleVessel [⟨10, 1, 2, 1⟩, ⟨11, 2, 3, 1⟩]).GetConnectedVessels
        junctionStore).result = .ok connected →
      some 8 ∉ connected ∧ some 7 ∉ connected) := by
  refine ⟨by decide, by decide, by decide, by decide, rfl, by decide, ?_⟩
  intro connected h
  have h2 : ((exampleVessel [⟨10, 1, 2, 1⟩, ⟨11, 2, 3, 1⟩]).GetConnectedVessels
      junctionStore).result = .ok [some 9, some 9] := by decide
  rw [h2] at h
  simp only [Result.ok.injEq] at h
  subst h
  decide

/-! ## The identification loop of `DivideSegment` -/

/-- When some segment within tolerance has an end node coincident with the location, the
identification loop returns such an end node. -/
theorem identifySegment_inl_of_coincident (geo : Geometry) (st : Store) (location : List ℚ)
    (tol : ℚ) (segs : List VesselSegment) (acc : Option VesselSegment)
    (h : ∃ s ∈ segs, withinTolerance geo st location tol s = true ∧
      (geo.isCoincident (st.node s.node0) location = true ∨
        geo.isCoincident (st.node s.node1) location = true)) :
    ∃ n t, identifySegment geo st location tol segs acc = .inl n ∧ t ∈ segs ∧
      withinTolerance geo st location tol t = true ∧
      ((n = t.node0 ∧ geo.isCoincident (st.node t.node0) location = true) ∨
        (n = t.node1 ∧ geo.isCoincident (st.node t.node1) location = true)) := by
  induction segs generalizing acc with
  | nil => obtain ⟨s, hs, -⟩ := h; simp at hs
  | cons a tl ih =>
    unfold identifySegment
    by_cases hw : withinTolerance geo st location tol a = true
    · rw [if_pos hw]
      by_cases h0 : geo.isCoincident (st.node a.node0) location = true
      · rw [if_pos h0]
        exact ⟨a.node0, a, rfl, by simp, hw, Or.inl ⟨rfl, h0⟩⟩
      · rw [if_neg h0]
        by_cases h1 : geo.isCoincident (st.node a.node1) location = true
        · rw [if_pos h1]
          exact ⟨a.node1, a, rfl, by simp, hw, Or.inr ⟨rfl, h1⟩⟩
        · rw [if_neg h1]
          obtain ⟨s, hs, hsw, hsc⟩ := h
          rcases List.mem_cons.1 hs with rfl | hs
          · rcases hsc with hc | hc
            · exact absurd hc h0
            · exact absurd hc h1
          · obtain ⟨n, t, e1, e2, e3, e4⟩ := ih (some a) ⟨s, hs, hsw, hsc⟩
            exact ⟨n, t, e1, List.mem_cons_of_mem _ e2, e3, e4⟩
    · rw [if_neg hw]
      obtain ⟨s, hs, hsw, hsc⟩ := h
      rcases List.mem_cons.1 hs with rfl | hs
      · exact absurd hsw hw
      · obtain ⟨n, t, e1, e2, e3, e4⟩ := ih acc ⟨s, hs, hsw, hsc⟩
        exact ⟨n, t, e1, List.mem_cons_of_mem _ e2, e3, e4⟩

/-- C22: if some segment of the vessel lies within tolerance of the location and has an end
node coincident with the location, `DivideSegment` returns normally an end node, coincident
with the location, of a segment within tolerance, and changes nothing: the vessel, hence
its segment sequence and segment count, and the store, hence the nodes and segments in
existence, are as before the call.  When all coincident end nodes are one node `c`, that
node is returned. -/
theorem C22_DivideSegment_existing_node (v : Vessel) (geo : Geometry) (st : Store)
    (location : List ℚ) (distanceTolerance : ℚ)
    (h : ∃ s ∈ v.mSegments, withinTolerance geo st location distanceTolerance s = true ∧
      (geo.isCoincident (st.node s.node0) location = true ∨
        geo.isCoincident (st.node s.node1) location = true)) :
    (∃ n t, (v.DivideSegment geo st location distanceTolerance).result = .ok n ∧
      t ∈ v.mSegments ∧ withinTolerance geo st location distanceTolerance t = true ∧
      ((n = t.node0 ∧ geo.isCoincident (st.node t.node0) location = true) ∨
        (n = t.node1 ∧ geo.isCoincident (st.node t.node1) location = true))) ∧
    (∀ c, (∀ t ∈ v.mSegments,
        (geo.isCoincident (st.node t.node0) location = true → t.node0 = c) ∧
        (geo.isCoincident (st.node t.node1) location = true → t.node1 = c)) →
      (v.DivideSegment geo st location distanceTolerance).result = .ok c) ∧
    (v.DivideSegment geo st location distanceTolerance).vessel = v ∧
    (v.DivideSegment geo st location distanceTolerance).vessel.mSegments = v.mSegments ∧
    (v.DivideSegment geo st location distanceTolerance).vessel.GetNumberOfSegments =
      v.GetNumberOfSegments ∧
    (v.DivideSegment geo st location distanceTolerance).store = st := by
  obtain ⟨n, t, hid, ht, hw, hn⟩ :=
    identifySegment_inl_of_coincident geo st location distanceTolerance v.mSegments none h
  unfold Vessel.DivideSegment
  rw [hid]
  refine ⟨⟨n, t, rfl, ht, hw, hn⟩, ?_, rfl, rfl, rfl, rfl⟩
  intro c hc
  rcases hn with ⟨rfl, h0⟩ | ⟨rfl, h1⟩
  · rw [(hc t ht).1 h0]
  · rw [(hc t ht).2 h1]

/-- C22 at a concrete input: on the line store the vessel 0-2, 2-4 divided at coordinate 2
returns the existing node 2 and keeps its two segments. -/
theorem C22_DivideSegment_existing_node_witness :
    ((exampleVessel [⟨10, 0, 2, 1⟩, ⟨11, 2, 4, 1⟩]).DivideSegment exampleGeometry lineStore
      [2] (1 / 2)).result = .ok 2 ∧
    ((exampleVessel [⟨10, 0, 2, 1⟩, ⟨11, 2, 4, 1⟩]).DivideSegment exampleGeometry lineStore
      [2] (1 / 2)).vessel = exampleVessel [⟨10, 0, 2, 1⟩, ⟨11, 2, 4, 1⟩] ∧
    ((exampleVessel [⟨10, 0, 2, 1⟩, ⟨11, 2, 4, 1⟩]).DivideSegment exampleGeometry lineStore
      [2] (1 / 2)).store = lineStore :=
  ⟨(C22_DivideSegment_existing_node (exampleVessel [⟨10, 0, 2, 1⟩, ⟨11, 2, 4, 1⟩])
      exampleGeometry lineStore [2] (1 / 2)
      ⟨⟨10, 0, 2, 1⟩, by decide, by decide!, Or.inr (by decide!)⟩).2.1 2 (by decide!),
    (C22_DivideSegment_existing_node (exampleVessel [⟨10, 0, 2, 1⟩, ⟨11, 2, 4, 1⟩])
      exampleGeometry lineStore [2] (1 / 2)
      ⟨⟨10, 0, 2, 1⟩, by decide, by decide!, Or.inr (by decide!)⟩).2.2.1,
    (C22_DivideSegment_existing_node (exampleVessel [⟨10, 0, 2, 1⟩, ⟨11, 2, 4, 1⟩])
      exampleGeometry lineStore [2] (1 / 2)
      ⟨⟨10, 0, 2, 1⟩, by decide, by decide!, Or.inr (by decide!)⟩).2.2.2.2.2⟩

theorem IsConnectedTo_comm (s t : VesselSegment) : s.IsConnectedTo t = t.IsConnectedTo s := by
  unfold VesselSegment.IsConnectedTo
  rw [Bool.eq_iff_iff]
  simp only [Bool.or_eq_true, beq_iff_eq]
  constructor <;> rintro (((h | h) | h) | h) <;> simp [h]

theorem orderBroken_cons_cons (a b : VesselSegment) (rest : List VesselSegment) :
    orderBroken (a :: b :: rest) = (!(b.IsConnectedTo a) || orderBroken (b :: rest)) := rfl

theorem orderBroken_append_cons (pre post : List VesselSegment) (y : VesselSegment) :
    orderBroken (pre ++ y :: post) = (orderBroken (pre ++ [y]) || orderBroken (y :: post)) := by
  induction pre with
  | nil => simp [orderBroken]
  | cons p tl ih =>
    cases tl with
    | nil => simp [orderBroken, Bool.or_assoc]
    | cons q r =>
      have ih1 : orderBroken (q :: (r ++ y :: post)) =
          (orderBroken (q :: (r ++ [y])) || orderBroken (y :: post)) := ih
      show orderBroken (p :: q :: (r ++ y :: post)) =
        (orderBroken (p :: q :: (r ++ [y])) || orderBroken (y :: post))
      rw [orderBroken_cons_cons, orderBroken_cons_cons, ih1, Bool.or_assoc]

theorem orderBroken_snoc (pre : List VesselSegment) (y : VesselSegment) :
    orderBroken (pre ++ [y]) = false ↔
      orderBroken pre = false ∧ ∀ p, pre.getLast? = some p → y.IsConnectedTo p = true := by
  induction pre with
  | nil => simp [orderBroken]
  | cons p tl ih =>
    cases tl with
    | nil => simp [orderBroken]
    | cons q r =>
      have ih1 : orderBroken (q :: (r ++ [y])) = false ↔
          orderBroken (q :: r) = false ∧
            ∀ p, (q :: r).getLast? = some p → y.IsConnectedTo p = true := ih
      show orderBroken (p :: q :: (r ++ [y])) = false ↔
        orderBroken (p :: q :: r) = false ∧
          ∀ l, (p :: q :: r).getLast? = some l → y.IsConnectedTo l = true
      rw [orderBroken_cons_cons, orderBroken_cons_cons, Bool.or_eq_false_iff,
        Bool.or_eq_false_iff, ih1, List.getLast?_cons_cons]
      tauto

theorem orderBroken_cons (post : List VesselSegment) (y : VesselSegment) :
    orderBroken (y :: post) = false ↔
      orderBroken post = false ∧ ∀ h, post.head? = some h → h.IsConnectedTo y = true := by
  cases post with
  | nil => simp [orderBroken]
  | cons q r =>
    simp only [orderBroken, Bool.or_eq_false_iff, List.head?_cons, Option.some.injEq,
      forall_eq', Bool.not_eq_false']
    tauto

/-- In a sequence that passes the pairwise check, a segment is not connected to any segment
two or more places in front of it. -/
theorem nonAdjacent_far_of_prepend (pre post : List VesselSegment) (a b t : VesselSegment)
    (ht : t ∈ pre) (h : NonAdjacentDisconnected (pre ++ a :: b :: post)) :
    b.IsConnectedTo t = false := by
  obtain ⟨k, hk, rfl⟩ := List.getElem_of_mem ht
  have hi : pre.length + 1 < (pre ++ a :: b :: post).length := by simp
  have hj : k < (pre ++ a :: b :: post).length := by
    simp only [List.length_append, List.length_cons]; omega
  have key := h (pre.length + 1) k hi hj (Or.inr (by omega))
  have e1 : (pre ++ a :: b :: post)[pre.length + 1] = b := by
    rw [List.getElem_append_right (by omega)]
    simp
  have e2 : (pre ++ a :: b :: post)[k] = pre[k] := by
    rw [List.getElem_append_left hk]
  rw [e1, e2] at key
  exact key

/-- Replacing a segment `x` of a sequence with connected neighbours by two segments `a`, `b`
that are connected to each other and between them are connected to every segment connected
to `x` leaves a sequence with connected neighbours, provided the new sequence passes the
pairwise check: the check excludes the wrong orientation of `a` and `b`. -/
theorem adjacent_after_split (pre post : List VesselSegment) (x a b : VesselSegment)
    (hadj : orderBroken (pre ++ x :: post) = false)
    (hnon : NonAdjacentDisconnected (pre ++ a :: b :: post))
    (hab : b.IsConnectedTo a = true)
    (hcov : ∀ t : VesselSegment, t.IsConnectedTo x = true →
      t.IsConnectedTo a = true ∨ t.IsConnectedTo b = true) :
    orderBroken (pre ++ a :: b :: post) = false := by
  rw [orderBroken_append_cons, Bool.or_eq_false_iff] at hadj ⊢
  obtain ⟨h1, h2⟩ := hadj
  rw [orderBroken_snoc] at h1
  rw [orderBroken_cons] at h2
  constructor
  · rw [orderBroken_snoc]
    refine ⟨h1.1, fun p hp => ?_⟩
    have hpx := h1.2 p hp
    rw [IsConnectedTo_comm] at hpx
    have hmem : p ∈ pre := List.mem_of_getLast?_eq_some hp
    have hfar := nonAdjacent_far_of_prepend pre post a b p hmem hnon
    rw [IsConnectedTo_comm] at hfar
    rcases hcov p hpx with h | h
    · rw [IsConnectedTo_comm]; exact h
    · rw [hfar] at h; exact absurd h (by simp)
  · simp only [orderBroken, Bool.or_eq_false_iff, Bool.not_eq_false']
    refine ⟨hab, ?_⟩
    rw [orderBroken_cons]
    refine ⟨h2.1, fun q hq => ?_⟩
    have hqx := h2.2 q hq
    have hmem : q ∈ post := List.mem_of_mem_head? hq
    have hfar := nonAdjacent_far_of_append pre post a b q hmem hnon
    rw [IsConnectedTo_comm] at hfar
    rcases hcov q hqx with h | h
    · rw [hfar] at h; exact absurd h (by simp)
    · exact h

/-- C24.  Let every segment of the vessel have an identity already handed out by the store,
let equal identities mean equal segments, and let every segment of the vessel be connected
to its predecessor.  If no segment within tolerance has an end node coincident with the
location, so that a normal return of `DivideSegment` is the return from a split, then the
segment sequence after a normal return satisfies both path invariants: every segment, the
two replacement segments included, is connected to its predecessor, and no two segments at
index distance two or more are connected. -/
theorem C24_DivideSegment_path_invariants (v : Vessel) (geo : Geometry) (st : Store)
    (location : List ℚ) (distanceTolerance : ℚ) (m : Nat)
    (hsegIds : ∀ t ∈ v.mSegments, t.id < st.next)
    (hident : ∀ a ∈ v.mSegments, ∀ b ∈ v.mSegments, a.id = b.id → a = b)
    (hnoend : ∀ t ∈ v.mSegments, withinTolerance geo st location distanceTolerance t = true →
      geo.isCoincident (st.node t.node0) location = false ∧
        geo.isCoincident (st.node t.node1) location = false)
    (hadj : AdjacentConnected v.mSegments)
    (hok : (v.DivideSegment geo st location distanceTolerance).result = .ok m) :
    AdjacentConnected (v.DivideSegment geo st location distanceTolerance).vessel.mSegments ∧
    NonAdjacentDisconnected
      (v.DivideSegment geo st location distanceTolerance).vessel.mSegments := by
  unfold Vessel.DivideSegment at hok ⊢
  cases hid : identifySegment geo st location distanceTolerance v.mSegments none with
  | inl n => exact absurd hid (identifySegment_ne_inl geo st location distanceTolerance _ _ n hnoend)
  | inr o =>
    cases o with
    | none => rw [hid] at hok; simp at hok
    | some s =>
      rw [hid] at hok
      simp only at hok ⊢
      have hs : s ∈ v.mSegments := by
        rcases identifySegment_inr geo st location distanceTolerance _ _ s hid with h | h
        · exact h.1
        · simp at h
      obtain ⟨-, pre, x, post, new, hsplit, hx, -, hnew, hres, hnon, -⟩ :=
        divideAt_ok v geo st location s m hsegIds hok
      have hxs : x = s := hident x (by rw [hsplit]; simp) s hs hx
      subst hxs
      rw [hres]
      rw [← orderBroken_eq_false_iff, hsplit] at hadj
      rw [← orderBroken_eq_false_iff, ← nonAdjacentConnected_eq_false_iff]
      refine ⟨?_, hnon⟩
      rw [nonAdjacentConnected_eq_false_iff] at hnon
      rcases hnew with rfl | rfl
      · simp only [List.append_assoc, List.cons_append, List.nil_append] at hnon ⊢
        apply adjacent_after_split pre post x _ _ hadj hnon
        · simp [VesselSegment.IsConnectedTo]
        · intro t ht
          simp only [VesselSegment.IsConnectedTo, Bool.or_eq_true, beq_iff_eq] at ht ⊢
          tauto
      · simp only [List.append_assoc, List.cons_append, List.nil_append] at hnon ⊢
        apply adjacent_after_split pre post x _ _ hadj hnon
        · simp [VesselSegment.IsConnectedTo]
        · intro t ht
          simp only [VesselSegment.IsConnectedTo, Bool.or_eq_true, beq_iff_eq] at ht ⊢
          tauto

/-- C24 at a concrete input: on the line store the vessel 0-2, 2-4, 4-6 divided at
coordinate 3, inside its middle segment, becomes a vessel of four segments that satisfies
both path invariants. -/
theorem C24_DivideSegment_path_invariants_witness :
    ((exampleVessel [⟨10, 0, 2, 1⟩, ⟨11, 2, 4, 1⟩, ⟨12, 4, 6, 1⟩]).DivideSegment
      exampleGeometry lineStore [3] (1 / 2)).vessel.mSegments =
      [⟨10, 0, 2, 1⟩, ⟨101, 2, 100, 1⟩, ⟨102, 100, 4, 1⟩, ⟨12, 4, 6, 1⟩] ∧
    AdjacentConnected ((exampleVessel [⟨10, 0, 2, 1⟩, ⟨11, 2, 4, 1⟩,
      ⟨12, 4, 6, 1⟩]).DivideSegment exampleGeometry lineStore [3] (1 / 2)).vessel.mSegments ∧
    NonAdjacentDisconnected ((exampleVessel [⟨10, 0, 2, 1⟩, ⟨11, 2, 4, 1⟩,
      ⟨12, 4, 6, 1⟩]).DivideSegment exampleGeometry lineStore [3] (1 / 2)).vessel.mSegments :=
  ⟨by decide!,
    C24_DivideSegment_path_invariants
      (exampleVessel [⟨10, 0, 2, 1⟩, ⟨11, 2, 4, 1⟩, ⟨12, 4, 6, 1⟩]) exampleGeometry lineStore
      [3] (1 / 2) 100 (by decide) (by decide) (by decide!)
      ((orderBroken_eq_false_iff _).1 (by decide)) (by decide!)⟩

/-! ## Dividing a single-segment vessel -/

/-- On a vessel with the single segment `s`, the split at any location returns the new node
and leaves the two replacement segments in the order node 0 of `s`, new node, node 1 of
`s`; node objects other than the new one are untouched. -/
theorem divideAt_single (v : Vessel) (geo : Geometry) (st : Store) (location : List ℚ)
    (s : VesselSegment) (hv : v.mSegments = [s]) (hid : s.id < st.next) :
    (v.divideAt geo st location s).result = .ok st.next ∧
    (v.divideAt geo st location s).vessel.mSegments =
      [⟨st.next + 1, s.node0, st.next, s.radius⟩, ⟨st.next + 2, st.next, s.node1, s.radius⟩] ∧
    (v.divideAt geo st location s).vessel.mNodesUpToDate = false ∧
    ((v.divideAt geo st location s).store.node st.next).location = location ∧
    (∀ n, n ≠ st.next → (v.divideAt geo st location s).store.node n = st.node n) := by
  have h1 : nonAdjacentConnected [s] = false := by
    simp [nonAdjacentConnected, List.range_succ]
  have h2 : findSegment [s] s = 0 := findSegment_append [] [] s s (by simp) rfl
  have h3 : ∀ a b : VesselSegment, a.id ≠ s.id → b.id ≠ s.id → findSegment [a, b, s] s = 2 := by
    intro a b ha hb
    exact findSegment_append [a, b] [] s s (by
      intro t ht
      simp only [List.mem_cons, List.mem_singleton, List.not_mem_nil, or_false] at ht
      rcases ht with rfl | rfl
      · exact ha
      · exact hb) rfl
  have h4 : ∀ a b : VesselSegment, nonAdjacentConnected [a, b] = false := by
    intro a b
    simp [nonAdjacentConnected, List.range_succ]
  unfold Vessel.divideAt
  simp only [hv, h1, Bool.false_eq_true, if_false, h2, List.length_singleton,
    orderNewSegments, if_true, createSegment_fst, createSplitNode_next, createSegment_next,
    List.take_zero, List.drop_zero, List.nil_append, List.cons_append]
  rw [h3 _ _ (by simp; omega) (by simp; omega)]
  simp only [List.length_cons, List.length_nil, Nat.reduceAdd, Nat.reduceEqDiff, if_false,
    List.eraseIdx_cons_succ, List.eraseIdx_cons_zero, h4, Bool.false_eq_true]
  refine ⟨trivial, rfl, rfl, ?_, ?_⟩
  · simp
  · intro n hn
    simp [Store.createSplitNode, Function.update, hn]

/-- On a line the distances from an end point to a point between the end points and from
that point to the other end point add up to the distance between the end points. -/
theorem line_between (a p b : ℚ) (h : (a ≤ p ∧ p ≤ b) ∨ (b ≤ p ∧ p ≤ a)) :
    |a - p| + |p - b| = |a - b| := by
  rcases h with ⟨h1, h2⟩ | ⟨h1, h2⟩
  · rw [abs_of_nonpos (by linarith), abs_of_nonpos (by linarith), abs_of_nonpos (by linarith)]
    ring
  · rw [abs_of_nonneg (by linarith), abs_of_nonneg (by linarith), abs_of_nonneg (by linarith)]
    ring

/-- C25.  Let the vessel consist of the single segment `s`, whose identity and node
identities were handed out by the store, let the location lie within tolerance of `s` and
coincide with neither end node, and let distances depend on the node locations alone,
`D p q` being the distance from a node at `p` to the location `q`.  Then `DivideSegment`
returns the new node, the vessel has the two segments node 0 of `s` to new node and new node
to node 1 of `s`, its node sequence is node 0, new node, node 1, and the new node is located
at the query location.  If the location lies on the segment, in that the distances from
node 0 to the location and from the location to node 1 add up to the distance from node 0 to
node 1, then `GetLength` of the divided vessel is `GetLength` of the original vessel, the
length of `s`. -/
theorem C25_DivideSegment_single_segment (v : Vessel) (geo : Geometry) (st : Store)
    (location : List ℚ) (distanceTolerance : ℚ) (s : VesselSegment)
    (D : List ℚ → List ℚ → ℚ)
    (hv : v.mSegments = [s]) (hid : s.id < st.next)
    (hnodes : s.node0 < st.next ∧ s.node1 < st.next)
    (hwithin : withinTolerance geo st location distanceTolerance s = true)
    (hnot0 : geo.isCoincident (st.node s.node0) location = false)
    (hnot1 : geo.isCoincident (st.node s.node1) location = false)
    (hD : ∀ (a : VesselNode) (p : List ℚ), geo.nodeDistance a p = D a.location p) :
    (v.DivideSegment geo st location distanceTolerance).result = .ok st.next ∧
    (v.DivideSegment geo st location distanceTolerance).vessel.mSegments =
      [⟨st.next + 1, s.node0, st.next, s.radius⟩, ⟨st.next + 2, st.next, s.node1, s.radius⟩] ∧
    (v.DivideSegment geo st location distanceTolerance).vessel.GetNumberOfSegments = 2 ∧
    ((v.DivideSegment geo st location distanceTolerance).vessel.GetNodes
      (v.DivideSegment geo st location distanceTolerance).store).result =
      .ok [s.node0, st.next, s.node1] ∧
    ((v.DivideSegment geo st location distanceTolerance).vessel.GetNumberOfNodes
      (v.DivideSegment geo st location distanceTolerance).store).result = .ok 3 ∧
    ((v.DivideSegment geo st location distanceTolerance).store.node st.next).location =
      location ∧
    v.GetLength geo st = D (st.node s.node0).location (st.node s.node1).location ∧
    (v.DivideSegment geo st location distanceTolerance).vessel.GetLength geo
      (v.DivideSegment geo st location distanceTolerance).store =
      D (st.node s.node0).location location + D location (st.node s.node1).location ∧
    (D (st.node s.node0).location location + D location (st.node s.node1).location =
        D (st.node s.node0).location (st.node s.node1).location →
      (v.DivideSegment geo st location distanceTolerance).vessel.GetLength geo
        (v.DivideSegment geo st location distanceTolerance).store = v.GetLength geo st) := by
  have hident : identifySegment geo st location distanceTolerance v.mSegments none =
      .inr (some s) := by
    rw [hv]
    simp [identifySegment, hwithin, hnot0, hnot1]
  obtain ⟨d1, d2, d3, d4, d5⟩ := divideAt_single v geo st location s hv hid
  have hdiv : v.DivideSegment geo st location distanceTolerance =
      v.divideAt geo st location s := by
    unfold Vessel.DivideSegment
    rw [hident]
  rw [hdiv]
  have hlen0 : v.GetLength geo st = D (st.node s.node0).location (st.node s.node1).location := by
    simp [Vessel.GetLength, hv, segmentLength, hD]
  have hlen1 : (v.divideAt geo st location s).vessel.GetLength geo
      (v.divideAt geo st location s).store =
      D (st.node s.node0).location location + D location (st.node s.node1).location := by
    unfold Vessel.GetLength
    rw [d2]
    simp only [List.foldl_cons, List.foldl_nil, segmentLength, hD, zero_add]
    rw [d5 s.node0 (by omega), d5 s.node1 (by omega), d4]
  refine ⟨d1, d2, by simp [Vessel.GetNumberOfSegments, d2], ?_, ?_, d4, hlen0, hlen1, ?_⟩
  · simp [Vessel.GetNodes, Vessel.refresh, Vessel.UpdateNodes, d2, d3, rebuildNodes,
      updateNodesLoop, VesselSegment.HasNode]
  · simp [Vessel.GetNumberOfNodes, Vessel.refresh, Vessel.UpdateNodes, d2, d3, rebuildNodes,
      updateNodesLoop, VesselSegment.HasNode, Vessel.GetNumberOfSegments]
  · intro hb
    rw [hlen1, hlen0, hb]

/-- C25 at a concrete input: on the line store the vessel 0-2 divided at its midpoint 1 has
the nodes 0, 100, 2, the new node at coordinate 1, and length 2 as before. -/
theorem C25_DivideSegment_single_segment_witness :
    ((exampleVessel [⟨10, 0, 2, 1⟩]).DivideSegment exampleGeometry lineStore [1]
      (1 / 2)).result = .ok 100 ∧
    (((exampleVessel [⟨10, 0, 2, 1⟩]).DivideSegment exampleGeometry lineStore [1]
      (1 / 2)).vessel.GetNodes ((exampleVessel [⟨10, 0, 2, 1⟩]).DivideSegment
        exampleGeometry lineStore [1] (1 / 2)).store).result = .ok [0, 100, 2] ∧
    (((exampleVessel [⟨10, 0, 2, 1⟩]).DivideSegment exampleGeometry lineStore [1]
      (1 / 2)).store.node 100).location = [1] ∧
    (exampleVessel [⟨10, 0, 2, 1⟩]).GetLength exampleGeometry lineStore = 2 ∧
    ((exampleVessel [⟨10, 0, 2, 1⟩]).DivideSegment exampleGeometry lineStore [1]
      (1 / 2)).vessel.GetLength exampleGeometry
        ((exampleVessel [⟨10, 0, 2, 1⟩]).DivideSegment exampleGeometry lineStore [1]
          (1 / 2)).store = (exampleVessel [⟨10, 0, 2, 1⟩]).GetLength exampleGeometry lineStore :=
  ⟨(C25_DivideSegment_single_segment (exampleVessel [⟨10, 0, 2, 1⟩]) exampleGeometry
      lineStore [1] (1 / 2) ⟨10, 0, 2, 1⟩ (fun p q => |p.headD 0 - q.headD 0|) rfl
      (by decide) (by decide) (by decide!) (by decide!) (by decide!) (fun _ _ => rfl)).1,
    (C25_DivideSegment_single_segment (exampleVessel [⟨10, 0, 2, 1⟩]) exampleGeometry
      lineStore [1] (1 / 2) ⟨10, 0, 2, 1⟩ (fun p q => |p.headD 0 - q.headD 0|) rfl
      (by decide) (by decide) (by decide!) (by decide!) (by decide!)
      (fun _ _ => rfl)).2.2.2.1,
    (C25_DivideSegment_single_segment (exampleVessel [⟨10, 0, 2, 1⟩]) exampleGeometry
      lineStore [1] (1 / 2) ⟨10, 0, 2, 1⟩ (fun p q => |p.headD 0 - q.headD 0|) rfl
      (by decide) (by decide) (by decide!) (by decide!) (by decide!)
      (fun _ _ => rfl)).2.2.2.2.2.1,
    by decide!,
    (C25_DivideSegment_single_segment (exampleVessel [⟨10, 0, 2, 1⟩]) exampleGeometry
      lineStore [1] (1 / 2) ⟨10, 0, 2, 1⟩ (fun p q => |p.headD 0 - q.headD 0|) rfl
      (by decide) (by decide) (by decide!) (by decide!) (by decide!)
      (fun _ _ => rfl)).2.2.2.2.2.2.2.2 (by decide!)⟩

/-- The orientation test of `DivideSegment` at work on the line store.  At the start of the
vessel 2-0, 2-4, whose first segment is held with its free end as node 1, the replacement
segments are put in the order new node to 0, 2 to new node; at the end of the vessel 0-2,
4-2 they are put in the order 4 to new node, new node to 2.  Both results satisfy the path
invariants. -/
theorem DivideSegment_orientations :
    ((exampleVessel [⟨10, 2, 0, 1⟩, ⟨11, 2, 4, 1⟩]).DivideSegment exampleGeometry lineStore
      [1] (1 / 2)).vessel.mSegments =
      [⟨102, 100, 0, 1⟩, ⟨101, 2, 100, 1⟩, ⟨11, 2, 4, 1⟩] ∧
    ((exampleVessel [⟨10, 0, 2, 1⟩, ⟨11, 4, 2, 1⟩]).DivideSegment exampleGeometry lineStore
      [3] (1 / 2)).vessel.mSegments =
      [⟨10, 0, 2, 1⟩, ⟨102, 100, 2, 1⟩, ⟨101, 4, 100, 1⟩] ∧
    orderBroken [⟨102, 100, 0, 1⟩, ⟨101, 2, 100, 1⟩, ⟨11, 2, 4, 1⟩] = false ∧
    orderBroken [⟨10, 0, 2, 1⟩, ⟨102, 100, 2, 1⟩, ⟨101, 4, 100, 1⟩] = false := by
  refine ⟨by decide!, by decide!, by decide, by decide⟩

/-! ## What the loop writes to the segments -/

/-- C28.  After every pass of the loop of `Calculate`, every segment of every vessel `idx`
of the network carries component `idx` of the solution computed in that pass, the solution
of the system the loop state holds, which is the last system handed to `Solve`; all
segments of one vessel carry the same value, and the number of segments of a vessel does not
change.  After a completed setup `Calculate` ends in the state after some pass `k ≥ 1`,
whether it returns normally or throws, so the same holds for the network it leaves. -/
theorem C28_segments_carry_solution (solver : BetteridgeHaematocritSolver)
    (ext : Collaborators) (hsetup : setupCompletes solver ext = true) :
    (∀ k, (∀ idx, idx < solver.mpNetwork.numberOfVessels →
        ((passState solver ext (k + 1)).network.vessel idx).segmentHaematocrit =
          List.replicate (solver.mpNetwork.vessel idx).segmentHaematocrit.length
            (ext.Solve (passState solver ext (k + 1)).linearSystem idx)) ∧
      (passState solver ext (k + 1)).solved.getLast? =
        some (passState solver ext (k + 1)).linearSystem) ∧
    (∃ k, 1 ≤ k ∧ (solver.Calculate ext).state = passState solver ext k) ∧
    (∀ idx, idx < solver.mpNetwork.numberOfVessels →
      ((solver.Calculate ext).state.network.vessel idx).segmentHaematocrit =
        List.replicate (solver.mpNetwork.vessel idx).segmentHaematocrit.length
          (ext.Solve (solver.Calculate ext).state.linearSystem idx) ∧
      (∀ x ∈ ((solver.Calculate ext).state.network.vessel idx).segmentHaematocrit,
        x = ext.Solve (solver.Calculate ext).state.linearSystem idx)) ∧
    (solver.Calculate ext).state.solved.getLast? =
      some (solver.Calculate ext).state.linearSystem := by
  have hpass : ∀ k, (∀ idx, idx < solver.mpNetwork.numberOfVessels →
        ((passState solver ext (k + 1)).network.vessel idx).segmentHaematocrit =
          List.replicate (solver.mpNetwork.vessel idx).segmentHaematocrit.length
            (ext.Solve (passState solver ext (k + 1)).linearSystem idx)) ∧
      (passState solver ext (k + 1)).solved.getLast? =
        some (passState solver ext (k + 1)).linearSystem := by
    intro k
    constructor
    · intro idx hidx
      rw [passState_network_succ,
        assignHaematocrit_vessel _ _ _ (by rw [passState_numberOfVessels]; exact hidx),
        passState_segments_length]
    · rw [passState_succ, loopBody_solved]
      simp
  have hend : ∃ k, 1 ≤ k ∧ (solver.Calculate ext).state = passState solver ext k := by
    rcases Calculate_cases solver ext hsetup with ⟨k, hk1, -, hc, -⟩ | ⟨hc, -⟩
    · exact ⟨k, hk1, by rw [hc]⟩
    · exact ⟨1000, by omega, by rw [hc]⟩
  refine ⟨hpass, hend, ?_, ?_⟩
  · intro idx hidx
    obtain ⟨k, hk1, hk⟩ := hend
    obtain ⟨j, rfl⟩ : ∃ j, k = j + 1 := ⟨k - 1, by omega⟩
    rw [hk]
    refine ⟨(hpass j).1 idx hidx, fun x hx => ?_⟩
    rw [(hpass j).1 idx hidx] at hx
    exact List.eq_of_mem_replicate hx
  · obtain ⟨k, hk1, hk⟩ := hend
    obtain ⟨j, rfl⟩ : ∃ j, k = j + 1 := ⟨k - 1, by omega⟩
    rw [hk]
    exact (hpass j).2

/-- C28 at a concrete input: in the bifurcation network the two segments of vessel 1 both
end with component 1 of the last solution, 189/365. -/
theorem C28_segments_carry_solution_witness :
    ((BetteridgeHaematocritSolver.Calculate ⟨5 / 2, 1 / 2, 9 / 20, bifurcationNetwork⟩
        exampleCollaborators).state.network.vessel 1).segmentHaematocrit =
      List.replicate (bifurcationNetwork.vessel 1).segmentHaematocrit.length
        (exampleCollaborators.Solve (BetteridgeHaematocritSolver.Calculate
          ⟨5 / 2, 1 / 2, 9 / 20, bifurcationNetwork⟩ exampleCollaborators).state.linearSystem
          1) ∧
    ((BetteridgeHaematocritSolver.Calculate ⟨5 / 2, 1 / 2, 9 / 20, bifurcationNetwork⟩
        exampleCollaborators).state.network.vessel 1).segmentHaematocrit =
      [189 / 365, 189 / 365] :=
  ⟨((C28_segments_carry_solution ⟨5 / 2, 1 / 2, 9 / 20, bifurcationNetwork⟩
      exampleCollaborators (by decide!)).2.2.1 1 (by decide)).1, by decide!⟩

/-! ## The network without vessels -/

/-- C29: on a network with zero vessels setup completes with the empty system and no
recorded triple, the loop makes one pass, which solves the empty system and ends with
residual 0, and `Calculate` returns normally with the network unchanged. -/
theorem C29_zero_vessels (solver : BetteridgeHaematocritSolver) (ext : Collaborators)
    (hzero : solver.mpNetwork.numberOfVessels = 0) :
    setup solver ext = .ok (LinearSystem.create 0, []) ∧
    (solver.Calculate ext).result = .ok () ∧
    (solver.Calculate ext).state.iterations = 1 ∧
    (solver.Calculate ext).state.residual = 0 ∧
    (solver.Calculate ext).state.solved = [LinearSystem.create 0] ∧
    (solver.Calculate ext).state.network = solver.mpNetwork := by
  have hs : setup solver ext = .ok (LinearSystem.create 0, []) := by
    simp [setup, setupUpTo, hzero]
  have hsetup : setupCompletes solver ext = true := by
    simp [setupCompletes, hs]
  have hsys : setupSystem solver ext = LinearSystem.create 0 := by
    simp [setupSystem, hs]
  have hls : (passState solver ext 1).linearSystem = LinearSystem.create 0 := by
    rw [passState_succ]
    simp [loopBody, passState, afterPasses, initialState, hsys]
  have hres : (passState solver ext 1).residual = 0 := by
    rw [passState_residual_succ, computeResidual_eq_zero_iff]
    intro i hi
    rw [passState_numberOfVessels, hzero] at hi
    omega
  have hnet : (passState solver ext 1).network = solver.mpNetwork := by
    rw [passState_network_succ, passState_zero_network]
    unfold assignHaematocrit
    simp only [hzero, Nat.not_lt_zero, if_false]
    cases hn : solver.mpNetwork with
    | mk n ves inp segs =>
      rw [hn] at hzero
      simp only at hzero
      subst hzero
      rfl
  have hsolved : (passState solver ext 1).solved = [LinearSystem.create 0] := by
    rw [passState_succ, loopBody_solved, ← passState_succ, hls]
    simp [passState, afterPasses, initialState]
  have hrun := (Calculate_outcome solver ext hsetup).1 1 (le_refl _) (by omega)
    (fun m h1 h2 => by omega) (by rw [hres]; exact tolerance_nonneg)
  rw [hrun]
  exact ⟨hs, rfl, passState_iterations _ _ 1, hres, hsolved, hnet⟩

/-- C29 at a concrete input: `Calculate` on the network without vessels. -/
theorem C29_zero_vessels_witness :
    (BetteridgeHaematocritSolver.Calculate ⟨5 / 2, 1 / 2, 9 / 20, emptyNetwork⟩
      exampleCollaborators).result = .ok () ∧
    (BetteridgeHaematocritSolver.Calculate ⟨5 / 2, 1 / 2, 9 / 20, emptyNetwork⟩
      exampleCollaborators).state.iterations = 1 ∧
    (BetteridgeHaematocritSolver.Calculate ⟨5 / 2, 1 / 2, 9 / 20, emptyNetwork⟩
      exampleCollaborators).state.residual = 0 ∧
    (BetteridgeHaematocritSolver.Calculate ⟨5 / 2, 1 / 2, 9 / 20, emptyNetwork⟩
      exampleCollaborators).state.network = emptyNetwork :=
  ⟨(C29_zero_vessels ⟨5 / 2, 1 / 2, 9 / 20, emptyNetwork⟩ exampleCollaborators rfl).2.1,
    (C29_zero_vessels ⟨5 / 2, 1 / 2, 9 / 20, emptyNetwork⟩ exampleCollaborators rfl).2.2.1,
    (C29_zero_vessels ⟨5 / 2, 1 / 2, 9 / 20, emptyNetwork⟩ exampleCollaborators rfl).2.2.2.1,
    (C29_zero_vessels ⟨5 / 2, 1 / 2, 9 / 20, emptyNetwork⟩ exampleCollaborators
      rfl).2.2.2.2.2⟩


/-! ## The node at the opposite end -/

/-- With the freshness flag set the read accessors return from the cache and change
nothing. -/
theorem accessors_of_fresh (w : Vessel) (st : Store) (hflag : w.mNodesUpToDate = true) :
    w.refresh st = ⟨.ok (), w, st⟩ ∧
    w.GetStartNode st = (match w.mNodes.head? with
      | some n => ⟨.ok n, w, st⟩
      | none => ⟨.undefined, w, st⟩) ∧
    w.GetEndNode st = (match w.mNodes.getLast? with
      | some n => ⟨.ok n, w, st⟩
      | none => ⟨.undefined, w, st⟩) := by
  have hr : w.refresh st = ⟨.ok (), w, st⟩ := by simp [Vessel.refresh, hflag]
  refine ⟨hr, ?_, ?_⟩
  · unfold Vessel.GetStartNode
    rw [hr]
  · unfold Vessel.GetEndNode
    rw [hr]

/-- A read accessor that returns a value has gone through a refresh that left a vessel with
the freshness flag set, the same segments and the same store; the value is read from the
cache of that vessel. -/
theorem refresh_of_GetStartNode_ok (v : Vessel) (st : Store) (a : Nat)
    (h : (v.GetStartNode st).result = .ok a) :
    ∃ w, v.refresh st = ⟨.ok (), w, st⟩ ∧ w.mNodesUpToDate = true ∧
      w.mSegments = v.mSegments ∧ w.mNodes.head? = some a := by
  unfold Vessel.GetStartNode at h
  unfold Vessel.refresh at h ⊢
  by_cases hflag : v.mNodesUpToDate = true
  · simp only [hflag, if_true] at h ⊢
    cases hh : v.mNodes.head? with
    | none => simp [hh] at h
    | some k =>
      simp only [hh, Result.ok.injEq] at h
      exact ⟨v, rfl, hflag, rfl, by rw [hh, h]⟩
  · simp only [hflag, Bool.false_eq_true, if_false] at h ⊢
    unfold Vessel.UpdateNodes at h ⊢
    cases hr : rebuildNodes v.mSegments with
    | none => simp [hr] at h
    | some nodes =>
      simp only [hr] at h ⊢
      cases hh : nodes.head? with
      | none => simp [hh] at h
      | some k =>
        simp only [hh, Result.ok.injEq] at h
        exact ⟨_, rfl, rfl, rfl, by simp [hh, h]⟩

/-- The value `GetEndNode` returns is the last entry of the cache the refresh leaves. -/
theorem GetEndNode_after_refresh (v w : Vessel) (st : Store) (b : Nat)
    (hr : v.refresh st = ⟨.ok (), w, st⟩)
    (h : (v.GetEndNode st).result = .ok b) : w.mNodes.getLast? = some b := by
  unfold Vessel.GetEndNode at h
  rw [hr] at h
  simp only at h
  cases hh : w.mNodes.getLast? with
  | none => simp [hh] at h
  | some k =>
    simp only [hh, Result.ok.injEq] at h
    rw [h]

/-- The outcome of `GetNodeAtOppositeEnd` on a vessel whose refresh leaves `w` with first
cached node `a` and last cached node `b`. -/
theorem GetNodeAtOppositeEnd_eq (v w : Vessel) (st : Store) (a b q : Nat)
    (hr : v.refresh st = ⟨.ok (), w, st⟩) (hflag : w.mNodesUpToDate = true)
    (ha : w.mNodes.head? = some a) (hb : w.mNodes.getLast? = some b) :
    v.GetNodeAtOppositeEnd st q =
      ⟨if q = a then .ok b else if q = b then .ok a
        else .exception "Query node is not at either end of the vessel.", w, st⟩ := by
  obtain ⟨-, hs, he⟩ := accessors_of_fresh w st hflag
  rw [ha] at hs
  rw [hb] at he
  unfold Vessel.GetNodeAtOppositeEnd
  rw [hr]
  simp only [hs, he]
  by_cases h1 : q = a
  · simp [h1]
  · by_cases h2 : q = b
    · subst h2
      simp [h1]
    · simp [h1, h2]

/-- C35.  Let `GetStartNode` return `a` and `GetEndNode` return `b` on the vessel.  Then
`GetNodeAtOppositeEnd(q)` returns `b` if `q` is `a`, otherwise `a` if `q` is `b`, and
otherwise throws the exception that the query node is at neither end; it leaves the store
and the segments as they were.  Applied to its own result on the vessel it leaves, it
returns the query node again for each of the two end nodes. -/
theorem C35_GetNodeAtOppositeEnd (v : Vessel) (st : Store) (a b : Nat)
    (ha : (v.GetStartNode st).result = .ok a) (hb : (v.GetEndNode st).result = .ok b) :
    (∀ q, (v.GetNodeAtOppositeEnd st q).result =
      if q = a then .ok b else if q = b then .ok a
      else .exception "Query node is not at either end of the vessel.") ∧
    (∀ q, (v.GetNodeAtOppositeEnd st q).store = st ∧
      (v.GetNodeAtOppositeEnd st q).vessel.mSegments = v.mSegments) ∧
    (∀ q r, q = a ∨ q = b → (v.GetNodeAtOppositeEnd st q).result = .ok r →
      (r = a ∨ r = b) ∧
      ((v.GetNodeAtOppositeEnd st q).vessel.GetNodeAtOppositeEnd
        (v.GetNodeAtOppositeEnd st q).store r).result = .ok q) := by
  obtain ⟨w, hr, hflag, hsegs, hha⟩ := refresh_of_GetStartNode_ok v st a ha
  have hhb := GetEndNode_after_refresh v w st b hr hb
  have hw := (accessors_of_fresh w st hflag).1
  have h1 : ∀ q, v.GetNodeAtOppositeEnd st q = _ :=
    fun q => GetNodeAtOppositeEnd_eq v w st a b q hr hflag hha hhb
  have h2 : ∀ q, w.GetNodeAtOppositeEnd st q = _ :=
    fun q => GetNodeAtOppositeEnd_eq w w st a b q hw hflag hha hhb
  refine ⟨fun q => by rw [h1 q], fun q => by rw [h1 q]; exact ⟨rfl, hsegs⟩, ?_⟩
  intro q r hq hres
  rw [h1 q] at hres ⊢
  simp only at hres ⊢
  rw [h2 r]
  simp only
  rcases hq with rfl | rfl
  · simp only [if_true, Result.ok.injEq] at hres
    subst hres
    refine ⟨Or.inr rfl, ?_⟩
    by_cases hab : b = q
    · simp [hab]
    · simp [hab]
  · by_cases hab : q = a
    · subst hab
      simp only [if_true, Result.ok.injEq] at hres
      subst hres
      exact ⟨Or.inl rfl, by simp⟩
    · simp only [hab, if_false, if_true, Result.ok.injEq] at hres
      subst hres
      exact ⟨Or.inl rfl, by simp⟩

/-- C35 at a concrete input: on the vessel 1-2, 2-3 the node opposite to 1 is 3, the node
opposite to 3 is 1, and the interior node 2 is refused. -/
theorem C35_GetNodeAtOppositeEnd_witness :
    ((exampleVessel [⟨10, 1, 2, 1⟩, ⟨11, 2, 3, 1⟩]).GetNodeAtOppositeEnd exampleStore 1).result =
      .ok 3 ∧
    ((exampleVessel [⟨10, 1, 2, 1⟩, ⟨11, 2, 3, 1⟩]).GetNodeAtOppositeEnd exampleStore 3).result =
      .ok 1 ∧
    ((exampleVessel [⟨10, 1, 2, 1⟩, ⟨11, 2, 3, 1⟩]).GetNodeAtOppositeEnd exampleStore 2).result =
      .exception "Query node is not at either end of the vessel." :=
  ⟨(C35_GetNodeAtOppositeEnd (exampleVessel [⟨10, 1, 2, 1⟩, ⟨11, 2, 3, 1⟩]) exampleStore 1 3
      (by decide) (by decide)).1 1,
    (C35_GetNodeAtOppositeEnd (exampleVessel [⟨10, 1, 2, 1⟩, ⟨11, 2, 3, 1⟩]) exampleStore 1 3
      (by decide) (by decide)).1 3,
    (C35_GetNodeAtOppositeEnd (exampleVessel [⟨10, 1, 2, 1⟩, ⟨11, 2, 3, 1⟩]) exampleStore 1 3
      (by decide) (by decide)).1 2⟩

/-! ## The node sequence rebuilt by `UpdateNodes` -/

theorem getElem?_append_of_some (xs ys : List Nat) (i x : Nat) (h : xs[i]? = some x) :
    (xs ++ ys)[i]? = some x := by
  obtain ⟨hi, hx⟩ := List.getElem?_eq_some.mp h
  rw [List.getElem?_append_left hi, h]

/-- Appending the other node of one more segment keeps the node sequence following the
segment sequence. -/
theorem NodesFollowSegments_snoc (init : List Nat) (n o : Nat) (pre : List VesselSegment)
    (c : VesselSegment) (h : NodesFollowSegments (init ++ [n]) pre)
    (hc : (n = c.node0 ∧ o = c.node1) ∨ (n = c.node1 ∧ o = c.node0)) :
    NodesFollowSegments (init ++ [n] ++ [o]) (pre ++ [c]) := by
  obtain ⟨hlen, hpairs⟩ := h
  have hinit : init.length = pre.length := by simpa using hlen
  refine ⟨by simp [hinit], ?_⟩
  intro i seg hseg
  by_cases hi : i < pre.length
  · rw [List.getElem?_append_left hi] at hseg
    rcases hpairs i seg hseg with ⟨h1, h2⟩ | ⟨h1, h2⟩
    · exact Or.inl ⟨getElem?_append_of_some _ _ _ _ h1, getElem?_append_of_some _ _ _ _ h2⟩
    · exact Or.inr ⟨getElem?_append_of_some _ _ _ _ h1, getElem?_append_of_some _ _ _ _ h2⟩
  · have hi2 : i = pre.length := by
      obtain ⟨hlt, -⟩ := List.getElem?_eq_some.mp hseg
      simp at hlt
      omega
    subst hi2
    have hsegc : seg = c := by simpa using hseg.symm
    subst hsegc
    have hn : (init ++ [n] ++ [o])[pre.length]? = some n := by
      rw [← hinit, List.append_assoc, List.getElem?_append_right (le_refl _)]
      simp
    have ho : (init ++ [n] ++ [o])[pre.length + 1]? = some o := by
      rw [← hinit]
      rw [List.getElem?_append_right (by simp)]
      simp
    rw [hn, ho]
    rcases hc with ⟨h1, h2⟩ | ⟨h1, h2⟩
    · exact Or.inl ⟨by rw [h1], by rw [h2]⟩
    · exact Or.inr ⟨by rw [h1], by rw [h2]⟩

theorem HasNode_iff (s : VesselSegment) (n : Nat) :
    s.HasNode n = true ↔ n = s.node0 ∨ n = s.node1 := by
  simp [VesselSegment.HasNode]

theorem IsConnectedTo_iff (s t : VesselSegment) :
    s.IsConnectedTo t = true ↔
      t.HasNode s.node0 = true ∨ t.HasNode s.node1 = true := by
  simp only [VesselSegment.IsConnectedTo, VesselSegment.HasNode, Bool.or_eq_true, beq_iff_eq]
  tauto

/-- The loop of `UpdateNodes` on a segment sequence that satisfies the path invariants: if
the nodes pushed so far follow the segments visited so far, and the last node pushed
belongs to the last segment visited and to the next one, the loop completes and the
sequence it returns follows the whole segment sequence. -/
theorem updateNodesLoop_follow : ∀ (cur pre : List VesselSegment) (init : List Nat) (n : Nat),
    NodesFollowSegments (init ++ [n]) pre →
    (∀ p, pre.getLast? = some p → p.HasNode n = true) →
    pre ≠ [] →
    orderBroken (pre ++ cur) = false → NonAdjacentDisconnected (pre ++ cur) →
    (∀ c, cur.head? = some c → c.HasNode n = true) →
    ∃ tail, updateNodesLoop cur pre.length (init ++ [n]) = some (init ++ [n] ++ tail) ∧
      NodesFollowSegments (init ++ [n] ++ tail) (pre ++ cur) := by
  intro cur
  induction cur with
  | nil =>
    intro pre init n h _ _ _ _ _
    exact ⟨[], by simp [updateNodesLoop], by simpa using h⟩
  | cons c cur ih =>
    intro pre init n h hprev hne hadj hnon hhead
    have hinit : init.length = pre.length := by simpa using h.1
    have hread : (init ++ [n])[pre.length]? = some n := by
      rw [← hinit, List.getElem?_append_right (le_refl _)]
      simp
    have hcn := (HasNode_iff c n).mp (hhead c rfl)
    have hpair : (n = c.node0 ∧ (if n = c.node0 then c.node1 else c.node0) = c.node1) ∨
        (n = c.node1 ∧ (if n = c.node0 then c.node1 else c.node0) = c.node0) := by
      by_cases h0 : n = c.node0
      · exact Or.inl ⟨h0, by rw [if_pos h0]⟩
      · rcases hcn with h1 | h1
        · exact absurd h1 h0
        · exact Or.inr ⟨h1, by rw [if_neg h0]⟩
    have hother : c.HasNode (if n = c.node0 then c.node1 else c.node0) = true := by
      rw [HasNode_iff]
      rcases hpair with ⟨-, h2⟩ | ⟨-, h2⟩
      · exact Or.inr h2
      · exact Or.inl h2
    have hassoc : pre ++ [c] ++ cur = pre ++ c :: cur := by simp
    obtain ⟨tail, ht, hf⟩ := ih (pre ++ [c]) (init ++ [n])
      (if n = c.node0 then c.node1 else c.node0)
      (NodesFollowSegments_snoc init n _ pre c h hpair)
      (fun p hp => by
        have hp1 : p = c := by simpa using hp.symm
        rw [hp1]; exact hother)
      (by simp)
      (by rw [hassoc]; exact hadj)
      (by rw [hassoc]; exact hnon)
      (by
        intro c1 hc1
        obtain ⟨rest, rfl⟩ : ∃ rest, cur = c1 :: rest := by
          cases cur with
          | nil => simp at hc1
          | cons a rest => simp only [List.head?_cons, Option.some.injEq] at hc1; exact ⟨rest, by rw [hc1]⟩
        obtain ⟨pre0, p, rfl⟩ : ∃ pre0 p, pre = pre0 ++ [p] := by
          rcases List.eq_nil_or_concat pre with h0 | ⟨L, b, hL⟩
          · exact absurd h0 hne
          · exact ⟨L, b, by simpa using hL⟩
        have hpn : p.HasNode n = true := hprev p (by simp)
        have hfar : p.IsConnectedTo c1 = false := by
          have hnon1 : NonAdjacentDisconnected (pre0 ++ p :: c :: c1 :: rest) := by
            simpa using hnon
          exact nonAdjacent_far_of_append pre0 (c1 :: rest) p c c1 (by simp) hnon1
        have hconn : c1.IsConnectedTo c = true := by
          rw [orderBroken_append_cons] at hadj
          simp only [Bool.or_eq_false_iff] at hadj
          exact ((orderBroken_cons (c1 :: rest) c).mp hadj.2).2 c1 rfl
        rw [IsConnectedTo_comm, IsConnectedTo_iff] at hconn
        have hnot : c1.HasNode n = false := by
          by_contra hcon
          simp only [Bool.not_eq_false] at hcon
          have : p.IsConnectedTo c1 = true := by
            rw [IsConnectedTo_iff]
            rw [HasNode_iff] at hpn hcon ⊢
            rw [HasNode_iff]
            rcases hpn with hpn | hpn
            · exact Or.inl (by rw [← hpn]; exact hcon)
            · exact Or.inr (by rw [← hpn]; exact hcon)
          rw [hfar] at this
          exact absurd this (by simp)
        rcases hpair with ⟨h1, h2⟩ | ⟨h1, h2⟩
        · rw [h2]
          rcases hconn with hh | hh
          · rw [← h1, hnot] at hh; exact absurd hh (by simp)
          · exact hh
        · rw [h2]
          rcases hconn with hh | hh
          · exact hh
          · rw [← h1, hnot] at hh; exact absurd hh (by simp))
    refine ⟨(if n = c.node0 then c.node1 else c.node0) :: tail, ?_, ?_⟩
    · unfold updateNodesLoop
      rw [hread]
      simp only
      rw [List.length_append, List.length_singleton] at ht
      rw [ht]
      simp
    · have : init ++ [n] ++ (if n = c.node0 then c.node1 else c.node0) :: tail =
          init ++ [n] ++ [if n = c.node0 then c.node1 else c.node0] ++ tail := by simp
      rw [this, ← hassoc]
      exact hf

/-- A segment that has two different nodes `x` and `e` has no other node. -/
theorem nodes_of_two (s : VesselSegment) (x e : Nat) (hx : s.HasNode x = true)
    (he : s.HasNode e = true) (hne : x ≠ e) :
    (s.node0 = x ∨ s.node0 = e) ∧ (s.node1 = x ∨ s.node1 = e) := by
  rw [HasNode_iff] at hx he
  rcases hx with h1 | h1 <;> rcases he with h2 | h2
  · exact absurd (h1.trans h2.symm) hne
  · exact ⟨Or.inl h1.symm, Or.inr h2.symm⟩
  · exact ⟨Or.inr h2.symm, Or.inl h1.symm⟩
  · exact absurd (h1.trans h2.symm) hne

/-- If `p` and `last` both join the two different nodes `x` and `e`, a segment connected to
`p` is connected to `last`. -/
theorem connected_through_parallel (q p last : VesselSegment) (x e : Nat)
    (hpx : p.HasNode x = true) (hpe : p.HasNode e = true)
    (hlx : last.HasNode x = true) (hle : last.HasNode e = true) (hne : x ≠ e)
    (hconn : p.IsConnectedTo q = true) : q.IsConnectedTo last = true := by
  obtain ⟨hp0, hp1⟩ := nodes_of_two p x e hpx hpe hne
  rw [IsConnectedTo_iff] at hconn
  rw [IsConnectedTo_comm, IsConnectedTo_iff]
  have key : ∀ n, (n = x ∨ n = e) → q.HasNode n = true →
      ∃ m, last.HasNode m = true ∧ q.HasNode m = true := by
    intro n hn hq
    rcases hn with rfl | rfl
    · exact ⟨n, hlx, hq⟩
    · exact ⟨n, hle, hq⟩
  have hm : ∃ m, last.HasNode m = true ∧ q.HasNode m = true := by
    rcases hconn with h | h
    · exact key _ hp0 h
    · exact key _ hp1 h
  obtain ⟨m, hlm, hqm⟩ := hm
  rw [HasNode_iff] at hlm
  rcases hlm with h | h
  · exact Or.inl (by rw [← h]; exact hqm)
  · exact Or.inr (by rw [← h]; exact hqm)

/-- The node sequence rebuilt from a segment sequence of two or more segments that
satisfies the path invariants and whose second segment has node 1 of the first. -/
theorem rebuildNodes_follow (s0 s1 : VesselSegment) (rest : List VesselSegment)
    (hadj : AdjacentConnected (s0 :: s1 :: rest))
    (hnon : NonAdjacentDisconnected (s0 :: s1 :: rest))
    (hfirst : s1.HasNode s0.node1 = true) :
    ∃ tail, rebuildNodes (s0 :: s1 :: rest) = some (s0.node0 :: s0.node1 :: tail) ∧
      NodesFollowSegments (s0.node0 :: s0.node1 :: tail) (s0 :: s1 :: rest) := by
  have hstart : NodesFollowSegments ([s0.node0] ++ [s0.node1]) [s0] := by
    refine ⟨rfl, ?_⟩
    intro i seg hseg
    cases i with
    | zero =>
      simp only [List.getElem?_cons_zero, Option.some.injEq] at hseg
      subst hseg
      exact Or.inl ⟨rfl, rfl⟩
    | succ j => simp at hseg
  obtain ⟨tail, ht, hf⟩ := updateNodesLoop_follow (s1 :: rest) [s0] [s0.node0] s0.node1 hstart
    (fun p hp => by
      have hp1 : p = s0 := by simpa using hp.symm
      rw [hp1, HasNode_iff]; exact Or.inr rfl)
    (by simp)
    ((orderBroken_eq_false_iff _).mpr hadj) hnon
    (fun c hc => by
      have hc1 : c = s1 := by simpa using hc.symm
      rw [hc1]; exact hfirst)
  refine ⟨tail, ?_, by simpa using hf⟩
  unfold rebuildNodes
  simp only [hfirst, if_true]
  simpa using ht

/-- C31, counterexample.  The vessel of the two segments 1-2 and 2-1 satisfies every
hypothesis of the claim: adjacent segments are connected, there are no non-adjacent
segments, each segment has two distinct nodes and node 1 of the first segment belongs to the
second.  Its rebuilt node sequence is 1, 2, 1, so `GetStartNode` and `GetEndNode` both
return node 1, which lies on both segments: neither segment has a free end and the node
returned is not one. -/
theorem C31_free_ends_counterexample :
    orderBroken [⟨10, 1, 2, 1⟩, ⟨11, 2, 1, 1⟩] = false ∧
    nonAdjacentConnected [⟨10, 1, 2, 1⟩, ⟨11, 2, 1, 1⟩] = false ∧
    (∀ s ∈ [(⟨10, 1, 2, 1⟩ : VesselSegment), ⟨11, 2, 1, 1⟩], s.node0 ≠ s.node1) ∧
    (⟨11, 2, 1, 1⟩ : VesselSegment).HasNode (⟨10, 1, 2, 1⟩ : VesselSegment).node1 = true ∧
    rebuildNodes [⟨10, 1, 2, 1⟩, ⟨11, 2, 1, 1⟩] = some [1, 2, 1] ∧
    ((exampleVessel [⟨10, 1, 2, 1⟩, ⟨11, 2, 1, 1⟩]).GetStartNode exampleStore).result =
      .ok 1 ∧
    ((exampleVessel [⟨10, 1, 2, 1⟩, ⟨11, 2, 1, 1⟩]).GetEndNode exampleStore).result = .ok 1 ∧
    (⟨10, 1, 2, 1⟩ : VesselSegment).HasNode 1 = true ∧
    (⟨11, 2, 1, 1⟩ : VesselSegment).HasNode 1 = true := by
  decide

/-- C31, amended.  Let the vessel have the segments `s0, s1, ...` (two or more), let the
sequence satisfy both path invariants, let every segment have two distinct nodes and let
node 1 of the first segment belong to the second.  Then `UpdateNodes` completes and sets the
flag; the node sequence it builds has one node more than there are segments, its entries `i`
and `i + 1` are the two nodes of segment `i`, and consecutive entries differ.
`GetStartNode` returns node 0 of the first segment and `GetEndNode` the last entry, the node
of the last segment other than the one it is reached by.  Unless the vessel consists of two
segments that join the same two nodes, the start node is not a node of the second segment
and the end node is not a node of the segment before the last. -/
theorem C31_UpdateNodes_sequence (v : Vessel) (st : Store) (s0 s1 : VesselSegment)
    (rest : List VesselSegment) (hv : v.mSegments = s0 :: s1 :: rest)
    (hadj : AdjacentConnected v.mSegments) (hnon : NonAdjacentDisconnected v.mSegments)
    (hdist : ∀ s ∈ v.mSegments, s.node0 ≠ s.node1)
    (hfirst : s1.HasNode s0.node1 = true) :
    ∃ nodes e, rebuildNodes v.mSegments = some nodes ∧
      (v.UpdateNodes st).result = .ok () ∧
      (v.UpdateNodes st).vessel.mNodes = nodes ∧
      (v.UpdateNodes st).vessel.mNodesUpToDate = true ∧
      nodes.length = v.mSegments.length + 1 ∧
      (∀ i seg, v.mSegments[i]? = some seg →
        (nodes[i]? = some seg.node0 ∧ nodes[i + 1]? = some seg.node1) ∨
        (nodes[i]? = some seg.node1 ∧ nodes[i + 1]? = some seg.node0)) ∧
      (∀ i a b, i < v.mSegments.length → nodes[i]? = some a → nodes[i + 1]? = some b →
        a ≠ b) ∧
      nodes.head? = some s0.node0 ∧ nodes.getLast? = some e ∧
      ((v.UpdateNodes st).vessel.GetStartNode st).result = .ok s0.node0 ∧
      ((v.UpdateNodes st).vessel.GetEndNode st).result = .ok e ∧
      (v.mNodesUpToDate = false →
        (v.GetStartNode st).result = .ok s0.node0 ∧ (v.GetEndNode st).result = .ok e) ∧
      (∀ last, v.mSegments.getLast? = some last → last.HasNode e = true) ∧
      (¬ (rest = [] ∧ s1.HasNode s0.node0 = true) → s1.HasNode s0.node0 = false) ∧
      (¬ (rest = [] ∧ s1.HasNode s0.node0 = true) →
        ∀ pre p last, v.mSegments = pre ++ [p, last] → p.HasNode e = false) := by
  rw [hv] at hadj hnon hdist
  obtain ⟨tail, hr, hlen, hpairs⟩ := rebuildNodes_follow s0 s1 rest hadj hnon hfirst
  have hne : s0.node0 :: s0.node1 :: tail ≠ [] := by simp
  have hup : v.UpdateNodes st = ⟨.ok (),
      { v with mNodes := s0.node0 :: s0.node1 :: tail, mNodesUpToDate := true }, st⟩ := by
    unfold Vessel.UpdateNodes
    rw [hv, hr]
  have hlast : (s0.node0 :: s0.node1 :: tail).getLast? =
      some ((s0.node0 :: s0.node1 :: tail).getLast hne) := List.getLast?_eq_getLast _ hne
  have hlastIdx : (s0.node0 :: s0.node1 :: tail)[(s0 :: s1 :: rest).length]? =
      some ((s0.node0 :: s0.node1 :: tail).getLast hne) := by
    rw [← hlast, List.getLast?_eq_getElem?, hlen]
    rfl
  have hdiff : ∀ i a b, i < (s0 :: s1 :: rest).length →
      (s0.node0 :: s0.node1 :: tail)[i]? = some a →
      (s0.node0 :: s0.node1 :: tail)[i + 1]? = some b → a ≠ b := by
    intro i a b hi ha hb
    have hseg : (s0 :: s1 :: rest)[i]? = some ((s0 :: s1 :: rest)[i]) :=
      List.getElem?_eq_getElem hi
    have hmem : (s0 :: s1 :: rest)[i] ∈ s0 :: s1 :: rest := List.getElem_mem hi
    have hd := hdist _ hmem
    rcases hpairs i _ hseg with ⟨h1, h2⟩ | ⟨h1, h2⟩
    · rw [h1] at ha; rw [h2] at hb
      simp only [Option.some.injEq] at ha hb
      rw [← ha, ← hb]; exact hd
    · rw [h1] at ha; rw [h2] at hb
      simp only [Option.some.injEq] at ha hb
      rw [← ha, ← hb]; exact fun hh => hd hh.symm
  have hfresh := accessors_of_fresh
    { v with mNodes := s0.node0 :: s0.node1 :: tail, mNodesUpToDate := true } st rfl
  have hgs : (({ v with mNodes := s0.node0 :: s0.node1 :: tail
                        mNodesUpToDate := true } : Vessel).GetStartNode st).result =
      .ok s0.node0 := by
    rw [hfresh.2.1]
    rfl
  have hge : (({ v with mNodes := s0.node0 :: s0.node1 :: tail
                        mNodesUpToDate := true } : Vessel).GetEndNode st).result =
      .ok ((s0.node0 :: s0.node1 :: tail).getLast hne) := by
    rw [hfresh.2.2]
    simp only [hlast]
  have hlastHas : ∀ last, (s0 :: s1 :: rest).getLast? = some last →
      last.HasNode ((s0.node0 :: s0.node1 :: tail).getLast hne) = true := by
    intro last hl
    rw [List.getLast?_eq_getElem?] at hl
    have hl1 : (s0 :: s1 :: rest)[(s0 :: s1 :: rest).length - 1]? = some last := hl
    have hidx : (s0 :: s1 :: rest).length - 1 + 1 = (s0 :: s1 :: rest).length := by simp
    rcases hpairs _ last hl1 with ⟨-, h2⟩ | ⟨-, h2⟩
    · rw [hidx, hlastIdx] at h2
      simp only [Option.some.injEq] at h2
      rw [h2, HasNode_iff]; exact Or.inr rfl
    · rw [hidx, hlastIdx] at h2
      simp only [Option.some.injEq] at h2
      rw [h2, HasNode_iff]; exact Or.inl rfl
  refine ⟨s0.node0 :: s0.node1 :: tail, (s0.node0 :: s0.node1 :: tail).getLast hne, ?_, ?_, ?_,
    ?_, ?_, ?_, ?_, rfl, hlast, ?_, ?_, ?_, ?_, ?_, ?_⟩
  · rw [hv, hr]
  · rw [hup]
  · rw [hup]
  · rw [hup]
  · rw [hv]; exact hlen
  · rw [hv]; exact hpairs
  · rw [hv]; exact hdiff
  · rw [hup]; exact hgs
  · rw [hup]; exact hge
  · intro hflag
    have href : v.refresh st = v.UpdateNodes st := by simp [Vessel.refresh, hflag]
    constructor
    · unfold Vessel.GetStartNode
      rw [href, hup]
      rfl
    · unfold Vessel.GetEndNode
      rw [href, hup]
      simp only [hlast]
  · rw [hv]; exact hlastHas
  · intro hnp
    by_cases hrest : rest = []
    · cases h : s1.HasNode s0.node0 with
      | false => rfl
      | true => exact absurd ⟨hrest, h⟩ hnp
    obtain ⟨s2, rest1, rfl⟩ : ∃ s2 rest1, rest = s2 :: rest1 := by
      cases rest with
      | nil => exact absurd rfl hrest
      | cons a l => exact ⟨a, l, rfl⟩
    by_contra hcon
    simp only [Bool.not_eq_false] at hcon
    have hfar : s0.IsConnectedTo s2 = false :=
      nonAdjacent_far_of_append [] (s2 :: rest1) s0 s1 s2 (by simp) hnon
    have hconn : s2.IsConnectedTo s1 = true := by
      have h1 := (orderBroken_eq_false_iff _).mpr hadj
      have h2 := ((orderBroken_cons _ s0).mp h1).1
      exact ((orderBroken_cons _ s1).mp h2).2 s2 rfl
    have hd0 := hdist s0 (by simp)
    have hd1 := hdist s1 (by simp)
    rw [HasNode_iff] at hcon hfirst
    have : s0.IsConnectedTo s2 = true := by
      simp only [VesselSegment.IsConnectedTo, Bool.or_eq_true, beq_iff_eq] at hconn ⊢
      rcases hcon with h1 | h1 <;> rcases hfirst with h2 | h2 <;>
        rcases hconn with ((h3 | h3) | h3) | h3 <;> simp_all
    rw [hfar] at this
    exact absurd this (by simp)
  · intro hnp pre p last hsplit
    rw [hv] at hsplit
    by_cases hpre : pre = []
    · subst hpre
      simp only [List.nil_append, List.cons.injEq] at hsplit
      obtain ⟨rfl, rfl, hrest⟩ := hsplit
      subst hrest
      have hs1 : s1.HasNode s0.node0 = false := by
        cases h : s1.HasNode s0.node0 with
        | false => rfl
        | true => exact absurd ⟨rfl, h⟩ hnp
      have he1 := hlastHas s1 rfl
      have hidx1 : (s0.node0 :: s0.node1 :: tail)[1]? = some s0.node1 := by simp
      have hne1 := hdiff 1 s0.node1 _ (by simp) hidx1 hlastIdx
      cases h : s0.HasNode ((s0.node0 :: s0.node1 :: tail).getLast hne) with
      | false => rfl
      | true =>
        exfalso
        rcases (HasNode_iff _ _).mp h with h0 | h0
        · rw [h0, hs1] at he1
          exact absurd he1 (by simp)
        · exact hne1 h0.symm
    obtain ⟨pre1, q, rfl⟩ : ∃ pre1 q, pre = pre1 ++ [q] := by
      rcases List.eq_nil_or_concat pre with h0 | ⟨L, b, hL⟩
      · exact absurd h0 hpre
      · exact ⟨L, b, by simpa using hL⟩
    rw [hsplit] at hnon hadj hpairs hlastIdx hdist hlastHas
    have hfar : q.IsConnectedTo last = false := by
      have hnon1 : NonAdjacentDisconnected (pre1 ++ q :: p :: [last]) := by simpa using hnon
      exact nonAdjacent_far_of_append pre1 [last] q p last (by simp) hnon1
    have hconn : p.IsConnectedTo q = true := by
      have h1 := (orderBroken_eq_false_iff _).mpr hadj
      have h2 : orderBroken (pre1 ++ q :: [p, last]) = false := by simpa using h1
      rw [orderBroken_append_cons] at h2
      simp only [Bool.or_eq_false_iff] at h2
      exact ((orderBroken_cons _ q).mp h2.2).2 p rfl
    have hle := hlastHas last (by simp)
    have hd := hdist last (by simp)
    have hdp := hdist p (by simp)
    -- the node by which the last segment is reached belongs to the segment before it
    have hpl : (pre1 ++ [q] ++ [p, last])[pre1.length + 2]? = some last := by
      rw [List.getElem?_append_right (by simp)]
      simp
    have hpp : (pre1 ++ [q] ++ [p, last])[pre1.length + 1]? = some p := by
      rw [List.getElem?_append_right (by simp)]
      simp
    have hlenl : (pre1 ++ [q] ++ [p, last]).length = pre1.length + 3 := by simp
    rw [hlenl] at hlastIdx
    by_contra hcon
    simp only [Bool.not_eq_false] at hcon
    have hx : ∃ x, p.HasNode x = true ∧ last.HasNode x = true ∧
        x ≠ (s0.node0 :: s0.node1 :: tail).getLast hne := by
      rcases hpairs _ _ hpl with ⟨h1, h2⟩ | ⟨h1, h2⟩
      · rw [hlastIdx] at h2
        simp only [Option.some.injEq] at h2
        refine ⟨last.node0, ?_, by rw [HasNode_iff]; exact Or.inl rfl, by rw [h2]; exact hd⟩
        rcases hpairs _ _ hpp with ⟨-, h4⟩ | ⟨-, h4⟩
        · rw [h1] at h4
          simp only [Option.some.injEq] at h4
          rw [HasNode_iff]; exact Or.inr h4
        · rw [h1] at h4
          simp only [Option.some.injEq] at h4
          rw [HasNode_iff]; exact Or.inl h4
      · rw [hlastIdx] at h2
        simp only [Option.some.injEq] at h2
        refine ⟨last.node1, ?_, by rw [HasNode_iff]; exact Or.inr rfl,
          by rw [h2]; exact fun hh => hd hh.symm⟩
        rcases hpairs _ _ hpp with ⟨-, h4⟩ | ⟨-, h4⟩
        · rw [h1] at h4
          simp only [Option.some.injEq] at h4
          rw [HasNode_iff]; exact Or.inr h4
        · rw [h1] at h4
          simp only [Option.some.injEq] at h4
          rw [HasNode_iff]; exact Or.inl h4
    obtain ⟨x, hxp, hxl, hxe⟩ := hx
    have : q.IsConnectedTo last = true :=
      connected_through_parallel q p last x _ hxp hcon hxl hle hxe hconn
    rw [hfar] at this
    exact absurd this (by simp)

/-- C31 at a concrete input: the vessel 1-2, 2-3, 4-3, whose last segment is held reversed,
has the node sequence 1, 2, 3, 4; it starts at node 1 and ends at node 4. -/
theorem C31_UpdateNodes_sequence_witness :
    rebuildNodes [⟨10, 1, 2, 1⟩, ⟨11, 2, 3, 1⟩, ⟨12, 4, 3, 1⟩] = some [1, 2, 3, 4] ∧
    ∃ nodes e,
      rebuildNodes (exampleVessel [⟨10, 1, 2, 1⟩, ⟨11, 2, 3, 1⟩, ⟨12, 4, 3, 1⟩]).mSegments =
        some nodes ∧
      nodes.length = 4 ∧ nodes.head? = some 1 ∧ nodes.getLast? = some e ∧
      ((exampleVessel [⟨10, 1, 2, 1⟩, ⟨11, 2, 3, 1⟩, ⟨12, 4, 3, 1⟩]).GetEndNode
        exampleStore).result = .ok e := by
  refine ⟨by decide, ?_⟩
  obtain ⟨nodes, e, h1, -, -, -, h5, -, -, h8, h9, -, -, h12, -⟩ :=
    C31_UpdateNodes_sequence (exampleVessel [⟨10, 1, 2, 1⟩, ⟨11, 2, 3, 1⟩, ⟨12, 4, 3, 1⟩])
      exampleStore ⟨10, 1, 2, 1⟩ ⟨11, 2, 3, 1⟩ [⟨12, 4, 3, 1⟩] rfl
      ((orderBroken_eq_false_iff _).mp (by decide))
      ((nonAdjacentConnected_eq_false_iff _).mp (by decide))
      (by decide) (by decide)
  exact ⟨nodes, e, h1, h5, h8, h9, (h12 rfl).2⟩

/-! ## `AddSegments` after a failure -/

/-- The outcome of the checks that follow the splice: they never raise the exception of the
orientation tests, and when they raise an exception they leave the vessel and the store
they were given. -/
theorem AddSegmentsCheck_exception (v : Vessel) (st : Store) (segments : List VesselSegment) :
    (v.AddSegmentsCheck st segments).result ≠
      .exception "Input vessel segments do not coincide with any end of the vessel." ∧
    (∀ msg, (v.AddSegmentsCheck st segments).result = .exception msg →
      (msg = "Input vessel segments are not attached in the correct order." ∨
        msg = "Input vessel segments are not correctly connected.") ∧
      (v.AddSegmentsCheck st segments).vessel = v ∧
      (v.AddSegmentsCheck st segments).store = st) := by
  unfold Vessel.AddSegmentsCheck
  by_cases h1 : orderBroken v.mSegments = true
  · simp [h1]
  · by_cases h2 : nonAdjacentConnected v.mSegments = true
    · simp [h1, h2]
    · simp [h1, h2]

/-- C40.  When `AddSegments` raises the exception that the input segments do not coincide
with any end of the vessel, the vessel, hence its segment sequence, and the store are as
before the call.  When it raises the exception of the order check or of the non-adjacent
connectivity check, the vessel is left with the spliced sequence, which is longer than the
original by the number of input segments, and the store is as before the call, so no input
segment has received the back-reference to the vessel.  Both exceptions occur: the vessel
1-2, 2-3 given the segments 3-4, 5-6 fails the order check, given the segment 3-1 it fails
the non-adjacent connectivity check, and in both cases it keeps the spliced sequence. -/
theorem C40_AddSegments_not_atomic :
    (∀ (v : Vessel) (st : Store) (segments : List VesselSegment),
      (v.AddSegments st segments).result =
        .exception "Input vessel segments do not coincide with any end of the vessel." →
      (v.AddSegments st segments).vessel = v ∧
      (v.AddSegments st segments).vessel.mSegments = v.mSegments ∧
      (v.AddSegments st segments).store = st) ∧
    (∀ (v : Vessel) (st : Store) (segments : List VesselSegment),
      (v.AddSegments st segments).result =
          .exception "Input vessel segments are not attached in the correct order." ∨
        (v.AddSegments st segments).result =
          .exception "Input vessel segments are not correctly connected." →
      ((v.AddSegments st segments).vessel.mSegments = v.mSegments ++ segments ∨
        (v.AddSegments st segments).vessel.mSegments = segments ++ v.mSegments ∨
        (v.AddSegments st segments).vessel.mSegments = segments.reverse ++ v.mSegments ∨
        (v.AddSegments st segments).vessel.mSegments = v.mSegments ++ segments.reverse) ∧
      (v.AddSegments st segments).vessel.mSegments.length =
        v.mSegments.length + segments.length ∧
      (v.AddSegments st segments).vessel.mSegments ≠ v.mSegments ∧
      (v.AddSegments st segments).vessel.mNodesUpToDate = v.mNodesUpToDate ∧
      (v.AddSegments st segments).store = st) ∧
    (((exampleVessel [⟨10, 1, 2, 1⟩, ⟨11, 2, 3, 1⟩]).AddSegments exampleStore
        [⟨12, 3, 4, 1⟩, ⟨13, 5, 6, 1⟩]).result =
        .exception "Input vessel segments are not attached in the correct order." ∧
      ((exampleVessel [⟨10, 1, 2, 1⟩, ⟨11, 2, 3, 1⟩]).AddSegments exampleStore
        [⟨12, 3, 4, 1⟩, ⟨13, 5, 6, 1⟩]).vessel.mSegments =
        [⟨10, 1, 2, 1⟩, ⟨11, 2, 3, 1⟩, ⟨12, 3, 4, 1⟩, ⟨13, 5, 6, 1⟩] ∧
      (∀ s ∈ [(⟨12, 3, 4, 1⟩ : VesselSegment), ⟨13, 5, 6, 1⟩],
        ((exampleVessel [⟨10, 1, 2, 1⟩, ⟨11, 2, 3, 1⟩]).AddSegments exampleStore
          [⟨12, 3, 4, 1⟩, ⟨13, 5, 6, 1⟩]).store.segVessel s.id = none)) ∧
    (((exampleVessel [⟨10, 1, 2, 1⟩, ⟨11, 2, 3, 1⟩]).AddSegments exampleStore
        [⟨12, 3, 1, 1⟩]).result =
        .exception "Input vessel segments are not correctly connected." ∧
      ((exampleVessel [⟨10, 1, 2, 1⟩, ⟨11, 2, 3, 1⟩]).AddSegments exampleStore
        [⟨12, 3, 1, 1⟩]).vessel.mSegments =
        [⟨10, 1, 2, 1⟩, ⟨11, 2, 3, 1⟩, ⟨12, 3, 1, 1⟩] ∧
      ((exampleVessel [⟨10, 1, 2, 1⟩, ⟨11, 2, 3, 1⟩]).AddSegments exampleStore
        [⟨12, 3, 1, 1⟩]).store.segVessel 12 = none) := by
  refine ⟨?_, ?_, ⟨by decide, by decide, by decide⟩, ⟨by decide, by decide, by decide⟩⟩
  · intro v st segments h
    unfold Vessel.AddSegments at h ⊢
    split at h
    · rename_i sFront sBack mFront mBack h1 h2 h3 h4
      split_ifs at h ⊢ with c1 c2 c3 c4
      · exact absurd h (AddSegmentsCheck_exception _ _ _).1
      · exact absurd h (AddSegmentsCheck_exception _ _ _).1
      · exact absurd h (AddSegmentsCheck_exception _ _ _).1
      · exact absurd h (AddSegmentsCheck_exception _ _ _).1
      · exact ⟨rfl, rfl, rfl⟩
    · simp at h
  · intro v st segments h
    have hex : ∃ msg, (v.AddSegments st segments).result = .exception msg ∧
        msg ≠ "Input vessel segments do not coincide with any end of the vessel." := by
      rcases h with h | h
      · exact ⟨_, h, by decide⟩
      · exact ⟨_, h, by decide⟩
    clear h
    obtain ⟨msg, h, hmsg⟩ := hex
    unfold Vessel.AddSegments at h ⊢
    split at h
    · rename_i sFront sBack mFront mBack h1 h2 h3 h4
      have hne : segments ≠ [] := by
        intro h0; rw [h0] at h1; simp at h1
      have hlen : 0 < segments.length := List.length_pos.mpr hne
      split_ifs at h ⊢ with c1 c2 c3 c4
      · obtain ⟨-, hv, hs⟩ := (AddSegmentsCheck_exception _ _ _).2 msg h
        rw [hv, hs]
        refine ⟨Or.inl rfl, by simp, ?_, rfl, rfl⟩
        intro hh
        have := congrArg List.length hh
        simp only [List.length_append, List.length_reverse] at this
        omega
      · obtain ⟨-, hv, hs⟩ := (AddSegmentsCheck_exception _ _ _).2 msg h
        rw [hv, hs]
        refine ⟨Or.inr (Or.inl rfl), by simp [Nat.add_comm], ?_, rfl, rfl⟩
        intro hh
        have := congrArg List.length hh
        simp only [List.length_append, List.length_reverse] at this
        omega
      · obtain ⟨-, hv, hs⟩ := (AddSegmentsCheck_exception _ _ _).2 msg h
        rw [hv, hs]
        refine ⟨Or.inr (Or.inr (Or.inl rfl)), by simp [Nat.add_comm], ?_, rfl, rfl⟩
        intro hh
        have := congrArg List.length hh
        simp only [List.length_append, List.length_reverse] at this
        omega
      · obtain ⟨-, hv, hs⟩ := (AddSegmentsCheck_exception _ _ _).2 msg h
        rw [hv, hs]
        refine ⟨Or.inr (Or.inr (Or.inr rfl)), by simp, ?_, rfl, rfl⟩
        intro hh
        have := congrArg List.length hh
        simp only [List.length_append, List.length_reverse] at this
        omega
      · simp only [Result.exception.injEq] at h
        exact absurd h.symm hmsg
    · simp at h

/-- C40 at a concrete input: the vessel 1-2, 2-3 given the segment 5-6, which touches
neither end, raises the exception of the orientation tests and keeps its two segments. -/
theorem C40_AddSegments_not_atomic_witness :
    ((exampleVessel [⟨10, 1, 2, 1⟩, ⟨11, 2, 3, 1⟩]).AddSegments exampleStore
      [⟨13, 5, 6, 1⟩]).result =
      .exception "Input vessel segments do not coincide with any end of the vessel." ∧
    ((exampleVessel [⟨10, 1, 2, 1⟩, ⟨11, 2, 3, 1⟩]).AddSegments exampleStore
      [⟨13, 5, 6, 1⟩]).vessel.mSegments = [⟨10, 1, 2, 1⟩, ⟨11, 2, 3, 1⟩] :=
  ⟨by decide,
    (C40_AddSegments_not_atomic.1 (exampleVessel [⟨10, 1, 2, 1⟩, ⟨11, 2, 3, 1⟩]) exampleStore
      [⟨13, 5, 6, 1⟩] (by decide)).2.1⟩


/-! ## The unused parameters `mTHR` and `mAlpha` -/

/-- `Calculate` reads the solver object through its network and its arterial haematocrit
alone. -/
theorem Calculate_congr (thr1 alpha1 thr2 alpha2 h : ℚ) (net : VesselNetwork)
    (ext : Collaborators) :
    BetteridgeHaematocritSolver.Calculate ⟨thr1, alpha1, h, net⟩ ext =
      BetteridgeHaematocritSolver.Calculate ⟨thr2, alpha2, h, net⟩ ext := rfl

/-- C38.  Two solver objects with the same network and the same arterial haematocrit, and
any values of `mTHR` and `mAlpha`, have the same setup result, hence the same linear system
and the same recorded triples, and the same outcome of `Calculate`: the same normal return
or exception, the same number of passes, the same residual, the same systems solved and
the same haematocrit on every segment.  In particular `SetTHR` and `SetAlpha` before
`Calculate` change nothing of its outcome. -/
theorem C38_independent_of_THR_and_Alpha (s1 s2 : BetteridgeHaematocritSolver)
    (ext : Collaborators) (hnet : s1.mpNetwork = s2.mpNetwork)
    (hH : s1.mHaematocrit = s2.mHaematocrit) :
    setup s1 ext = setup s2 ext ∧
    s1.Calculate ext = s2.Calculate ext ∧
    (s1.Calculate ext).result = (s2.Calculate ext).result ∧
    (s1.Calculate ext).state.iterations = (s2.Calculate ext).state.iterations ∧
    (∀ idx, ((s1.Calculate ext).state.network.vessel idx).segmentHaematocrit =
      ((s2.Calculate ext).state.network.vessel idx).segmentHaematocrit) ∧
    (∀ THR Alpha, ((s1.SetTHR THR).SetAlpha Alpha).Calculate ext = s1.Calculate ext) := by
  cases s1 with
  | mk thr1 alpha1 h1 net1 =>
    cases s2 with
    | mk thr2 alpha2 h2 net2 =>
      simp only at hnet hH
      subst hnet hH
      have hc := Calculate_congr thr1 alpha1 thr2 alpha2 h1 net1 ext
      refine ⟨rfl, hc, by rw [hc], by rw [hc], fun idx => by rw [hc], fun THR Alpha => rfl⟩

/-- C38 at a concrete input: on the bifurcation network the runs with `mTHR = 5/2`,
`mAlpha = 1/2` and with `mTHR = 7`, `mAlpha = 3` have the same outcome, and vessel 1 ends
with 189/365 on both segments in the second as in the first. -/
theorem C38_independent_of_THR_and_Alpha_witness :
    BetteridgeHaematocritSolver.Calculate ⟨5 / 2, 1 / 2, 9 / 20, bifurcationNetwork⟩
        exampleCollaborators =
      BetteridgeHaematocritSolver.Calculate ⟨7, 3, 9 / 20, bifurcationNetwork⟩
        exampleCollaborators ∧
    ((BetteridgeHaematocritSolver.Calculate ⟨7, 3, 9 / 20, bifurcationNetwork⟩
        exampleCollaborators).state.network.vessel 1).segmentHaematocrit =
      [189 / 365, 189 / 365] :=
  ⟨(C38_independent_of_THR_and_Alpha ⟨5 / 2, 1 / 2, 9 / 20, bifurcationNetwork⟩
      ⟨7, 3, 9 / 20, bifurcationNetwork⟩ exampleCollaborators rfl rfl).2.1, by decide!⟩

/-! ## Classified vessels carry flow -/

/-- C39.  Every vessel that the classification loop puts in the parent list or in the
competitor list has a non-zero flow rate.  Hence the alternative of the junction test that
the first competitor carries zero flow is false whenever a competitor exists, the test is
true exactly when the competitor list is empty, and the body of the setup loop for a vessel
with flow, away from the input and with more than one segment at its inflow node, writes
the converging row when the competitor list is empty and enters the bifurcation branch
otherwise. -/
theorem C39_classified_vessels_carry_flow (solver : BetteridgeHaematocritSolver)
    (ext : Collaborators) (idx p : Nat) :
    (∀ x ∈ (classify solver.mpNetwork idx p).1, (solver.mpNetwork.vessel x).flowRate ≠ 0) ∧
    (∀ x ∈ (classify solver.mpNetwork idx p).2, (solver.mpNetwork.vessel x).flowRate ≠ 0) ∧
    (∀ c rest, (classify solver.mpNetwork idx p).2 = c :: rest →
      ¬ (|(solver.mpNetwork.vessel c).flowRate| = 0)) ∧
    (isConverging solver.mpNetwork (classify solver.mpNetwork idx p).2 = true ↔
      (classify solver.mpNetwork idx p).2 = []) ∧
    (∀ ls upd, touchesInput solver.mpNetwork idx = false →
      (solver.mpNetwork.vessel idx).flowRate ≠ 0 →
      (solver.mpNetwork.nodeSegments (inflowNode solver.mpNetwork idx)).length > 1 →
      setupRow solver ext idx ls upd =
        if (classify solver.mpNetwork idx (inflowNode solver.mpNetwork idx)).2 = [] then
          .ok (convergingRow solver.mpNetwork idx
            (classify solver.mpNetwork idx (inflowNode solver.mpNetwork idx)).1
            (ls.SetMatrixElement idx idx 1), upd)
        else
          bifurcationRow solver ext idx (ls.SetMatrixElement idx idx 1) upd
            (classify solver.mpNetwork idx (inflowNode solver.mpNetwork idx)).1
            (classify solver.mpNetwork idx (inflowNode solver.mpNetwork idx)).2) := by
  have hpar : ∀ x ∈ (classify solver.mpNetwork idx p).1,
      (solver.mpNetwork.vessel x).flowRate ≠ 0 := by
    intro x hx
    rcases ((mem_parent_vessels _ _ _ _).mp hx).2.2 with ⟨-, h⟩ | ⟨-, h⟩
    · exact ne_of_gt h
    · exact ne_of_lt h
  have hcomp : ∀ q, ∀ x ∈ (classify solver.mpNetwork idx q).2,
      (solver.mpNetwork.vessel x).flowRate ≠ 0 := by
    intro q x hx
    rcases ((mem_competitor_vessels _ _ _ _).mp hx).2.2 with ⟨-, h⟩ | ⟨-, h⟩
    · exact ne_of_lt h
    · exact ne_of_gt h
  refine ⟨hpar, hcomp p, ?_, isConverging_eq_true_iff _ _ _, ?_⟩
  · intro c rest hc
    rw [abs_eq_zero]
    exact hcomp p c (by rw [hc]; simp)
  · intro ls upd hin hflow hlen
    unfold setupRow
    simp only [hin, Bool.false_eq_true, if_false, hflow, hlen, if_true]
    by_cases hempty : (classify solver.mpNetwork idx (inflowNode solver.mpNetwork idx)).2 = []
    · rw [if_pos ((isConverging_eq_true_iff _ _ _).mpr hempty), if_pos hempty]
    · rw [if_neg (fun h => hempty ((isConverging_eq_true_iff _ _ _).mp h)), if_neg hempty]

/-- C39 at a concrete input: at node 1 of the bifurcation network vessel 1 has the parent 0
and the competitor 2, the competitor carries flow and the junction test is false. -/
theorem C39_classified_vessels_carry_flow_witness :
    classify bifurcationNetwork 1 1 = ([0], [2]) ∧
    (bifurcationNetwork.vessel 2).flowRate ≠ 0 ∧
    isConverging bifurcationNetwork (classify bifurcationNetwork 1 1).2 = false :=
  ⟨by decide!,
    (C39_classified_vessels_carry_flow ⟨5 / 2, 1 / 2, 9 / 20, bifurcationNetwork⟩
      exampleCollaborators 1 1).2.1 2 (by decide!),
    by
      have h := (C39_classified_vessels_carry_flow ⟨5 / 2, 1 / 2, 9 / 20, bifurcationNetwork⟩
        exampleCollaborators 1 1).2.2.2.1
      cases hc : isConverging bifurcationNetwork (classify bifurcationNetwork 1 1).2 with
      | false => rfl
      | true =>
        have hempty := h.mp hc
        exact absurd hempty (by decide!)⟩

/-! ## The refresh inside the loop and the rule of setup -/

/-- Two recorded triples with the same first entry are the same triple. -/
theorem updateIndices_unique (net : VesselNetwork) (n : Nat) (e1 e2 : Nat × Nat × Nat)
    (h1 : e1 ∈ updateIndicesUpTo net n) (h2 : e2 ∈ updateIndicesUpTo net n)
    (h : e1.1 = e2.1) : e1 = e2 := by
  obtain ⟨r1, -, hr1⟩ := (mem_updateIndicesUpTo net n e1).mp h1
  obtain ⟨r2, -, hr2⟩ := (mem_updateIndicesUpTo net n e2).mp h2
  have hr : r1 = r2 := by
    rw [← (expectedLhs_recorded net (fun _ => 0) r1 e1 hr1).1,
      ← (expectedLhs_recorded net (fun _ => 0) r2 e2 hr2).1]
    exact h
  subst hr
  rcases rowTriples_cases net r1 with h0 | ⟨p, c, ps, cs, h0, -⟩
  · rw [h0] at hr1; simp at hr1
  · rw [h0] at hr1 hr2
    simp only [List.mem_singleton] at hr1 hr2
    rw [hr1, hr2]

/-- C37.  The coefficient computed by the refresh inside the loop is, for all flow rates,
radii and parent haematocrit, the coefficient computed by the rule of setup.  After a
completed setup, for every recorded triple the refresh against a network with the same
flows and radii writes at (self, parent) the value of the setup rule for the parent
haematocrit it reads there, and the value setup wrote is that of the setup rule for the
parent haematocrit before the call; the refreshed system is the system setup builds on the
network with the new haematocrit, so a refresh with unchanged haematocrit changes nothing.
The refresh keeps the size, the right-hand side and every matrix entry that is not the
(self, parent) entry of a recorded triple. -/
theorem C37_refresh_is_setup_rule (solver : BetteridgeHaematocritSolver) (ext : Collaborators)
    (hsetup : setupCompletes solver ext = true) :
    (∀ Qs Qc Qp rs rc H : ℚ,
      refreshCoefficient Qs Qc Qp rs rc H = setupCoefficient Qs Qc Qp rs rc H) ∧
    (∀ e ∈ setupUpdateIndices solver ext, ∀ (f : Nat → List ℚ) (ls : LinearSystem),
      ((setupUpdateIndices solver ext).foldl
        (refreshEntry ext (withHaematocrit solver.mpNetwork f)) ls).lhs e.1 e.2.1 =
      setupCoefficient (solver.mpNetwork.vessel e.1).flowRate
        (solver.mpNetwork.vessel e.2.2).flowRate (solver.mpNetwork.vessel e.2.1).flowRate
        (solver.mpNetwork.vessel e.1).radius (solver.mpNetwork.vessel e.2.2).radius
        (vesselHaematocrit ext (withHaematocrit solver.mpNetwork f) e.2.1)) ∧
    (∀ e ∈ setupUpdateIndices solver ext,
      (setupSystem solver ext).lhs e.1 e.2.1 =
      setupCoefficient (solver.mpNetwork.vessel e.1).flowRate
        (solver.mpNetwork.vessel e.2.2).flowRate (solver.mpNetwork.vessel e.2.1).flowRate
        (solver.mpNetwork.vessel e.1).radius (solver.mpNetwork.vessel e.2.2).radius
        (vesselHaematocrit ext solver.mpNetwork e.2.1)) ∧
    (∀ f : Nat → List ℚ,
      (setupUpdateIndices solver ext).foldl
        (refreshEntry ext (withHaematocrit solver.mpNetwork f)) (setupSystem solver ext) =
      setupSystem ⟨solver.mTHR, solver.mAlpha, solver.mHaematocrit,
        withHaematocrit solver.mpNetwork f⟩ ext) ∧
    (setupUpdateIndices solver ext).foldl (refreshEntry ext solver.mpNetwork)
      (setupSystem solver ext) = setupSystem solver ext ∧
    (∀ (net : VesselNetwork) (ls : LinearSystem),
      ((setupUpdateIndices solver ext).foldl (refreshEntry ext net) ls).size = ls.size ∧
      ((setupUpdateIndices solver ext).foldl (refreshEntry ext net) ls).rhs = ls.rhs ∧
      ∀ r c, (∀ e ∈ setupUpdateIndices solver ext, ¬ (e.1 = r ∧ e.2.1 = c)) →
        ((setupUpdateIndices solver ext).foldl (refreshEntry ext net) ls).lhs r c =
          ls.lhs r c) := by
  have hupd := setupUpdateIndices_eq solver ext hsetup
  have hsys := setupSystem_eq solver ext hsetup
  have hrefresh : ∀ e ∈ setupUpdateIndices solver ext, ∀ (net : VesselNetwork)
      (ls : LinearSystem),
      ((setupUpdateIndices solver ext).foldl (refreshEntry ext net) ls).lhs e.1 e.2.1 =
      setupCoefficient (net.vessel e.1).flowRate (net.vessel e.2.2).flowRate
        (net.vessel e.2.1).flowRate (net.vessel e.1).radius (net.vessel e.2.2).radius
        (vesselHaematocrit ext net e.2.1) := by
    intro e he net ls
    rw [refresh_recorded ext net _ ls e he, refreshCoefficient_eq_setupCoefficient]
    intro e1 he1 h1 _
    rw [hupd] at he he1
    exact updateIndices_unique _ _ e1 e he1 he h1
  have hsame : ∀ f : Nat → List ℚ,
      (setupUpdateIndices solver ext).foldl
        (refreshEntry ext (withHaematocrit solver.mpNetwork f)) (setupSystem solver ext) =
      systemUpTo solver.mpNetwork solver.mHaematocrit
        (vesselHaematocrit ext (withHaematocrit solver.mpNetwork f))
        solver.mpNetwork.numberOfVessels := by
    intro f
    rw [hupd, hsys]
    exact refresh_spec ext solver.mpNetwork f _ _
  have hself : (setupUpdateIndices solver ext).foldl (refreshEntry ext solver.mpNetwork)
      (setupSystem solver ext) = setupSystem solver ext := by
    have h := hsame (fun i => (solver.mpNetwork.vessel i).segmentHaematocrit)
    rw [withHaematocrit_self] at h
    rw [h, hsys]
  refine ⟨refreshCoefficient_eq_setupCoefficient, fun e he f ls => hrefresh e he _ ls, ?_, ?_,
    hself, fun net ls => refresh_frame ext net _ ls⟩
  · intro e he
    have h := hrefresh e he solver.mpNetwork (setupSystem solver ext)
    rw [hself] at h
    exact h
  · intro f
    have hcomp : setupCompletes ⟨solver.mTHR, solver.mAlpha, solver.mHaematocrit,
        withHaematocrit solver.mpNetwork f⟩ ext = true := by
      rw [setupCompletes_iff] at hsetup ⊢
      exact hsetup
    rw [hsame f, setupSystem_eq _ ext hcomp]
    rfl

/-- C37 at a concrete input: on the bifurcation network setup records the triple (1, 0, 2)
and writes -6/5 at (1, 0), and a refresh with the haematocrit unchanged leaves -6/5 there. -/
theorem C37_refresh_is_setup_rule_witness :
    (1, 0, 2) ∈ setupUpdateIndices ⟨5 / 2, 1 / 2, 9 / 20, bifurcationNetwork⟩
      exampleCollaborators ∧
    (setupSystem ⟨5 / 2, 1 / 2, 9 / 20, bifurcationNetwork⟩ exampleCollaborators).lhs 1 0 =
      -6 / 5 ∧
    ((setupUpdateIndices ⟨5 / 2, 1 / 2, 9 / 20, bifurcationNetwork⟩ exampleCollaborators).foldl
      (refreshEntry exampleCollaborators bifurcationNetwork)
      (setupSystem ⟨5 / 2, 1 / 2, 9 / 20, bifurcationNetwork⟩ exampleCollaborators)).lhs 1 0 =
      -6 / 5 := by
  have h := C37_refresh_is_setup_rule ⟨5 / 2, 1 / 2, 9 / 20, bifurcationNetwork⟩
    exampleCollaborators (by decide!)
  have hval : (setupSystem ⟨5 / 2, 1 / 2, 9 / 20, bifurcationNetwork⟩
      exampleCollaborators).lhs 1 0 = -6 / 5 := by decide!
  refine ⟨by decide!, hval, ?_⟩
  have h5 := h.2.2.2.2.1
  simp only at h5
  rw [h5]
  exact hval

/-! ## Parents and competitors at the inflow node -/

/-- One pass of the classification loop adds the vessel it visits to exactly one of the two
lists when that vessel is another vessel with flow, incident on the node with one end only;
the occurrences of such a vessel `x` in the two lists together grow by one when the pass
visits `x` and are unchanged otherwise. -/
theorem classifyStep_count (net : VesselNetwork) (idx p : Nat) (acc : List Nat × List Nat)
    (w x : Nat) (hx : x ≠ idx) (hflow : (net.vessel x).flowRate ≠ 0)
    (hinc : (net.vessel x).startNode = p ∨ (net.vessel x).endNode = p)
    (hdist : (net.vessel x).startNode ≠ (net.vessel x).endNode) :
    (classifyStep net idx p acc w).1.count x + (classifyStep net idx p acc w).2.count x =
      acc.1.count x + acc.2.count x + (if w = x then 1 else 0) := by
  have hpos_neg : ∀ q : ℚ, q > 0 → ¬ q < 0 := fun q h => not_lt.2 (le_of_lt h)
  unfold classifyStep
  by_cases hwx : w = x
  · subst hwx
    simp only [ne_eq, hx, not_false_eq_true, if_true]
    rcases lt_or_gt_of_ne hflow with hn | hp
    · have hnp : ¬ (net.vessel w).flowRate > 0 := fun h => hpos_neg _ h hn
      rcases hinc with hs | he
      · have he : ¬ (net.vessel w).endNode = p := fun h => hdist (hs.trans h.symm)
        simp only [he, if_false, hs, if_true, hnp, hn, List.count_append, List.count_singleton,
          beq_self_eq_true]
        omega
      · have hs : ¬ (net.vessel w).startNode = p := fun h => hdist (h.trans he.symm)
        simp only [he, if_true, hs, if_false, hnp, hn, List.count_append, List.count_singleton,
          beq_self_eq_true]
        omega
    · have hnn : ¬ (net.vessel w).flowRate < 0 := hpos_neg _ hp
      rcases hinc with hs | he
      · have he : ¬ (net.vessel w).endNode = p := fun h => hdist (hs.trans h.symm)
        simp only [he, if_false, hs, if_true, hp, List.count_append, List.count_singleton,
          beq_self_eq_true]
        omega
      · have hs : ¬ (net.vessel w).startNode = p := fun h => hdist (h.trans he.symm)
        simp only [he, if_true, hs, if_false, hp, List.count_append, List.count_singleton,
          beq_self_eq_true]
        omega
  · have hc : List.count x [w] = 0 := by
      rw [List.count_singleton]
      simp [hwx]
    simp only [hwx, if_false, Nat.add_zero]
    by_cases hw : w = idx
    · simp [hw]
    · simp only [ne_eq, hw, not_false_eq_true, if_true]
      by_cases he : (net.vessel w).endNode = p <;>
        by_cases hs : (net.vessel w).startNode = p <;>
        by_cases hp : (net.vessel w).flowRate > 0 <;>
        by_cases hn : (net.vessel w).flowRate < 0 <;>
        simp [he, hs, hp, hn, hpos_neg, List.count_append, hc]

theorem classify_foldl_count (net : VesselNetwork) (idx p x : Nat) (hx : x ≠ idx)
    (hflow : (net.vessel x).flowRate ≠ 0)
    (hinc : (net.vessel x).startNode = p ∨ (net.vessel x).endNode = p)
    (hdist : (net.vessel x).startNode ≠ (net.vessel x).endNode) (ws : List Nat) :
    ∀ acc : List Nat × List Nat,
      (ws.foldl (classifyStep net idx p) acc).1.count x +
        (ws.foldl (classifyStep net idx p) acc).2.count x =
      acc.1.count x + acc.2.count x + ws.count x := by
  induction ws with
  | nil => intro acc; simp
  | cons w ws ih =>
    intro acc
    rw [List.foldl_cons, ih, classifyStep_count net idx p acc w x hx hflow hinc hdist,
      List.count_cons]
    by_cases hwx : w = x
    · simp [hwx]; omega
    · simp [hwx]

/-- C32.  Let `w` be a vessel of a well-formed network other than vessel `idx`, with
non-zero flow, with different start and end nodes, one of which is the inflow node `p` of
vessel `idx`.  Then the classification loop for vessel `idx` puts `w` in the parent list
exactly when the flow of `w` is directed into `p` (it ends at `p` with positive flow or
starts at `p` with negative flow), in the competitor list exactly when its flow is directed
out of `p`, and in exactly one of the two lists; the two lists together hold `w` as often
as the node lists it. -/
theorem C32_parent_or_competitor (net : VesselNetwork) (idx w : Nat)
    (hwf : net.WellFormed) (hwn : w < net.numberOfVessels) (hw : w ≠ idx)
    (hflow : (net.vessel w).flowRate ≠ 0)
    (hinc : (net.vessel w).startNode = inflowNode net idx ∨
      (net.vessel w).endNode = inflowNode net idx)
    (hdist : (net.vessel w).startNode ≠ (net.vessel w).endNode) :
    (w ∈ (classify net idx (inflowNode net idx)).1 ↔
      ((net.vessel w).endNode = inflowNode net idx ∧ (net.vessel w).flowRate > 0) ∨
      ((net.vessel w).startNode = inflowNode net idx ∧ (net.vessel w).flowRate < 0)) ∧
    (w ∈ (classify net idx (inflowNode net idx)).2 ↔
      ((net.vessel w).endNode = inflowNode net idx ∧ (net.vessel w).flowRate < 0) ∨
      ((net.vessel w).startNode = inflowNode net idx ∧ (net.vessel w).flowRate > 0)) ∧
    (w ∈ (classify net idx (inflowNode net idx)).1 ∨
      w ∈ (classify net idx (inflowNode net idx)).2) ∧
    ¬ (w ∈ (classify net idx (inflowNode net idx)).1 ∧
      w ∈ (classify net idx (inflowNode net idx)).2) ∧
    (classify net idx (inflowNode net idx)).1.count w +
      (classify net idx (inflowNode net idx)).2.count w =
      (net.nodeSegments (inflowNode net idx)).count w ∧
    inflowNode net idx = (if (net.vessel idx).flowRate > 0 then (net.vessel idx).startNode
      else (net.vessel idx).endNode) := by
  have hlisted : w ∈ net.nodeSegments (inflowNode net idx) := by
    rcases hinc with h | h
    · rw [← h]; exact (hwf.1 w hwn).1
    · rw [← h]; exact (hwf.1 w hwn).2
  have hpos_neg : ∀ q : ℚ, q > 0 → ¬ q < 0 := fun q h => not_lt.2 (le_of_lt h)
  have hpar := mem_parent_vessels net idx (inflowNode net idx) w
  have hcomp := mem_competitor_vessels net idx (inflowNode net idx) w
  have hcount := classify_foldl_count net idx (inflowNode net idx) w hw hflow hinc hdist
    (net.nodeSegments (inflowNode net idx)) ([], [])
  refine ⟨?_, ?_, ?_, ?_, ?_, rfl⟩
  · rw [hpar]
    exact ⟨fun h => h.2.2, fun h => ⟨hlisted, hw, h⟩⟩
  · rw [hcomp]
    exact ⟨fun h => h.2.2, fun h => ⟨hlisted, hw, h⟩⟩
  · rw [hpar, hcomp]
    rcases lt_or_gt_of_ne hflow with hn | hp <;> rcases hinc with hs | he
    · exact Or.inl ⟨hlisted, hw, Or.inr ⟨hs, hn⟩⟩
    · exact Or.inr ⟨hlisted, hw, Or.inl ⟨he, hn⟩⟩
    · exact Or.inr ⟨hlisted, hw, Or.inr ⟨hs, hp⟩⟩
    · exact Or.inl ⟨hlisted, hw, Or.inl ⟨he, hp⟩⟩
  · rw [hpar, hcomp]
    rintro ⟨⟨-, -, h1⟩, ⟨-, -, h2⟩⟩
    rcases h1 with ⟨he, hp⟩ | ⟨hs, hn⟩ <;> rcases h2 with ⟨he2, hn2⟩ | ⟨hs2, hp2⟩
    · exact hpos_neg _ hp hn2
    · exact hdist (hs2.trans he.symm)
    · exact hdist (hs.trans he2.symm)
    · exact hpos_neg _ hp2 hn
  · simpa [classify] using hcount

/-- C32 at a concrete input: for vessel 1 of the bifurcation network, with inflow node 1,
vessel 0 ends at node 1 with positive flow and is a parent, not a competitor. -/
theorem C32_parent_or_competitor_witness :
    inflowNode bifurcationNetwork 1 = 1 ∧
    0 ∈ (classify bifurcationNetwork 1 (inflowNode bifurcationNetwork 1)).1 ∧
    0 ∉ (classify bifurcationNetwork 1 (inflowNode bifurcationNetwork 1)).2 := by
  have hnode : inflowNode bifurcationNetwork 1 = 1 := by decide!
  have hend : (bifurcationNetwork.vessel 0).endNode = inflowNode bifurcationNetwork 1 := by
    rw [hnode]; rfl
  have hflow : (bifurcationNetwork.vessel 0).flowRate > 0 := by decide!
  have h := C32_parent_or_competitor bifurcationNetwork 1 0 bifurcationNetwork_wellFormed
    (by decide) (by decide) (ne_of_gt hflow) (Or.inr hend) (by decide)
  have hpar := h.1.mpr (Or.inl ⟨hend, hflow⟩)
  exact ⟨hnode, hpar, fun hc => h.2.2.2.1 ⟨hpar, hc⟩⟩

/-! ## The splitting rule at a bifurcation: shares of the two children -/

/-- The coefficient of a child that is at least as fast as its competitor. -/
theorem setupCoefficient_faster (Qs Qc Qp rs rc H : ℚ)
    (h : |Qs| / (M_PI * rs * rs) ≥ |Qc| / (M_PI * rc * rc)) :
    setupCoefficient Qs Qc Qp rs rc H =
      -(|Qp| / |Qs|) / (1 + |Qc| / |Qs| * (1 / (1 + (1 - H) *
        (|Qs| / (M_PI * rs * rs) / (|Qc| / (M_PI * rc * rc)) - 1)))) := by
  simp only [setupCoefficient, if_pos h]

/-- The coefficient of a child that is slower than its competitor. -/
theorem setupCoefficient_slower (Qs Qc Qp rs rc H : ℚ)
    (h : ¬ |Qs| / (M_PI * rs * rs) ≥ |Qc| / (M_PI * rc * rc)) :
    setupCoefficient Qs Qc Qp rs rc H =
      -(|Qp| / |Qs|) / (1 + |Qc| / |Qs| * (1 + (1 - H) *
        (|Qc| / (M_PI * rc * rc) / (|Qs| / (M_PI * rs * rs)) - 1))) := by
  simp only [setupCoefficient, if_neg h]

/-- The velocity `|Q| / (pi r^2)` of a vessel with flow and a radius is positive. -/
theorem velocity_pos (Q r : ℚ) (hQ : Q ≠ 0) (hr : r ≠ 0) : 0 < |Q| / (M_PI * r * r) := by
  have h1 : 0 < |Q| := abs_pos.mpr hQ
  have h2 : 0 < M_PI * r * r := by
    have : 0 < r * r := mul_self_pos.mpr hr
    rw [mul_assoc]
    exact mul_pos M_PI_pos this
  exact div_pos h1 h2

/-- The coefficient of the child `B` that is not faster than the other child `A`, written
with the term of the faster child: when the velocities are equal both forms of the rule
give the same value. -/
theorem setupCoefficient_not_faster (QA QB QP rA rB H : ℚ) (hQA : QA ≠ 0) (hQB : QB ≠ 0)
    (hrA : rA ≠ 0) (hrB : rB ≠ 0)
    (hfast : |QA| / (M_PI * rA * rA) ≥ |QB| / (M_PI * rB * rB)) :
    setupCoefficient QB QA QP rB rA H =
      -(|QP| / |QB|) / (1 + |QA| / |QB| * (1 + (1 - H) *
        (|QA| / (M_PI * rA * rA) / (|QB| / (M_PI * rB * rB)) - 1))) := by
  have hvA := velocity_pos QA rA hQA hrA
  have hvB := velocity_pos QB rB hQB hrB
  by_cases h : |QB| / (M_PI * rB * rB) ≥ |QA| / (M_PI * rA * rA)
  · have heq : |QA| / (M_PI * rA * rA) = |QB| / (M_PI * rB * rB) := le_antisymm h hfast
    rw [setupCoefficient_faster _ _ _ _ _ _ h, heq, div_self (ne_of_gt hvB)]
    simp
  · exact setupCoefficient_slower _ _ _ _ _ _ h

/-- Closed form of the rule for the faster child. -/
theorem faster_closed_form (a b p t : ℚ) (ha : a ≠ 0) (ht : 1 + t ≠ 0)
    (hd : a * (1 + t) + b ≠ 0) :
    -(p / a) / (1 + b / a * (1 / (1 + t))) = -(p * (1 + t) / (a * (1 + t) + b)) := by
  have h1 : 1 + b / a * (1 / (1 + t)) = (a * (1 + t) + b) / (a * (1 + t)) := by
    field_simp
  rw [h1, neg_div, div_div_eq_mul_div]
  congr 1
  field_simp
  ring

/-- Closed form of the rule for the slower child. -/
theorem slower_closed_form (a b p t : ℚ) (hb : b ≠ 0) (hd : a * (1 + t) + b ≠ 0) :
    -(p / b) / (1 + a / b * (1 + t)) = -(p / (a * (1 + t) + b)) := by
  have h1 : 1 + a / b * (1 + t) = (a * (1 + t) + b) / b := by
    field_simp
    ring
  rw [h1, neg_div, div_div_eq_mul_div]
  congr 1
  field_simp

/-- The coefficients of the two children of one parent, `A` at least as fast as `B`, in
closed form with the term `t = (1 - H) (v_A / v_B - 1)` of the faster child. -/
theorem children_coefficients (QA QB QP rA rB H : ℚ) (hQA : QA ≠ 0) (hQB : QB ≠ 0)
    (hrA : rA ≠ 0) (hrB : rB ≠ 0)
    (hfast : |QA| / (M_PI * rA * rA) ≥ |QB| / (M_PI * rB * rB))
    (hterm : 1 + (1 - H) *
      (|QA| / (M_PI * rA * rA) / (|QB| / (M_PI * rB * rB)) - 1) ≠ 0)
    (hden : |QA| * (1 + (1 - H) *
      (|QA| / (M_PI * rA * rA) / (|QB| / (M_PI * rB * rB)) - 1)) + |QB| ≠ 0) :
    setupCoefficient QA QB QP rA rB H =
      -(|QP| * (1 + (1 - H) *
          (|QA| / (M_PI * rA * rA) / (|QB| / (M_PI * rB * rB)) - 1)) /
        (|QA| * (1 + (1 - H) *
          (|QA| / (M_PI * rA * rA) / (|QB| / (M_PI * rB * rB)) - 1)) + |QB|)) ∧
    setupCoefficient QB QA QP rB rA H =
      -(|QP| / (|QA| * (1 + (1 - H) *
          (|QA| / (M_PI * rA * rA) / (|QB| / (M_PI * rB * rB)) - 1)) + |QB|)) := by
  have ha : |QA| ≠ 0 := abs_ne_zero.mpr hQA
  have hb : |QB| ≠ 0 := abs_ne_zero.mpr hQB
  constructor
  · rw [setupCoefficient_faster _ _ _ _ _ _ hfast]
    exact faster_closed_form _ _ _ _ ha hterm hden
  · rw [setupCoefficient_not_faster QA QB QP rA rB H hQA hQB hrA hrB hfast]
    exact slower_closed_form _ _ _ _ hb hden

/-- With parent haematocrit at most 1 the term of the faster child is not negative. -/
theorem term_nonneg (QA QB rA rB H : ℚ) (hQB : QB ≠ 0) (hrB : rB ≠ 0) (hH1 : H ≤ 1)
    (hfast : |QA| / (M_PI * rA * rA) ≥ |QB| / (M_PI * rB * rB)) :
    0 ≤ (1 - H) * (|QA| / (M_PI * rA * rA) / (|QB| / (M_PI * rB * rB)) - 1) := by
  have hvB := velocity_pos QB rB hQB hrB
  have hratio : 1 ≤ |QA| / (M_PI * rA * rA) / (|QB| / (M_PI * rB * rB)) := by
    rw [le_div_iff₀ hvB, one_mul]
    exact hfast
  exact mul_nonneg (by linarith) (by linarith)

/-- C33.  Let two children `A` and `B` of one parent have non-zero flows and radii, let the
parent have non-zero flow and haematocrit at most 1, and let `A` be at least as fast as `B`.
Then the magnitude of the coefficient computed for `A` (with `B` as competitor) divided by
the magnitude of the coefficient computed for `B` (with `A` as competitor) is exactly
`1 + (1 - H_parent) (v_A / v_B - 1)`, which is at least 1: the share of the faster child is
at least the share of the slower child, and both shares are positive. -/
theorem C33_faster_branch_favoured (QA QB QP rA rB H : ℚ) (hQA : QA ≠ 0) (hQB : QB ≠ 0)
    (hQP : QP ≠ 0) (hrA : rA ≠ 0) (hrB : rB ≠ 0) (hH1 : H ≤ 1)
    (hfast : |QA| / (M_PI * rA * rA) ≥ |QB| / (M_PI * rB * rB)) :
    |setupCoefficient QA QB QP rA rB H| / |setupCoefficient QB QA QP rB rA H| =
      1 + (1 - H) * (|QA| / (M_PI * rA * rA) / (|QB| / (M_PI * rB * rB)) - 1) ∧
    1 ≤ 1 + (1 - H) * (|QA| / (M_PI * rA * rA) / (|QB| / (M_PI * rB * rB)) - 1) ∧
    |setupCoefficient QB QA QP rB rA H| ≤ |setupCoefficient QA QB QP rA rB H| ∧
    0 < |setupCoefficient QB QA QP rB rA H| := by
  have ht := term_nonneg QA QB rA rB H hQB hrB hH1 hfast
  have ha : 0 < |QA| := abs_pos.mpr hQA
  have hb : 0 < |QB| := abs_pos.mpr hQB
  have hp : 0 < |QP| := abs_pos.mpr hQP
  generalize hT : (1 - H) * (|QA| / (M_PI * rA * rA) / (|QB| / (M_PI * rB * rB)) - 1) = t
    at ht
  have h1t : 0 < 1 + t := by linarith
  have hD : 0 < |QA| * (1 + t) + |QB| := by positivity
  obtain ⟨hcA, hcB⟩ := children_coefficients QA QB QP rA rB H hQA hQB hrA hrB hfast
    (by rw [hT]; exact ne_of_gt h1t) (by rw [hT]; exact ne_of_gt hD)
  rw [hT] at hcA hcB
  have hA : |setupCoefficient QA QB QP rA rB H| = |QP| * (1 + t) / (|QA| * (1 + t) + |QB|) := by
    rw [hcA, abs_neg, abs_of_nonneg]
    positivity
  have hB : |setupCoefficient QB QA QP rB rA H| = |QP| / (|QA| * (1 + t) + |QB|) := by
    rw [hcB, abs_neg, abs_of_nonneg]
    positivity
  rw [hA, hB]
  refine ⟨?_, by linarith, ?_, by positivity⟩
  · field_simp
  · apply div_le_div_of_nonneg_right _ (le_of_lt hD)
    nlinarith

/-- C33 at a concrete input: child `A` with flow 1 and radius 1, child `B` with flow 4 and
radius 6, parent with flow 5 and haematocrit 1/2; `A` is 9 times as fast as `B` and its
share is 5 times the share of `B`.  These are the coefficients setup writes at (1, 0) and
(2, 0) for `skimmingNetwork`. -/
theorem C33_faster_branch_favoured_witness :
    |setupCoefficient 1 4 5 1 6 (1 / 2)| / |setupCoefficient 4 1 5 6 1 (1 / 2)| =
      1 + (1 - 1 / 2) * (|(1 : ℚ)| / (M_PI * 1 * 1) / (|(4 : ℚ)| / (M_PI * 6 * 6)) - 1) ∧
    setupCoefficient 1 4 5 1 6 (1 / 2) = -25 / 9 ∧
    setupCoefficient 4 1 5 6 1 (1 / 2) = -5 / 9 ∧
    (setupSystem ⟨5 / 2, 1 / 2, 1 / 2, skimmingNetwork⟩ exampleCollaborators).lhs 1 0 =
      setupCoefficient 1 4 5 1 6 (1 / 2) ∧
    (setupSystem ⟨5 / 2, 1 / 2, 1 / 2, skimmingNetwork⟩ exampleCollaborators).lhs 2 0 =
      setupCoefficient 4 1 5 6 1 (1 / 2) :=
  ⟨(C33_faster_branch_favoured 1 4 5 1 6 (1 / 2) (by decide!) (by decide!) (by decide!)
      (by decide!) (by decide!) (by decide!) (by decide!)).1, by decide!, by decide!,
    by decide!, by decide!⟩

/-! ## Red-cell flux at a bifurcation -/

/-- The flux identity of the two coefficients of the children of one parent. -/
theorem flux_identity (QA QB QP rA rB H : ℚ) (hQA : QA ≠ 0) (hQB : QB ≠ 0)
    (hrA : rA ≠ 0) (hrB : rB ≠ 0)
    (hfast : |QA| / (M_PI * rA * rA) ≥ |QB| / (M_PI * rB * rB))
    (hterm : 1 + (1 - H) *
      (|QA| / (M_PI * rA * rA) / (|QB| / (M_PI * rB * rB)) - 1) ≠ 0)
    (hden : |QA| * (1 + (1 - H) *
      (|QA| / (M_PI * rA * rA) / (|QB| / (M_PI * rB * rB)) - 1)) + |QB| ≠ 0) :
    |QA| * setupCoefficient QA QB QP rA rB H + |QB| * setupCoefficient QB QA QP rB rA H =
      -|QP| := by
  obtain ⟨hcA, hcB⟩ := children_coefficients QA QB QP rA rB H hQA hQB hrA hrB hfast hterm hden
  generalize (1 - H) * (|QA| / (M_PI * rA * rA) / (|QB| / (M_PI * rB * rB)) - 1) = t
    at hterm hden hcA hcB
  rw [hcA, hcB]
  field_simp
  ring

/-- C36, counterexample.  Children `A` (flow 2, radius 1) and `B` (flow 1, radius 1) of a
parent with flow 3 and haematocrit 5/2: the flows are non-zero, the radii positive, `A` is
twice as fast as `B` and `1 + term = -1/2` is not zero, but the denominator of the rule is
zero for both children, `1 + (1/2) (1 / (-1/2)) = 0` and `1 + 2 (-1/2) = 0`; the quotients
`-numer / denom` are divisions by zero, valued 0 in the rationals, and
`|Q_A| c_A + |Q_B| c_B` is not `-|Q_P|`. -/
theorem C36_flux_not_conserved_counterexample :
    (1 : ℚ) + (1 - 5 / 2) * (|(2 : ℚ)| / (M_PI * 1 * 1) / (|(1 : ℚ)| / (M_PI * 1 * 1)) - 1) =
      -1 / 2 ∧
    (1 : ℚ) + |(1 : ℚ)| / |(2 : ℚ)| * (1 / (1 + (1 - 5 / 2) *
      (|(2 : ℚ)| / (M_PI * 1 * 1) / (|(1 : ℚ)| / (M_PI * 1 * 1)) - 1))) = 0 ∧
    (1 : ℚ) + |(2 : ℚ)| / |(1 : ℚ)| * (1 + (1 - 5 / 2) *
      (|(2 : ℚ)| / (M_PI * 1 * 1) / (|(1 : ℚ)| / (M_PI * 1 * 1)) - 1)) = 0 ∧
    setupCoefficient 2 1 3 1 1 (5 / 2) = 0 ∧
    setupCoefficient 1 2 3 1 1 (5 / 2) = 0 ∧
    |(2 : ℚ)| * setupCoefficient 2 1 3 1 1 (5 / 2) +
      |(1 : ℚ)| * setupCoefficient 1 2 3 1 1 (5 / 2) ≠ -|(3 : ℚ)| := by
  refine ⟨by decide!, by decide!, by decide!, by decide!, by decide!, by decide!⟩

/-- C36, amended.  Let two children `A` and `B` of one parent have non-zero flows and
positive radii, let `A` be at least as fast as `B`, and let, with
`term = (1 - H_parent) (v_A / v_B - 1)`, neither `1 + term` nor `|Q_A| (1 + term) + |Q_B|`
be zero.  Then the coefficients `c_A` and `c_B` computed from the same parent haematocrit
satisfy `|Q_A| c_A + |Q_B| c_B = -|Q_P|`, so the child values `H_A = -c_A H` and
`H_B = -c_B H` of any parent value `H` satisfy `|Q_A| H_A + |Q_B| H_B = |Q_P| H`. -/
theorem C36_flux_conserved (QA QB QP rA rB H : ℚ) (hQA : QA ≠ 0) (hQB : QB ≠ 0)
    (hrA : 0 < rA) (hrB : 0 < rB)
    (hfast : |QA| / (M_PI * rA * rA) ≥ |QB| / (M_PI * rB * rB))
    (hterm : 1 + (1 - H) *
      (|QA| / (M_PI * rA * rA) / (|QB| / (M_PI * rB * rB)) - 1) ≠ 0)
    (hden : |QA| * (1 + (1 - H) *
      (|QA| / (M_PI * rA * rA) / (|QB| / (M_PI * rB * rB)) - 1)) + |QB| ≠ 0) :
    |QA| * setupCoefficient QA QB QP rA rB H + |QB| * setupCoefficient QB QA QP rB rA H =
      -|QP| ∧
    ∀ Hp : ℚ, |QA| * (-setupCoefficient QA QB QP rA rB H * Hp) +
      |QB| * (-setupCoefficient QB QA QP rB rA H * Hp) = |QP| * Hp := by
  have h := flux_identity QA QB QP rA rB H hQA hQB (ne_of_gt hrA) (ne_of_gt hrB) hfast hterm
    hden
  refine ⟨h, fun Hp => ?_⟩
  have : |QA| * (-setupCoefficient QA QB QP rA rB H * Hp) +
      |QB| * (-setupCoefficient QB QA QP rB rA H * Hp) =
      -(|QA| * setupCoefficient QA QB QP rA rB H +
        |QB| * setupCoefficient QB QA QP rB rA H) * Hp := by ring
  rw [this, h]
  ring

/-- C36, amended, at a concrete input: children with flows 1 and 4 and radii 1 and 6 of a
parent with flow 5 and haematocrit 1/2 receive the coefficients -25/9 and -5/9, and
`1 (25/9) + 4 (5/9) = 5`. -/
theorem C36_flux_conserved_witness :
    |(1 : ℚ)| * setupCoefficient 1 4 5 1 6 (1 / 2) +
      |(4 : ℚ)| * setupCoefficient 4 1 5 6 1 (1 / 2) = -|(5 : ℚ)| :=
  (C36_flux_conserved 1 4 5 1 6 (1 / 2) (by decide!) (by decide!) (by decide!) (by decide!)
    (by decide!) (by decide!) (by decide!)).1

/-- With parent haematocrit at most 1 the two denominators of the rule are positive, and
the flux identity holds for all non-zero flows and radii. -/
theorem flux_conserved_of_haematocrit_le_one (QA QB QP rA rB H : ℚ) (hQA : QA ≠ 0)
    (hQB : QB ≠ 0) (hrA : rA ≠ 0) (hrB : rB ≠ 0) (hH1 : H ≤ 1)
    (hfast : |QA| / (M_PI * rA * rA) ≥ |QB| / (M_PI * rB * rB)) :
    |QA| * setupCoefficient QA QB QP rA rB H + |QB| * setupCoefficient QB QA QP rB rA H =
      -|QP| := by
  have ht := term_nonneg QA QB rA rB H hQB hrB hH1 hfast
  have ha : 0 < |QA| := abs_pos.mpr hQA
  have hb : 0 < |QB| := abs_pos.mpr hQB
  apply flux_identity QA QB QP rA rB H hQA hQB hrA hrB hfast
  · exact ne_of_gt (by linarith)
  · apply ne_of_gt
    have : 0 ≤ |QA| * (1 + (1 - H) *
        (|QA| / (M_PI * rA * rA) / (|QB| / (M_PI * rB * rB)) - 1)) :=
      mul_nonneg (le_of_lt ha) (by linarith)
    linarith

/-! ## The range of the haematocrit of the children -/

/-- C34, counterexample.  The narrow fast branch of a flow-conserving bifurcation receives a
haematocrit above 1.  In `skimmingNetwork` the flows satisfy `5 = 1 + 4`, the radii are positive and
every vessel holds haematocrit 1/2; the coefficient of the rule for vessel 1 is -25/9, so
that `H_child = (flow_ratio_pm / denom) H_parent = 25/18`, and `Calculate` with arterial
haematocrit 1/2 returns normally after two passes and leaves 25/18 on the segment of
vessel 1, with 1/2 on the parent and 5/18 on the other child. -/
theorem C34_child_haematocrit_above_one_counterexample :
    |(skimmingNetwork.vessel 0).flowRate| =
      |(skimmingNetwork.vessel 1).flowRate| + |(skimmingNetwork.vessel 2).flowRate| ∧
    (∀ i, i < 3 → 0 < (skimmingNetwork.vessel i).radius ∧
      (skimmingNetwork.vessel i).flowRate ≠ 0 ∧
      (skimmingNetwork.vessel i).segmentHaematocrit = [1 / 2]) ∧
    classify skimmingNetwork 1 (inflowNode skimmingNetwork 1) = ([0], [2]) ∧
    setupCoefficient 1 4 5 1 6 (1 / 2) = -25 / 9 ∧
    -setupCoefficient 1 4 5 1 6 (1 / 2) * (1 / 2) = 25 / 18 ∧
    (setupSystem ⟨5 / 2, 1 / 2, 1 / 2, skimmingNetwork⟩ exampleCollaborators).lhs 1 0 =
      -25 / 9 ∧
    (BetteridgeHaematocritSolver.Calculate ⟨5 / 2, 1 / 2, 1 / 2, skimmingNetwork⟩
      exampleCollaborators).result = .ok () ∧
    (BetteridgeHaematocritSolver.Calculate ⟨5 / 2, 1 / 2, 1 / 2, skimmingNetwork⟩
      exampleCollaborators).state.iterations = 2 ∧
    ((BetteridgeHaematocritSolver.Calculate ⟨5 / 2, 1 / 2, 1 / 2, skimmingNetwork⟩
      exampleCollaborators).state.network.vessel 0).segmentHaematocrit = [1 / 2] ∧
    ((BetteridgeHaematocritSolver.Calculate ⟨5 / 2, 1 / 2, 1 / 2, skimmingNetwork⟩
      exampleCollaborators).state.network.vessel 1).segmentHaematocrit = [25 / 18] ∧
    ((BetteridgeHaematocritSolver.Calculate ⟨5 / 2, 1 / 2, 1 / 2, skimmingNetwork⟩
      exampleCollaborators).state.network.vessel 2).segmentHaematocrit = [5 / 18] ∧
    (1 : ℚ) < 25 / 18 ∧
    ExactSolves exampleCollaborators (BetteridgeHaematocritSolver.Calculate
      ⟨5 / 2, 1 / 2, 1 / 2, skimmingNetwork⟩ exampleCollaborators).state := by
  refine ⟨by decide!, by decide!, by decide!, by decide!, by decide!, by decide!, by decide!,
    by decide!, by decide!, by decide!, by decide!, by decide!, by decide!⟩

/-- C34, amended.  At a flow-conserving bifurcation (`|Q_P| = |Q_A| + |Q_B|`, non-zero
flows and radii) with parent haematocrit `H` in [0, 1], where `A` is at least as fast as
`B`, the values `H_child = (flow_ratio_pm / denom) H` that the splitting rule assigns are
not negative; the value of `B`, the child that is not faster, lies between 0 and `H` and
so in [0, 1]; the value of `A` lies between `H` and `(|Q_P| / |Q_A|) H`. -/
theorem C34_child_haematocrit_range (QA QB QP rA rB H : ℚ) (hQA : QA ≠ 0) (hQB : QB ≠ 0)
    (hrA : rA ≠ 0) (hrB : rB ≠ 0) (hH0 : 0 ≤ H) (hH1 : H ≤ 1)
    (hfast : |QA| / (M_PI * rA * rA) ≥ |QB| / (M_PI * rB * rB))
    (hcons : |QP| = |QA| + |QB|) :
    0 ≤ -setupCoefficient QB QA QP rB rA H * H ∧
    -setupCoefficient QB QA QP rB rA H * H ≤ H ∧
    -setupCoefficient QB QA QP rB rA H * H ≤ 1 ∧
    0 ≤ -setupCoefficient QA QB QP rA rB H * H ∧
    H ≤ -setupCoefficient QA QB QP rA rB H * H ∧
    -setupCoefficient QA QB QP rA rB H * H ≤ |QP| / |QA| * H := by
  have ht := term_nonneg QA QB rA rB H hQB hrB hH1 hfast
  have ha : 0 < |QA| := abs_pos.mpr hQA
  have hb : 0 < |QB| := abs_pos.mpr hQB
  generalize hT : (1 - H) * (|QA| / (M_PI * rA * rA) / (|QB| / (M_PI * rB * rB)) - 1) = t
    at ht
  have h1t : 0 < 1 + t := by linarith
  have hD : 0 < |QA| * (1 + t) + |QB| := by positivity
  obtain ⟨hcA, hcB⟩ := children_coefficients QA QB QP rA rB H hQA hQB hrA hrB hfast
    (by rw [hT]; exact ne_of_gt h1t) (by rw [hT]; exact ne_of_gt hD)
  rw [hT] at hcA hcB
  rw [hcA, hcB, hcons, neg_neg, neg_neg]
  have hB1 : (|QA| + |QB|) / (|QA| * (1 + t) + |QB|) ≤ 1 := by
    rw [div_le_one hD]
    nlinarith
  have hB0 : 0 ≤ (|QA| + |QB|) / (|QA| * (1 + t) + |QB|) := by positivity
  have hA1 : 1 ≤ (|QA| + |QB|) * (1 + t) / (|QA| * (1 + t) + |QB|) := by
    rw [one_le_div hD]
    nlinarith
  have hA2 : (|QA| + |QB|) * (1 + t) / (|QA| * (1 + t) + |QB|) ≤ (|QA| + |QB|) / |QA| := by
    rw [div_le_iff₀ hD, div_mul_eq_mul_div, le_div_iff₀ ha]
    have hab : 0 < |QA| + |QB| := by positivity
    nlinarith [mul_pos hab hb]
  have hBH : (|QA| + |QB|) / (|QA| * (1 + t) + |QB|) * H ≤ H := by
    calc (|QA| + |QB|) / (|QA| * (1 + t) + |QB|) * H ≤ 1 * H :=
        mul_le_mul_of_nonneg_right hB1 hH0
      _ = H := one_mul H
  have hAH : H ≤ (|QA| + |QB|) * (1 + t) / (|QA| * (1 + t) + |QB|) * H := by
    calc H = 1 * H := (one_mul H).symm
      _ ≤ (|QA| + |QB|) * (1 + t) / (|QA| * (1 + t) + |QB|) * H :=
        mul_le_mul_of_nonneg_right hA1 hH0
  exact ⟨mul_nonneg hB0 hH0, hBH, le_trans hBH hH1, le_trans hH0 hAH, hAH,
    mul_le_mul_of_nonneg_right hA2 hH0⟩

/-- C34, amended, at a concrete input: child `A` with flow 1 and radius 1, child `B` with
flow 4 and radius 6, parent with flow 5 and haematocrit 1/2.  The value of `B` is 5/18,
between 0 and 1/2; the value of `A` is 25/18, between 1/2 and 5/2. -/
theorem C34_child_haematocrit_range_witness :
    -setupCoefficient 4 1 5 6 1 (1 / 2) * (1 / 2) ≤ 1 / 2 ∧
    1 / 2 ≤ -setupCoefficient 1 4 5 1 6 (1 / 2) * (1 / 2) ∧
    -setupCoefficient 4 1 5 6 1 (1 / 2) * (1 / 2) = 5 / 18 ∧
    -setupCoefficient 1 4 5 1 6 (1 / 2) * (1 / 2) = 25 / 18 :=
  ⟨(C34_child_haematocrit_range 1 4 5 1 6 (1 / 2) (by decide!) (by decide!) (by decide!)
      (by decide!) (by decide!) (by decide!) (by decide!) (by decide!)).2.1,
    (C34_child_haematocrit_range 1 4 5 1 6 (1 / 2) (by decide!) (by decide!) (by decide!)
      (by decide!) (by decide!) (by decide!) (by decide!) (by decide!)).2.2.2.2.1,
    by decide!, by decide!⟩

/-- With non-zero flows and radii and parent haematocrit at most 1 every divisor of the
splitting rule is non-zero. -/
theorem splittingRuleDefined_of_le_one (Qs Qc rs rc H : ℚ) (hQs : Qs ≠ 0) (hQc : Qc ≠ 0)
    (hrs : rs ≠ 0) (hrc : rc ≠ 0) (hH1 : H ≤ 1) : splittingRuleDefined Qs Qc rs rc H := by
  have hs : 0 < |Qs| := abs_pos.mpr hQs
  have hc : 0 < |Qc| := abs_pos.mpr hQc
  have hcm : 0 < |Qc| / |Qs| := div_pos hc hs
  refine ⟨hQs, hQc, hrs, hrc, ?_⟩
  by_cases hv : |Qs| / (M_PI * rs * rs) ≥ |Qc| / (M_PI * rc * rc)
  · rw [if_pos hv]
    have ht := term_nonneg Qs Qc rs rc H hQc hrc hH1 hv
    have h1t : 0 < 1 + (1 - H) * (|Qs| / (M_PI * rs * rs) / (|Qc| / (M_PI * rc * rc)) - 1) := by
      linarith
    refine ⟨ne_of_gt h1t, ne_of_gt ?_⟩
    have : 0 < |Qc| / |Qs| * (1 / (1 + (1 - H) *
        (|Qs| / (M_PI * rs * rs) / (|Qc| / (M_PI * rc * rc)) - 1))) :=
      mul_pos hcm (one_div_pos.mpr h1t)
    linarith
  · rw [if_neg hv]
    have hv2 : |Qc| / (M_PI * rc * rc) ≥ |Qs| / (M_PI * rs * rs) := le_of_lt (not_le.mp hv)
    have ht := term_nonneg Qc Qs rc rs H hQs hrs hH1 hv2
    apply ne_of_gt
    have : 0 < |Qc| / |Qs| * (1 + (1 - H) *
        (|Qc| / (M_PI * rc * rc) / (|Qs| / (M_PI * rs * rs)) - 1)) :=
      mul_pos hcm (by linarith)
    linarith

/-! ## The constants of the source as doubles -/

/-- The constants of the embedding are the doubles of the source: `tolerance` is the
rounding of 1/1000 and exceeds it, `M_PI` and `DBL_MAX` are doubles, and the double after
`DBL_MAX` does not exist: half a spacing above it the rounding is an infinity. -/
theorem constants_are_doubles :
    roundDouble (1 / 1000) = some tolerance ∧ (1 : ℚ) / 1000 < tolerance ∧
    roundDouble M_PI = some M_PI ∧
    roundDouble DBL_MAX = some DBL_MAX ∧
    roundDouble (DBL_MAX + 2 ^ 970) = none := by
  refine ⟨by decide!, by decide!, by decide!, by decide!, by decide!⟩

/-- The chain of three vessels at the boundary of the loop test: with haematocrit 0 on every
segment before the call and the arterial haematocrit equal to the tolerance, the first pass
ends with a residual equal to the tolerance, which is not above it, and the loop stops after
one iteration; with an arterial haematocrit one unit in the last place larger it needs
two. -/
theorem chain_at_tolerance_boundary :
    (passState ⟨5 / 2, 1 / 2, tolerance, chainNetwork 3 1 (fun _ => 1) (fun _ => [0])⟩
      exampleCollaborators 1).residual = tolerance ∧
    (BetteridgeHaematocritSolver.Calculate
      ⟨5 / 2, 1 / 2, tolerance, chainNetwork 3 1 (fun _ => 1) (fun _ => [0])⟩
      exampleCollaborators).state.iterations = 1 ∧
    roundDouble (tolerance + 1 / 2 ^ 62) = some (tolerance + 1 / 2 ^ 62) ∧
    (BetteridgeHaematocritSolver.Calculate
      ⟨5 / 2, 1 / 2, tolerance + 1 / 2 ^ 62, chainNetwork 3 1 (fun _ => 1) (fun _ => [0])⟩
      exampleCollaborators).state.iterations = 2 := by
  refine ⟨by decide!, by decide!, by decide!, by decide!⟩

end Microvessel
